import Mathlib

/-!
# Certifier service: clause algebra, predicate dominance, inference rules, proof checker

A shallow embedding of `certifier_service/certlib/certlib.go`.

Conventions of the embedding.

* A Go pointer to a protobuf message is an `Option`; `none` is the nil pointer.
  A Go `[]byte` is an `Option Bytes`; `none` is the nil slice, and `bytes.Equal`
  does not tell the nil slice from the empty one.
* A function that can hit a Go run-time panic (nil pointer dereference) returns
  an `Option`; `none` is the panic and `some v` is a normal return of `v`.
* A function that mutates a structure through a pointer returns the new value
  of the structure next to its result.
-/

namespace Certlib

/-! ## Data model (package certprotos) -/

/-- The contents of a Go byte slice, one number per byte. -/
abbrev Bytes := List Nat

/-- Modelled from the spec: the message type `certprotos.PointMessage` is declared
outside the source file; the fields are the ones the source reads. -/
structure PointMessage where
  X : Option Bytes
  Y : Option Bytes
deriving DecidableEq, Repr

/-- Modelled from the spec: the message type `certprotos.EccMessage` is declared
outside the source file; the fields are the ones the source reads and writes. -/
structure EccMessage where
  CurveName : Option String
  CurveP : Option Bytes
  CurveA : Option Bytes
  CurveB : Option Bytes
  BasePoint : Option PointMessage
  PublicPoint : Option PointMessage
  PrivateMultiplier : Option Bytes
deriving DecidableEq, Repr

/-- Modelled from the spec: the message type `certprotos.RsaMessage` is declared
outside the source file; the fields are the ones the source reads and writes. -/
structure RsaMessage where
  PublicModulus : Option Bytes
  PublicExponent : Option Bytes
  PrivateExponent : Option Bytes
deriving DecidableEq, Repr

/-- Modelled from the spec: the message type `certprotos.KeyMessage` is declared
outside the source file; the fields are the ones the source reads and writes. -/
structure KeyMessage where
  KeyName : Option String
  KeyType : Option String
  KeyFormat : Option String
  RsaKey : Option RsaMessage
  EccKey : Option EccMessage
  Certificate : Option Bytes
  NotBefore : Option String
  NotAfter : Option String
deriving DecidableEq, Repr

/-- Modelled from the spec: the message type `certprotos.EntityMessage` is declared
outside the source file; the fields are the ones the source reads and writes. -/
structure EntityMessage where
  EntityType : Option String
  Key : Option KeyMessage
  Measurement : Option Bytes
deriving DecidableEq, Repr

/-- Modelled from the spec: the message type `certprotos.VseClause` is declared
outside the source file: subject, verb, object and nested clause, each optional. -/
inductive VseClause where
  | mk (Subject : Option EntityMessage) (Verb : Option String)
      (Object : Option EntityMessage) (Clause : Option VseClause)
deriving Repr

/-- Field `Subject` of a clause. -/
def VseClause.Subject : VseClause → Option EntityMessage
  | .mk s _ _ _ => s

/-- Field `Verb` of a clause. -/
def VseClause.Verb : VseClause → Option String
  | .mk _ v _ _ => v

/-- Field `Object` of a clause. -/
def VseClause.Object : VseClause → Option EntityMessage
  | .mk _ _ o _ => o

/-- Field `Clause` of a clause. -/
def VseClause.Clause : VseClause → Option VseClause
  | .mk _ _ _ c => c

/-- Modelled from the spec: the message type `certprotos.ProofStep` is declared
outside the source file: two premises, a conclusion and the rule number (an int32). -/
structure ProofStep where
  S1 : Option VseClause
  S2 : Option VseClause
  Conclusion : Option VseClause
  RuleApplied : Option Int

/-- Modelled from the spec: the generated getter `GetKeyType` is declared outside the
source file; a protobuf getter returns the zero value on a nil receiver or unset field. -/
def GetKeyType (k : Option KeyMessage) : String :=
  match k with
  | some m => m.KeyType.getD ""
  | none => ""

/-- Modelled from the spec: the generated getter `GetEntityType` (zero value on nil). -/
def GetEntityType (e : Option EntityMessage) : String :=
  match e with
  | some m => m.EntityType.getD ""
  | none => ""

/-- Modelled from the spec: the generated getter `GetKey` (nil on a nil receiver). -/
def GetKey (e : Option EntityMessage) : Option KeyMessage :=
  match e with
  | some m => m.Key
  | none => none

/-- Modelled from the spec: the generated getter `GetMeasurement` (nil on a nil receiver). -/
def GetMeasurement (e : Option EntityMessage) : Option Bytes :=
  match e with
  | some m => m.Measurement
  | none => none

/-- Modelled from the spec: the generated getter `GetVerb` (empty string when unset). -/
def VseClause.GetVerb (c : VseClause) : String :=
  c.Verb.getD ""

/-- Library function `bytes.Equal`: a nil slice equals an empty one. -/
def bytesEqual (a b : Option Bytes) : Bool :=
  a.getD [] == b.getD []

/-! ## Predicate dominance tree -/

/-- A value of type `*PredicateDominance`: the nil pointer, or a node with its predicate,
first child and next sibling. -/
inductive PredicateDominance where
  | null
  | node (Predicate : String) (FirstChild : PredicateDominance) (Next : PredicateDominance)
deriving DecidableEq, Repr

/-- The `for` loop of `FindNode`, entered with loop variable `n`. The body calls
`FindNode(n, pred)` (written out here: compare the predicate, else loop over the
children), returns a non-nil result, and otherwise advances `n = n.Next`; then the
post statement advances `n = n.Next` once more, which dereferences nil when the
body left `n` nil. -/
def FindNodeLoop : PredicateDominance → String → Option PredicateDominance
  | .null, _ => some .null
  | .node p fc nx, pred =>
    match (if p = pred then some (.node p fc nx) else FindNodeLoop fc pred) with
    | none => none
    | some (.node a b c) => some (.node a b c)
    | some .null =>
      match nx with
      | .null => none
      | .node _ _ nx2 => FindNodeLoop nx2 pred

/-- Go `FindNode(node, pred)`: the node itself if its predicate matches, else the result of
the loop over its children; a nil `node` is dereferenced. -/
def FindNode : PredicateDominance → String → Option PredicateDominance
  | .null, _ => none
  | .node p fc nx, pred =>
    if p = pred then some (.node p fc nx) else FindNodeLoop fc pred

/-- The tree after `ret.FirstChild = pd` where `ret` is the node the loop of `FindNode`
returns, searching from loop variable `n`: `none` is a panic, `some none` says that
the search returned nil, `some (some t)` is the sibling list with the node updated. -/
def InsertLoop : PredicateDominance → String → String → Option (Option PredicateDominance)
  | .null, _, _ => some none
  | .node p fc nx, parent, d =>
    if p = parent then some (some (.node p (.node d .null fc) nx))
    else
      match InsertLoop fc parent d with
      | none => none
      | some (some fc2) => some (some (.node p fc2 nx))
      | some none =>
        match nx with
        | .null => none
        | .node q qfc nx2 =>
          match InsertLoop nx2 parent d with
          | none => none
          | some none => some none
          | some (some nx3) => some (some (.node p fc (.node q qfc nx3)))

/-- Go `Insert(r, parent, descendant)`: result and the tree afterwards. The node found by
`FindNode(r, parent)` gets a new first child `descendant` whose next sibling is the old
first child. -/
def Insert (r : PredicateDominance) (parent descendant : String) :
    Option (Bool × PredicateDominance) :=
  match r with
  | .null => some (false, .null)
  | .node p fc nx =>
    if p = parent then some (true, .node p (.node descendant .null fc) nx)
    else
      match InsertLoop fc parent descendant with
      | none => none
      | some none => some (false, .node p fc nx)
      | some (some fc2) => some (true, .node p fc2 nx)

/-- The `for` loop of `IsChild` over the sibling list starting at `n`. -/
def IsChildLoop : PredicateDominance → String → Bool
  | .null, _ => false
  | .node p fc nx, d => (p == d || IsChildLoop fc d) || IsChildLoop nx d

/-- Go `IsChild(r, descendant)`; a nil `r` is dereferenced. -/
def IsChild : PredicateDominance → String → Option Bool
  | .null, _ => none
  | .node p fc _, d => some (p == d || IsChildLoop fc d)

/-- Go `Dominates(root, parent, descendant)`. -/
def Dominates (root : PredicateDominance) (parent descendant : String) : Option Bool :=
  if parent = descendant then some true
  else
    match FindNode root parent with
    | none => none
    | some .null => some false
    | some r =>
      match IsChild r descendant with
      | none => none
      | some true => some true
      | some false => some false

/-- Go `InitDominance(root)`: result and the tree afterwards; a nil `root` is dereferenced. -/
def InitDominance (root : PredicateDominance) : Option (Bool × PredicateDominance) :=
  match root with
  | .null => none
  | .node _ _ _ =>
    match Insert (.node "is-trusted" .null .null) "is-trusted" "is-trusted-for-attestation" with
    | none => none
    | some (false, t) => some (false, t)
    | some (true, t) =>
      match Insert t "is-trusted" "is-trusted-for-authentication" with
      | none => none
      | some (false, t2) => some (false, t2)
      | some (true, t2) => some (true, t2)

/-! ## Clause algebra -/

/-- Go `SameMeasurement`. -/
def SameMeasurement (m1 m2 : Option Bytes) : Bool :=
  bytesEqual m1 m2

/-- Go `SamePoint(p1, p2)` on non-nil points. -/
def SamePoint (p1 p2 : PointMessage) : Bool :=
  if p1.X.isNone || p1.Y.isNone || p2.X.isNone || p2.Y.isNone then false
  else bytesEqual p1.X p2.X && bytesEqual p1.Y p2.Y

/-- The six RSA key type names `SameKey` tests for. -/
def isRsaKeyType (t : String) : Bool :=
  t == "rsa-2048-private" || t == "rsa-2048-public" ||
  t == "rsa-4096-private" || t == "rsa-4096-public" ||
  t == "rsa-1024-private" || t == "rsa-1024-public"

/-- The two ECC key type names `SameKey` tests for. -/
def isEccKeyType (t : String) : Bool :=
  t == "ecc-384-private" || t == "ecc-384-public"

/-- Go `SameKey(k1, k2)`. In the RSA branch `k1.RsaKey.PublicModulus` and
`k2.RsaKey.PublicModulus` are read without a nil test, so an absent `RsaKey` on either
side is a nil dereference; the ECC branch tests every pointer first. -/
def SameKey (k1 k2 : Option KeyMessage) : Option Bool :=
  if GetKeyType k1 ≠ GetKeyType k2 then some false
  else if isRsaKeyType (GetKeyType k1) then
    match k1, k2 with
    | some a, some b =>
      match a.RsaKey, b.RsaKey with
      | some r1, some r2 =>
        some (bytesEqual r1.PublicModulus r2.PublicModulus &&
          bytesEqual r1.PublicExponent r2.PublicExponent)
      | _, _ => none
    | _, _ => none
  else if isEccKeyType (GetKeyType k1) then
    match k1, k2 with
    | some a, some b =>
      match a.EccKey, b.EccKey with
      | some e1, some e2 =>
        match e1.BasePoint, e2.BasePoint with
        | some b1, some b2 =>
          match e1.PublicPoint, e2.PublicPoint with
          | some p1, some p2 =>
            match e1.CurveName, e2.CurveName with
            | some n1, some n2 =>
              if n1 ≠ n2 then some false
              else some (SamePoint b1 b2 && SamePoint p1 p2)
            | _, _ => some false
          | _, _ => some false
        | _, _ => some false
      | _, _ => some false
    | _, _ => none
  else some false

/-- Go `SameEntity(e1, e2)`. -/
def SameEntity (e1 e2 : Option EntityMessage) : Option Bool :=
  if GetEntityType e1 ≠ GetEntityType e2 then some false
  else if GetEntityType e1 = "measurement" then
    some (SameMeasurement (GetMeasurement e1) (GetMeasurement e2))
  else if GetEntityType e1 = "key" then SameKey (GetKey e1) (GetKey e2)
  else some false

/-- Go `SameVseClause(c1, c2)` on non-nil clauses. -/
def SameVseClause : VseClause → VseClause → Option Bool
  | .mk s1 v1 o1 cl1, .mk s2 v2 o2 cl2 =>
    if s1.isNone || s2.isNone then some false
    else
      match SameEntity s1 s2 with
      | none => none
      | some false => some false
      | some true =>
        if v1.getD "" ≠ v2.getD "" then some false
        else if (o1.isNone && o2.isSome) || (o1.isSome && o2.isNone) then some false
        else
          match (if o1.isSome then SameEntity o1 o2 else some true) with
          | none => none
          | some false => some false
          | some true =>
            match cl1, cl2 with
            | none, some _ => some false
            | some _, none => some false
            | some a, some b => SameVseClause a b
            | none, none => some true

/-- Go `MakeKeyEntity(k)`. -/
def MakeKeyEntity (k : Option KeyMessage) : EntityMessage :=
  { EntityType := some "key", Key := k, Measurement := none }

/-- Go `MakeMeasurementEntity(m)`. -/
def MakeMeasurementEntity (m : Option Bytes) : EntityMessage :=
  { EntityType := some "measurement", Key := none, Measurement := m }

/-- Go `MakeUnaryVseClause(subject, verb)`. -/
def MakeUnaryVseClause (subject : Option EntityMessage) (verb : Option String) : VseClause :=
  .mk subject verb none none

/-- Go `MakeSimpleVseClause(subject, verb, object)`. -/
def MakeSimpleVseClause (subject : Option EntityMessage) (verb : Option String)
    (object : Option EntityMessage) : VseClause :=
  .mk subject verb object none

/-- Go `MakeIndirectVseClause(subject, verb, cl)`. -/
def MakeIndirectVseClause (subject : Option EntityMessage) (verb : Option String)
    (cl : Option VseClause) : VseClause :=
  .mk subject verb none cl

/-! ## Inference rules -/

/-- Go `VerifyRule1`: if measurement is-trusted and key1 speaks-for measurement then
key1 is-trusted-for-authentication. -/
def VerifyRule1 (_tree : PredicateDominance) (c1 c2 c : VseClause) : Option Bool :=
  if c1.Subject.isNone || c1.Verb.isNone || c1.Object.isSome || c1.Clause.isSome then some false
  else if c1.GetVerb ≠ "is-trusted" then some false
  else if GetEntityType c1.Subject ≠ "measurement" then some false
  else if c2.Subject.isNone || c2.Verb.isNone || c2.Object.isNone || c2.Clause.isSome then
    some false
  else if c2.GetVerb ≠ "speaks-for" then some false
  else
    match SameEntity c1.Subject c2.Object with
    | none => none
    | some false => some false
    | some true =>
      if c.Subject.isNone || c.Verb.isNone || c.Object.isSome || c.Clause.isSome then some false
      else if c.GetVerb ≠ "is-trusted-for-authentication" then some false
      else SameEntity c.Subject c2.Subject

/-- Go `VerifyRule2`. -/
def VerifyRule2 (_tree : PredicateDominance) (_c1 _c2 _c : VseClause) : Option Bool :=
  some false

/-- Go `VerifyRule3`: if key1 is-trusted and key1 says X, then X is true. -/
def VerifyRule3 (_tree : PredicateDominance) (c1 c2 c : VseClause) : Option Bool :=
  if c1.Subject.isNone || c1.Verb.isNone || c1.Object.isSome || c1.Clause.isSome then some false
  else if c1.GetVerb ≠ "is-trusted" then some false
  else if GetEntityType c1.Subject ≠ "key" then some false
  else if c2.Subject.isNone || c2.Verb.isNone || c2.Object.isSome || c2.Clause.isNone then
    some false
  else if GetEntityType c2.Subject ≠ "key" then some false
  else if c2.GetVerb ≠ "says" then some false
  else
    match SameEntity c1.Subject c2.Subject with
    | none => none
    | some false => some false
    | some true =>
      match c2.Clause with
      | none => none
      | some c3 => SameVseClause c3 c

/-- Go `VerifyRule4`. -/
def VerifyRule4 (_tree : PredicateDominance) (_c1 _c2 _c : VseClause) : Option Bool :=
  some false

/-- Go `VerifyRule5`: if key1 is-trustedXXX and key1 says key2 is-trustedYYY then
key2 is-trustedYYY provided is-trustedXXX dominates is-trustedYYY. -/
def VerifyRule5 (tree : PredicateDominance) (c1 c2 c : VseClause) : Option Bool :=
  if c1.Subject.isNone || c1.Verb.isNone || c1.Object.isSome || c1.Clause.isSome then some false
  else
    match Dominates tree "is-trusted" c1.GetVerb with
    | none => none
    | some false => some false
    | some true =>
      if GetEntityType c1.Subject ≠ "key" then some false
      else if c2.Subject.isNone || c2.Verb.isNone || c2.Object.isSome || c2.Clause.isNone then
        some false
      else if GetEntityType c2.Subject ≠ "key" then some false
      else if c2.GetVerb ≠ "says" then some false
      else
        match c2.Clause with
        | none => none
        | some c3 =>
          if c3.Subject.isNone || c3.Verb.isNone || c3.Object.isSome then some false
          else
            match Dominates tree c1.GetVerb c3.GetVerb with
            | none => none
            | some false => some false
            | some true =>
              if GetEntityType c3.Subject ≠ "key" then some false
              else
                match SameEntity c1.Subject c2.Subject with
                | none => none
                | some false => some false
                | some true => SameVseClause c3 c

/-- Go `VerifyRule6`: if key1 is-trustedXXX and key1 says key2 speaks-for measurement then
key2 speaks-for measurement provided is-trustedXXX dominates is-trusted-for-attestation. -/
def VerifyRule6 (tree : PredicateDominance) (c1 c2 c : VseClause) : Option Bool :=
  if c1.Subject.isNone || c1.Verb.isNone || c1.Object.isSome || c1.Clause.isSome then some false
  else
    match Dominates tree "is-trusted" c1.GetVerb with
    | none => none
    | some false => some false
    | some true =>
      if GetEntityType c1.Subject ≠ "key" then some false
      else if c2.Subject.isNone || c2.Verb.isNone || c2.Object.isSome || c2.Clause.isNone then
        some false
      else if GetEntityType c2.Subject ≠ "key" then some false
      else if c2.GetVerb ≠ "says" then some false
      else
        match SameEntity c1.Subject c2.Subject with
        | none => none
        | some false => some false
        | some true =>
          match c2.Clause with
          | none => none
          | some c3 =>
            if c3.Subject.isNone || c3.Verb.isNone || c3.Object.isNone || c3.Clause.isSome then
              some false
            else if GetEntityType c3.Subject ≠ "key" then some false
            else if c3.GetVerb ≠ "speaks-for" then some false
            else if GetEntityType c3.Object ≠ "measurement" then some false
            else
              match Dominates tree c1.GetVerb "is-trusted-for-attestation" with
              | none => none
              | some false => some false
              | some true => SameVseClause c3 c

/-- Go `VerifyRule7`: if measurement is-trusted and key1 speaks-for measurement then
key1 is-trusted-for-attestation. -/
def VerifyRule7 (_tree : PredicateDominance) (c1 c2 c : VseClause) : Option Bool :=
  if c1.Subject.isNone || c1.Verb.isNone || c1.Object.isSome || c1.Clause.isSome then some false
  else if c1.GetVerb ≠ "is-trusted" then some false
  else if GetEntityType c1.Subject ≠ "measurement" then some false
  else if c2.Subject.isNone || c2.Verb.isNone || c2.Object.isNone || c2.Clause.isSome then
    some false
  else if c2.GetVerb ≠ "speaks-for" then some false
  else
    match SameEntity c1.Subject c2.Object with
    | none => none
    | some false => some false
    | some true =>
      if c.Subject.isNone || c.Verb.isNone || c.Object.isSome || c.Clause.isSome then some false
      else if c.GetVerb ≠ "is-trusted-for-attestation" then some false
      else SameEntity c.Subject c2.Subject

/-! ## Proof checker -/

/-- Go `StatementAlreadyProved(c1, ps)`: the first clause of `ps` that `SameVseClause`
accepts ends the scan with true. -/
def StatementAlreadyProved (c1 : VseClause) : List VseClause → Option Bool
  | [] => some false
  | q :: rest =>
    match SameVseClause c1 q with
    | none => none
    | some true => some true
    | some false => StatementAlreadyProved c1 rest

/-- Go `VerifyInternalProofStep(tree, c1, c2, c, rule)`. -/
def VerifyInternalProofStep (tree : PredicateDominance) (c1 c2 c : VseClause) (rule : Int) :
    Option Bool :=
  if rule = 1 then VerifyRule1 tree c1 c2 c
  else if rule = 2 then VerifyRule2 tree c1 c2 c
  else if rule = 3 then VerifyRule3 tree c1 c2 c
  else if rule = 4 then VerifyRule4 tree c1 c2 c
  else if rule = 5 then VerifyRule5 tree c1 c2 c
  else if rule = 6 then VerifyRule6 tree c1 c2 c
  else if rule = 7 then VerifyRule7 tree c1 c2 c
  else some false

/-- Go `VerifyExternalProofStep(tree, step)`. -/
def VerifyExternalProofStep (tree : PredicateDominance) (step : ProofStep) : Option Bool :=
  match step.RuleApplied, step.S1, step.S2, step.Conclusion with
  | some rule, some s1, some s2, some c => VerifyInternalProofStep tree s1 s2 c rule
  | _, _, _, _ => some false

/-- The `for` loop of `VerifyProof` over the remaining steps, with the proved list `ps`
as it stands. The result is the verdict (`none` when the run panics) and the proved
list as the loop leaves it. -/
def VerifyProofLoop (tree : PredicateDominance) (toProve : VseClause) :
    List ProofStep → List VseClause → Option Bool × List VseClause
  | [], ps => (some false, ps)
  | st :: rest, ps =>
    match st.S1, st.S2, st.Conclusion with
    | some s1, some s2, some c =>
      match StatementAlreadyProved s1 ps with
      | none => (none, ps)
      | some false => VerifyProofLoop tree toProve rest ps
      | some true =>
        match StatementAlreadyProved s2 ps with
        | none => (none, ps)
        | some false => VerifyProofLoop tree toProve rest ps
        | some true =>
          match VerifyExternalProofStep tree st with
          | none => (none, ps)
          | some false => (some false, ps)
          | some true =>
            match SameVseClause toProve c with
            | none => (none, ps ++ [c])
            | some true => (some true, ps ++ [c])
            | some false => VerifyProofLoop tree toProve rest (ps ++ [c])
    | _, _, _ => (some false, ps)

/-- Go `VerifyProof(policyKey, toProve, p, ps)`: the verdict and the proved list afterwards.
The proof `p` is its list of steps. -/
def VerifyProof (_policyKey : Option KeyMessage) (toProve : VseClause) (p : List ProofStep)
    (ps : List VseClause) : Option Bool × List VseClause :=
  match InitDominance (.node "is-trusted" .null .null) with
  | none => (none, ps)
  | some (false, _) => (some false, ps)
  | some (true, tree) => VerifyProofLoop tree toProve p ps

/-- Go `InitAxiom(pk, ps)`: result and the proved list afterwards. -/
def InitAxiom (pk : KeyMessage) (ps : List VseClause) : Bool × List VseClause :=
  (true, ps ++ [MakeUnaryVseClause (some (MakeKeyEntity (some pk))) (some "is-trusted")])

/-! ## Evidence initialisation -/

/-- Modelled from the spec: the message type `certprotos.Evidence` is declared outside
the source file: a type tag and an uninterpreted payload. -/
structure Evidence where
  EvidenceType : Option String
  SerializedEvidence : Option Bytes
deriving DecidableEq, Repr

/-- Modelled from the spec: the generated getter `GetEvidenceType` (empty string when
unset). -/
def Evidence.GetEvidenceType (ev : Evidence) : String :=
  ev.EvidenceType.getD ""

/-- Go type `CertKeysSeen`. -/
structure CertKeysSeen where
  name : String
  pk : KeyMessage
deriving DecidableEq, Repr

/-- Go type `CertSeenList`; `keysSeen` is the array of 30 entries. -/
structure CertSeenList where
  maxSize : Int
  size : Int
  keysSeen : List CertKeysSeen
deriving DecidableEq, Repr

/-- The zero value of `CertKeysSeen`. -/
def CertKeysSeen.zero : CertKeysSeen :=
  { name := "",
    pk := { KeyName := none, KeyType := none, KeyFormat := none, RsaKey := none, EccKey := none,
            Certificate := none, NotBefore := none, NotAfter := none } }

/-- The list `InitProvedStatements` starts from: `new(CertSeenList)` with `maxSize = 30`
and `size = 0`. -/
def CertSeenList.init : CertSeenList :=
  { maxSize := 30, size := 0, keysSeen := List.replicate 30 CertKeysSeen.zero }

/-- How the work on one evidence item ends: with a run-time panic, with `return false`,
or by going on to the next item; the seen-keys table and the proved list are as the
item left them. -/
inductive ItemResult where
  | panic
  | returnFalse (ps : List VseClause)
  | next (seen : CertSeenList) (ps : List VseClause)

/-- The work `InitProvedStatements` does on item `i` of the evidence list in one branch of
its chain of tests on the evidence type, as a function of the evidence list, the index,
the seen-keys table and the proved list. -/
abbrev ItemHandler := List Evidence → Nat → CertSeenList → List VseClause → ItemResult

/-- The five branches of `InitProvedStatements` that decode and verify evidence. They call
`proto.Unmarshal`, the RSA, ECDSA and X.509 verifiers, the Open Enclave verifier and the
clock; each is a parameter of the embedding. -/
structure EvidenceHandlers where
  signedClaim : ItemHandler
  oeAttestationReport : ItemHandler
  sevAttestation : ItemHandler
  cert : ItemHandler
  signedVseAttestationReport : ItemHandler

/-- The body of the loop of `InitProvedStatements` for item `i`: the chain of tests on the
evidence type. A `pem-cert-chain` item does nothing, an unknown type returns false. -/
def InitProvedStatementsItem (h : EvidenceHandlers) (evidenceList : List Evidence) (i : Nat)
    (ev : Evidence) (seen : CertSeenList) (ps : List VseClause) : ItemResult :=
  if ev.GetEvidenceType = "signed-claim" then h.signedClaim evidenceList i seen ps
  else if ev.GetEvidenceType = "pem-cert-chain" then .next seen ps
  else if ev.GetEvidenceType = "oe-attestation-report" then
    h.oeAttestationReport evidenceList i seen ps
  else if ev.GetEvidenceType = "sev-attestation" then h.sevAttestation evidenceList i seen ps
  else if ev.GetEvidenceType = "cert" then h.cert evidenceList i seen ps
  else if ev.GetEvidenceType = "signed-vse-attestation-report" then
    h.signedVseAttestationReport evidenceList i seen ps
  else .returnFalse ps

/-- The loop of `InitProvedStatements` from index `i` on; `todo` is the part of the
evidence list from index `i`. -/
def InitProvedStatementsLoop (h : EvidenceHandlers) (evidenceList : List Evidence) :
    List Evidence → Nat → CertSeenList → List VseClause → Option Bool × List VseClause
  | [], _, _, ps => (some true, ps)
  | ev :: todo, i, seen, ps =>
    match InitProvedStatementsItem h evidenceList i ev seen ps with
    | .panic => (none, ps)
    | .returnFalse ps2 => (some false, ps2)
    | .next seen2 ps2 => InitProvedStatementsLoop h evidenceList todo (i + 1) seen2 ps2

/-- Go `InitProvedStatements(pk, evidenceList, ps)`: the result (`none` when the run panics)
and the proved list afterwards. -/
def InitProvedStatements (h : EvidenceHandlers) (pk : KeyMessage) (evidenceList : List Evidence)
    (ps : List VseClause) : Option Bool × List VseClause :=
  match InitAxiom pk ps with
  | (false, ps1) => (some false, ps1)
  | (true, ps1) => InitProvedStatementsLoop h evidenceList evidenceList 0 CertSeenList.init ps1

/-! ## Specification-side definitions -/

/-- A well-formed key: its type is one of the eight key types and the matching material
is there (RSA: the RSA part; ECC: the curve name, the base point and the public point,
each point with both coordinates). -/
def WellFormedKey (k : KeyMessage) : Bool :=
  if isRsaKeyType (GetKeyType (some k)) then k.RsaKey.isSome
  else if isEccKeyType (GetKeyType (some k)) then
    match k.EccKey with
    | none => false
    | some e =>
      e.CurveName.isSome &&
        (match e.BasePoint, e.PublicPoint with
          | some b, some p => b.X.isSome && b.Y.isSome && p.X.isSome && p.Y.isSome
          | _, _ => false)
  else false

/-- The tree `InitDominance` leaves behind: the root `is-trusted`, whose first child is
`is-trusted-for-authentication` (inserted last) followed by `is-trusted-for-attestation`. -/
def defaultTree : PredicateDominance :=
  .node "is-trusted"
    (.node "is-trusted-for-authentication" .null
      (.node "is-trusted-for-attestation" .null .null))
    .null

/-- Relation `AppendedBy tree ps steps added`: walking `steps` in order from the proved list `ps`,
the clauses `added` can be appended one after the other, each one the conclusion of a
step whose two premises are `SameVseClause`-equal to clauses of the list as it stands
when the step is reached and which `VerifyExternalProofStep` accepts. Steps may be
passed over, and the walk may stop early. -/
inductive AppendedBy (tree : PredicateDominance) :
    List VseClause → List ProofStep → List VseClause → Prop where
  | stop (ps : List VseClause) (steps : List ProofStep) : AppendedBy tree ps steps []
  | skip (ps : List VseClause) (st : ProofStep) (rest : List ProofStep) (out : List VseClause) :
      AppendedBy tree ps rest out → AppendedBy tree ps (st :: rest) out
  | take (ps : List VseClause) (st : ProofStep) (rest : List ProofStep) (out : List VseClause)
      (s1 s2 c : VseClause) :
      st.S1 = some s1 → st.S2 = some s2 → st.Conclusion = some c →
      (∃ q ∈ ps, SameVseClause s1 q = some true) →
      (∃ q ∈ ps, SameVseClause s2 q = some true) →
      VerifyExternalProofStep tree st = some true →
      AppendedBy tree (ps ++ [c]) rest out → AppendedBy tree ps (st :: rest) (c :: out)

/-- Relation `ReachesGoal tree goal ps steps`: walking `steps` in order from the proved list `ps`, a
step is reached whose premises are both proved, whose rule accepts and whose conclusion
is `SameVseClause`-equal to `goal`; every earlier step is skipped for a missing premise
or accepted with a conclusion different from `goal`, which is appended. -/
inductive ReachesGoal (tree : PredicateDominance) (goal : VseClause) :
    List VseClause → List ProofStep → Prop where
  | hit (ps : List VseClause) (st : ProofStep) (rest : List ProofStep) (s1 s2 c : VseClause) :
      st.S1 = some s1 → st.S2 = some s2 → st.Conclusion = some c →
      StatementAlreadyProved s1 ps = some true → StatementAlreadyProved s2 ps = some true →
      VerifyExternalProofStep tree st = some true → SameVseClause goal c = some true →
      ReachesGoal tree goal ps (st :: rest)
  | skipped (ps : List VseClause) (st : ProofStep) (rest : List ProofStep) (s1 s2 c : VseClause) :
      st.S1 = some s1 → st.S2 = some s2 → st.Conclusion = some c →
      (StatementAlreadyProved s1 ps = some false ∨
        (StatementAlreadyProved s1 ps = some true ∧ StatementAlreadyProved s2 ps = some false)) →
      ReachesGoal tree goal ps rest → ReachesGoal tree goal ps (st :: rest)
  | accepted (ps : List VseClause) (st : ProofStep) (rest : List ProofStep)
      (s1 s2 c : VseClause) :
      st.S1 = some s1 → st.S2 = some s2 → st.Conclusion = some c →
      StatementAlreadyProved s1 ps = some true → StatementAlreadyProved s2 ps = some true →
      VerifyExternalProofStep tree st = some true → SameVseClause goal c = some false →
      ReachesGoal tree goal (ps ++ [c]) rest → ReachesGoal tree goal ps (st :: rest)

/-! ## Concrete inputs -/

/-- An RSA-2048 public key with the given name and modulus bytes and exponent 65537. -/
def rsaKey (name : String) (modulus : Bytes) : KeyMessage :=
  { KeyName := some name, KeyType := some "rsa-2048-public", KeyFormat := some "vse-key",
    RsaKey := some { PublicModulus := some modulus, PublicExponent := some [1, 0, 1],
                     PrivateExponent := none },
    EccKey := none, Certificate := none, NotBefore := none, NotAfter := none }

/-- A key message that names the type `rsa-2048-public` and carries no `rsa_key` field. -/
def rsaKeyWithoutMaterial : KeyMessage :=
  { KeyName := some "k", KeyType := some "rsa-2048-public", KeyFormat := some "vse-key",
    RsaKey := none, EccKey := none, Certificate := none, NotBefore := none, NotAfter := none }

/-- The unary clause `k verb`. -/
def keyIs (k : KeyMessage) (verb : String) : VseClause :=
  MakeUnaryVseClause (some (MakeKeyEntity (some k))) (some verb)

/-- The unary clause `m verb` for a measurement `m`. -/
def measurementIs (m : Bytes) (verb : String) : VseClause :=
  MakeUnaryVseClause (some (MakeMeasurementEntity (some m))) (some verb)

/-- The simple clause `k speaks-for m`. -/
def keySpeaksFor (k : KeyMessage) (m : Bytes) : VseClause :=
  MakeSimpleVseClause (some (MakeKeyEntity (some k))) (some "speaks-for")
    (some (MakeMeasurementEntity (some m)))

/-- The indirect clause `k says c`. -/
def keySays (k : KeyMessage) (c : VseClause) : VseClause :=
  MakeIndirectVseClause (some (MakeKeyEntity (some k))) (some "says") (some c)

/-- Handlers that fault whenever they are called. -/
def faultingHandlers : EvidenceHandlers :=
  { signedClaim := fun _ _ _ _ => .panic,
    oeAttestationReport := fun _ _ _ _ => .panic,
    sevAttestation := fun _ _ _ _ => .panic,
    cert := fun _ _ _ _ => .panic,
    signedVseAttestationReport := fun _ _ _ _ => .panic }

/-! ## Time points -/

/-- A Go `float64` as far as the source uses it here: the comparisons `<` and `>`. The value
is not-a-number, an infinity, or a number. -/
inductive Float64 where
  | nan
  | negInf
  | num (q : ℚ)
  | posInf
deriving DecidableEq

/-- Go `a < b` on `float64`: false as soon as one side is not-a-number. -/
def Float64.lt : Float64 → Float64 → Bool
  | .nan, _ => false
  | _, .nan => false
  | .negInf, .negInf => false
  | .negInf, _ => true
  | _, .negInf => false
  | .posInf, _ => false
  | .num _, .posInf => true
  | .num a, .num b => decide (a < b)

/-- Go `a > b` on `float64`. -/
def Float64.gt (a b : Float64) : Bool :=
  Float64.lt b a

/-- Modelled from the spec: the message type `certprotos.TimePoint` is declared outside
the source file: five optional int32 fields and optional float64 seconds. -/
structure TimePoint where
  Year : Option Int
  Month : Option Int
  Day : Option Int
  Hour : Option Int
  Minute : Option Int
  Seconds : Option Float64
deriving DecidableEq

/-- Modelled from the spec: the generated getter `GetYear` (zero when unset). -/
def TimePoint.GetYear (t : TimePoint) : Int := t.Year.getD 0

/-- Modelled from the spec: the generated getter `GetMonth` (zero when unset). -/
def TimePoint.GetMonth (t : TimePoint) : Int := t.Month.getD 0

/-- Modelled from the spec: the generated getter `GetDay` (zero when unset). -/
def TimePoint.GetDay (t : TimePoint) : Int := t.Day.getD 0

/-- Modelled from the spec: the generated getter `GetHour` (zero when unset). -/
def TimePoint.GetHour (t : TimePoint) : Int := t.Hour.getD 0

/-- Modelled from the spec: the generated getter `GetMinute` (zero when unset). -/
def TimePoint.GetMinute (t : TimePoint) : Int := t.Minute.getD 0

/-- Modelled from the spec: the generated getter `GetSeconds` (zero when unset). -/
def TimePoint.GetSeconds (t : TimePoint) : Float64 := t.Seconds.getD (.num 0)

/-- Go `CompareTimePoints(t1, t2)`: 1 if `t1` is later, -1 if earlier, else 0, field by
field. -/
def CompareTimePoints (t1 t2 : TimePoint) : Int :=
  if t1.GetYear > t2.GetYear then 1
  else if t1.GetYear < t2.GetYear then -1
  else if t1.GetMonth > t2.GetMonth then 1
  else if t1.GetMonth < t2.GetMonth then -1
  else if t1.GetDay > t2.GetDay then 1
  else if t1.GetDay < t2.GetDay then -1
  else if t1.GetHour > t2.GetHour then 1
  else if t1.GetHour < t2.GetHour then -1
  else if t1.GetMinute > t2.GetMinute then 1
  else if t1.GetMinute < t2.GetMinute then -1
  else if Float64.gt t1.GetSeconds t2.GetSeconds then 1
  else if Float64.lt t1.GetSeconds t2.GetSeconds then -1
  else 0

/-! ## Messages of the evidence pipeline -/

/-- Modelled from the spec: the message type `certprotos.ClaimMessage` is declared outside
the source file. -/
structure ClaimMessage where
  ClaimFormat : Option String
  ClaimDescriptor : Option String
  NotBefore : Option String
  NotAfter : Option String
  SerializedClaim : Option Bytes
deriving DecidableEq

/-- Modelled from the spec: the message type `certprotos.SignedClaimMessage` is declared
outside the source file. -/
structure SignedClaimMessage where
  SerializedClaimMessage : Option Bytes
  SigningKey : Option KeyMessage
  SigningAlgorithm : Option String
  Signature : Option Bytes
deriving DecidableEq

/-- Modelled from the spec: the message type `certprotos.SignedReport` is declared outside
the source file. -/
structure SignedReport where
  ReportFormat : Option String
  Report : Option Bytes
  SigningKey : Option KeyMessage
  SigningAlgorithm : Option String
  Signature : Option Bytes
deriving DecidableEq

/-- Modelled from the spec: the message type `certprotos.VseAttestationReportInfo` is
declared outside the source file. -/
structure VseAttestationReportInfo where
  EnclaveType : Option String
  VerifiedMeasurement : Option Bytes
  NotBefore : Option String
  NotAfter : Option String
  UserData : Option Bytes
deriving DecidableEq

/-- Modelled from the spec: the message type `certprotos.AttestationUserData` is declared
outside the source file. -/
structure AttestationUserData where
  EnclaveType : Option String
  Time : Option String
  EnclaveKey : Option KeyMessage
  PolicyKey : Option KeyMessage
deriving DecidableEq

/-- Modelled from the spec: the message type `certprotos.SevAttestationMessage` is declared
outside the source file. -/
structure SevAttestationMessage where
  WhatWasSaid : Option Bytes
  ReportedAttestation : Option Bytes
deriving DecidableEq

/-! ## Library types: RSA and ECDSA public keys, X.509 certificates -/

/-- Go `rsa.PublicKey`: modulus and exponent. -/
structure RsaPublicKey where
  N : Nat
  E : Int
deriving DecidableEq

/-- The parameters of an elliptic curve (`elliptic.CurveParams`) that the source reads; a
nil big integer is `none`. -/
structure CurveParams where
  BitSize : Int
  P : Option Nat
  B : Option Nat
  Gx : Option Nat
  Gy : Option Nat
deriving DecidableEq

/-- Go `ecdsa.PublicKey`: curve and public point; a nil curve or coordinate is `none`. -/
structure EcdsaPublicKey where
  Curve : Option CurveParams
  X : Option Nat
  Y : Option Nat
deriving DecidableEq

/-- The dynamic type of the field `PublicKey` of an `x509.Certificate`. -/
inductive CertPublicKey where
  | rsa (k : RsaPublicKey)
  | ecdsa (k : EcdsaPublicKey)
  | other
deriving DecidableEq

/-- The fields of a parsed `x509.Certificate` that the source reads; `raw` stands for the
rest of the certificate (its encoding). -/
structure X509Certificate where
  SubjectCommonName : String
  IssuerCommonName : String
  PublicKey : CertPublicKey
  raw : Bytes
deriving DecidableEq

/-! ## External collaborators -/

/-- The library and collaborator functions the evidence pipeline calls, as parameters:
`proto.Unmarshal` for each message type (`none` is a decoding error), the clock,
`fmt.Sscanf` on a time string, SHA-256, SHA-384, RSA PKCS#1 v1.5 and ECDSA verification,
the Open Enclave verifier, base64 decoding, the conversion of bytes to a string, and
X.509 parsing and chain verification against a pool of roots. -/
structure Externals where
  UnmarshalSignedClaim : Option Bytes → Option SignedClaimMessage
  UnmarshalClaim : Option Bytes → Option ClaimMessage
  UnmarshalVseClause : Option Bytes → Option VseClause
  UnmarshalSignedReport : Option Bytes → Option SignedReport
  UnmarshalReportInfo : Option Bytes → Option VseAttestationReportInfo
  UnmarshalUserData : Option Bytes → Option AttestationUserData
  UnmarshalSevAttestation : Option Bytes → Option SevAttestationMessage
  /-- The reading of `time.Now()`, taken as one instant for the whole run. -/
  Now : TimePoint
  /-- The six values `fmt.Sscanf` leaves in year, month, day, hour, minute, seconds; a
  value it does not reach keeps its initial zero. -/
  Sscanf : String → Int × Int × Int × Int × Int × Float64
  Sum256 : Option Bytes → Bytes
  Sum384 : Option Bytes → Bytes
  VerifyPKCS1v15 : RsaPublicKey → Bytes → Option Bytes → Bool
  EcdsaVerify : EcdsaPublicKey → Bytes → Nat → Nat → Bool
  /-- The parameters of the curve `elliptic.P384()`. -/
  P384 : CurveParams
  /-- The result of `oeverify.OEHostVerifyEvidence`: user data, measurement, and whether
  the error is nil. -/
  OEHostVerifyEvidence : Option Bytes → Option Bytes → Option Bytes × Option Bytes × Bool
  /-- The result of `b64.StdEncoding.DecodeString`; `none` is an error or a nil result. -/
  Base64Decode : String → Option Bytes
  /-- The conversion `string(b)`. -/
  BytesToString : Option Bytes → String
  /-- The result of `x509.ParseCertificate`; `none` is an error. -/
  ParseCertificate : Option Bytes → Option X509Certificate
  /-- Whether `cert.Verify` with the given pool of roots returns no error. -/
  X509Verify : X509Certificate → List X509Certificate → Bool
  /-- The bytes that follow the field `reported_attestation` of the decoded
  `SevAttestationMessage` in its backing array, that is, what `proto.Unmarshal` allocated
  beyond the length of the field, as a function of the serialized message; empty when the
  capacity of the field is its length. -/
  SevReportSpare : Option Bytes → Bytes := fun _ => []

/-! ## Keys, signatures and time windows -/

/-- The number a big-endian byte string stands for (`big.Int.SetBytes`); the nil slice is 0. -/
def bytesToNat (b : Option Bytes) : Nat :=
  (b.getD []).foldl (fun acc x => acc * 256 + x) 0

/-- The digits of `n` in base 256, most significant first, with `fuel` bounding the length. -/
def natToBytesAux : Nat → Nat → Bytes → Bytes
  | 0, _, acc => acc
  | fuel + 1, n, acc => if n = 0 then acc else natToBytesAux fuel (n / 256) ((n % 256) :: acc)

/-- The big-endian bytes of a number without leading zeros (`big.Int.Bytes`). -/
def natToBytes (n : Nat) : Bytes :=
  natToBytesAux n n []

/-- The big-endian bytes of a number in a buffer of `len` bytes (`big.Int.FillBytes`), for a
number that fits the buffer: byte `i` from the right is `n / 256^i % 256`. -/
def fillBytes (n len : Nat) : Bytes :=
  (List.range len).reverse.map (fun i => n / 256 ^ i % 256)

/-- Modelled from the spec: the generated getter `GetKeyName` (empty string on nil). -/
def GetKeyName (k : Option KeyMessage) : String :=
  match k with
  | some m => m.KeyName.getD ""
  | none => ""

/-- Go `GetRsaKeysFromInternal(k, pK, PK)`: the result and the public key left in `PK`. The
fields `k.RsaKey.PublicModulus` and `k.RsaKey.PublicExponent` are read without a nil test, so
a nil `k` or a nil `k.RsaKey` is a nil dereference. The exponent is the low 64 bits of the
exponent bytes, read as an `int`. -/
def GetRsaKeysFromInternal (k : Option KeyMessage) : Option (Bool × RsaPublicKey) :=
  match k with
  | none => none
  | some m =>
    match m.RsaKey with
    | none => none
    | some r =>
      let e : Nat := bytesToNat r.PublicExponent % 2 ^ 64
      some (true, { N := bytesToNat r.PublicModulus,
                    E := if e < 2 ^ 63 then (e : Int) else (e : Int) - 2 ^ 64 })

/-- Go `RsaSha256Verify(r, in, sig)`. -/
def RsaSha256Verify (ext : Externals) (r : RsaPublicKey) (msg sig : Option Bytes) : Bool :=
  ext.VerifyPKCS1v15 r (ext.Sum256 msg) sig

/-- Go `TimePointNow()`. -/
def TimePointNow (ext : Externals) : TimePoint :=
  ext.Now

/-- Go `StringToTimePoint(s)`: all six fields are set, to what `fmt.Sscanf` scanned. -/
def StringToTimePoint (ext : Externals) (s : String) : TimePoint :=
  match ext.Sscanf s with
  | (y, m, d, h, mi, sec) =>
    { Year := some y, Month := some m, Day := some d, Hour := some h, Minute := some mi,
      Seconds := some sec }

/-- Go `CheckTimeRange(nb, na)`. -/
def CheckTimeRange (ext : Externals) (nb na : Option String) : Bool :=
  match nb, na with
  | some b, some a =>
    if CompareTimePoints (StringToTimePoint ext b) (TimePointNow ext) > 0 ||
        CompareTimePoints (StringToTimePoint ext a) (TimePointNow ext) < 0 then false
    else true
  | _, _ => false

/-- Go `VerifySignedClaim(c, k)`. The time points parsed from the two validity strings are
never nil, so the window is always tested. -/
def VerifySignedClaim (ext : Externals) (c : SignedClaimMessage) (k : Option KeyMessage) :
    Option Bool :=
  match GetRsaKeysFromInternal k with
  | none => none
  | some (false, _) => some false
  | some (true, PK) =>
    match ext.UnmarshalClaim c.SerializedClaimMessage with
    | none => some false
    | some cm =>
      if cm.ClaimFormat.getD "" ≠ "vse-clause" ∧ cm.ClaimFormat.getD "" ≠ "vse-attestation" then
        some false
      else if CompareTimePoints (StringToTimePoint ext (cm.NotBefore.getD "")) (TimePointNow ext) > 0
          || CompareTimePoints (StringToTimePoint ext (cm.NotAfter.getD "")) (TimePointNow ext) < 0
      then some false
      else if RsaSha256Verify ext PK c.SerializedClaimMessage c.Signature then some true
      else some false

/-- Go `VerifySignedAssertion(scm, k, vseClause)` for an empty `vseClause`: `none` is a
panic, `some none` the result false, and `some (some C)` the result true with the decoded clause
`C` left in `vseClause`. -/
def VerifySignedAssertion (ext : Externals) (scm : SignedClaimMessage) (k : Option KeyMessage) :
    Option (Option VseClause) :=
  match VerifySignedClaim ext scm k with
  | none => none
  | some false => some none
  | some true =>
    match ext.UnmarshalClaim scm.SerializedClaimMessage with
    | none => some none
    | some cm =>
      if cm.ClaimFormat.getD "" = "vse-clause" then
        match ext.UnmarshalVseClause cm.SerializedClaim with
        | none => some none
        | some C => some (some C)
      else some none

/-- Go `ConstructVseAttestClaim(attestKey, enclaveKey, measurement)`: the clause
`attestKey says (enclaveKey speaks-for measurement)`. -/
def ConstructVseAttestClaim (attestKey enclaveKey : Option KeyMessage)
    (measurement : Option Bytes) : VseClause :=
  MakeIndirectVseClause (some (MakeKeyEntity attestKey)) (some "says")
    (some (MakeSimpleVseClause (some (MakeKeyEntity enclaveKey)) (some "speaks-for")
      (some (MakeMeasurementEntity measurement))))

/-- Go `VerifyReport(etype, pk, serialized)`. -/
def VerifyReport (ext : Externals) (etype : String) (pk : Option KeyMessage)
    (serialized : Option Bytes) : Option Bool :=
  if etype ≠ "vse-attestation-report" then some false
  else
    match ext.UnmarshalSignedReport serialized with
    | none => some false
    | some sr =>
      match SameKey sr.SigningKey pk with
      | none => none
      | some false => some false
      | some true =>
        if sr.Report.isNone || sr.Signature.isNone then some false
        else
          match GetRsaKeysFromInternal sr.SigningKey with
          | none => none
          | some (false, _) => some false
          | some (true, PK) =>
            if RsaSha256Verify ext PK sr.Report sr.Signature then some true else some false

/-! ## Seen-keys table -/

/-- Go `AddKeySeen(list, k)`: the result and the table afterwards. `list.keysSeen[list.size]`
is an index into the array of 30 entries, and `*k` dereferences `k`. -/
def AddKeySeen (list : CertSeenList) (k : Option KeyMessage) : Option (Bool × CertSeenList) :=
  if list.maxSize - 1 ≤ list.size then some (false, list)
  else if list.size < 0 ∨ (list.keysSeen.length : Int) ≤ list.size then none
  else
    match k with
    | none => none
    | some m =>
      some (true, { maxSize := list.maxSize, size := list.size + 1,
                    keysSeen := list.keysSeen.set list.size.toNat
                      { name := GetKeyName (some m), pk := m } })

/-- The loop of `FindKeySeen` from index `j` on, over the entries from index `j`; `todo` is
the number of indices left below `list.size`. -/
def FindKeySeenLoop (name : String) : List CertKeysSeen → Nat → Option (Option KeyMessage)
  | _, 0 => some none
  | [], _ + 1 => none
  | e :: rest, todo + 1 =>
    if e.name = name then some (some e.pk) else FindKeySeenLoop name rest todo

/-- Go `FindKeySeen(list, name)`: `none` is an index out of range, `some none` the nil
result. -/
def FindKeySeen (list : CertSeenList) (name : String) : Option (Option KeyMessage) :=
  FindKeySeenLoop name list.keysSeen list.size.toNat

/-! ## Certificates -/

/-- Go `Asn1ToX509(in)`: the parsed certificate, or nil on a parsing error. -/
def Asn1ToX509 (ext : Externals) (der : Option Bytes) : Option X509Certificate :=
  ext.ParseCertificate der

/-- Go `GetIssuerNameFromCert(cert)`. -/
def GetIssuerNameFromCert (cert : X509Certificate) : String :=
  cert.IssuerCommonName

/-- Go `GetSubjectNameFromCert(cert)`; the pointer it returns is never nil. -/
def GetSubjectNameFromCert (cert : X509Certificate) : String :=
  cert.SubjectCommonName

/-- Go `GetInternalKeyFromRsaPublicKey(name, PK, km)` on an empty `km`: the key it leaves in
`km` when it returns true, `none` when it returns false. -/
def GetInternalKeyFromRsaPublicKey (name : String) (PK : RsaPublicKey) : Option KeyMessage :=
  let modLen := (natToBytes PK.N).length
  let kt : Option String :=
    if modLen = 128 then some "rsa-1024-public"
    else if modLen = 256 then some "rsa-2048-public"
    else if modLen = 512 then some "rsa-4096-public"
    else none
  match kt with
  | none => none
  | some t =>
    some { KeyName := some name, KeyType := some t, KeyFormat := none,
           RsaKey := some { PublicModulus := some (natToBytes PK.N),
                            PublicExponent := some (natToBytes (PK.E % 2 ^ 64).toNat),
                            PrivateExponent := none },
           EccKey := none, Certificate := none, NotBefore := none, NotAfter := none }

/-- Go `GetInternalKeyFromEccPublicKey(name, PK, km)` on an empty `km`: the key it leaves in
`km` when it returns true, `none` when it returns false. The numbers of a key on a 384-bit
curve fit the 48-byte buffers. -/
def GetInternalKeyFromEccPublicKey (name : String) (PK : EcdsaPublicKey) : Option KeyMessage :=
  match PK.Curve with
  | none => none
  | some p =>
    if p.BitSize ≠ 384 then none
    else
      match p.P, p.B, p.Gx, p.Gy, PK.X, PK.Y with
      | some pP, some pB, some gx, some gy, some x, some y =>
        some { KeyName := some name, KeyType := some "ecc-384-public",
               KeyFormat := some "vse-key", RsaKey := none,
               EccKey := some
                 { CurveName := some "P-384",
                   CurveP := some (fillBytes pP 48),
                   CurveA := some (fillBytes ((pP : Int) - 3).natAbs 48),
                   CurveB := some (fillBytes pB 48),
                   BasePoint := some { X := some (fillBytes gx 48), Y := some (fillBytes gy 48) },
                   PublicPoint := some { X := some (fillBytes x 48), Y := some (fillBytes y 48) },
                   PrivateMultiplier := none },
               Certificate := none, NotBefore := none, NotAfter := none }
      | _, _, _, _, _, _ => none

/-- Go `GetSubjectKey(cert)`: the subject key, or nil. -/
def GetSubjectKey (cert : X509Certificate) : Option KeyMessage :=
  match cert.PublicKey with
  | .rsa PK => GetInternalKeyFromRsaPublicKey (GetSubjectNameFromCert cert) PK
  | .ecdsa PK => GetInternalKeyFromEccPublicKey (GetSubjectNameFromCert cert) PK
  | .other => none

/-- Go `ConstructVseAttestationFromCert(subjKey, signerKey)`: the clause
`signerKey says (subjKey is-trusted-for-attestation)`. -/
def ConstructVseAttestationFromCert (subjKey signerKey : Option KeyMessage) : VseClause :=
  MakeIndirectVseClause (some (MakeKeyEntity signerKey)) (some "says")
    (some (MakeUnaryVseClause (some (MakeKeyEntity subjKey)) (some "is-trusted-for-attestation")))

/-! ## SEV attestation and Open Enclave evidence -/

/-- Go `ConstructSevSpeaksForStatement(vcertKey, enclaveKey, measurement)`: the clause
`vcertKey says (enclaveKey speaks-for measurement)`. -/
def ConstructSevSpeaksForStatement (vcertKey enclaveKey : Option KeyMessage)
    (measurement : Option Bytes) : VseClause :=
  MakeIndirectVseClause (some (MakeKeyEntity vcertKey)) (some "says")
    (some (MakeSimpleVseClause (some (MakeKeyEntity enclaveKey)) (some "speaks-for")
      (some (MakeMeasurementEntity measurement))))

/-- Go `LittleToBigEndian(in)`. -/
def LittleToBigEndian (b : Bytes) : Bytes :=
  b.reverse

/-- Go `GetEccKeysFromInternal(k)`: the public key, `none` when the error is not nil. -/
def GetEccKeysFromInternal (ext : Externals) (k : Option KeyMessage) : Option EcdsaPublicKey :=
  match k with
  | none => none
  | some m =>
    match m.EccKey with
    | none => none
    | some e =>
      match e.PublicPoint, e.BasePoint with
      | some pp, some _ =>
        if GetKeyType k ≠ "ecc-384-public" ∧ GetKeyType k ≠ "ecc-384-private" then none
        else some { Curve := some ext.P384, X := some (bytesToNat pp.X),
                    Y := some (bytesToNat pp.Y) }
      | _, _ => none

/-- The Go slice expression `b[lo:hi]` on a slice `b` whose backing array goes on, beyond the
length of `b`, with the bytes `spare`: the bound for `hi` is the capacity
`len(b) + len(spare)`, not the length, and the result may hold bytes of `spare`. Out of
range (`none`) when `hi` exceeds the capacity or `lo` exceeds `hi`. -/
def sliceBytes (b spare : Bytes) (lo hi : Nat) : Option Bytes :=
  if lo ≤ hi ∧ hi ≤ b.length + spare.length then some (((b ++ spare).take hi).drop lo) else none

/-- Go `VerifySevAttestation(serialized, k)`: `none` is a panic (a slice of the report out of
range, which is measured against the capacity of the report), `some none` the nil result,
`some (some m)` the measurement. -/
def VerifySevAttestation (ext : Externals) (serialized : Option Bytes)
    (k : Option KeyMessage) : Option (Option Bytes) :=
  match ext.UnmarshalSevAttestation serialized with
  | none => some none
  | some am =>
    match am.ReportedAttestation with
    | none => some none
    | some ptr =>
      match GetEccKeysFromInternal ext k with
      | none => some none
      | some PK =>
        match sliceBytes ptr (ext.SevReportSpare serialized) 0x50 0x80 with
        | none => none
        | some hd =>
          match am.WhatWasSaid with
          | none => some none
          | some said =>
            if !(bytesEqual (some ((ext.Sum384 (some said)).take 48)) (some (hd.take 48))) then
              some none
            else
              match sliceBytes ptr (ext.SevReportSpare serialized) 0 0x2a0,
                sliceBytes ptr (ext.SevReportSpare serialized) 0x90 0xc0,
                sliceBytes ptr (ext.SevReportSpare serialized) 0x2a0 0x2d0,
                sliceBytes ptr (ext.SevReportSpare serialized) 0x2e8 0x318 with
              | some header, some m, some r, some s =>
                if !(ext.EcdsaVerify PK ((ext.Sum384 (some header)).take 48)
                    (bytesToNat (some (LittleToBigEndian r)))
                    (bytesToNat (some (LittleToBigEndian s)))) then some none
                else some (some m)
              | _, _, _, _ => none

/-- Go `StripPemHeaderAndTrailer(pem)`: nil for fewer than three lines, else the lines from
the second to the one before the last two, joined by newlines. -/
def StripPemHeaderAndTrailer (pem : String) : Option String :=
  let sl := pem.splitOn "\n"
  if sl.length < 3 then none
  else some (String.intercalate "\n" ((sl.take (sl.length - 2)).drop 1))

/-- Go `KeyFromPemFormat(pem)`: the subject key of the certificate, or nil. -/
def KeyFromPemFormat (ext : Externals) (pem : String) : Option KeyMessage :=
  match ext.Base64Decode pem with
  | none => none
  | some der =>
    match Asn1ToX509 ext (some der) with
    | none => none
    | some cert => GetSubjectKey cert

/-! ## The branches of `InitProvedStatements` -/

/-- The branch of `InitProvedStatements` for a `signed-claim` item `evidenceList[i]`. -/
def signedClaimItem (ext : Externals) : ItemHandler := fun evidenceList i seen ps =>
  match evidenceList[i]? with
  | none => .panic
  | some ev =>
    match ext.UnmarshalSignedClaim ev.SerializedEvidence with
    | none => .returnFalse ps
    | some signedClaim =>
      match VerifySignedAssertion ext signedClaim signedClaim.SigningKey with
      | none => .panic
      | some none => .next seen ps
      | some (some tcl) =>
        if tcl.GetVerb = "says" ∧ GetEntityType tcl.Subject = "key" then
          match SameKey signedClaim.SigningKey (GetKey tcl.Subject) with
          | none => .panic
          | some true => .next seen (ps ++ [tcl])
          | some false => .next seen ps
        else .next seen ps

/-- The branch of `InitProvedStatements` for an `oe-attestation-report` item
`evidenceList[i]`. -/
def oeAttestationReportItem (ext : Externals) : ItemHandler := fun evidenceList i seen ps =>
  match evidenceList[i]? with
  | none => .panic
  | some ev =>
    if i < 1 then .returnFalse ps
    else
      match evidenceList[i - 1]? with
      | none => .panic
      | some prev =>
        if prev.GetEvidenceType ≠ "pem-cert-chain" then .returnFalse ps
        else
          match ext.OEHostVerifyEvidence ev.SerializedEvidence prev.SerializedEvidence with
          | (some serializedUD, some m, true) =>
            match ext.UnmarshalUserData (some serializedUD) with
            | none => .returnFalse ps
            | some ud =>
              match StripPemHeaderAndTrailer (ext.BytesToString prev.SerializedEvidence) with
              | none => .returnFalse ps
              | some stripped =>
                .next seen (ps ++ [ConstructSevSpeaksForStatement
                  (KeyFromPemFormat ext stripped) ud.EnclaveKey (some m)])
          | _ => .returnFalse ps

/-- The branch of `InitProvedStatements` for a `sev-attestation` item `evidenceList[i]`. -/
def sevAttestationItem (ext : Externals) : ItemHandler := fun evidenceList i seen ps =>
  match evidenceList[i]? with
  | none => .panic
  | some ev =>
    match ps.getLast? with
    | none => .returnFalse ps
    | some last =>
      match last.Clause with
      | none => .returnFalse ps
      | some inner =>
        match inner.Subject with
        | none => .returnFalse ps
        | some vcekVerifyKeyEnt =>
          if GetEntityType (some vcekVerifyKeyEnt) ≠ "key" then .returnFalse ps
          else
            match vcekVerifyKeyEnt.Key with
            | none => .returnFalse ps
            | some vcekKey =>
              match VerifySevAttestation ext ev.SerializedEvidence (some vcekKey) with
              | none => .panic
              | some none => .returnFalse ps
              | some (some m) =>
                match ext.UnmarshalSevAttestation ev.SerializedEvidence with
                | none => .returnFalse ps
                | some am =>
                  match ext.UnmarshalUserData am.WhatWasSaid with
                  | none => .returnFalse ps
                  | some ud =>
                    match ud.EnclaveKey with
                    | none => .returnFalse ps
                    | some enclaveKey =>
                      .next seen (ps ++ [ConstructSevSpeaksForStatement (some vcekKey)
                        (some enclaveKey) (some m)])

/-- The branch of `InitProvedStatements` for a `cert` item `evidenceList[i]`. The pool of
roots handed to `cert.Verify` holds the certificate `cert` itself
(`certPool.AddCert(cert)`). -/
def certItem (ext : Externals) : ItemHandler := fun evidenceList i seen ps =>
  match evidenceList[i]? with
  | none => .panic
  | some ev =>
    match Asn1ToX509 ext ev.SerializedEvidence with
    | none => .returnFalse ps
    | some cert =>
      match GetSubjectKey cert with
      | none => .returnFalse ps
      | some subjKey =>
        match FindKeySeen seen (GetKeyName (some subjKey)) with
        | none => .panic
        | some found =>
          match (if found.isNone then AddKeySeen seen (some subjKey) else some (true, seen)) with
          | none => .panic
          | some (false, _) => .returnFalse ps
          | some (true, seen2) =>
            match FindKeySeen seen2 (GetIssuerNameFromCert cert) with
            | none => .panic
            | some none => .returnFalse ps
            | some (some signerKey) =>
              if !(ext.X509Verify cert [cert]) then .returnFalse ps
              else
                .next seen2 (ps ++ [ConstructVseAttestationFromCert (some subjKey)
                  (some signerKey)])

/-- The branch of `InitProvedStatements` for a `signed-vse-attestation-report` item
`evidenceList[i]`. -/
def signedVseAttestationReportItem (ext : Externals) : ItemHandler :=
  fun evidenceList i seen ps =>
  match evidenceList[i]? with
  | none => .panic
  | some ev =>
    match ext.UnmarshalSignedReport ev.SerializedEvidence with
    | none => .returnFalse ps
    | some sr =>
      match ext.UnmarshalReportInfo sr.Report with
      | none => .returnFalse ps
      | some info =>
        match ext.UnmarshalUserData info.UserData with
        | none => .returnFalse ps
        | some ud =>
          match VerifyReport ext "vse-attestation-report" sr.SigningKey ev.SerializedEvidence with
          | none => .panic
          | some false => .next seen ps
          | some true =>
            if CheckTimeRange ext info.NotBefore info.NotAfter then
              .next seen (ps ++ [ConstructVseAttestClaim sr.SigningKey ud.EnclaveKey
                info.VerifiedMeasurement])
            else .next seen ps

/-- The five branches of `InitProvedStatements`, as the source has them, over the external
collaborators `ext`. -/
def sourceHandlers (ext : Externals) : EvidenceHandlers :=
  { signedClaim := signedClaimItem ext,
    oeAttestationReport := oeAttestationReportItem ext,
    sevAttestation := sevAttestationItem ext,
    cert := certItem ext,
    signedVseAttestationReport := signedVseAttestationReportItem ext }

/-- What one evidence item may do to the proved list `ps`: fault, return false with the
list as it was, or go on with the list as it was or with one clause appended. -/
def ItemResult.Extends (ps : List VseClause) : ItemResult → Prop
  | .panic => True
  | .returnFalse ps2 => ps2 = ps
  | .next _ ps2 => ps2 = ps ∨ ∃ c, ps2 = ps ++ [c]

/-! ## A small world of external collaborators, for concrete runs -/

/-- A 384-bit curve with small numbers, and the public point `(x, y)`. -/
def exampleEcdsaKey (x y : Nat) : EcdsaPublicKey :=
  { Curve := some { BitSize := 384, P := some 7, B := some 1, Gx := some 2, Gy := some 3 },
    X := some x, Y := some y }

/-- A certificate for subject `A`, issued by `A`. -/
def exampleCertA : X509Certificate :=
  { SubjectCommonName := "A", IssuerCommonName := "A",
    PublicKey := .ecdsa (exampleEcdsaKey 4 5), raw := [1] }

/-- A certificate for subject `B` that names `A` as its issuer. -/
def exampleCertB : X509Certificate :=
  { SubjectCommonName := "B", IssuerCommonName := "A",
    PublicKey := .ecdsa (exampleEcdsaKey 6 7), raw := [2] }

/-- A signed claim message of the key `rsaKey "p" [3]` with the given signing key and
signature. -/
def exampleSignedClaim (k : Option KeyMessage) (sig : Bytes) : SignedClaimMessage :=
  { SerializedClaimMessage := some [2], SigningKey := k,
    SigningAlgorithm := some "rsa-2048-sha256-pkcs-sign", Signature := some sig }

/-- External collaborators for concrete runs. Evidence payload `[1]` decodes to a signed
claim with signature `[9]`, payload `[2]` to the same claim with signature `[1]`, payload
`[3]` to the same claim without signing key; every claim message decodes to a `vse-clause`
claim that holds `p says (e is-trusted)`; the only valid signature is `[1]`; all time strings
scan to the clock reading; certificate payloads `[1]` and `[2]` parse to `exampleCertA` and
`exampleCertB`; chain verification accepts a certificate exactly when it is itself in the
pool of roots, so no certificate counts as signed by another one. -/
def exampleExternals : Externals :=
  { UnmarshalSignedClaim := fun b =>
      if b = some [1] then some (exampleSignedClaim (some (rsaKey "p" [3])) [9])
      else if b = some [2] then some (exampleSignedClaim (some (rsaKey "p" [3])) [1])
      else if b = some [3] then some (exampleSignedClaim none [1])
      else none,
    UnmarshalClaim := fun _ =>
      some { ClaimFormat := some "vse-clause", ClaimDescriptor := none, NotBefore := some "",
             NotAfter := some "", SerializedClaim := some [4] },
    UnmarshalVseClause := fun _ =>
      some (keySays (rsaKey "p" [3]) (keyIs (rsaKey "e" [5]) "is-trusted")),
    UnmarshalSignedReport := fun _ => none,
    UnmarshalReportInfo := fun _ => none,
    UnmarshalUserData := fun _ => none,
    UnmarshalSevAttestation := fun _ => none,
    Now := { Year := some 2024, Month := some 1, Day := some 1, Hour := some 0,
             Minute := some 0, Seconds := some (.num 0) },
    Sscanf := fun _ => (2024, 1, 1, 0, 0, .num 0),
    Sum256 := fun _ => [],
    Sum384 := fun _ => [],
    VerifyPKCS1v15 := fun _ _ sig => decide (sig = some [1]),
    EcdsaVerify := fun _ _ _ _ => false,
    P384 := { BitSize := 384, P := some 7, B := some 1, Gx := some 2, Gy := some 3 },
    OEHostVerifyEvidence := fun _ _ => (none, none, false),
    Base64Decode := fun _ => none,
    BytesToString := fun _ => "",
    ParseCertificate := fun b =>
      if b = some [1] then some exampleCertA
      else if b = some [2] then some exampleCertB
      else none,
    X509Verify := fun c roots => decide (c ∈ roots) }

/-- A key named by the one-letter string with code `65 + i`. -/
def numberedKey (i : Nat) : KeyMessage :=
  rsaKey (String.singleton (Char.ofNat (65 + i))) [i]

/-- The seen-keys table after `AddKeySeen` for the keys `numberedKey 0`, ..., in order,
starting from `list`; `none` as soon as one of the calls faults or returns false. -/
def addNumberedKeys (list : CertSeenList) : List Nat → Option CertSeenList
  | [] => some list
  | i :: rest =>
    match AddKeySeen list (some (numberedKey i)) with
    | some (true, list2) => addNumberedKeys list2 rest
    | _ => none

/-- The clause `e is-trusted-for-attestation` for the key `rsaKey "e" [5]`, carrying a nested
clause `e is-trusted`. -/
def unaryWithNestedClause : VseClause :=
  .mk (some (MakeKeyEntity (some (rsaKey "e" [5])))) (some "is-trusted-for-attestation") none
    (some (keyIs (rsaKey "e" [5]) "is-trusted"))

/-! ## Public shadow of a private key -/

/-- Go `InternalPublicFromPrivateKey(privateKey)`: nil unless the key type is one of the
three RSA private types and the RSA part is there (the getters make a nil key yield nil);
otherwise a new key message with the public type, the name, format, certificate and validity
strings of the private key, and an RSA part that holds only modulus and public exponent. -/
def InternalPublicFromPrivateKey (privateKey : Option KeyMessage) : Option KeyMessage :=
  match privateKey with
  | none => none
  | some k =>
    let publicKey (kt : String) : Option KeyMessage :=
      match k.RsaKey with
      | none => none
      | some r =>
        some { KeyName := k.KeyName, KeyType := some kt, KeyFormat := k.KeyFormat,
               RsaKey := some { PublicModulus := r.PublicModulus,
                                PublicExponent := r.PublicExponent, PrivateExponent := none },
               EccKey := none, Certificate := k.Certificate, NotBefore := k.NotBefore,
               NotAfter := k.NotAfter }
    if GetKeyType (some k) = "rsa-1024-private" then publicKey "rsa-1024-public"
    else if GetKeyType (some k) = "rsa-2048-private" then publicKey "rsa-2048-public"
    else if GetKeyType (some k) = "rsa-4096-private" then publicKey "rsa-4096-public"
    else none

/-! ## Padding -/

/-- The assignment `out[i] = v` on a slice: `none` is the panic for an index out of range. -/
def setByte (out : Bytes) (i v : Nat) : Option Bytes :=
  if i < out.length then some (out.set i v) else none

/-- The first loop of `Pad`, `for i := 0; i < inLen; i++ { out[i] = in[i] }`, at index `i`
with `n` rounds to go; `none` is a panic for an index out of range. -/
def PadCopyLoop (inp : Bytes) : Nat → Nat → Bytes → Option Bytes
  | 0, _, out => some out
  | n + 1, i, out =>
    match inp[i]? with
    | none => none
    | some v =>
      match setByte out i v with
      | none => none
      | some out2 => PadCopyLoop inp n (i + 1) out2

/-- The second loop of `Pad`, `for i := inLen + 1; i < outLen; i++ { out[i] = 0 }`, at index
`i` with `n` rounds to go. -/
def PadZeroLoop : Nat → Nat → Bytes → Option Bytes
  | 0, _, out => some out
  | n + 1, i, out =>
    match setByte out i 0 with
    | none => none
    | some out2 => PadZeroLoop n (i + 1) out2

/-- Go `Pad(in)`: `none` is a panic. The block size `aes.BlockSize` is 16; `make` gives
`outLen` zero bytes. Lengths are far below the range of `int`, so the sums do not wrap. -/
def Pad (inp : Option Bytes) : Option Bytes :=
  let inLen := (inp.getD []).length
  let outLen := if inLen % 16 ≠ 0 then ((inLen + 16 - 1) / 16) * 16 else inLen + 16
  match PadCopyLoop (inp.getD []) inLen 0 (List.replicate outLen 0) with
  | none => none
  | some out1 =>
    match setByte out1 inLen 0x80 with
    | none => none
    | some out2 => PadZeroLoop (outLen - (inLen + 1)) (inLen + 1) out2

/-- The loop of `Depad`, `for i := n - 1; i >= 0; i--`, with `m` indices `m - 1, ..., 0` still
to look at; the index is below `len(in)` throughout, so no read is out of range. The
result `none` is the nil slice. -/
def DepadLoop (inp : Bytes) : Nat → Option Bytes
  | 0 => none
  | i + 1 => if inp.getD i 0 = 0x80 then some (inp.take i) else DepadLoop inp i

/-- Go `Depad(in)`: the bytes before the last byte `0x80`, or nil (`none`) without one. -/
def Depad (inp : Option Bytes) : Option Bytes :=
  DepadLoop (inp.getD []) (inp.getD []).length

/-! ## Specification-side definitions for keys, clauses and the tree -/

/-- A well-formed entity: a measurement, or a key entity whose key is there and
well-formed. -/
def WellFormedEntity (e : EntityMessage) : Bool :=
  if GetEntityType (some e) = "measurement" then true
  else if GetEntityType (some e) = "key" then
    match e.Key with
    | some k => WellFormedKey k
    | none => false
  else false

/-- A well-formed subject: present and well-formed. -/
def WellFormedSubject (s : Option EntityMessage) : Bool :=
  match s with
  | some e => WellFormedEntity e
  | none => false

/-- A well-formed object: absent, or well-formed. -/
def WellFormedObject (o : Option EntityMessage) : Bool :=
  match o with
  | some e => WellFormedEntity e
  | none => true

/-- A well-formed clause: unary, simple or indirect (the subject is there, and not both
an object and a nested clause), with well-formed entities and a well-formed nested
clause. -/
def WellFormedClause : VseClause → Bool
  | .mk s _ o none => WellFormedSubject s && WellFormedObject o
  | .mk s _ o (some c) => WellFormedSubject s && o.isNone && WellFormedClause c

/-- The public part of a key message: the key type and the public parameters stay, the
name, the format, the certificate, the validity strings, the RSA private exponent and the
ECC private multiplier are blanked. Two keys have the same public part exactly when one
arises from the other by replacing those fields. -/
def publicPartOfKey (k : KeyMessage) : KeyMessage :=
  { KeyName := none, KeyType := k.KeyType, KeyFormat := none,
    RsaKey := k.RsaKey.map (fun r => { r with PrivateExponent := none }),
    EccKey := k.EccKey.map (fun e => { e with PrivateMultiplier := none }),
    Certificate := none, NotBefore := none, NotAfter := none }

/-- The public part of an entity: its key is cut down to the public part. -/
def publicPartOfEntity (e : EntityMessage) : EntityMessage :=
  { e with Key := e.Key.map publicPartOfKey }

/-- The public part of a clause: every entity in it is cut down to the public part. -/
def publicPartOfClause : VseClause → VseClause
  | .mk s v o none => .mk (s.map publicPartOfEntity) v (o.map publicPartOfEntity) none
  | .mk s v o (some c) =>
    .mk (s.map publicPartOfEntity) v (o.map publicPartOfEntity) (some (publicPartOfClause c))

/-- Whether some node of the sibling list that starts at `n`, or a node below one of
them, has predicate `d`. -/
def occursIn : PredicateDominance → String → Bool
  | .null, _ => false
  | .node p fc nx, d => (p == d || occursIn fc d) || occursIn nx d

/-- The dominance relation as the specification words it: some node with predicate
`parent`, among the sibling list that starts at `n` and everything below, has a node with
predicate `d` in the subtree below it. -/
def someNodeHasBelow : PredicateDominance → String → String → Bool
  | .null, _, _ => false
  | .node p fc nx, parent, d =>
    ((p == parent && occursIn fc d) || someNodeHasBelow fc parent d) ||
      someNodeHasBelow nx parent d

/-- The tree after a sequence of `Insert` calls (parent, descendant) that all return true;
`none` as soon as one of the calls faults or returns false. -/
def insertAll (t : PredicateDominance) : List (String × String) → Option PredicateDominance
  | [] => some t
  | (parent, d) :: rest =>
    match Insert t parent d with
    | some (true, t2) => insertAll t2 rest
    | _ => none

/-- The node a sibling list continues with (nil for the nil pointer). -/
def PredicateDominance.nextOf : PredicateDominance → PredicateDominance
  | .null => .null
  | .node _ _ nx => nx

/-! ## More concrete inputs -/

/-- An RSA-2048 private key with the given name, modulus bytes, public exponent 65537 and
private exponent bytes. -/
def rsaPrivateKey (name : String) (modulus privateExponent : Bytes) : KeyMessage :=
  { KeyName := some name, KeyType := some "rsa-2048-private", KeyFormat := some "vse-key",
    RsaKey := some { PublicModulus := some modulus, PublicExponent := some [1, 0, 1],
                     PrivateExponent := some privateExponent },
    EccKey := none, Certificate := none, NotBefore := none, NotAfter := none }

/-- The world `exampleExternals` with two changes: every claim message decodes to a
`vse-clause` claim that carries neither `not_before` nor `not_after`, and `fmt.Sscanf`
reaches no value on the empty string (it reports an unexpected end of input), so all six
stay zero; every other time string scans to the clock reading. -/
def exampleExternalsWithoutBounds : Externals :=
  { exampleExternals with
    UnmarshalClaim := fun _ =>
      some { ClaimFormat := some "vse-clause", ClaimDescriptor := none, NotBefore := none,
             NotAfter := none, SerializedClaim := some [4] },
    Sscanf := fun s => if s = "" then (0, 0, 0, 0, 0, .num 0) else (2024, 1, 1, 0, 0, .num 0) }

/-- The comparison `SameKey` makes of two ECC parts that are both there, as one function:
false unless both have base point, public point and curve name, the names agree, and
`SamePoint` holds of the base points and of the public points. -/
def sameEccParameters (e1 e2 : EccMessage) : Bool :=
  match e1.BasePoint, e2.BasePoint with
  | some b1, some b2 =>
    match e1.PublicPoint, e2.PublicPoint with
    | some p1, some p2 =>
      match e1.CurveName, e2.CurveName with
      | some n1, some n2 => if n1 ≠ n2 then false else SamePoint b1 b2 && SamePoint p1 p2
      | _, _ => false
    | _, _ => false
  | _, _ => false

/-- The comparison `SameKey` makes of two RSA parts that are both there. -/
def sameRsaParameters (r1 r2 : RsaMessage) : Bool :=
  bytesEqual r1.PublicModulus r2.PublicModulus && bytesEqual r1.PublicExponent r2.PublicExponent

/-- The tree after `InitDominance` and three calls of `Insert` that return true: `c` under
the root, `x` under `is-trusted-for-attestation`, `d` under the root. -/
def skewedTree : PredicateDominance :=
  .node "is-trusted"
    (.node "d" .null
      (.node "c" .null
        (.node "is-trusted-for-authentication" .null
          (.node "is-trusted-for-attestation" (.node "x" .null .null) .null))))
    .null

/-- The tree after `InitDominance` and one call of `Insert` that returns true: `c` under the
root, which then has three children. -/
def threeChildrenTree : PredicateDominance :=
  .node "is-trusted"
    (.node "c" .null
      (.node "is-trusted-for-authentication" .null
        (.node "is-trusted-for-attestation" .null .null)))
    .null

/-! ## Symmetric encryption -/

/-- The library functions the encryption code calls, as parameters: `CryptBlocks` of the
AES-CBC encrypter and of the AES-CBC decrypter made from a key and an iv, on a source of
whole blocks, and HMAC-SHA256 of a key and a message. -/
structure CipherExternals where
  CbcEncrypt : Bytes → Bytes → Bytes → Bytes
  CbcDecrypt : Bytes → Bytes → Bytes → Bytes
  HmacSha256 : Bytes → Bytes → Bytes

/-- Whether `aes.NewCipher(key)` returns no error: the key has 16, 24 or 32 bytes. -/
def aesKeySizeOk (key : Bytes) : Bool :=
  key.length == 16 || key.length == 24 || key.length == 32

/-- The buffer `dst` after `CryptBlocks(dst, src)` has written its result `res` over the
start of `dst`; the bytes of `dst` after the result stay as they were. -/
def writeBlocks (dst res : Bytes) : Bytes :=
  res.take dst.length ++ dst.drop res.length

/-- Go `Encrypt(in, key, iv)`: `none` is a panic, `some none` the nil result. The copy of the
iv reads `iv[0]` to `iv[15]`, `cipher.NewCBCEncrypter` panics unless the iv has 16 bytes, and
`CryptBlocks` panics on a source that is not a whole number of blocks. -/
def Encrypt (ext : CipherExternals) (inp key iv : Option Bytes) : Option (Option Bytes) :=
  if !aesKeySizeOk (key.getD []) then some none
  else
    match Pad inp with
    | none => none
    | some padded =>
      if (iv.getD []).length < 16 then none
      else if (iv.getD []).length ≠ 16 then none
      else if padded.length % 16 ≠ 0 then none
      else
        some (some ((iv.getD []).take 16 ++
          writeBlocks (List.replicate padded.length 0)
            (ext.CbcEncrypt (key.getD []) (iv.getD []) padded)))

/-- Go `Decrypt(in, key)`: `none` is a panic, `some none` the nil result. With fewer than 16
bytes either `in[0:16]` or `in[16:]` is out of range; `CryptBlocks` panics on a source that
is not a whole number of blocks; the buffer `out` has `len(in)` bytes, of which the last 16
stay zero. -/
def Decrypt (ext : CipherExternals) (inp key : Option Bytes) : Option (Option Bytes) :=
  if !aesKeySizeOk (key.getD []) then some none
  else if (inp.getD []).length < 16 then none
  else if ((inp.getD []).drop 16).length % 16 ≠ 0 then none
  else
    some (Depad (some (writeBlocks (List.replicate (inp.getD []).length 0)
      (ext.CbcDecrypt (key.getD []) ((inp.getD []).take 16) ((inp.getD []).drop 16)))))

/-- Go `AuthenticatedEncrypt(in, key, iv)`: `none` is a panic, otherwise the result. On a key
of fewer than 32 bytes `key[0:32]` is out of range when the capacity is below 32, and
otherwise `key[32:]` is, after `Encrypt`; past that test a panic is a panic of `Encrypt`. -/
def AuthenticatedEncrypt (ext : CipherExternals) (inp key iv : Option Bytes) :
    Option (Option Bytes) :=
  if (key.getD []).length < 32 then none
  else
    match Encrypt ext inp (some ((key.getD []).take 32)) iv with
    | none => none
    | some cip =>
      some (some (cip.getD [] ++ ext.HmacSha256 ((key.getD []).drop 32) (cip.getD [])))

/-- Go `AuthenticatedDecrypt(in, key)`: `none` is a panic, `some none` the nil result. The
slice `key[32:]` is out of range on a key of fewer than 32 bytes; `n := len(in) - 32` is
negative on an input of fewer than 32 bytes, and then `in[0:n]` is out of range. -/
def AuthenticatedDecrypt (ext : CipherExternals) (inp key : Option Bytes) :
    Option (Option Bytes) :=
  if (key.getD []).length < 32 then none
  else if (inp.getD []).length < 32 then none
  else
    if !bytesEqual (some ((inp.getD []).drop ((inp.getD []).length - 32)))
        (some (ext.HmacSha256 ((key.getD []).drop 32)
          ((inp.getD []).take ((inp.getD []).length - 32)))) then some none
    else
      Decrypt ext (some ((inp.getD []).take ((inp.getD []).length - 32)))
        (some ((key.getD []).take 32))

/-- A toy cipher for concrete runs: encryption and decryption reverse the bytes, and the mac
is 32 copies of the sum of all key and message bytes modulo 256. -/
def exampleCipher : CipherExternals :=
  { CbcEncrypt := fun _ _ p => p.reverse,
    CbcDecrypt := fun _ _ c => c.reverse,
    HmacSha256 := fun k m => List.replicate 32 ((k.sum + m.sum) % 256) }

/-- The 64-byte key `0, 1, ..., 63`. -/
def exampleSealingKey : Bytes :=
  List.range 64

/-- The 16-byte iv `17, 18, ..., 32`. -/
def exampleSealIv : Bytes :=
  (List.range 16).map (fun i => i + 17)

/-- The blob `AuthenticatedEncrypt` returns for the message `1, 2, 3` under the key
`0, ..., 63` and the iv `17, ..., 32` with the toy cipher. -/
def exampleSealedBlob : Bytes :=
  ((AuthenticatedEncrypt exampleCipher (some [1, 2, 3]) (some exampleSealingKey)
    (some exampleSealIv)).getD none).getD []

/-! ## Order of time points -/

/-- The place of a float that is not NaN in the order of the extended rationals: minus
infinity at the bottom, plus infinity at the top. -/
def Float64.rank : Float64 → WithBot (WithTop ℚ)
  | .negInf => ⊥
  | .num q => ((q : WithTop ℚ) : WithBot (WithTop ℚ))
  | .posInf => ((⊤ : WithTop ℚ) : WithBot (WithTop ℚ))
  | .nan => ⊥

/-- The six fields of a time point as a tuple in the lexicographic order: year first,
seconds last. -/
def timeKey (t : TimePoint) : ℤ ×ₗ ℤ ×ₗ ℤ ×ₗ ℤ ×ₗ ℤ ×ₗ WithBot (WithTop ℚ) :=
  toLex (t.GetYear, toLex (t.GetMonth, toLex (t.GetDay, toLex (t.GetHour,
    toLex (t.GetMinute, t.GetSeconds.rank)))))

/-- A time point with all six fields set, seconds a rational number. -/
def timePointOf (y mo d h mi : Int) (s : ℚ) : TimePoint :=
  { Year := some y, Month := some mo, Day := some d, Hour := some h, Minute := some mi,
    Seconds := some (.num s) }

/-! ## Floating-point and 32-bit integer arithmetic -/

/-- The nearest integer to a rational number, the even one of two that are equally near. -/
def roundHalfEven (x : ℚ) : Int :=
  if x - ⌊x⌋ < 1 / 2 then ⌊x⌋
  else if 1 / 2 < x - ⌊x⌋ then ⌊x⌋ + 1
  else if ⌊x⌋ % 2 = 0 then ⌊x⌋
  else ⌊x⌋ + 1

/-- The exponent of the spacing of the `float64` numbers around `q`: 52 below the exponent
of the power of two at or below `|q|`, and not less than -1074 (the subnormal range). -/
def ulpExponent (q : ℚ) : Int :=
  max (Int.log 2 |q| - 52) (-1074)

/-- The `float64` a real result is rounded to: to the nearest number of the format, ties to
the even one, and to an infinity from `2^1024` on. Go has a zero of either sign; they
compare equal and the model has one zero. -/
def Float64.ofRat (q : ℚ) : Float64 :=
  if q = 0 then .num 0
  else if (2 : ℚ) ^ (1024 : Nat) ≤
      (roundHalfEven (q / (2 : ℚ) ^ ulpExponent q) : ℚ) * (2 : ℚ) ^ ulpExponent q then .posInf
  else if (roundHalfEven (q / (2 : ℚ) ^ ulpExponent q) : ℚ) * (2 : ℚ) ^ ulpExponent q ≤
      -(2 : ℚ) ^ (1024 : Nat) then .negInf
  else .num ((roundHalfEven (q / (2 : ℚ) ^ ulpExponent q) : ℚ) * (2 : ℚ) ^ ulpExponent q)

/-- Go `-a` on `float64`. -/
def Float64.neg : Float64 → Float64
  | .nan => .nan
  | .negInf => .posInf
  | .posInf => .negInf
  | .num a => .num (-a)

/-- Go `a + b` on `float64`. -/
def Float64.add : Float64 → Float64 → Float64
  | .nan, _ => .nan
  | _, .nan => .nan
  | .posInf, .negInf => .nan
  | .negInf, .posInf => .nan
  | .posInf, _ => .posInf
  | _, .posInf => .posInf
  | .negInf, _ => .negInf
  | _, .negInf => .negInf
  | .num a, .num b => Float64.ofRat (a + b)

/-- Go `a - b` on `float64`. -/
def Float64.sub (a b : Float64) : Float64 :=
  Float64.add a (Float64.neg b)

/-- Go `a * b` on `float64`. -/
def Float64.mul : Float64 → Float64 → Float64
  | .nan, _ => .nan
  | _, .nan => .nan
  | .num a, .num b => Float64.ofRat (a * b)
  | .num a, .posInf => if a = 0 then .nan else if 0 < a then .posInf else .negInf
  | .num a, .negInf => if a = 0 then .nan else if 0 < a then .negInf else .posInf
  | .posInf, .num b => if b = 0 then .nan else if 0 < b then .posInf else .negInf
  | .negInf, .num b => if b = 0 then .nan else if 0 < b then .negInf else .posInf
  | .posInf, .posInf => .posInf
  | .negInf, .negInf => .posInf
  | .posInf, .negInf => .negInf
  | .negInf, .posInf => .negInf

/-- Go `a / b` on `float64`, for a divisor that is not a zero: the source divides by the
constants 31536000, 86400, 3600 and 60 only. A finite number over a zero is taken as the
infinity of the sign of the number. -/
def Float64.div : Float64 → Float64 → Float64
  | .nan, _ => .nan
  | _, .nan => .nan
  | .num a, .num b =>
    if b = 0 then (if a = 0 then .nan else if 0 < a then .posInf else .negInf)
    else Float64.ofRat (a / b)
  | .num _, .posInf => .num 0
  | .num _, .negInf => .num 0
  | .posInf, .num b => if 0 ≤ b then .posInf else .negInf
  | .negInf, .num b => if 0 ≤ b then .negInf else .posInf
  | .posInf, .posInf => .nan
  | .negInf, .negInf => .nan
  | .posInf, .negInf => .nan
  | .negInf, .posInf => .nan

/-- The value of an `int32` computation whose exact result is `x`: reduced modulo `2^32` into
the range from `-2^31` to `2^31 - 1`. -/
def wrap32 (x : Int) : Int :=
  (x + 2 ^ 31) % 2 ^ 32 - 2 ^ 31

/-- Go `float64(n)` for an `int32` value `n`. -/
def Float64.ofInt32 (n : Int) : Float64 :=
  Float64.ofRat n

/-- The integer part of a rational number (rounding toward zero). -/
def truncRat (q : ℚ) : Int :=
  if 0 ≤ q then ⌊q⌋ else ⌈q⌉

/-- Go `int32(x)` for a `float64` value `x`: the integer part when it fits `int32`; otherwise
the language leaves the result to the implementation, which is the parameter `impl`. -/
def toInt32 (impl : Float64 → Int) (x : Float64) : Int :=
  match x with
  | .num q => if -2 ^ 31 ≤ truncRat q ∧ truncRat q < 2 ^ 31 then truncRat q else wrap32 (impl x)
  | _ => wrap32 (impl x)

/-! ## Adding seconds to a time point -/

/-- What one round of the `for` loop of `TimePointPlus` does while `exitFlag` is false: it
sets the day and raises the flag, or it goes on with a month and a number of days. -/
inductive MonthRound where
  | exit (day : Int)
  | next (mo nd : Int)
deriving DecidableEq

/-- One round of the `for` loop of `TimePointPlus`: the `switch` on `1 + ((mo - 1) % 12)`,
where `%` is the Go remainder, which has the sign of `mo - 1`. When no case matches nothing
changes. -/
def monthRound (mo nd : Int) : MonthRound :=
  if wrap32 (1 + Int.tmod (wrap32 (mo - 1)) 12) = 2 then
    if nd ≤ 28 then .exit nd else .next (wrap32 (mo + 1)) (wrap32 (nd - 28))
  else if wrap32 (1 + Int.tmod (wrap32 (mo - 1)) 12) = 4 ∨
      wrap32 (1 + Int.tmod (wrap32 (mo - 1)) 12) = 6 ∨
      wrap32 (1 + Int.tmod (wrap32 (mo - 1)) 12) = 9 ∨
      wrap32 (1 + Int.tmod (wrap32 (mo - 1)) 12) = 11 then
    if nd ≤ 30 then .exit nd else .next (wrap32 (mo + 1)) (wrap32 (nd - 30))
  else if wrap32 (1 + Int.tmod (wrap32 (mo - 1)) 12) = 1 ∨
      wrap32 (1 + Int.tmod (wrap32 (mo - 1)) 12) = 3 ∨
      wrap32 (1 + Int.tmod (wrap32 (mo - 1)) 12) = 5 ∨
      wrap32 (1 + Int.tmod (wrap32 (mo - 1)) 12) = 7 ∨
      wrap32 (1 + Int.tmod (wrap32 (mo - 1)) 12) = 8 ∨
      wrap32 (1 + Int.tmod (wrap32 (mo - 1)) 12) = 10 ∨
      wrap32 (1 + Int.tmod (wrap32 (mo - 1)) 12) = 12 then
    if nd ≤ 31 then .exit nd else .next (wrap32 (mo + 1)) (wrap32 (nd - 31))
  else .next mo nd

/-- The `for` loop of `TimePointPlus`, run for at most `fuel` rounds: the month and the day
it exits with, or `none` when it has not exited after `fuel` rounds. -/
def monthLoop : Nat → Int → Int → Option (Int × Int)
  | 0, _, _ => none
  | fuel + 1, mo, nd =>
    match monthRound mo nd with
    | .exit day => some (mo, day)
    | .next mo2 nd2 => monthLoop fuel mo2 nd2

/-- Go `TimePointPlus(t, d)` with the loop run for at most `fuel` rounds: `none` when the
loop has not exited by then. All integer variables are `int32`; `impl` is the conversion
of an out-of-range `float64` to `int32`. -/
def TimePointPlus (impl : Float64 → Int) (fuel : Nat) (t : TimePoint) (d : Float64) :
    Option TimePoint :=
  let ns0 := Float64.add t.GetSeconds d
  let ny := toInt32 impl (Float64.div ns0 (.num 31536000))
  let ns1 := Float64.sub ns0
    (Float64.mul (Float64.mul (Float64.ofInt32 ny) (.num 365)) (.num 86400))
  let nd := toInt32 impl (Float64.div ns1 (.num 86400))
  let ns2 := Float64.sub ns1 (Float64.mul (Float64.ofInt32 nd) (.num 86400))
  let nh := toInt32 impl (Float64.div ns2 (.num 3600))
  let ns3 := Float64.sub ns2 (Float64.ofInt32 (wrap32 (nh * 3600)))
  let nm := toInt32 impl (Float64.div ns3 (.num 60))
  let ns4 := Float64.sub ns3 (Float64.ofInt32 (wrap32 (nm * 60)))
  let nm2 := wrap32 (nm + t.GetMinute)
  let nh2 := wrap32 (nh + wrap32 (Int.tdiv nm2 60 + t.GetHour))
  let nd2 := wrap32 (nd + wrap32 (Int.tdiv nh2 24 + t.GetDay))
  match monthLoop fuel t.GetMonth nd2 with
  | none => none
  | some (mo, day) =>
    some { Year := some (wrap32 (wrap32 (t.GetYear + ny) + Int.tdiv (wrap32 (mo - 1)) 12)),
           Month := some (wrap32 (mo - wrap32 (Int.tdiv (wrap32 (mo - 1)) 12 * 12))),
           Day := some day,
           Hour := some (wrap32 (nh2 - wrap32 (24 * Int.tdiv nh2 24))),
           Minute := some (wrap32 (nm2 - wrap32 (60 * Int.tdiv nm2 60))),
           Seconds := some ns4 }

/-- The number of days of the simplified calendar before the first day of month `mo`, for
months counted on past 12 into the following years. -/
def daysBeforeMonth (mo : Int) : Int :=
  365 * ((mo - 1) / 12) +
    (if (mo - 1) % 12 = 0 then 0 else if (mo - 1) % 12 = 1 then 31
     else if (mo - 1) % 12 = 2 then 59 else if (mo - 1) % 12 = 3 then 90
     else if (mo - 1) % 12 = 4 then 120 else if (mo - 1) % 12 = 5 then 151
     else if (mo - 1) % 12 = 6 then 181 else if (mo - 1) % 12 = 7 then 212
     else if (mo - 1) % 12 = 8 then 243 else if (mo - 1) % 12 = 9 then 273
     else if (mo - 1) % 12 = 10 then 304 else 334)

/-- The length of month `mo` in the table 31, 28, 31, 30, 31, 30, 31, 31, 30, 31, 30, 31, for
months counted on past 12. -/
def daysInMonth (mo : Int) : Int :=
  if (mo - 1) % 12 = 1 then 28
  else if (mo - 1) % 12 = 3 ∨ (mo - 1) % 12 = 5 ∨ (mo - 1) % 12 = 8 ∨ (mo - 1) % 12 = 10 then 30
  else 31

/-- The position of a time point with whole seconds `s` in the 365-day calendar, counted in
seconds. -/
def calendarSeconds (y mo d h mi s : Int) : Int :=
  ((((y * 365 + daysBeforeMonth mo + (d - 1)) * 24 + h) * 60 + mi) * 60) + s

/-! ## The simulated enclave -/

/-- Go `rsa.PrivateKey` as far as the source reads it: the public key and the private
exponent; a nil `D` is `none`. -/
structure RsaPrivateKey where
  PublicKey : RsaPublicKey
  D : Option Nat
deriving DecidableEq

/-- The library functions the simulated enclave calls, as parameters: RSA key generation
(`none` is an error), PKCS#1 v1.5 signing of a hash (`none` is an error; the signature does
not depend on the random source), `proto.Marshal` for the two claim messages (`none` is an
error), `fmt.Sprintf` with the format of a time string, and the conversion of an
out-of-range `float64` to `int32`. -/
structure EnclaveExternals where
  GenerateKey : Int → Option RsaPrivateKey
  SignPKCS1v15 : RsaPrivateKey → Bytes → Option Bytes
  MarshalClaim : ClaimMessage → Option Bytes
  MarshalSignedClaim : SignedClaimMessage → Option Bytes
  /-- The string `fmt.Sprintf("%04d:%02d:%02dT%02d:%02d:%vZ", ...)` of six values. -/
  Sprintf : Int → Int → Int → Int → Int → Float64 → String
  ImplInt32 : Float64 → Int

/-- The package variables of the simulated enclave. -/
structure EnclaveState where
  privateAttestKey : Option KeyMessage
  publicAttestKey : Option KeyMessage
  rsaPublicAttestKey : RsaPublicKey
  rsaPrivateAttestKey : RsaPrivateKey
  sealingKey : Bytes
  sealIv : Bytes
  simulatedInitialized : Bool
deriving DecidableEq

/-- The package variables as the program starts: nil keys, zero values, not initialised. -/
def initialEnclaveState : EnclaveState :=
  { privateAttestKey := none, publicAttestKey := none,
    rsaPublicAttestKey := { N := 0, E := 0 },
    rsaPrivateAttestKey := { PublicKey := { N := 0, E := 0 }, D := none },
    sealingKey := List.replicate 64 0, sealIv := List.replicate 16 0,
    simulatedInitialized := false }

/-- Go `MakeRsaKey(n)`: nil (`none`) when key generation fails. -/
def MakeRsaKey (enc : EnclaveExternals) (n : Int) : Option RsaPrivateKey :=
  enc.GenerateKey n

/-- Go `GetInternalKeyFromRsaPrivateKey(name, pK, km)`: the result and the key message
afterwards. The name is not used; a nil `pK.D` is dereferenced by `pK.D.Bytes()`. -/
def GetInternalKeyFromRsaPrivateKey (_name : String) (pK : RsaPrivateKey) (km : KeyMessage) :
    Option (Bool × KeyMessage) :=
  match pK.D with
  | none => none
  | some d =>
    some (true, { km with
      RsaKey := some { PublicModulus := some (natToBytes pK.PublicKey.N),
                       PublicExponent := some (natToBytes (pK.PublicKey.E % 2 ^ 64).toNat),
                       PrivateExponent := some (natToBytes d) } })

/-- Go `MakeVseRsaKey(n)`: `none` is a panic, `some none` the nil result. -/
def MakeVseRsaKey (enc : EnclaveExternals) (n : Int) : Option (Option KeyMessage) :=
  match MakeRsaKey enc n with
  | none => some none
  | some pK =>
    let kf : Option String :=
      if n = 1024 then some "rsa-1024-private"
      else if n = 2048 then some "rsa-2048-private"
      else if n = 4096 then some "rsa-4096-private"
      else none
    match kf with
    | none => some none
    | some t =>
      match GetInternalKeyFromRsaPrivateKey "generatedKey" pK
          { KeyName := none, KeyType := some t, KeyFormat := none, RsaKey := none,
            EccKey := none, Certificate := none, NotBefore := none, NotAfter := none } with
      | none => none
      | some (false, _) => some none
      | some (true, km) => some (some km)

/-- What `GetRsaKeysFromInternal(k, pK, PK)` leaves in `pK`, on a key message with RSA part:
with a private exponent, the exponent and the public key `PK`; without one, `pK` as it was
(the assignment `pK = nil` rebinds the local pointer only). -/
def privateKeyFromInternal (r : RsaMessage) (PK : RsaPublicKey) (pK : RsaPrivateKey) :
    RsaPrivateKey :=
  match r.PrivateExponent with
  | some d => { PublicKey := PK, D := some (bytesToNat (some d)) }
  | none => pK

/-- Go `RsaSha256Sign(r, in)`: the PKCS#1 v1.5 signature of the SHA-256 hash of `in`, nil
(`none`) on an error. -/
def RsaSha256Sign (ext : Externals) (enc : EnclaveExternals) (r : RsaPrivateKey)
    (msg : Option Bytes) : Option Bytes :=
  enc.SignPKCS1v15 r (ext.Sum256 msg)

/-- Go `TimePointToString(tp)`. -/
def TimePointToString (enc : EnclaveExternals) (tp : TimePoint) : String :=
  enc.Sprintf tp.GetYear tp.GetMonth tp.GetDay tp.GetHour tp.GetMinute tp.GetSeconds

/-- Go `MakeClaim(serialized, format, desc, nb, na)`. -/
def MakeClaim (serialized : Option Bytes) (format desc nb na : String) : ClaimMessage :=
  { ClaimFormat := some format, ClaimDescriptor := some desc, NotBefore := some nb,
    NotAfter := some na, SerializedClaim := serialized }

/-- Go `InitSimulatedEnclave()`: the result and the package variables afterwards; `none` is
a panic. A nil result of `MakeVseRsaKey` is dereferenced by the assignment of the key
name. -/
def InitSimulatedEnclave (enc : EnclaveExternals) (st : EnclaveState) :
    Option (Bool × EnclaveState) :=
  match MakeVseRsaKey enc 2048 with
  | none => none
  | some none => none
  | some (some km) =>
    let priv : KeyMessage := { km with KeyName := some "simulatedAttestKey" }
    match InternalPublicFromPrivateKey (some priv) with
    | none => some (false, { st with privateAttestKey := some priv, publicAttestKey := none })
    | some pub =>
      match GetRsaKeysFromInternal (some priv), priv.RsaKey with
      | some (true, PK), some r =>
        some (true,
          { privateAttestKey := some priv, publicAttestKey := some pub,
            rsaPublicAttestKey := PK,
            rsaPrivateAttestKey := privateKeyFromInternal r PK st.rsaPrivateAttestKey,
            sealingKey := (List.range 64).map (fun i => i % 256),
            sealIv := (List.range 16).map (fun i => (i + 17) % 256),
            simulatedInitialized := true })
      | some (false, PK), some r =>
        some (false,
          { st with privateAttestKey := some priv, publicAttestKey := some pub,
                    rsaPublicAttestKey := PK,
                    rsaPrivateAttestKey := privateKeyFromInternal r PK st.rsaPrivateAttestKey })
      | _, _ => none

/-- Go `simultatedAttest(eType, toSay)`: `none` is a run that does not return, `some none`
the nil result. The loop of `TimePointPlus` gets `fuel` rounds. -/
def simultatedAttest (ext : Externals) (enc : EnclaveExternals) (fuel : Nat) (st : EnclaveState)
    (_eType : String) (toSay : Option Bytes) : Option (Option Bytes) :=
  if !st.simulatedInitialized then some none
  else
    match TimePointPlus enc.ImplInt32 fuel (TimePointNow ext) (.num 31536000) with
    | none => none
    | some tf =>
      match enc.MarshalClaim (MakeClaim toSay "vse-attestation" "attestation"
          (TimePointToString enc (TimePointNow ext)) (TimePointToString enc tf)) with
      | none => some none
      | some serCl =>
        match enc.MarshalSignedClaim
            { SerializedClaimMessage := some serCl, SigningKey := st.publicAttestKey,
              SigningAlgorithm := some "rsa-2048-sha256-pkcs-sign",
              Signature := RsaSha256Sign ext enc st.rsaPrivateAttestKey toSay } with
        | none => some none
        | some blob => some (some blob)

/-- Go `Attest(eType, toSay)`. -/
def Attest (ext : Externals) (enc : EnclaveExternals) (fuel : Nat) (st : EnclaveState)
    (eType : String) (toSay : Option Bytes) : Option (Option Bytes) :=
  if eType = "simulated-enclave" then simultatedAttest ext enc fuel st eType toSay
  else some none

/-- Go `VerifyAttestation(eType, attestBlob, k)`. -/
def VerifyAttestation (ext : Externals) (_eType : String) (attestBlob : Option Bytes)
    (k : Option KeyMessage) : Option Bool :=
  match ext.UnmarshalSignedClaim attestBlob with
  | none => some false
  | some sc => VerifySignedClaim ext sc k

/-- The public attestation key of the example enclave: modulus 3233, exponent 17. -/
def simulatedPublicAttestKey : KeyMessage :=
  { KeyName := some "simulatedAttestKey", KeyType := some "rsa-2048-public", KeyFormat := none,
    RsaKey := some { PublicModulus := some [12, 161], PublicExponent := some [17],
                     PrivateExponent := none },
    EccKey := none, Certificate := none, NotBefore := none, NotAfter := none }

/-- Library functions for a concrete run of the simulated enclave. Key generation returns
the key with modulus 3233, public exponent 17 and private exponent 413; the signature of a
hash under a key is the low byte of the modulus followed by the hash; a claim message is
encoded as the byte 1 followed by its payload, a signed claim message as the byte 2, the
length of the serialized claim, the serialized claim and the signature; a time point of
the year 2024 prints as `2024:01:01T00:00:0Z`, any other as `2025:01:01T00:00:0Z`. -/
def simulatedEnclaveLibrary : EnclaveExternals :=
  { GenerateKey := fun _ => some { PublicKey := { N := 3233, E := 17 }, D := some 413 },
    SignPKCS1v15 := fun r h => some (r.PublicKey.N % 256 :: h),
    MarshalClaim := fun c => some (1 :: c.SerializedClaim.getD []),
    MarshalSignedClaim := fun sc =>
      some (2 :: (sc.SerializedClaimMessage.getD []).length ::
        (sc.SerializedClaimMessage.getD [] ++ sc.Signature.getD [])),
    Sprintf := fun y _ _ _ _ _ =>
      if y = 2024 then "2024:01:01T00:00:0Z" else "2025:01:01T00:00:0Z",
    ImplInt32 := fun _ => -2 ^ 31 }

/-- External collaborators that go with `simulatedEnclaveLibrary`: the decoders invert its
encoders on the messages of the run (a decoded claim is a `vse-attestation` claim valid from
2024-01-01 to 2025-01-01, a decoded signed claim names `simulatedPublicAttestKey`), the time
strings scan to the time points they print, the hash is the identity (so it has no
collisions), a signature verifies exactly when it is the one signing produces, and the
clock reads 2024-01-01 00:00:00. -/
def simulatedEnclaveWorld : Externals :=
  { exampleExternals with
    UnmarshalSignedClaim := fun b =>
      match b with
      | some (2 :: n :: rest) =>
        some { SerializedClaimMessage := some (rest.take n),
               SigningKey := some simulatedPublicAttestKey,
               SigningAlgorithm := some "rsa-2048-sha256-pkcs-sign",
               Signature := some (rest.drop n) }
      | _ => none,
    UnmarshalClaim := fun b =>
      match b with
      | some (1 :: rest) =>
        some { ClaimFormat := some "vse-attestation", ClaimDescriptor := some "attestation",
               NotBefore := some "2024:01:01T00:00:0Z", NotAfter := some "2025:01:01T00:00:0Z",
               SerializedClaim := some rest }
      | _ => none,
    Sscanf := fun s =>
      if s = "2024:01:01T00:00:0Z" then (2024, 1, 1, 0, 0, .num 0) else (2025, 1, 1, 0, 0, .num 0),
    Sum256 := fun b => b.getD [],
    VerifyPKCS1v15 := fun PK h sig => decide (sig = some (PK.N % 256 :: h)) }

/-- The package variables after `InitSimulatedEnclave` with `simulatedEnclaveLibrary`. -/
def simulatedEnclaveState : EnclaveState :=
  { privateAttestKey := some
      { KeyName := some "simulatedAttestKey", KeyType := some "rsa-2048-private",
        KeyFormat := none,
        RsaKey := some { PublicModulus := some [12, 161], PublicExponent := some [17],
                         PrivateExponent := some [1, 157] },
        EccKey := none, Certificate := none, NotBefore := none, NotAfter := none },
    publicAttestKey := some simulatedPublicAttestKey,
    rsaPublicAttestKey := { N := 3233, E := 17 },
    rsaPrivateAttestKey := { PublicKey := { N := 3233, E := 17 }, D := some 413 },
    sealingKey := List.range 64,
    sealIv := [17, 18, 19, 20, 21, 22, 23, 24, 25, 26, 27, 28, 29, 30, 31, 32],
    simulatedInitialized := true }

/-! ## The evidence items before a failing one -/

/-- The seen-keys table and the proved list after the evidence items `todo`, which start at
index `i`, when each of them lets the loop of `InitProvedStatements` go on to the next item;
`none` as soon as one of them faults or returns false. -/
def afterItems (h : EvidenceHandlers) (evidenceList : List Evidence) :
    List Evidence → Nat → CertSeenList → List VseClause → Option (CertSeenList × List VseClause)
  | [], _, seen, ps => some (seen, ps)
  | ev :: todo, i, seen, ps =>
    match InitProvedStatementsItem h evidenceList i ev seen ps with
    | .next seen2 ps2 => afterItems h evidenceList todo (i + 1) seen2 ps2
    | _ => none

/-! ## Lemmas -/

/-- A slice expression is measured against the capacity: on a slice of 3 bytes in a backing
array of 5 bytes `b[1:5]` is in range and ends with the 2 spare bytes, `b[0:6]` is out of
range, and without spare bytes `b[1:5]` is out of range. -/
theorem sliceBytes_within_capacity :
    sliceBytes [1, 2, 3] [0, 0] 1 5 = some [2, 3, 0, 0] ∧
    sliceBytes [1, 2, 3] [0, 0] 0 6 = none ∧
    sliceBytes [1, 2, 3] [] 1 5 = none := by
  refine ⟨by decide, by decide, by decide⟩

/-- Go `bytes.Equal` holds of a slice and itself. -/
theorem bytesEqual_self (a : Option Bytes) : bytesEqual a a = true := by
  simp [bytesEqual]

/-- A point with both coordinates present equals itself under `SamePoint`. -/
theorem SamePoint_self (p : PointMessage) (hx : p.X.isSome = true) (hy : p.Y.isSome = true) :
    SamePoint p p = true := by
  cases hX : p.X <;> cases hY : p.Y <;> simp_all [SamePoint, bytesEqual_self]

/-- On a well-formed key `SameKey` returns true for the key and itself. -/
theorem SameKey_self (k : KeyMessage) (h : WellFormedKey k = true) :
    SameKey (some k) (some k) = some true := by
  unfold WellFormedKey at h
  unfold SameKey
  by_cases hr : isRsaKeyType (GetKeyType (some k)) = true
  · simp only [hr, if_true] at h
    simp only [ne_eq, not_true_eq_false, if_false, hr, if_true]
    cases hk : k.RsaKey with
    | none => simp [hk] at h
    | some r => simp [bytesEqual_self]
  · simp only [hr] at h
    by_cases he : isEccKeyType (GetKeyType (some k)) = true
    · simp only [he, if_true] at h
      simp only [ne_eq, not_true_eq_false, if_false, hr, he, if_true]
      cases hk : k.EccKey with
      | none => simp [hk] at h
      | some e =>
        simp only [hk] at h
        cases hb : e.BasePoint with
        | none => simp [hb] at h
        | some b =>
          cases hp : e.PublicPoint with
          | none => simp [hb, hp] at h
          | some p =>
            cases hn : e.CurveName with
            | none => simp [hn] at h
            | some n =>
              simp [hb, hp, hn] at h
              simp [hb, hp, hn, SamePoint_self, h]
    · simp [he] at h

/-- A measurement entity equals itself under `SameEntity`. -/
theorem SameEntity_measurement_self (m : Option Bytes) :
    SameEntity (some (MakeMeasurementEntity m)) (some (MakeMeasurementEntity m)) = some true := by
  simp [SameEntity, GetEntityType, MakeMeasurementEntity, GetMeasurement, SameMeasurement,
    bytesEqual_self]

/-- On key entities `SameEntity` is `SameKey` on the keys. -/
theorem SameEntity_key (k1 k2 : Option KeyMessage) :
    SameEntity (some (MakeKeyEntity k1)) (some (MakeKeyEntity k2)) = SameKey k1 k2 := by
  simp [SameEntity, GetEntityType, MakeKeyEntity, GetKey]

/-- The entity of a well-formed key equals itself under `SameEntity`. -/
theorem SameEntity_key_self (k : KeyMessage) (h : WellFormedKey k = true) :
    SameEntity (some (MakeKeyEntity (some k))) (some (MakeKeyEntity (some k))) = some true := by
  rw [SameEntity_key, SameKey_self k h]

/-- Whenever `InitDominance` returns, it returns true and leaves `defaultTree`. -/
theorem InitDominance_eq (root tree : PredicateDominance) (b : Bool)
    (h : InitDominance root = some (b, tree)) : b = true ∧ tree = defaultTree := by
  cases root with
  | null => simp [InitDominance] at h
  | node p fc nx =>
    simp [InitDominance, Insert] at h
    simp [defaultTree, h]

/-- The value of `Dominates` on `defaultTree` once the node of `a` is found. -/
theorem Dominates_node (p : String) (fc nx : PredicateDominance) (a b : String) (hab : a ≠ b)
    (hf : FindNode defaultTree a = some (.node p fc nx)) :
    Dominates defaultTree a b = some (p == b || IsChildLoop fc b) := by
  unfold Dominates
  simp only [hab, if_false, hf, IsChild]
  cases (p == b || IsChildLoop fc b) <;> rfl

/-- Closed form of `Dominates` on `defaultTree`: it never faults, and it is true exactly for
equal arguments and for the root over either leaf. -/
theorem Dominates_defaultTree (a b : String) :
    Dominates defaultTree a b =
      some (a == b || (a == "is-trusted" &&
        (b == "is-trusted-for-authentication" || b == "is-trusted-for-attestation"))) := by
  by_cases hab : a = b
  · simp [Dominates, hab]
  · by_cases h1 : a = "is-trusted"
    · subst h1
      rw [Dominates_node "is-trusted"
        (.node "is-trusted-for-authentication" .null
          (.node "is-trusted-for-attestation" .null .null)) .null _ _ hab
        (by simp [defaultTree, FindNode])]
      have h0 : ("is-trusted" == b) = false := by simpa using hab
      have e1 : (b == "is-trusted-for-authentication") = ("is-trusted-for-authentication" == b) :=
        BEq.comm
      have e2 : (b == "is-trusted-for-attestation") = ("is-trusted-for-attestation" == b) :=
        BEq.comm
      simp [IsChildLoop, h0, e1, e2]
    · by_cases h2 : a = "is-trusted-for-authentication"
      · subst h2
        rw [Dominates_node "is-trusted-for-authentication" .null
          (.node "is-trusted-for-attestation" .null .null) _ _ hab
          (by simp [defaultTree, FindNode, FindNodeLoop])]
        have h0 : ("is-trusted-for-authentication" == b) = false := by simpa using hab
        simp [IsChildLoop, h0]
      · have h1' : ¬ "is-trusted" = a := fun h => h1 h.symm
        have h2' : ¬ "is-trusted-for-authentication" = a := fun h => h2 h.symm
        simp [Dominates, defaultTree, FindNode, FindNodeLoop, h1, h2, h1', h2', hab]

/-- The entity type of a measurement entity. -/
theorem GetEntityType_measurement (m : Option Bytes) :
    GetEntityType (some (MakeMeasurementEntity m)) = "measurement" := rfl

/-- The entity type of a key entity. -/
theorem GetEntityType_key (k : Option KeyMessage) :
    GetEntityType (some (MakeKeyEntity k)) = "key" := rfl

/-- A unary clause over a well-formed key equals itself under `SameVseClause`. -/
theorem SameVseClause_unary_key_self (k : KeyMessage) (v : Option String)
    (h : WellFormedKey k = true) :
    SameVseClause (MakeUnaryVseClause (some (MakeKeyEntity (some k))) v)
      (MakeUnaryVseClause (some (MakeKeyEntity (some k))) v) = some true := by
  simp [SameVseClause, MakeUnaryVseClause, SameEntity_key_self k h]

/-- The results of rule 1 and rule 7 on `M is-trusted`, `K speaks-for M`, `K v`. -/
theorem VerifyRule1_VerifyRule7_conclusion (tree : PredicateDominance) (M : Option Bytes)
    (K : KeyMessage) (v : String) (hK : WellFormedKey K = true) :
    (VerifyRule1 tree
        (MakeUnaryVseClause (some (MakeMeasurementEntity M)) (some "is-trusted"))
        (MakeSimpleVseClause (some (MakeKeyEntity (some K))) (some "speaks-for")
          (some (MakeMeasurementEntity M)))
        (MakeUnaryVseClause (some (MakeKeyEntity (some K))) (some v))
      = some (decide (v = "is-trusted-for-authentication"))) ∧
    (VerifyRule7 tree
        (MakeUnaryVseClause (some (MakeMeasurementEntity M)) (some "is-trusted"))
        (MakeSimpleVseClause (some (MakeKeyEntity (some K))) (some "speaks-for")
          (some (MakeMeasurementEntity M)))
        (MakeUnaryVseClause (some (MakeKeyEntity (some K))) (some v))
      = some (decide (v = "is-trusted-for-attestation"))) := by
  have hm := SameEntity_measurement_self M
  have hk := SameEntity_key_self K hK
  constructor
  · by_cases hv : v = "is-trusted-for-authentication"
    · simp [VerifyRule1, MakeUnaryVseClause, MakeSimpleVseClause, VseClause.Subject,
        VseClause.Verb, VseClause.Object, VseClause.Clause, VseClause.GetVerb, hm, hk, hv,
        GetEntityType_measurement, GetEntityType_key]
    · simp [VerifyRule1, MakeUnaryVseClause, MakeSimpleVseClause, VseClause.Subject,
        VseClause.Verb, VseClause.Object, VseClause.Clause, VseClause.GetVerb, hm, hk, hv,
        GetEntityType_measurement, GetEntityType_key]
  · by_cases hv : v = "is-trusted-for-attestation"
    · simp [VerifyRule7, MakeUnaryVseClause, MakeSimpleVseClause, VseClause.Subject,
        VseClause.Verb, VseClause.Object, VseClause.Clause, VseClause.GetVerb, hm, hk, hv,
        GetEntityType_measurement, GetEntityType_key]
    · simp [VerifyRule7, MakeUnaryVseClause, MakeSimpleVseClause, VseClause.Subject,
        VseClause.Verb, VseClause.Object, VseClause.Clause, VseClause.GetVerb, hm, hk, hv,
        GetEntityType_measurement, GetEntityType_key]

/-- A getter returns a non-empty string exactly when the field is set to it. -/
theorem getD_eq_lit (v : Option String) (s : String) (hs : s ≠ "") :
    (v.getD "" = s) ↔ v = some s := by
  cases v with
  | none => simp; exact fun h => hs h.symm
  | some w => simp

/-- When rule 3 returns true. -/
theorem VerifyRule3_iff (tree : PredicateDominance) (c1 c2 c : VseClause) :
    (VerifyRule3 tree c1 c2 c = some true ↔
      (c1.Subject.isSome = true ∧ c1.Object = none ∧ c1.Clause = none ∧
        c1.Verb = some "is-trusted" ∧ GetEntityType c1.Subject = "key") ∧
      (c2.Subject.isSome = true ∧ GetEntityType c2.Subject = "key" ∧ c2.Verb = some "says" ∧
        c2.Object = none ∧
        ∃ X, c2.Clause = some X ∧ SameEntity c1.Subject c2.Subject = some true ∧
          SameVseClause X c = some true)) := by
  obtain ⟨s1, v1, o1, cl1⟩ := c1
  obtain ⟨s2, v2, o2, cl2⟩ := c2
  simp only [VerifyRule3, VseClause.Subject, VseClause.Verb, VseClause.Object, VseClause.Clause,
    VseClause.GetVerb]
  have e1 := getD_eq_lit v1 "is-trusted" (by decide)
  have e2 := getD_eq_lit v2 "says" (by decide)
  split_ifs with h1 h2 h3 h4 h5 h6
  · cases s1 <;> cases v1 <;> cases o1 <;> cases cl1 <;> simp_all
  · simp_all
  · simp_all
  · cases s2 <;> cases v2 <;> cases o2 <;> cases cl2 <;> simp_all
  · simp_all
  · simp_all
  · cases hse : SameEntity s1 s2 with
    | none => simp
    | some b =>
      cases b with
      | false => simp
      | true =>
        cases cl2 with
        | none => simp
        | some X =>
          cases s1 <;> cases v1 <;> cases o1 <;> cases cl1 <;>
            cases s2 <;> cases v2 <;> cases o2 <;> simp_all

/-- Rule 3 returns false on a first premise with verb `is-trusted-for-attestation` or `is-
trusted-for-authentication`. -/
theorem VerifyRule3_not_plain_trust (tree : PredicateDominance) (K : Option KeyMessage)
    (c2 c : VseClause) :
    VerifyRule3 tree (MakeUnaryVseClause (some (MakeKeyEntity K))
        (some "is-trusted-for-attestation")) c2 c = some false ∧
    VerifyRule3 tree (MakeUnaryVseClause (some (MakeKeyEntity K))
        (some "is-trusted-for-authentication")) c2 c = some false := by
  constructor <;>
    simp [VerifyRule3, MakeUnaryVseClause, VseClause.Subject, VseClause.Verb, VseClause.Object,
      VseClause.Clause, VseClause.GetVerb]

/-- Rule 5 on `K1 X`, `K1 says (K2 Y)`, `K2 Y` returns the conjunction of its two dominance
tests, on any tree on which these return. -/
theorem VerifyRule5_eq (tree : PredicateDominance) (K1 K2 : KeyMessage) (X Y : String)
    (h1 : WellFormedKey K1 = true) (h2 : WellFormedKey K2 = true) (d1 d2 : Bool)
    (hd1 : Dominates tree "is-trusted" X = some d1) (hd2 : Dominates tree X Y = some d2) :
    VerifyRule5 tree
        (MakeUnaryVseClause (some (MakeKeyEntity (some K1))) (some X))
        (MakeIndirectVseClause (some (MakeKeyEntity (some K1))) (some "says")
          (some (MakeUnaryVseClause (some (MakeKeyEntity (some K2))) (some Y))))
        (MakeUnaryVseClause (some (MakeKeyEntity (some K2))) (some Y))
      = some (d1 && d2) := by
  have hk1 := SameEntity_key_self K1 h1
  have hc := SameVseClause_unary_key_self K2 (some Y) h2
  simp only [VerifyRule5, MakeIndirectVseClause, VseClause.Subject, VseClause.Verb,
    VseClause.Object, VseClause.Clause, VseClause.GetVerb]
  simp only [MakeUnaryVseClause, VseClause.Subject, VseClause.Verb,
    VseClause.Object, VseClause.Clause, VseClause.GetVerb] at hc ⊢
  simp only [Option.getD_some, hd1, hd2, hk1, hc, GetEntityType_key]
  cases d1 <;> cases d2 <;> simp

/-- Rule 5 on `defaultTree` accepts exactly under the two dominance tests. -/
theorem VerifyRule5_default (K1 K2 : KeyMessage) (X Y : String)
    (h1 : WellFormedKey K1 = true) (h2 : WellFormedKey K2 = true) :
    (VerifyRule5 defaultTree
        (MakeUnaryVseClause (some (MakeKeyEntity (some K1))) (some X))
        (MakeIndirectVseClause (some (MakeKeyEntity (some K1))) (some "says")
          (some (MakeUnaryVseClause (some (MakeKeyEntity (some K2))) (some Y))))
        (MakeUnaryVseClause (some (MakeKeyEntity (some K2))) (some Y)) = some true ↔
      Dominates defaultTree "is-trusted" X = some true ∧ Dominates defaultTree X Y = some true) := by
  rw [VerifyRule5_eq defaultTree K1 K2 X Y h1 h2 _ _ (Dominates_defaultTree _ _)
    (Dominates_defaultTree _ _)]
  simp only [Dominates_defaultTree, Option.some.injEq, Bool.and_eq_true]

/-- The run of `VerifyProof` is its loop on `defaultTree`. -/
theorem VerifyProof_eq_loop (pk : Option KeyMessage) (goal : VseClause) (p : List ProofStep)
    (ps : List VseClause) :
    VerifyProof pk goal p ps = VerifyProofLoop defaultTree goal p ps := by
  simp [VerifyProof, InitDominance, Insert, defaultTree]

/-- The tree that `InitDominance` builds in `VerifyProof`. -/
theorem InitDominance_default :
    InitDominance (.node "is-trusted" .null .null) = some (true, defaultTree) := by
  simp [InitDominance, Insert, defaultTree]

/-- A true answer of `StatementAlreadyProved` comes from a clause of the list. -/
theorem StatementAlreadyProved_true (s : VseClause) (ps : List VseClause)
    (h : StatementAlreadyProved s ps = some true) :
    ∃ q ∈ ps, SameVseClause s q = some true := by
  induction ps with
  | nil => simp [StatementAlreadyProved] at h
  | cons q rest ih =>
    simp only [StatementAlreadyProved] at h
    cases hq : SameVseClause s q with
    | none => simp [hq] at h
    | some b =>
      cases b with
      | true => exact ⟨q, List.mem_cons_self _ _, hq⟩
      | false =>
        simp only [hq] at h
        obtain ⟨r, hr, hs⟩ := ih h
        exact ⟨r, List.mem_cons_of_mem _ hr, hs⟩

/-- What the loop of `VerifyProof` appends is justified step by step. -/
theorem VerifyProofLoop_appended (tree : PredicateDominance) (goal : VseClause)
    (p : List ProofStep) :
    ∀ ps : List VseClause, ∃ added : List VseClause,
      (VerifyProofLoop tree goal p ps).2 = ps ++ added ∧ AppendedBy tree ps p added := by
  induction p with
  | nil => intro ps; exact ⟨[], by simp [VerifyProofLoop], AppendedBy.stop _ _⟩
  | cons st rest ih =>
    intro ps
    have stop : ∀ r : Option Bool, ∃ added : List VseClause,
        ((r, ps) : Option Bool × List VseClause).2 = ps ++ added ∧
          AppendedBy tree ps (st :: rest) added :=
      fun _ => ⟨[], by simp, AppendedBy.stop _ _⟩
    have skip : ∃ added : List VseClause,
        (VerifyProofLoop tree goal rest ps).2 = ps ++ added ∧
          AppendedBy tree ps (st :: rest) added := by
      obtain ⟨a, h1, h2⟩ := ih ps
      exact ⟨a, h1, AppendedBy.skip _ _ _ _ h2⟩
    unfold VerifyProofLoop
    cases hs1 : st.S1 with
    | none => exact stop _
    | some s1 =>
      cases hs2 : st.S2 with
      | none => exact stop _
      | some s2 =>
        cases hc : st.Conclusion with
        | none => exact stop _
        | some c =>
          simp only []
          cases h1 : StatementAlreadyProved s1 ps with
          | none => exact stop _
          | some b1 =>
            cases b1 with
            | false => exact skip
            | true =>
              cases h2 : StatementAlreadyProved s2 ps with
              | none => exact stop _
              | some b2 =>
                cases b2 with
                | false => exact skip
                | true =>
                  cases h3 : VerifyExternalProofStep tree st with
                  | none => exact stop _
                  | some b3 =>
                    cases b3 with
                    | false => exact stop _
                    | true =>
                      have one : AppendedBy tree ps (st :: rest) [c] :=
                        AppendedBy.take ps st rest [] s1 s2 c hs1 hs2 hc
                          (StatementAlreadyProved_true _ _ h1)
                          (StatementAlreadyProved_true _ _ h2) h3 (AppendedBy.stop _ _)
                      cases h4 : SameVseClause goal c with
                      | none => exact ⟨[c], rfl, one⟩
                      | some b4 =>
                        cases b4 with
                        | true => exact ⟨[c], rfl, one⟩
                        | false =>
                          obtain ⟨a, e1, e2⟩ := ih (ps ++ [c])
                          refine ⟨c :: a, ?_, ?_⟩
                          · simp only [e1, List.append_assoc, List.singleton_append]
                          · exact AppendedBy.take ps st rest a s1 s2 c hs1 hs2 hc
                              (StatementAlreadyProved_true _ _ h1)
                              (StatementAlreadyProved_true _ _ h2) h3 e2


/-- The loop of `VerifyProof` returns true exactly on a walk that reaches the goal. -/
theorem VerifyProofLoop_true_iff (tree : PredicateDominance) (goal : VseClause)
    (p : List ProofStep) :
    ∀ ps : List VseClause,
      (VerifyProofLoop tree goal p ps).1 = some true ↔ ReachesGoal tree goal ps p := by
  induction p with
  | nil =>
    intro ps
    constructor
    · intro h; simp [VerifyProofLoop] at h
    · intro h; cases h
  | cons st rest ih =>
    intro ps
    constructor
    · intro h
      unfold VerifyProofLoop at h
      cases hs1 : st.S1 with
      | none => simp [hs1] at h
      | some s1 =>
        cases hs2 : st.S2 with
        | none => simp [hs1, hs2] at h
        | some s2 =>
          cases hc : st.Conclusion with
          | none => simp [hs1, hs2, hc] at h
          | some c =>
            simp only [hs1, hs2, hc] at h
            cases h1 : StatementAlreadyProved s1 ps with
            | none => simp [h1] at h
            | some b1 =>
              cases b1 with
              | false =>
                simp only [h1] at h
                exact ReachesGoal.skipped ps st rest s1 s2 c hs1 hs2 hc (Or.inl h1)
                  ((ih ps).1 h)
              | true =>
                simp only [h1] at h
                cases h2 : StatementAlreadyProved s2 ps with
                | none => simp [h2] at h
                | some b2 =>
                  cases b2 with
                  | false =>
                    simp only [h2] at h
                    exact ReachesGoal.skipped ps st rest s1 s2 c hs1 hs2 hc (Or.inr ⟨h1, h2⟩)
                      ((ih ps).1 h)
                  | true =>
                    simp only [h2] at h
                    cases h3 : VerifyExternalProofStep tree st with
                    | none => simp [h3] at h
                    | some b3 =>
                      cases b3 with
                      | false => simp [h3] at h
                      | true =>
                        simp only [h3] at h
                        cases h4 : SameVseClause goal c with
                        | none => simp [h4] at h
                        | some b4 =>
                          cases b4 with
                          | true =>
                            exact ReachesGoal.hit ps st rest s1 s2 c hs1 hs2 hc h1 h2 h3 h4
                          | false =>
                            simp only [h4] at h
                            exact ReachesGoal.accepted ps st rest s1 s2 c hs1 hs2 hc h1 h2 h3 h4
                              ((ih _).1 h)
    · intro h
      unfold VerifyProofLoop
      cases h with
      | hit _ _ _ s1 s2 c hs1 hs2 hc h1 h2 h3 h4 => simp [hs1, hs2, hc, h1, h2, h3, h4]
      | skipped _ _ _ s1 s2 c hs1 hs2 hc hsk hr =>
        rcases hsk with h1 | ⟨h1, h2⟩
        · simp only [hs1, hs2, hc, h1]; exact (ih ps).2 hr
        · simp only [hs1, hs2, hc, h1, h2]; exact (ih ps).2 hr
      | accepted _ _ _ s1 s2 c hs1 hs2 hc h1 h2 h3 h4 hr =>
        simp only [hs1, hs2, hc, h1, h2, h3, h4]; exact (ih _).2 hr

/-- Verdict true, for every input: `VerifyProof` returns true exactly when the walk over the
steps reaches the goal. (A run that is not such a walk returns false or faults.) -/
theorem VerifyProof_true_iff (pk : Option KeyMessage) (goal : VseClause) (p : List ProofStep)
    (ps : List VseClause) :
    (VerifyProof pk goal p ps).1 = some true ↔ ReachesGoal defaultTree goal ps p := by
  rw [VerifyProof_eq_loop]; exact VerifyProofLoop_true_iff defaultTree goal p ps

/-- Skipping, for every input on which the scan for `s1` returns: a step whose first premise is
found missing, or whose first premise is found and whose second is found missing, changes
neither the verdict nor the final proved list. -/
theorem VerifyProof_skip (pk : Option KeyMessage) (goal : VseClause) (st : ProofStep)
    (rest : List ProofStep) (ps : List VseClause) (s1 s2 c : VseClause)
    (hs1 : st.S1 = some s1) (hs2 : st.S2 = some s2) (hc : st.Conclusion = some c)
    (h : StatementAlreadyProved s1 ps = some false ∨
      (StatementAlreadyProved s1 ps = some true ∧ StatementAlreadyProved s2 ps = some false)) :
    VerifyProof pk goal (st :: rest) ps = VerifyProof pk goal rest ps := by
  rw [VerifyProof_eq_loop, VerifyProof_eq_loop]
  rcases h with h1 | ⟨h1, h2⟩
  · simp [VerifyProofLoop, hs1, hs2, hc, h1]
  · simp [VerifyProofLoop, hs1, hs2, hc, h1, h2]

/-- A first step with both premises proved and a rejecting rule ends `VerifyProof` with false
and the proved list untouched. -/
theorem VerifyProof_abort (tree : PredicateDominance) (pk : Option KeyMessage) (goal : VseClause)
    (st : ProofStep) (rest : List ProofStep) (ps : List VseClause) (s1 s2 : VseClause)
    (ht : InitDominance (.node "is-trusted" .null .null) = some (true, tree))
    (hs1 : st.S1 = some s1) (hs2 : st.S2 = some s2)
    (h1 : StatementAlreadyProved s1 ps = some true)
    (h2 : StatementAlreadyProved s2 ps = some true)
    (hrej : VerifyExternalProofStep tree st = some false) :
    VerifyProof pk goal (st :: rest) ps = (some false, ps) := by
  obtain ⟨-, rfl⟩ := InitDominance_eq _ _ _ ht
  rw [VerifyProof_eq_loop]
  cases hc : st.Conclusion with
  | none => simp [VerifyProofLoop, hs1, hs2, hc]
  | some c => simp [VerifyProofLoop, hs1, hs2, hc, h1, h2, hrej]

/-- A step without rule number, or with one outside 1..7, is rejected. -/
theorem VerifyExternalProofStep_bad_rule (tree : PredicateDominance)
    (s1 s2 c : Option VseClause) :
    VerifyExternalProofStep tree ⟨s1, s2, c, none⟩ = some false ∧
    ∀ r : Int, (r < 1 ∨ 7 < r) → VerifyExternalProofStep tree ⟨s1, s2, c, some r⟩ = some false := by
  constructor
  · simp [VerifyExternalProofStep]
  · intro r hr
    cases s1 <;> cases s2 <;> cases c <;> simp [VerifyExternalProofStep]
    unfold VerifyInternalProofStep
    have : r ≠ 1 ∧ r ≠ 2 ∧ r ≠ 3 ∧ r ≠ 4 ∧ r ≠ 5 ∧ r ≠ 6 ∧ r ≠ 7 := by omega
    simp [this]

/-- If no comparison with the list faults and some clause of the list compares equal,
`StatementAlreadyProved` returns true. -/
theorem StatementAlreadyProved_of_mem (s : VseClause) (ps : List VseClause)
    (hsafe : ∀ q ∈ ps, SameVseClause s q ≠ none)
    (h : ∃ q ∈ ps, SameVseClause s q = some true) :
    StatementAlreadyProved s ps = some true := by
  induction ps with
  | nil => obtain ⟨q, hq, -⟩ := h; cases hq
  | cons a rest ih =>
    simp only [StatementAlreadyProved]
    cases ha : SameVseClause s a with
    | none => exact absurd ha (hsafe a (List.mem_cons_self _ _))
    | some b =>
      cases b with
      | true => rfl
      | false =>
        simp only []
        apply ih (fun q hq => hsafe q (List.mem_cons_of_mem _ hq))
        obtain ⟨q, hq, hs⟩ := h
        rcases List.mem_cons.1 hq with rfl | hq2
        · rw [ha] at hs; cases hs
        · exact ⟨q, hq2, hs⟩

/-- A clause found in a list is found in every extension of the list. -/
theorem StatementAlreadyProved_append (s : VseClause) (ps more : List VseClause)
    (h : StatementAlreadyProved s ps = some true) :
    StatementAlreadyProved s (ps ++ more) = some true := by
  induction ps with
  | nil => simp [StatementAlreadyProved] at h
  | cons a rest ih =>
    simp only [StatementAlreadyProved, List.cons_append] at h ⊢
    cases ha : SameVseClause s a with
    | none => simp [ha] at h
    | some b =>
      cases b with
      | true => rfl
      | false => simp only [ha] at h ⊢; exact ih h

/-- A clause is found in a list extended by a clause equal to it, if no comparison with the list
faults. -/
theorem StatementAlreadyProved_append_last (s c : VseClause) (ps : List VseClause)
    (hsafe : ∀ q ∈ ps, SameVseClause s q ≠ none) (hc : SameVseClause s c = some true) :
    StatementAlreadyProved s (ps ++ [c]) = some true := by
  apply StatementAlreadyProved_of_mem
  · intro q hq
    rcases List.mem_append.1 hq with h | h
    · exact hsafe q h
    · simp only [List.mem_singleton] at h; subst h; simp [hc]
  · exact ⟨c, by simp, hc⟩

/-- The clause `K_p says (K_e speaks-for M)` over well-formed keys equals itself. -/
theorem SameVseClause_says_self (Kp Ke : KeyMessage) (M : Option Bytes)
    (hp : WellFormedKey Kp = true) (he : WellFormedKey Ke = true) :
    SameVseClause
      (MakeIndirectVseClause (some (MakeKeyEntity (some Kp))) (some "says")
        (some (MakeSimpleVseClause (some (MakeKeyEntity (some Ke))) (some "speaks-for")
          (some (MakeMeasurementEntity M)))))
      (MakeIndirectVseClause (some (MakeKeyEntity (some Kp))) (some "says")
        (some (MakeSimpleVseClause (some (MakeKeyEntity (some Ke))) (some "speaks-for")
          (some (MakeMeasurementEntity M))))) = some true := by
  simp [SameVseClause, MakeIndirectVseClause, MakeSimpleVseClause, SameEntity_key_self Kp hp,
    SameEntity_key_self Ke he, SameEntity_measurement_self]

/-- The clause `K_e speaks-for M` over a well-formed key equals itself. -/
theorem SameVseClause_speaks_self (Ke : KeyMessage) (M : Option Bytes)
    (he : WellFormedKey Ke = true) :
    SameVseClause
      (MakeSimpleVseClause (some (MakeKeyEntity (some Ke))) (some "speaks-for")
          (some (MakeMeasurementEntity M)))
      (MakeSimpleVseClause (some (MakeKeyEntity (some Ke))) (some "speaks-for")
          (some (MakeMeasurementEntity M))) = some true := by
  simp [SameVseClause, MakeSimpleVseClause,
    SameEntity_key_self Ke he, SameEntity_measurement_self]

/-- A unary clause over a measurement equals itself. -/
theorem SameVseClause_measurement_self (M : Option Bytes) (v : Option String) :
    SameVseClause (MakeUnaryVseClause (some (MakeMeasurementEntity M)) v)
      (MakeUnaryVseClause (some (MakeMeasurementEntity M)) v) = some true := by
  simp [SameVseClause, MakeUnaryVseClause, SameEntity_measurement_self]

/-- Rule 3 accepts `K_p is-trusted`, `K_p says (K_e speaks-for M)`, `K_e speaks-for M` for well-
formed keys. -/
theorem VerifyRule3_says (tree : PredicateDominance) (Kp Ke : KeyMessage) (M : Option Bytes)
    (hp : WellFormedKey Kp = true) (he : WellFormedKey Ke = true) :
    VerifyRule3 tree (MakeUnaryVseClause (some (MakeKeyEntity (some Kp))) (some "is-trusted"))
      (MakeIndirectVseClause (some (MakeKeyEntity (some Kp))) (some "says")
        (some (MakeSimpleVseClause (some (MakeKeyEntity (some Ke))) (some "speaks-for")
          (some (MakeMeasurementEntity M)))))
      (MakeSimpleVseClause (some (MakeKeyEntity (some Ke))) (some "speaks-for")
          (some (MakeMeasurementEntity M))) = some true := by
  have h := SameVseClause_speaks_self Ke M he
  simp [VerifyRule3, MakeUnaryVseClause, MakeIndirectVseClause, VseClause.Subject,
    VseClause.Verb, VseClause.Object, VseClause.Clause, VseClause.GetVerb,
    SameEntity_key_self Kp hp, GetEntityType_key, h]

/-- Rule 3 then rule 1, for well-formed keys `K_p`, `K_e` and a proved list that contains the
three premises and on which none of the comparisons faults: `VerifyProof` returns true and
the list ends with the two conclusions. -/
theorem VerifyProof_rule3_rule1 (pk : Option KeyMessage) (M : Option Bytes)
    (Kp Ke : KeyMessage) (ps : List VseClause)
    (hp : WellFormedKey Kp = true) (he : WellFormedKey Ke = true)
    (hM : MakeUnaryVseClause (some (MakeMeasurementEntity M)) (some "is-trusted") ∈ ps)
    (hP : MakeUnaryVseClause (some (MakeKeyEntity (some Kp))) (some "is-trusted") ∈ ps)
    (hS : MakeIndirectVseClause (some (MakeKeyEntity (some Kp))) (some "says")
        (some (MakeSimpleVseClause (some (MakeKeyEntity (some Ke))) (some "speaks-for")
          (some (MakeMeasurementEntity M)))) ∈ ps)
    (hsafe : ∀ q ∈ ps,
      SameVseClause (MakeUnaryVseClause (some (MakeMeasurementEntity M)) (some "is-trusted")) q
        ≠ none ∧
      SameVseClause (MakeUnaryVseClause (some (MakeKeyEntity (some Kp))) (some "is-trusted")) q
        ≠ none ∧
      SameVseClause (MakeIndirectVseClause (some (MakeKeyEntity (some Kp))) (some "says")
        (some (MakeSimpleVseClause (some (MakeKeyEntity (some Ke))) (some "speaks-for")
          (some (MakeMeasurementEntity M))))) q ≠ none ∧
      SameVseClause (MakeSimpleVseClause (some (MakeKeyEntity (some Ke))) (some "speaks-for")
          (some (MakeMeasurementEntity M))) q ≠ none) :
    VerifyProof pk
      (MakeUnaryVseClause (some (MakeKeyEntity (some Ke))) (some "is-trusted-for-authentication"))
      [⟨some (MakeUnaryVseClause (some (MakeKeyEntity (some Kp))) (some "is-trusted")),
        some (MakeIndirectVseClause (some (MakeKeyEntity (some Kp))) (some "says")
          (some (MakeSimpleVseClause (some (MakeKeyEntity (some Ke))) (some "speaks-for")
            (some (MakeMeasurementEntity M))))),
        some (MakeSimpleVseClause (some (MakeKeyEntity (some Ke))) (some "speaks-for")
            (some (MakeMeasurementEntity M))), some 3⟩,
       ⟨some (MakeUnaryVseClause (some (MakeMeasurementEntity M)) (some "is-trusted")),
        some (MakeSimpleVseClause (some (MakeKeyEntity (some Ke))) (some "speaks-for")
            (some (MakeMeasurementEntity M))),
        some (MakeUnaryVseClause (some (MakeKeyEntity (some Ke)))
          (some "is-trusted-for-authentication")), some 1⟩]
      ps
    = (some true, ps ++
        [MakeSimpleVseClause (some (MakeKeyEntity (some Ke))) (some "speaks-for")
            (some (MakeMeasurementEntity M)),
         MakeUnaryVseClause (some (MakeKeyEntity (some Ke)))
          (some "is-trusted-for-authentication")]) := by
  have a1 := StatementAlreadyProved_of_mem _ ps (fun q hq => (hsafe q hq).2.1)
    ⟨_, hP, SameVseClause_unary_key_self Kp _ hp⟩
  have a2 := StatementAlreadyProved_of_mem _ ps (fun q hq => (hsafe q hq).2.2.1)
    ⟨_, hS, SameVseClause_says_self Kp Ke M hp he⟩
  have a3 := StatementAlreadyProved_of_mem _ ps (fun q hq => (hsafe q hq).1)
    ⟨_, hM, SameVseClause_measurement_self M _⟩
  have a3' := StatementAlreadyProved_append _ ps
    [MakeSimpleVseClause (some (MakeKeyEntity (some Ke))) (some "speaks-for")
            (some (MakeMeasurementEntity M))] a3
  have a4 := StatementAlreadyProved_append_last _ _ ps (fun q hq => (hsafe q hq).2.2.2)
    (SameVseClause_speaks_self Ke M he)
  have r3 := VerifyRule3_says defaultTree Kp Ke M hp he
  have r1 := (VerifyRule1_VerifyRule7_conclusion defaultTree M Ke "is-trusted-for-authentication"
    he).1
  have g1 : SameVseClause
      (MakeUnaryVseClause (some (MakeKeyEntity (some Ke))) (some "is-trusted-for-authentication"))
      (MakeSimpleVseClause (some (MakeKeyEntity (some Ke))) (some "speaks-for")
            (some (MakeMeasurementEntity M))) = some false := by
    simp [SameVseClause, MakeUnaryVseClause, MakeSimpleVseClause, SameEntity_key_self Ke he]
  have g2 := SameVseClause_unary_key_self Ke (some "is-trusted-for-authentication") he
  rw [VerifyProof_eq_loop]
  simp only [VerifyProofLoop, a1, a2, VerifyExternalProofStep, VerifyInternalProofStep, r3, g1,
    a3', a4, r1, g2]
  simp

/-! ## Proof checker: what is appended, when the verdict is true, skipping, aborting -/

/-- Claim C1. For every proof, goal and initial proved list, the proved list that
`VerifyProof` leaves (at its return, or at the point where the run faults) is the initial
list followed by clauses `added`, and `added` is justified step by step: each clause is
the conclusion of a step, in step order, whose premises `s1` and `s2` were each
`SameVseClause`-equal to a clause of the list at that moment and which
`VerifyExternalProofStep` accepted on the tree of `InitDominance`. -/
theorem VerifyProof_appends_only_validated (pk : Option KeyMessage) (goal : VseClause)
    (p : List ProofStep) (ps : List VseClause) :
    ∃ (tree : PredicateDominance) (added : List VseClause),
      InitDominance (.node "is-trusted" .null .null) = some (true, tree) ∧
      (VerifyProof pk goal p ps).2 = ps ++ added ∧ AppendedBy tree ps p added := by
  obtain ⟨a, h1, h2⟩ := VerifyProofLoop_appended defaultTree goal p ps
  exact ⟨defaultTree, a, InitDominance_default, by rw [VerifyProof_eq_loop]; exact h1, h2⟩

/-- Claim C2, as the code has it. For every policy key `K` and whatever the evidence
handlers are, `InitProvedStatements` on the empty evidence list and the empty proved list
returns true and leaves exactly the clause `K is-trusted`; `VerifyProof` with that goal and
a proof without steps then returns false and leaves the list as it is: the loop over the
steps is the only place where `VerifyProof` compares a clause with the goal. -/
theorem VerifyProof_no_steps_returns_false (h : EvidenceHandlers) (K : KeyMessage) :
    InitProvedStatements h K [] [] = (some true, [keyIs K "is-trusted"]) ∧
    VerifyProof (some K) (keyIs K "is-trusted") [] (InitProvedStatements h K [] []).2
      = (some false, [keyIs K "is-trusted"]) := by
  have e : InitProvedStatements h K [] [] = (some true, [keyIs K "is-trusted"]) := by
    simp [InitProvedStatements, InitAxiom, InitProvedStatementsLoop, keyIs]
  refine ⟨e, ?_⟩
  rw [e, VerifyProof_eq_loop]
  rfl

/-- Claim C2 fails as stated: for the well-formed policy key `rsaKey "policy" [3]`, after
`InitProvedStatements` on the empty evidence list, `VerifyProof` with the goal
`K is-trusted` and no steps returns false, not true. -/
theorem VerifyProof_empty_proof_after_init_false :
    WellFormedKey (rsaKey "policy" [3]) = true ∧
    (VerifyProof (some (rsaKey "policy" [3])) (keyIs (rsaKey "policy" [3]) "is-trusted") []
      (InitProvedStatements faultingHandlers (rsaKey "policy" [3]) [] []).2).1 = some false := by
  constructor
  · decide
  · decide

/-- Claim C3, evaluated where it fails. The proved list holds `P is-trusted` for a
well-formed RSA key `P`; the only step has as first premise `B is-trusted`, where the key
`B` names the type `rsa-2048-public` and has no RSA part. Scanning the proved list
compares `B` with `P` in `SameKey`, which reads `k1.RsaKey.PublicModulus` on the nil
`RsaKey`: the run faults, so `VerifyProof` returns neither true nor false. -/
theorem VerifyProof_faults_on_rsa_key_without_material :
    VerifyProof none (keyIs (rsaKey "e" [5]) "is-trusted")
      [⟨some (keyIs rsaKeyWithoutMaterial "is-trusted"),
        some (keySays (rsaKey "p" [3]) (keyIs (rsaKey "e" [5]) "is-trusted")),
        some (keyIs (rsaKey "e" [5]) "is-trusted"), some 3⟩]
      [keyIs (rsaKey "p" [3]) "is-trusted"]
      = (none, [keyIs (rsaKey "p" [3]) "is-trusted"]) := by
  rfl

/-- Claim C4, evaluated where it fails. The second premise `M is-trusted` of the step is
not in the proved list (`StatementAlreadyProved` returns false for it), but the first
premise carries an RSA key without RSA part, and the scan for it faults in `SameKey`:
`VerifyProof` on the step followed by no further steps faults, while `VerifyProof` on no
steps returns false. -/
theorem VerifyProof_skip_faults_on_rsa_key_without_material :
    StatementAlreadyProved (measurementIs [7] "is-trusted")
      [keyIs (rsaKey "p" [3]) "is-trusted"] = some false ∧
    (VerifyProof none (keyIs (rsaKey "e" [5]) "is-trusted")
      [⟨some (keyIs rsaKeyWithoutMaterial "is-trusted"),
        some (measurementIs [7] "is-trusted"),
        some (keyIs (rsaKey "e" [5]) "is-trusted"), some 3⟩]
      [keyIs (rsaKey "p" [3]) "is-trusted"]).1 = none ∧
    (VerifyProof none (keyIs (rsaKey "e" [5]) "is-trusted") []
      [keyIs (rsaKey "p" [3]) "is-trusted"]).1 = some false := by
  refine ⟨by decide, by decide, by decide⟩

/-- Abort on a rejected step, where the scans of the proved list return. If
`StatementAlreadyProved` returns true for both premises of the first step and
`VerifyExternalProofStep` rejects the step on the tree of `InitDominance`, then
`VerifyProof` returns false whatever steps follow and the proved list is exactly as it
was. A step without rule number, or with a rule number below 1 or above 7, is always
rejected. -/
theorem VerifyProof_aborts_on_rejected_step (tree : PredicateDominance)
    (pk : Option KeyMessage) (goal : VseClause) (st : ProofStep) (rest : List ProofStep)
    (ps : List VseClause) (s1 s2 : VseClause)
    (ht : InitDominance (.node "is-trusted" .null .null) = some (true, tree))
    (hs1 : st.S1 = some s1) (hs2 : st.S2 = some s2)
    (h1 : StatementAlreadyProved s1 ps = some true)
    (h2 : StatementAlreadyProved s2 ps = some true)
    (hrej : VerifyExternalProofStep tree st = some false) :
    VerifyProof pk goal (st :: rest) ps = (some false, ps) ∧
    (∀ a b c : Option VseClause, VerifyExternalProofStep tree ⟨a, b, c, none⟩ = some false) ∧
    (∀ (a b c : Option VseClause) (r : Int), (r < 1 ∨ 7 < r) →
      VerifyExternalProofStep tree ⟨a, b, c, some r⟩ = some false) :=
  ⟨VerifyProof_abort tree pk goal st rest ps s1 s2 ht hs1 hs2 h1 h2 hrej,
    fun a b c => (VerifyExternalProofStep_bad_rule tree a b c).1,
    fun a b c r hr => (VerifyExternalProofStep_bad_rule tree a b c).2 r hr⟩

/-- An instance of `VerifyProof_aborts_on_rejected_step`: the proved list is
`[P is-trusted]`, the first step names rule 3 with both premises `P is-trusted` (rule 3
wants a `says` clause as second premise), and a second step follows. -/
theorem VerifyProof_aborts_on_rejected_step_witness :
    InitDominance (.node "is-trusted" .null .null) = some (true, defaultTree) ∧
    StatementAlreadyProved (keyIs (rsaKey "p" [3]) "is-trusted")
      [keyIs (rsaKey "p" [3]) "is-trusted"] = some true ∧
    VerifyExternalProofStep defaultTree
      ⟨some (keyIs (rsaKey "p" [3]) "is-trusted"), some (keyIs (rsaKey "p" [3]) "is-trusted"),
        some (keyIs (rsaKey "e" [5]) "is-trusted"), some 3⟩ = some false ∧
    VerifyProof none (keyIs (rsaKey "e" [5]) "is-trusted")
      [⟨some (keyIs (rsaKey "p" [3]) "is-trusted"), some (keyIs (rsaKey "p" [3]) "is-trusted"),
        some (keyIs (rsaKey "e" [5]) "is-trusted"), some 3⟩,
       ⟨some (keyIs (rsaKey "p" [3]) "is-trusted"),
        some (keySays (rsaKey "p" [3]) (keyIs (rsaKey "e" [5]) "is-trusted")),
        some (keyIs (rsaKey "e" [5]) "is-trusted"), some 3⟩]
      [keyIs (rsaKey "p" [3]) "is-trusted"]
      = (some false, [keyIs (rsaKey "p" [3]) "is-trusted"]) :=
  ⟨by decide, by decide, by decide,
    (VerifyProof_aborts_on_rejected_step defaultTree none (keyIs (rsaKey "e" [5]) "is-trusted")
      ⟨some (keyIs (rsaKey "p" [3]) "is-trusted"), some (keyIs (rsaKey "p" [3]) "is-trusted"),
        some (keyIs (rsaKey "e" [5]) "is-trusted"), some 3⟩
      [⟨some (keyIs (rsaKey "p" [3]) "is-trusted"),
        some (keySays (rsaKey "p" [3]) (keyIs (rsaKey "e" [5]) "is-trusted")),
        some (keyIs (rsaKey "e" [5]) "is-trusted"), some 3⟩]
      [keyIs (rsaKey "p" [3]) "is-trusted"]
      (keyIs (rsaKey "p" [3]) "is-trusted") (keyIs (rsaKey "p" [3]) "is-trusted")
      (by decide) rfl rfl (by decide) (by decide) (by decide)).1⟩

/-- Claim C5 (`VerifyProof`, abort on a rejected step): the claim fails in the code. The
proved list is `[B is-trusted, P is-trusted]`, where `P` is a well-formed RSA key and the key
`B` names the type `rsa-2048-public` and has no RSA part. Both premises of the first step
are `P is-trusted`, which is in the list, and `VerifyExternalProofStep` rejects the step
(rule 3 wants a `says` clause as second premise). The scan of the proved list for the
first premise compares `P` with `B` in `SameKey`, which reads `RsaKey.PublicModulus` on the
nil `RsaKey`: the run faults, so `VerifyProof` does not return false. -/
theorem VerifyProof_faults_before_rejected_step :
    WellFormedKey (rsaKey "p" [3]) = true ∧
    keyIs (rsaKey "p" [3]) "is-trusted" ∈
      [keyIs rsaKeyWithoutMaterial "is-trusted", keyIs (rsaKey "p" [3]) "is-trusted"] ∧
    VerifyExternalProofStep defaultTree
      ⟨some (keyIs (rsaKey "p" [3]) "is-trusted"), some (keyIs (rsaKey "p" [3]) "is-trusted"),
        some (keyIs (rsaKey "e" [5]) "is-trusted"), some 3⟩ = some false ∧
    SameKey (some (rsaKey "p" [3])) (some rsaKeyWithoutMaterial) = none ∧
    StatementAlreadyProved (keyIs (rsaKey "p" [3]) "is-trusted")
      [keyIs rsaKeyWithoutMaterial "is-trusted", keyIs (rsaKey "p" [3]) "is-trusted"] = none ∧
    VerifyProof (some (rsaKey "p" [3])) (keyIs (rsaKey "e" [5]) "is-trusted")
      [⟨some (keyIs (rsaKey "p" [3]) "is-trusted"), some (keyIs (rsaKey "p" [3]) "is-trusted"),
        some (keyIs (rsaKey "e" [5]) "is-trusted"), some 3⟩]
      [keyIs rsaKeyWithoutMaterial "is-trusted", keyIs (rsaKey "p" [3]) "is-trusted"]
      = (none, [keyIs rsaKeyWithoutMaterial "is-trusted",
          keyIs (rsaKey "p" [3]) "is-trusted"]) := by
  refine ⟨by decide, ?_, by decide, by decide, by decide, by rfl⟩
  exact List.mem_cons_of_mem _ (List.mem_singleton.2 rfl)

/-- Claim C6, evaluated where it fails. The keys `K_p` and `K_e` are well-formed and the
proved list contains `M is-trusted`, `K_p is-trusted` and `K_p says (K_e speaks-for M)`;
it also contains, in front, `K_p says (B is-trusted)` where `B` names the type
`rsa-2048-public` and has no RSA part. The scan for the second premise of the rule 3
step compares `K_e` with `B` in `SameKey` and faults: `VerifyProof` does not return
true, and nothing is appended. -/
theorem VerifyProof_rule3_rule1_faults :
    WellFormedKey (rsaKey "p" [3]) = true ∧ WellFormedKey (rsaKey "e" [5]) = true ∧
    VerifyProof none (keyIs (rsaKey "e" [5]) "is-trusted-for-authentication")
      [⟨some (keyIs (rsaKey "p" [3]) "is-trusted"),
        some (keySays (rsaKey "p" [3]) (keySpeaksFor (rsaKey "e" [5]) [7])),
        some (keySpeaksFor (rsaKey "e" [5]) [7]), some 3⟩,
       ⟨some (measurementIs [7] "is-trusted"),
        some (keySpeaksFor (rsaKey "e" [5]) [7]),
        some (keyIs (rsaKey "e" [5]) "is-trusted-for-authentication"), some 1⟩]
      [keySays (rsaKey "p" [3]) (keyIs rsaKeyWithoutMaterial "is-trusted"),
       measurementIs [7] "is-trusted",
       keyIs (rsaKey "p" [3]) "is-trusted",
       keySays (rsaKey "p" [3]) (keySpeaksFor (rsaKey "e" [5]) [7])]
      = (none,
        [keySays (rsaKey "p" [3]) (keyIs rsaKeyWithoutMaterial "is-trusted"),
         measurementIs [7] "is-trusted",
         keyIs (rsaKey "p" [3]) "is-trusted",
         keySays (rsaKey "p" [3]) (keySpeaksFor (rsaKey "e" [5]) [7])]) :=
  ⟨by decide, by decide, rfl⟩

/-! ## Inference rules -/

/-- Claim C7. `VerifyRule3` returns true if and only if `c1` is a unary clause (subject
present, no object, no nested clause) with verb exactly `is-trusted` and a key subject,
`c2` has a key subject, verb `says`, no object and a nested clause `X`,
`SameEntity(c1.subject, c2.subject)` holds and `SameVseClause(X, c)` holds. With a first
premise `K is-trusted-for-attestation` or `K is-trusted-for-authentication` the rule
returns false, whatever `c2` and `c` are. -/
theorem VerifyRule3_accepts_iff (tree : PredicateDominance) :
    (∀ c1 c2 c : VseClause,
      VerifyRule3 tree c1 c2 c = some true ↔
        (c1.Subject.isSome = true ∧ c1.Object = none ∧ c1.Clause = none ∧
          c1.Verb = some "is-trusted" ∧ GetEntityType c1.Subject = "key") ∧
        (c2.Subject.isSome = true ∧ GetEntityType c2.Subject = "key" ∧
          c2.Verb = some "says" ∧ c2.Object = none ∧
          ∃ X, c2.Clause = some X ∧ SameEntity c1.Subject c2.Subject = some true ∧
            SameVseClause X c = some true)) ∧
    (∀ (K : Option KeyMessage) (c2 c : VseClause),
      VerifyRule3 tree (MakeUnaryVseClause (some (MakeKeyEntity K))
        (some "is-trusted-for-attestation")) c2 c = some false ∧
      VerifyRule3 tree (MakeUnaryVseClause (some (MakeKeyEntity K))
        (some "is-trusted-for-authentication")) c2 c = some false) :=
  ⟨fun c1 c2 c => VerifyRule3_iff tree c1 c2 c,
    fun K c2 c => VerifyRule3_not_plain_trust tree K c2 c⟩

/-- Claim C8. For every measurement `M`, well-formed key `K` and verb `v`, with
`s1 = M is-trusted`, `s2 = K speaks-for M` and `c = K v`: `VerifyRule1` accepts iff `v` is
`is-trusted-for-authentication`, `VerifyRule7` accepts iff `v` is
`is-trusted-for-attestation`, and neither faults. -/
theorem VerifyRule1_VerifyRule7_differ_in_verb (tree : PredicateDominance) (M : Option Bytes)
    (K : KeyMessage) (v : String) (hK : WellFormedKey K = true) :
    (VerifyRule1 tree
        (MakeUnaryVseClause (some (MakeMeasurementEntity M)) (some "is-trusted"))
        (MakeSimpleVseClause (some (MakeKeyEntity (some K))) (some "speaks-for")
          (some (MakeMeasurementEntity M)))
        (MakeUnaryVseClause (some (MakeKeyEntity (some K))) (some v)) = some true
      ↔ v = "is-trusted-for-authentication") ∧
    (VerifyRule7 tree
        (MakeUnaryVseClause (some (MakeMeasurementEntity M)) (some "is-trusted"))
        (MakeSimpleVseClause (some (MakeKeyEntity (some K))) (some "speaks-for")
          (some (MakeMeasurementEntity M)))
        (MakeUnaryVseClause (some (MakeKeyEntity (some K))) (some v)) = some true
      ↔ v = "is-trusted-for-attestation") ∧
    VerifyRule1 tree
        (MakeUnaryVseClause (some (MakeMeasurementEntity M)) (some "is-trusted"))
        (MakeSimpleVseClause (some (MakeKeyEntity (some K))) (some "speaks-for")
          (some (MakeMeasurementEntity M)))
        (MakeUnaryVseClause (some (MakeKeyEntity (some K))) (some v)) ≠ none ∧
    VerifyRule7 tree
        (MakeUnaryVseClause (some (MakeMeasurementEntity M)) (some "is-trusted"))
        (MakeSimpleVseClause (some (MakeKeyEntity (some K))) (some "speaks-for")
          (some (MakeMeasurementEntity M)))
        (MakeUnaryVseClause (some (MakeKeyEntity (some K))) (some v)) ≠ none := by
  obtain ⟨e1, e7⟩ := VerifyRule1_VerifyRule7_conclusion tree M K v hK
  rw [e1, e7]
  simp

/-- Witness of claim C8: the key `rsaKey "e" [5]`, the measurement `[7]` and the verb
`is-trusted-for-authentication`. -/
theorem VerifyRule1_VerifyRule7_differ_in_verb_witness :
    WellFormedKey (rsaKey "e" [5]) = true ∧
    VerifyRule1 defaultTree
        (MakeUnaryVseClause (some (MakeMeasurementEntity (some [7]))) (some "is-trusted"))
        (MakeSimpleVseClause (some (MakeKeyEntity (some (rsaKey "e" [5])))) (some "speaks-for")
          (some (MakeMeasurementEntity (some [7]))))
        (MakeUnaryVseClause (some (MakeKeyEntity (some (rsaKey "e" [5]))))
          (some "is-trusted-for-authentication")) = some true :=
  ⟨by decide,
    ((VerifyRule1_VerifyRule7_differ_in_verb defaultTree (some [7]) (rsaKey "e" [5])
      "is-trusted-for-authentication" (by decide)).1).2 rfl⟩

/-- Claim C9, evaluated where it fails. With `M2` a measurement, the triple
`M is-trusted`, `M2 speaks-for M`, `M2 is-trusted-for-authentication` is accepted by
`VerifyRule1`, and the same triple with `is-trusted-for-attestation` by `VerifyRule7`:
neither rule tests the entity type of the subject of the speaks-for premise. -/
theorem VerifyRule1_VerifyRule7_accept_measurement_subject :
    VerifyRule1 defaultTree (measurementIs [7] "is-trusted")
      (MakeSimpleVseClause (some (MakeMeasurementEntity (some [8]))) (some "speaks-for")
        (some (MakeMeasurementEntity (some [7]))))
      (measurementIs [8] "is-trusted-for-authentication") = some true ∧
    VerifyRule7 defaultTree (measurementIs [7] "is-trusted")
      (MakeSimpleVseClause (some (MakeMeasurementEntity (some [8]))) (some "speaks-for")
        (some (MakeMeasurementEntity (some [7]))))
      (measurementIs [8] "is-trusted-for-attestation") = some true := by
  constructor <;> decide

/-- Claim C10. On the tree that `InitDominance` produces, for well-formed keys `K1`, `K2`
and all verbs `X`, `Y`, `VerifyRule5` on `K1 X`, `K1 says (K2 Y)` and `K2 Y` is true iff
`Dominates(tree, "is-trusted", X)` and `Dominates(tree, X, Y)`. From
`X = is-trusted-for-attestation` only `Y = is-trusted-for-attestation` is accepted, and
from `X = is-trusted-for-authentication` only `Y = is-trusted-for-authentication`. -/
theorem VerifyRule5_accepts_iff_dominates (root tree : PredicateDominance)
    (K1 K2 : KeyMessage) (ht : InitDominance root = some (true, tree))
    (h1 : WellFormedKey K1 = true) (h2 : WellFormedKey K2 = true) :
    (∀ X Y : String,
      VerifyRule5 tree
        (MakeUnaryVseClause (some (MakeKeyEntity (some K1))) (some X))
        (MakeIndirectVseClause (some (MakeKeyEntity (some K1))) (some "says")
          (some (MakeUnaryVseClause (some (MakeKeyEntity (some K2))) (some Y))))
        (MakeUnaryVseClause (some (MakeKeyEntity (some K2))) (some Y)) = some true ↔
      Dominates tree "is-trusted" X = some true ∧ Dominates tree X Y = some true) ∧
    (∀ Y : String,
      VerifyRule5 tree
        (MakeUnaryVseClause (some (MakeKeyEntity (some K1))) (some "is-trusted-for-attestation"))
        (MakeIndirectVseClause (some (MakeKeyEntity (some K1))) (some "says")
          (some (MakeUnaryVseClause (some (MakeKeyEntity (some K2))) (some Y))))
        (MakeUnaryVseClause (some (MakeKeyEntity (some K2))) (some Y)) = some true ↔
      Y = "is-trusted-for-attestation") ∧
    (∀ Y : String,
      VerifyRule5 tree
        (MakeUnaryVseClause (some (MakeKeyEntity (some K1)))
          (some "is-trusted-for-authentication"))
        (MakeIndirectVseClause (some (MakeKeyEntity (some K1))) (some "says")
          (some (MakeUnaryVseClause (some (MakeKeyEntity (some K2))) (some Y))))
        (MakeUnaryVseClause (some (MakeKeyEntity (some K2))) (some Y)) = some true ↔
      Y = "is-trusted-for-authentication") := by
  obtain ⟨-, rfl⟩ := InitDominance_eq _ _ _ ht
  refine ⟨fun X Y => VerifyRule5_default K1 K2 X Y h1 h2, fun Y => ?_, fun Y => ?_⟩
  · rw [VerifyRule5_eq defaultTree K1 K2 _ Y h1 h2 _ _ (Dominates_defaultTree _ _)
      (Dominates_defaultTree _ _)]
    have e : ("is-trusted-for-attestation" == Y) = decide (Y = "is-trusted-for-attestation") := by
      by_cases h : Y = "is-trusted-for-attestation"
      · subst h; decide
      · have h' : ¬ "is-trusted-for-attestation" = Y := fun e => h e.symm
        simp [h, h']
    simp [e]
  · rw [VerifyRule5_eq defaultTree K1 K2 _ Y h1 h2 _ _ (Dominates_defaultTree _ _)
      (Dominates_defaultTree _ _)]
    have e : ("is-trusted-for-authentication" == Y) =
        decide (Y = "is-trusted-for-authentication") := by
      by_cases h : Y = "is-trusted-for-authentication"
      · subst h; decide
      · have h' : ¬ "is-trusted-for-authentication" = Y := fun e => h e.symm
        simp [h, h']
    simp [e]

/-- Witness of claim C10: keys `rsaKey "p" [3]` and `rsaKey "e" [5]`, with
`X = is-trusted` and `Y = is-trusted-for-attestation`. -/
theorem VerifyRule5_accepts_iff_dominates_witness :
    InitDominance (.node "" .null .null) = some (true, defaultTree) ∧
    WellFormedKey (rsaKey "p" [3]) = true ∧ WellFormedKey (rsaKey "e" [5]) = true ∧
    VerifyRule5 defaultTree
        (MakeUnaryVseClause (some (MakeKeyEntity (some (rsaKey "p" [3])))) (some "is-trusted"))
        (MakeIndirectVseClause (some (MakeKeyEntity (some (rsaKey "p" [3])))) (some "says")
          (some (MakeUnaryVseClause (some (MakeKeyEntity (some (rsaKey "e" [5]))))
            (some "is-trusted-for-attestation"))))
        (MakeUnaryVseClause (some (MakeKeyEntity (some (rsaKey "e" [5]))))
          (some "is-trusted-for-attestation")) = some true :=
  ⟨by decide, by decide, by decide,
    ((VerifyRule5_accepts_iff_dominates (.node "" .null .null) defaultTree (rsaKey "p" [3])
      (rsaKey "e" [5]) (by decide) (by decide) (by decide)).1 "is-trusted"
      "is-trusted-for-attestation").2 ⟨by decide, by decide⟩⟩

/-! ## Lemmas on rules 5 and 6, the evidence branches and the seen-keys table -/

/-- The body of `SameVseClause`, for clauses given by their four fields. -/
theorem SameVseClause_eq (s1 : Option EntityMessage) (v1 : Option String)
    (o1 : Option EntityMessage) (cl1 : Option VseClause) (s2 : Option EntityMessage)
    (v2 : Option String) (o2 : Option EntityMessage) (cl2 : Option VseClause) :
    SameVseClause (.mk s1 v1 o1 cl1) (.mk s2 v2 o2 cl2) =
      if s1.isNone || s2.isNone then some false
      else
        match SameEntity s1 s2 with
        | none => none
        | some false => some false
        | some true =>
          if v1.getD "" ≠ v2.getD "" then some false
          else if (o1.isNone && o2.isSome) || (o1.isSome && o2.isNone) then some false
          else
            match (if o1.isSome then SameEntity o1 o2 else some true) with
            | none => none
            | some false => some false
            | some true =>
              match cl1, cl2 with
              | none, some _ => some false
              | some _, none => some false
              | some a, some b => SameVseClause a b
              | none, none => some true := by
  cases cl1 <;> cases cl2 <;> simp [SameVseClause]

/-- What a true answer of `SameVseClause` says about the two clauses: both subjects are present
and equal as entities, the verbs are equal, and objects and nested clauses are present on
both sides or on neither. -/
theorem SameVseClause_true_shape (a b : VseClause) (h : SameVseClause a b = some true) :
    a.Subject.isSome = true ∧ b.Subject.isSome = true ∧
    SameEntity a.Subject b.Subject = some true ∧ a.GetVerb = b.GetVerb ∧
    a.Object.isSome = b.Object.isSome ∧ a.Clause.isSome = b.Clause.isSome := by
  obtain ⟨s1, v1, o1, c1⟩ := a
  obtain ⟨s2, v2, o2, c2⟩ := b
  rw [SameVseClause_eq] at h
  simp only [VseClause.Subject, VseClause.GetVerb, VseClause.Verb, VseClause.Object,
    VseClause.Clause]
  by_cases h1 : (s1.isNone || s2.isNone) = true
  · simp [h1] at h
  · simp only [h1] at h
    cases hse : SameEntity s1 s2 with
    | none => simp [hse] at h
    | some bb =>
      cases bb with
      | false => simp [hse] at h
      | true =>
        simp only [hse] at h
        by_cases hv : v1.getD "" = v2.getD ""
        · by_cases ho : ((o1.isNone && o2.isSome) || (o1.isSome && o2.isNone)) = true
          · simp [hv, ho] at h
          · cases s1 <;> cases s2 <;> cases o1 <;> cases o2 <;> cases c1 <;> cases c2 <;>
              simp_all <;> (split at h <;> simp_all)
        · simp [hv] at h

/-- Entities that `SameEntity` accepts have the same entity type. -/
theorem SameEntity_true_type (a b : Option EntityMessage) (h : SameEntity a b = some true) :
    GetEntityType a = GetEntityType b := by
  unfold SameEntity at h
  by_contra hne
  simp [hne] at h

/-- What rule 5 does enforce on an accepted triple: the said clause has a key subject, a verb
and no object, and the conclusion has a key subject, the same verb, no object, and a nested
clause exactly if the said clause has one. -/
theorem VerifyRule5_true_shape (tree : PredicateDominance) (s1 s2 c : VseClause)
    (h : VerifyRule5 tree s1 s2 c = some true) :
    ∃ c3, s2.Clause = some c3 ∧
      c3.Subject.isSome = true ∧ GetEntityType c3.Subject = "key" ∧ c3.Verb.isSome = true ∧
      c3.Object = none ∧
      c.Subject.isSome = true ∧ GetEntityType c.Subject = "key" ∧ c.GetVerb = c3.GetVerb ∧
      c.Object = none ∧ c.Clause.isSome = c3.Clause.isSome := by
  unfold VerifyRule5 at h
  by_cases a1 : (s1.Subject.isNone || s1.Verb.isNone || s1.Object.isSome || s1.Clause.isSome) = true
  · simp [a1] at h
  simp only [a1] at h
  cases d1 : Dominates tree "is-trusted" s1.GetVerb with
  | none => simp [d1] at h
  | some b1 =>
    cases b1 with
    | false => simp [d1] at h
    | true =>
      simp only [d1] at h
      by_cases a2 : GetEntityType s1.Subject = "key"
      swap
      · simp [a2] at h
      by_cases a3 : (s2.Subject.isNone || s2.Verb.isNone || s2.Object.isSome || s2.Clause.isNone) = true
      · simp [a2, a3] at h
      by_cases a4 : GetEntityType s2.Subject = "key"
      swap
      · simp [a2, a3, a4] at h
      by_cases a5 : s2.GetVerb = "says"
      swap
      · simp [a2, a3, a4, a5] at h
      simp only [a2, a3, a4, a5] at h
      cases hc3 : s2.Clause with
      | none => simp [hc3] at h
      | some c3 =>
        simp only [hc3] at h
        by_cases a6 : (c3.Subject.isNone || c3.Verb.isNone || c3.Object.isSome) = true
        · simp [a6] at h
        simp only [a6] at h
        cases d2 : Dominates tree s1.GetVerb c3.GetVerb with
        | none => simp [d2] at h
        | some b2 =>
          cases b2 with
          | false => simp [d2] at h
          | true =>
            simp only [d2] at h
            by_cases a7 : GetEntityType c3.Subject = "key"
            swap
            · simp [a7] at h
            simp only [a7] at h
            cases e1 : SameEntity s1.Subject s2.Subject with
            | none => simp [e1] at h
            | some b3 =>
              cases b3 with
              | false => simp [e1] at h
              | true =>
                simp [e1] at h
                obtain ⟨p1, p2, p3, p4, p5, p6⟩ := SameVseClause_true_shape _ _ h
                have t := SameEntity_true_type _ _ p3
                refine ⟨c3, rfl, p1, a7, ?_, ?_, p2, ?_, p4.symm, ?_, p6.symm⟩
                · cases hv : c3.Verb <;> simp_all
                · cases ho : c3.Object <;> simp_all
                · rw [← t]; exact a7
                · cases ho : c3.Object <;> cases ho2 : c.Object <;> simp_all

/-- Rule 6 on `K1 X`, `K1 says (K2 speaks-for M)`, `K2 speaks-for M` returns the conjunction of
its two dominance tests, on any tree on which these return. -/
theorem VerifyRule6_eq (tree : PredicateDominance) (K1 K2 : KeyMessage) (M : Option Bytes)
    (X : String) (h1 : WellFormedKey K1 = true) (h2 : WellFormedKey K2 = true) (d1 d2 : Bool)
    (hd1 : Dominates tree "is-trusted" X = some d1)
    (hd2 : Dominates tree X "is-trusted-for-attestation" = some d2) :
    VerifyRule6 tree
        (MakeUnaryVseClause (some (MakeKeyEntity (some K1))) (some X))
        (MakeIndirectVseClause (some (MakeKeyEntity (some K1))) (some "says")
          (some (MakeSimpleVseClause (some (MakeKeyEntity (some K2))) (some "speaks-for")
            (some (MakeMeasurementEntity M)))))
        (MakeSimpleVseClause (some (MakeKeyEntity (some K2))) (some "speaks-for")
            (some (MakeMeasurementEntity M)))
      = some (d1 && d2) := by
  have hk1 := SameEntity_key_self K1 h1
  have hc := SameVseClause_speaks_self K2 M h2
  simp only [VerifyRule6, MakeIndirectVseClause, MakeUnaryVseClause, VseClause.Subject,
    VseClause.Verb, VseClause.Object, VseClause.Clause, VseClause.GetVerb]
  simp only [MakeSimpleVseClause, VseClause.Subject, VseClause.Verb,
    VseClause.Object, VseClause.Clause, VseClause.GetVerb] at hc ⊢
  simp only [Option.getD_some, hd1, hd2, hk1, hc, GetEntityType_key, GetEntityType_measurement]
  cases d1 <;> cases d2 <;> simp

/-- Rule 6 never accepts a triple whose inner clause has a subject that is not a key, an object
that is not a measurement or a verb other than `speaks-for`, and returns false for it when
the first dominance test and the comparison of the speakers return. -/
theorem VerifyRule6_inner_shape (tree : PredicateDominance) (c1 c2 c c3 : VseClause)
    (hc3 : c2.Clause = some c3)
    (hbad : GetEntityType c3.Subject ≠ "key" ∨ GetEntityType c3.Object ≠ "measurement" ∨
      c3.GetVerb ≠ "speaks-for") :
    VerifyRule6 tree c1 c2 c ≠ some true ∧
    (Dominates tree "is-trusted" c1.GetVerb ≠ none → SameEntity c1.Subject c2.Subject ≠ none →
      VerifyRule6 tree c1 c2 c = some false) := by
  unfold VerifyRule6
  by_cases a1 : (c1.Subject.isNone || c1.Verb.isNone || c1.Object.isSome || c1.Clause.isSome) = true
  · simp [a1]
  simp only [a1]
  cases d1 : Dominates tree "is-trusted" c1.GetVerb with
  | none => simp
  | some b1 =>
    cases b1 with
    | false => simp
    | true =>
      by_cases a2 : GetEntityType c1.Subject = "key"
      swap
      · simp [a2]
      by_cases a3 : (c2.Subject.isNone || c2.Verb.isNone || c2.Object.isSome || c2.Clause.isNone) = true
      · simp [a2, a3]
      by_cases a4 : GetEntityType c2.Subject = "key"
      swap
      · simp [a2, a3, a4]
      by_cases a5 : c2.GetVerb = "says"
      swap
      · simp [a2, a3, a4, a5]
      simp only [a2, a3, a4, a5]
      cases e1 : SameEntity c1.Subject c2.Subject with
      | none => simp
      | some b3 =>
        cases b3 with
        | false => simp
        | true =>
          simp only [hc3]
          by_cases a6 : (c3.Subject.isNone || c3.Verb.isNone || c3.Object.isNone || c3.Clause.isSome) = true
          · simp [a6]
          simp only [a6]
          rcases hbad with hb | hb | hb
          · simp [hb]
          · by_cases a7 : GetEntityType c3.Subject = "key"
            · by_cases a8 : c3.GetVerb = "speaks-for"
              · simp [a7, a8, hb]
              · simp [a7, a8]
            · simp [a7]
          · by_cases a7 : GetEntityType c3.Subject = "key"
            · simp [a7, hb]
            · simp [a7]

/-- Comparing a literal with `X` by `==` decides `X = s`. -/
theorem beq_lit (s X : String) : (s == X) = decide (X = s) := by
  by_cases h : X = s
  · subst h; simp
  · have h2 : ¬ s = X := fun e => h e.symm
    simp [h, h2]

/-- Rule 6 on `defaultTree` for the defining triple: accepted exactly for the verbs
`is-trusted` and `is-trusted-for-attestation`, and never a fault. -/
theorem VerifyRule6_default (K1 K2 : KeyMessage) (M : Option Bytes) (X : String)
    (h1 : WellFormedKey K1 = true) (h2 : WellFormedKey K2 = true) :
    VerifyRule6 defaultTree
        (MakeUnaryVseClause (some (MakeKeyEntity (some K1))) (some X))
        (MakeIndirectVseClause (some (MakeKeyEntity (some K1))) (some "says")
          (some (MakeSimpleVseClause (some (MakeKeyEntity (some K2))) (some "speaks-for")
            (some (MakeMeasurementEntity M)))))
        (MakeSimpleVseClause (some (MakeKeyEntity (some K2))) (some "speaks-for")
            (some (MakeMeasurementEntity M)))
      = some (decide (X = "is-trusted" ∨ X = "is-trusted-for-attestation")) := by
  rw [VerifyRule6_eq defaultTree K1 K2 M X h1 h2 _ _ (Dominates_defaultTree _ _)
    (Dominates_defaultTree _ _)]
  by_cases a1 : X = "is-trusted"
  · subst a1; decide
  · by_cases a2 : X = "is-trusted-for-attestation"
    · subst a2; decide
    · by_cases a3 : X = "is-trusted-for-authentication"
      · subst a3; decide
      · have b1 : ¬ "is-trusted" = X := fun e => a1 e.symm
        have b2 : ¬ "is-trusted-for-attestation" = X := fun e => a2 e.symm
        have b3 : ¬ "is-trusted-for-authentication" = X := fun e => a3 e.symm
        simp [a1, a2, a3, b1, b2, b3]

/-- The `signed-claim` branch leaves the proved list as it was or appends one clause. -/
theorem signedClaimItem_extends (ext : Externals) (evs : List Evidence) (i : Nat)
    (seen : CertSeenList) (ps : List VseClause) :
    ItemResult.Extends ps (signedClaimItem ext evs i seen ps) := by
  unfold signedClaimItem
  repeat' split
  all_goals simp [ItemResult.Extends]

/-- The `oe-attestation-report` branch leaves the proved list as it was or appends one clause. -/
theorem oeAttestationReportItem_extends (ext : Externals) (evs : List Evidence) (i : Nat)
    (seen : CertSeenList) (ps : List VseClause) :
    ItemResult.Extends ps (oeAttestationReportItem ext evs i seen ps) := by
  unfold oeAttestationReportItem
  repeat' split
  all_goals simp [ItemResult.Extends]

/-- The `sev-attestation` branch leaves the proved list as it was or appends one clause. -/
theorem sevAttestationItem_extends (ext : Externals) (evs : List Evidence) (i : Nat)
    (seen : CertSeenList) (ps : List VseClause) :
    ItemResult.Extends ps (sevAttestationItem ext evs i seen ps) := by
  unfold sevAttestationItem
  repeat' split
  all_goals simp [ItemResult.Extends]

/-- The `cert` branch leaves the proved list as it was or appends one clause. -/
theorem certItem_extends (ext : Externals) (evs : List Evidence) (i : Nat)
    (seen : CertSeenList) (ps : List VseClause) :
    ItemResult.Extends ps (certItem ext evs i seen ps) := by
  unfold certItem
  repeat' split
  all_goals simp [ItemResult.Extends]

/-- The `signed-vse-attestation-report` branch leaves the proved list as it was or appends one
clause. -/
theorem signedVseAttestationReportItem_extends (ext : Externals) (evs : List Evidence) (i : Nat)
    (seen : CertSeenList) (ps : List VseClause) :
    ItemResult.Extends ps (signedVseAttestationReportItem ext evs i seen ps) := by
  unfold signedVseAttestationReportItem
  repeat' split
  all_goals simp [ItemResult.Extends]

/-- Every evidence item leaves the proved list as it was or appends one clause. -/
theorem InitProvedStatementsItem_extends (ext : Externals) (evs : List Evidence) (i : Nat)
    (ev : Evidence) (seen : CertSeenList) (ps : List VseClause) :
    ItemResult.Extends ps (InitProvedStatementsItem (sourceHandlers ext) evs i ev seen ps) := by
  unfold InitProvedStatementsItem sourceHandlers
  split_ifs
  · exact signedClaimItem_extends ext evs i seen ps
  · simp [ItemResult.Extends]
  · exact oeAttestationReportItem_extends ext evs i seen ps
  · exact sevAttestationItem_extends ext evs i seen ps
  · exact certItem_extends ext evs i seen ps
  · exact signedVseAttestationReportItem_extends ext evs i seen ps
  · simp [ItemResult.Extends]

/-- The loop of `InitProvedStatements` only appends to the proved list. -/
theorem InitProvedStatementsLoop_extends (ext : Externals) (evs : List Evidence)
    (todo : List Evidence) :
    ∀ (i : Nat) (seen : CertSeenList) (ps : List VseClause), ∃ more,
      (InitProvedStatementsLoop (sourceHandlers ext) evs todo i seen ps).2 = ps ++ more := by
  induction todo with
  | nil => intro i seen ps; exact ⟨[], by simp [InitProvedStatementsLoop]⟩
  | cons ev rest ih =>
    intro i seen ps
    have hx := InitProvedStatementsItem_extends ext evs i ev seen ps
    unfold InitProvedStatementsLoop
    cases hr : InitProvedStatementsItem (sourceHandlers ext) evs i ev seen ps with
    | panic => exact ⟨[], by simp⟩
    | returnFalse ps2 =>
      rw [hr] at hx
      simp only [ItemResult.Extends] at hx
      exact ⟨[], by simp [hx]⟩
    | next seen2 ps2 =>
      rw [hr] at hx
      simp only [ItemResult.Extends] at hx
      obtain ⟨m, hm⟩ := ih (i + 1) seen2 ps2
      rcases hx with h | ⟨c, h⟩
      · subst h; exact ⟨m, hm⟩
      · subst h; exact ⟨c :: m, by rw [hm]; simp⟩

/-- The proved list after `InitProvedStatements` is the given one, the clause `pk is-trusted`,
and what the evidence items appended. -/
theorem InitProvedStatements_extends (ext : Externals) (pk : KeyMessage) (evs : List Evidence)
    (ps : List VseClause) :
    ∃ more, (InitProvedStatements (sourceHandlers ext) pk evs ps).2 =
      ps ++ (keyIs pk "is-trusted" :: more) := by
  obtain ⟨m, hm⟩ := InitProvedStatementsLoop_extends ext evs evs 0 CertSeenList.init
    (ps ++ [keyIs pk "is-trusted"])
  refine ⟨m, ?_⟩
  simp only [InitProvedStatements, InitAxiom]
  simpa [keyIs] using hm

/-- One round of the loop of `InitProvedStatements` on an item that returns false. -/
theorem InitProvedStatementsLoop_returnFalse (h : EvidenceHandlers) (evs : List Evidence)
    (ev : Evidence) (todo : List Evidence) (i : Nat) (seen : CertSeenList)
    (ps ps2 : List VseClause)
    (hr : InitProvedStatementsItem h evs i ev seen ps = .returnFalse ps2) :
    InitProvedStatementsLoop h evs (ev :: todo) i seen ps = (some false, ps2) := by
  simp [InitProvedStatementsLoop, hr]

/-- One round of the loop of `InitProvedStatements` on an item that lets it go on. -/
theorem InitProvedStatementsLoop_next (h : EvidenceHandlers) (evs : List Evidence)
    (ev : Evidence) (todo : List Evidence) (i : Nat) (seen seen2 : CertSeenList)
    (ps ps2 : List VseClause)
    (hr : InitProvedStatementsItem h evs i ev seen ps = .next seen2 ps2) :
    InitProvedStatementsLoop h evs (ev :: todo) i seen ps =
      InitProvedStatementsLoop h evs todo (i + 1) seen2 ps2 := by
  simp [InitProvedStatementsLoop, hr]

/-- The table `InitProvedStatements` starts from has 30 slots and no entry. -/
theorem CertSeenList_init_facts :
    (0 : Int) ≤ CertSeenList.init.size ∧ CertSeenList.init.size ≤ CertSeenList.init.maxSize - 1 ∧
    CertSeenList.init.maxSize ≤ CertSeenList.init.keysSeen.length ∧
    CertSeenList.init.keysSeen.take CertSeenList.init.size.toNat = [] := by
  refine ⟨by decide, by decide, by decide, by decide⟩

/-- A table with `maxSize` 30 that holds 29 keys takes no further key. -/
theorem AddKeySeen_at_29 (list : CertSeenList) (k : Option KeyMessage)
    (hm : list.maxSize = 30) (hs : list.size = 29) : AddKeySeen list k = some (false, list) := by
  simp [AddKeySeen, hm, hs]

/-- The bounds on the seen-keys table that the branch for `cert` items relies on hold of the
table after `AddKeySeen` whenever they hold before. -/
theorem AddKeySeen_keeps_bounds (list list2 : CertSeenList) (k : Option KeyMessage) (b : Bool)
    (h0 : 0 ≤ list.size) (h1 : list.size ≤ list.maxSize - 1)
    (h2 : list.maxSize ≤ list.keysSeen.length)
    (h : AddKeySeen list k = some (b, list2)) :
    0 ≤ list2.size ∧ list2.size ≤ list2.maxSize - 1 ∧
      list2.maxSize ≤ list2.keysSeen.length := by
  unfold AddKeySeen at h
  by_cases hfull : list.maxSize - 1 ≤ list.size
  · simp only [hfull, if_true, Option.some.injEq, Prod.mk.injEq] at h
    obtain ⟨-, rfl⟩ := h
    exact ⟨h0, h1, h2⟩
  · have hin : ¬ (list.size < 0 ∨ (list.keysSeen.length : Int) ≤ list.size) := by omega
    simp only [hfull, hin, if_false] at h
    cases k with
    | none => simp at h
    | some m =>
      simp only [Option.some.injEq, Prod.mk.injEq] at h
      obtain ⟨-, rfl⟩ := h
      simp only [List.length_set]
      omega

/-- The dispatch of `InitProvedStatements` on a `signed-claim` item. -/
theorem InitProvedStatementsItem_signedClaim (ext : Externals) (evs : List Evidence) (i : Nat)
    (ev : Evidence) (seen : CertSeenList) (ps : List VseClause)
    (ht : ev.GetEvidenceType = "signed-claim") :
    InitProvedStatementsItem (sourceHandlers ext) evs i ev seen ps =
      signedClaimItem ext evs i seen ps := by
  simp [InitProvedStatementsItem, sourceHandlers, ht]

/-- The dispatch of `InitProvedStatements` on a `signed-vse-attestation-report` item. -/
theorem InitProvedStatementsItem_signedReport (ext : Externals) (evs : List Evidence) (i : Nat)
    (ev : Evidence) (seen : CertSeenList) (ps : List VseClause)
    (ht : ev.GetEvidenceType = "signed-vse-attestation-report") :
    InitProvedStatementsItem (sourceHandlers ext) evs i ev seen ps =
      signedVseAttestationReportItem ext evs i seen ps := by
  simp [InitProvedStatementsItem, sourceHandlers, ht]

/-- A signature that does not verify makes `VerifySignedClaim` return false, when the
signing key carries its RSA part. -/
theorem VerifySignedClaim_bad_signature (ext : Externals) (c : SignedClaimMessage)
    (k : Option KeyMessage) (PK : RsaPublicKey)
    (hk : GetRsaKeysFromInternal k = some (true, PK))
    (hsig : RsaSha256Verify ext PK c.SerializedClaimMessage c.Signature = false) :
    VerifySignedClaim ext c k = some false := by
  unfold VerifySignedClaim
  rw [hk]
  simp only [hsig]
  repeat' split
  all_goals simp_all

/-- With its RSA part present a key never makes `SameKey` fault against itself. -/
theorem SameKey_self_ne_none (k : Option KeyMessage) (PK : RsaPublicKey)
    (hk : GetRsaKeysFromInternal k = some (true, PK)) : SameKey k k ≠ none := by
  unfold GetRsaKeysFromInternal at hk
  cases k with
  | none => simp at hk
  | some m =>
    cases hr : m.RsaKey with
    | none => simp [hr] at hk
    | some r =>
      unfold SameKey
      simp only [hr]
      repeat' split
      all_goals simp

/-- A signature that does not verify makes `VerifyReport` return false, when the signing
key carries its RSA part. -/
theorem VerifyReport_bad_signature (ext : Externals) (serialized : Option Bytes)
    (sr : SignedReport) (PK : RsaPublicKey)
    (hsr : ext.UnmarshalSignedReport serialized = some sr)
    (hk : GetRsaKeysFromInternal sr.SigningKey = some (true, PK))
    (hsig : RsaSha256Verify ext PK sr.Report sr.Signature = false) :
    VerifyReport ext "vse-attestation-report" sr.SigningKey serialized = some false := by
  have hs := SameKey_self_ne_none sr.SigningKey PK hk
  unfold VerifyReport
  simp only [hsr, hk, hsig]
  cases hsk : SameKey sr.SigningKey sr.SigningKey with
  | none => exact absurd hsk hs
  | some b => cases b <;> simp

/-- With the RSA part of the signing key present `VerifyReport` does not fault. -/
theorem VerifyReport_ne_none (ext : Externals) (serialized : Option Bytes)
    (sr : SignedReport) (PK : RsaPublicKey)
    (hsr : ext.UnmarshalSignedReport serialized = some sr)
    (hk : GetRsaKeysFromInternal sr.SigningKey = some (true, PK)) :
    VerifyReport ext "vse-attestation-report" sr.SigningKey serialized ≠ none := by
  have hs := SameKey_self_ne_none sr.SigningKey PK hk
  unfold VerifyReport
  simp only [hsr, hk]
  cases hsk : SameKey sr.SigningKey sr.SigningKey with
  | none => exact absurd hsk hs
  | some b =>
    cases b
    · simp
    · simp only [ne_eq, not_true_eq_false, if_false]
      repeat' split
      all_goals simp

/-- A `signed-claim` item whose signature does not verify appends nothing and lets the loop go
on. -/
theorem signedClaimItem_bad_signature (ext : Externals) (evs : List Evidence) (i : Nat)
    (ev : Evidence) (seen : CertSeenList) (ps : List VseClause) (sc : SignedClaimMessage)
    (PK : RsaPublicKey) (hev : evs[i]? = some ev)
    (hsc : ext.UnmarshalSignedClaim ev.SerializedEvidence = some sc)
    (hk : GetRsaKeysFromInternal sc.SigningKey = some (true, PK))
    (hsig : RsaSha256Verify ext PK sc.SerializedClaimMessage sc.Signature = false) :
    signedClaimItem ext evs i seen ps = .next seen ps := by
  have h := VerifySignedClaim_bad_signature ext sc sc.SigningKey PK hk hsig
  simp [signedClaimItem, hev, hsc, VerifySignedAssertion, h]

/-- A `signed-vse-attestation-report` item whose signature does not verify, or whose time
window excludes the clock, appends nothing and lets the loop go on. -/
theorem signedReportItem_unverified (ext : Externals) (evs : List Evidence) (i : Nat)
    (ev : Evidence) (seen : CertSeenList) (ps : List VseClause) (sr : SignedReport)
    (info : VseAttestationReportInfo) (ud : AttestationUserData)
    (PK : RsaPublicKey) (hev : evs[i]? = some ev)
    (hsr : ext.UnmarshalSignedReport ev.SerializedEvidence = some sr)
    (hinfo : ext.UnmarshalReportInfo sr.Report = some info)
    (hud : ext.UnmarshalUserData info.UserData = some ud)
    (hk : GetRsaKeysFromInternal sr.SigningKey = some (true, PK))
    (hbad : RsaSha256Verify ext PK sr.Report sr.Signature = false ∨
      CheckTimeRange ext info.NotBefore info.NotAfter = false) :
    signedVseAttestationReportItem ext evs i seen ps = .next seen ps := by
  simp only [signedVseAttestationReportItem, hev, hsr, hinfo, hud]
  rcases hbad with hsig | htime
  · rw [VerifyReport_bad_signature ext ev.SerializedEvidence sr PK hsr hk hsig]
  · have hn := VerifyReport_ne_none ext ev.SerializedEvidence sr PK hsr hk
    cases hv : VerifyReport ext "vse-attestation-report" sr.SigningKey ev.SerializedEvidence with
    | none => exact absurd hv hn
    | some b => cases b <;> simp [htime]

/-- What the `signed-claim` branch appends: the decoded clause `C`, exactly when
`VerifySignedAssertion` succeeds with `C`, the verb of `C` is `says`, its subject is a key
entity, and `SameKey` holds of the signing key and that key. -/
theorem signedClaimItem_appends_iff (ext : Externals) (evs : List Evidence) (i : Nat)
    (ev : Evidence) (seen : CertSeenList) (ps : List VseClause) (sc : SignedClaimMessage)
    (hev : evs[i]? = some ev)
    (hsc : ext.UnmarshalSignedClaim ev.SerializedEvidence = some sc) (C : VseClause) :
    signedClaimItem ext evs i seen ps = .next seen (ps ++ [C]) ↔
      VerifySignedAssertion ext sc sc.SigningKey = some (some C) ∧ C.GetVerb = "says" ∧
        GetEntityType C.Subject = "key" ∧ SameKey sc.SigningKey (GetKey C.Subject) = some true := by
  simp only [signedClaimItem, hev, hsc]
  cases hv : VerifySignedAssertion ext sc sc.SigningKey with
  | none => simp
  | some r =>
    cases r with
    | none => simp
    | some tcl =>
      simp only []
      by_cases hc : tcl.GetVerb = "says" ∧ GetEntityType tcl.Subject = "key"
      · simp only [hc, and_self, if_true]
        cases hk : SameKey sc.SigningKey (GetKey tcl.Subject) with
        | none => simp; intro e; subst e; simp [hk]
        | some b =>
          cases b with
          | false => simp; intro e; subst e; simp [hk]
          | true =>
            constructor
            · intro h
              simp only [ItemResult.next.injEq, true_and] at h
              have e : tcl = C := by simpa using h
              subst e
              exact ⟨rfl, hc.1, hc.2, hk⟩
            · rintro ⟨e, -⟩
              simp only [Option.some.injEq] at e
              subst e; rfl
      · simp only [hc, if_false]
        constructor
        · intro h; simp at h
        · rintro ⟨e, h1, h2, -⟩
          simp only [Option.some.injEq] at e
          subst e
          exact absurd ⟨h1, h2⟩ hc

/-- In every case in which the `signed-claim` branch neither faults nor appends, the loop goes
on with the proved list as it was. -/
theorem signedClaimItem_otherwise (ext : Externals) (evs : List Evidence) (i : Nat)
    (ev : Evidence) (seen : CertSeenList) (ps : List VseClause) (sc : SignedClaimMessage)
    (hev : evs[i]? = some ev)
    (hsc : ext.UnmarshalSignedClaim ev.SerializedEvidence = some sc) :
    signedClaimItem ext evs i seen ps = .panic ∨
    signedClaimItem ext evs i seen ps = .next seen ps ∨
    ∃ C, signedClaimItem ext evs i seen ps = .next seen (ps ++ [C]) := by
  simp only [signedClaimItem, hev, hsc]
  repeat' split
  all_goals simp

/-- The dispatch of `InitProvedStatements` on an `oe-attestation-report` item. -/
theorem InitProvedStatementsItem_oe (ext : Externals) (evs : List Evidence) (i : Nat)
    (ev : Evidence) (seen : CertSeenList) (ps : List VseClause)
    (ht : ev.GetEvidenceType = "oe-attestation-report") :
    InitProvedStatementsItem (sourceHandlers ext) evs i ev seen ps =
      oeAttestationReportItem ext evs i seen ps := by
  simp [InitProvedStatementsItem, sourceHandlers, ht]

/-- The dispatch of `InitProvedStatements` on a `sev-attestation` item. -/
theorem InitProvedStatementsItem_sev (ext : Externals) (evs : List Evidence) (i : Nat)
    (ev : Evidence) (seen : CertSeenList) (ps : List VseClause)
    (ht : ev.GetEvidenceType = "sev-attestation") :
    InitProvedStatementsItem (sourceHandlers ext) evs i ev seen ps =
      sevAttestationItem ext evs i seen ps := by
  simp [InitProvedStatementsItem, sourceHandlers, ht]

/-- The dispatch of `InitProvedStatements` on a `cert` item. -/
theorem InitProvedStatementsItem_cert (ext : Externals) (evs : List Evidence) (i : Nat)
    (ev : Evidence) (seen : CertSeenList) (ps : List VseClause)
    (ht : ev.GetEvidenceType = "cert") :
    InitProvedStatementsItem (sourceHandlers ext) evs i ev seen ps =
      certItem ext evs i seen ps := by
  simp [InitProvedStatementsItem, sourceHandlers, ht]

/-- An `oe-attestation-report` item that is first, or whose predecessor is not a
`pem-cert-chain` item, returns false. -/
theorem oeAttestationReportItem_order (ext : Externals) (evs : List Evidence) (i : Nat)
    (ev : Evidence) (seen : CertSeenList) (ps : List VseClause) (hev : evs[i]? = some ev)
    (hbad : i = 0 ∨ ∃ prev, evs[i - 1]? = some prev ∧ prev.GetEvidenceType ≠ "pem-cert-chain") :
    oeAttestationReportItem ext evs i seen ps = .returnFalse ps := by
  simp only [oeAttestationReportItem, hev]
  rcases hbad with h0 | ⟨prev, hp, ht⟩
  · simp [h0]
  · by_cases hi : i < 1
    · simp [hi]
    · simp [hi, hp, ht]

/-- A `sev-attestation` item returns false when the last proved clause has no nested clause,
or the nested clause has no subject or a subject that is not a key entity. -/
theorem sevAttestationItem_order (ext : Externals) (evs : List Evidence) (i : Nat)
    (ev : Evidence) (seen : CertSeenList) (ps : List VseClause) (hev : evs[i]? = some ev)
    (hbad : ps.getLast? = none ∨ ∃ last, ps.getLast? = some last ∧
      (last.Clause = none ∨ ∃ inner, last.Clause = some inner ∧
        (inner.Subject = none ∨ GetEntityType inner.Subject ≠ "key"))) :
    sevAttestationItem ext evs i seen ps = .returnFalse ps := by
  simp only [sevAttestationItem, hev]
  rcases hbad with h0 | ⟨last, hl, h1 | ⟨inner, hi, h2 | h3⟩⟩
  · simp [h0]
  · simp [hl, h1]
  · simp [hl, hi, h2]
  · simp only [hl, hi]
    cases hs : inner.Subject with
    | none => rfl
    | some e => rw [hs] at h3; simp [h3]

/-- The search of the seen-keys table does not fault while the indices stay within the
array. -/
theorem FindKeySeenLoop_none_of_absent (name : String) (entries : List CertKeysSeen) :
    ∀ todo : Nat, todo ≤ entries.length → (∀ e ∈ entries.take todo, e.name ≠ name) →
      FindKeySeenLoop name entries todo = some none := by
  induction entries with
  | nil => intro todo h _; have : todo = 0 := by simpa using h
           subst this; rfl
  | cons e rest ih =>
    intro todo h hn
    cases todo with
    | zero => rfl
    | succ t =>
      have he : e.name ≠ name := hn e (by simp)
      simp only [FindKeySeenLoop, he, if_false]
      exact ih t (by simpa using h) (fun x hx => hn x (by simp [hx]))

/-- The search of the seen-keys table returns, nil or a key, while the indices stay within
the array. -/
theorem FindKeySeenLoop_ne_none (name : String) (entries : List CertKeysSeen) :
    ∀ todo : Nat, todo ≤ entries.length → FindKeySeenLoop name entries todo ≠ none := by
  induction entries with
  | nil => intro todo h; have : todo = 0 := by simpa using h
           subst this; simp [FindKeySeenLoop]
  | cons e rest ih =>
    intro todo h
    cases todo with
    | zero => simp [FindKeySeenLoop]
    | succ t =>
      simp only [FindKeySeenLoop]
      split_ifs
      · simp
      · exact ih t (by simpa using h)

/-- The first `n + 1` entries after writing entry `n` are the first `n` old ones and the new
one. -/
theorem mem_take_set (x : CertKeysSeen) (l : List CertKeysSeen) :
    ∀ (n : Nat) (e : CertKeysSeen), e ∈ (l.set n x).take (n + 1) → e ∈ l.take n ∨ e = x := by
  induction l with
  | nil => intro n e h; simp at h
  | cons a rest ih =>
    intro n e h
    cases n with
    | zero => simp at h; exact Or.inr h
    | succ m =>
      simp only [List.set_cons_succ, List.take_succ_cons, List.mem_cons] at h ⊢
      rcases h with h | h
      · exact Or.inl (Or.inl h)
      · rcases ih m e h with h2 | h2
        · exact Or.inl (Or.inr h2)
        · exact Or.inr h2

/-- The subject key of a certificate is named by the subject common name. -/
theorem GetSubjectKey_name (cert : X509Certificate) (k : KeyMessage)
    (h : GetSubjectKey cert = some k) : GetKeyName (some k) = cert.SubjectCommonName := by
  unfold GetSubjectKey at h
  cases hp : cert.PublicKey with
  | rsa PK =>
    simp only [hp, GetInternalKeyFromRsaPublicKey, GetSubjectNameFromCert] at h
    split at h
    · simp at h
    · simp only [Option.some.injEq] at h
      subst h; rfl
  | ecdsa PK =>
    simp only [hp, GetInternalKeyFromEccPublicKey, GetSubjectNameFromCert] at h
    split at h
    · simp at h
    · split at h
      · simp at h
      · split at h
        · simp only [Option.some.injEq] at h
          subst h; rfl
        · simp at h
  | other => simp [hp] at h

/-- A `cert` item whose issuer common name is neither a name recorded in the seen-keys table
nor its own subject common name returns false. -/
theorem certItem_unknown_issuer (ext : Externals) (evs : List Evidence) (i : Nat)
    (ev : Evidence) (seen : CertSeenList) (ps : List VseClause) (cert : X509Certificate)
    (hev : evs[i]? = some ev)
    (hparse : Asn1ToX509 ext ev.SerializedEvidence = some cert)
    (hs0 : 0 ≤ seen.size) (hs1 : seen.size ≤ seen.maxSize - 1)
    (hs2 : seen.maxSize ≤ seen.keysSeen.length)
    (hnew : ∀ e ∈ seen.keysSeen.take seen.size.toNat, e.name ≠ cert.IssuerCommonName)
    (hself : cert.SubjectCommonName ≠ cert.IssuerCommonName) :
    certItem ext evs i seen ps = .returnFalse ps := by
  have hlen : seen.size.toNat ≤ seen.keysSeen.length := by omega
  simp only [certItem, hev, hparse]
  cases hk : GetSubjectKey cert with
  | none => rfl
  | some subjKey =>
    have hname := GetSubjectKey_name cert subjKey hk
    simp only []
    cases hf : FindKeySeen seen (GetKeyName (some subjKey)) with
    | none => exact absurd hf (FindKeySeenLoop_ne_none _ _ _ hlen)
    | some found =>
      simp only []
      have hiss : FindKeySeen seen (GetIssuerNameFromCert cert) = some none :=
        FindKeySeenLoop_none_of_absent _ _ _ hlen hnew
      cases found with
      | some key => simp [hiss]
      | none =>
        simp only [Option.isNone_none, if_true]
        unfold AddKeySeen
        by_cases hfull : seen.maxSize - 1 ≤ seen.size
        · simp [hfull]
        · have hin : ¬ (seen.size < 0 ∨ (seen.keysSeen.length : Int) ≤ seen.size) := by omega
          simp only [hfull, hin, if_false]
          have h2 : FindKeySeen
              { maxSize := seen.maxSize, size := seen.size + 1,
                keysSeen := seen.keysSeen.set seen.size.toNat
                  { name := GetKeyName (some subjKey), pk := subjKey } }
              (GetIssuerNameFromCert cert) = some none := by
            unfold FindKeySeen
            have e1 : (seen.size + 1).toNat = seen.size.toNat + 1 := by omega
            simp only [e1]
            apply FindKeySeenLoop_none_of_absent
            · simp only [List.length_set]; omega
            · intro e he
              rcases mem_take_set _ _ _ _ he with h | h
              · exact hnew e h
              · subst h
                simp only [hname]
                exact hself
          simp [h2]

/-! ## Rules 5, 6, 2 and 4 -/

/-- Claim C11, evaluated where it fails. Rule 5 accepts `K1 is-trusted`,
`K1 says (C3)` and `C3` where `C3` is `K2 is-trusted-for-attestation` with a further nested
clause: the test on the said clause is `c3.Subject == nil || c3.Verb == nil ||
c3.Object != nil` and lacks `c3.Clause != nil`, so the said clause and the conclusion need not
be unary. -/
theorem VerifyRule5_accepts_nested_clause :
    VerifyRule5 defaultTree (keyIs (rsaKey "p" [3]) "is-trusted")
      (keySays (rsaKey "p" [3]) unaryWithNestedClause) unaryWithNestedClause = some true ∧
    unaryWithNestedClause.Clause.isSome = true := by
  constructor <;> decide

/-- Rule 6 on the tree of `InitDominance`, for well-formed keys `K1`, `K2` and every
measurement `M`: rule 6 on `K1 X`, `K1 says (K2 speaks-for M)`, `K2 speaks-for M` is true iff
`X` is `is-trusted` or `is-trusted-for-attestation`, and returns false for
`is-trusted-for-authentication`. A triple whose inner clause has a subject that is not a key, an
object that is not a measurement or a verb other than `speaks-for` is never accepted, and
rule 6 returns false for it whenever the comparison of the two speakers returns. -/
theorem VerifyRule6_accepts_iff_verb (root tree : PredicateDominance) (K1 K2 : KeyMessage)
    (M : Option Bytes) (ht : InitDominance root = some (true, tree))
    (h1 : WellFormedKey K1 = true) (h2 : WellFormedKey K2 = true) :
    (∀ X : String,
      VerifyRule6 tree
        (MakeUnaryVseClause (some (MakeKeyEntity (some K1))) (some X))
        (MakeIndirectVseClause (some (MakeKeyEntity (some K1))) (some "says")
          (some (MakeSimpleVseClause (some (MakeKeyEntity (some K2))) (some "speaks-for")
            (some (MakeMeasurementEntity M)))))
        (MakeSimpleVseClause (some (MakeKeyEntity (some K2))) (some "speaks-for")
            (some (MakeMeasurementEntity M))) = some true ↔
      X = "is-trusted" ∨ X = "is-trusted-for-attestation") ∧
    VerifyRule6 tree
        (MakeUnaryVseClause (some (MakeKeyEntity (some K1)))
          (some "is-trusted-for-authentication"))
        (MakeIndirectVseClause (some (MakeKeyEntity (some K1))) (some "says")
          (some (MakeSimpleVseClause (some (MakeKeyEntity (some K2))) (some "speaks-for")
            (some (MakeMeasurementEntity M)))))
        (MakeSimpleVseClause (some (MakeKeyEntity (some K2))) (some "speaks-for")
            (some (MakeMeasurementEntity M))) = some false ∧
    (∀ c1 c2 c c3 : VseClause, c2.Clause = some c3 →
      (GetEntityType c3.Subject ≠ "key" ∨ GetEntityType c3.Object ≠ "measurement" ∨
        c3.GetVerb ≠ "speaks-for") →
      VerifyRule6 tree c1 c2 c ≠ some true ∧
      (SameEntity c1.Subject c2.Subject ≠ none → VerifyRule6 tree c1 c2 c = some false)) := by
  obtain ⟨-, rfl⟩ := InitDominance_eq _ _ _ ht
  refine ⟨fun X => ?_, ?_, fun c1 c2 c c3 hc3 hbad => ?_⟩
  · rw [VerifyRule6_default K1 K2 M X h1 h2]; simp
  · rw [VerifyRule6_default K1 K2 M _ h1 h2]; decide
  · obtain ⟨a, b⟩ := VerifyRule6_inner_shape defaultTree c1 c2 c c3 hc3 hbad
    exact ⟨a, fun hse => b (by rw [Dominates_defaultTree]; simp) hse⟩

/-- An instance of `VerifyRule6_accepts_iff_verb`: the keys `rsaKey "p" [3]` and
`rsaKey "e" [5]`, the measurement `[7]` and the verb `is-trusted-for-attestation`. -/
theorem VerifyRule6_accepts_iff_verb_witness :
    InitDominance (.node "" .null .null) = some (true, defaultTree) ∧
    WellFormedKey (rsaKey "p" [3]) = true ∧ WellFormedKey (rsaKey "e" [5]) = true ∧
    VerifyRule6 defaultTree
        (MakeUnaryVseClause (some (MakeKeyEntity (some (rsaKey "p" [3]))))
          (some "is-trusted-for-attestation"))
        (MakeIndirectVseClause (some (MakeKeyEntity (some (rsaKey "p" [3])))) (some "says")
          (some (MakeSimpleVseClause (some (MakeKeyEntity (some (rsaKey "e" [5]))))
            (some "speaks-for") (some (MakeMeasurementEntity (some [7]))))))
        (MakeSimpleVseClause (some (MakeKeyEntity (some (rsaKey "e" [5])))) (some "speaks-for")
            (some (MakeMeasurementEntity (some [7])))) = some true :=
  ⟨by decide, by decide, by decide,
    ((VerifyRule6_accepts_iff_verb (.node "" .null .null) defaultTree (rsaKey "p" [3])
      (rsaKey "e" [5]) (some [7]) (by decide) (by decide) (by decide)).1
      "is-trusted-for-attestation").2 (Or.inr rfl)⟩

/-- Claim C12 (`VerifyRule6`, triples of the wrong shape): the claim fails in the code. On
the tree of `InitDominance`, take the triple `B is-trusted`, `B says (M x)`, `M x`, where
the inner clause has the measurement `M` as subject, no object and the verb `x`, and the
key `B` names the type `rsa-2048-public` and has no RSA part. Rule 6 compares the two
speakers before it looks at the inner clause; `SameKey` reads `RsaKey.PublicModulus` on
the nil `RsaKey` of `B` and the run faults, so the triple is not rejected. -/
theorem VerifyRule6_faults_on_wrong_inner_clause :
    InitDominance (.node "" .null .null) = some (true, defaultTree) ∧
    GetEntityType (measurementIs [7] "x").Subject = "measurement" ∧
    (measurementIs [7] "x").Object = none ∧
    (measurementIs [7] "x").GetVerb = "x" ∧
    SameEntity (keyIs rsaKeyWithoutMaterial "is-trusted").Subject
      (keySays rsaKeyWithoutMaterial (measurementIs [7] "x")).Subject = none ∧
    VerifyRule6 defaultTree (keyIs rsaKeyWithoutMaterial "is-trusted")
      (keySays rsaKeyWithoutMaterial (measurementIs [7] "x")) (measurementIs [7] "x") = none := by
  refine ⟨by decide, by decide, by decide, by decide, by decide, by decide⟩

/-- Rules 2 and 4 as the code has them: `VerifyInternalProofStep` with rule 2 or with rule 4
returns false on every triple, because `VerifyRule2` and `VerifyRule4` are bodies that only
return false. -/
theorem VerifyInternalProofStep_rule2_rule4_false (tree : PredicateDominance)
    (c1 c2 c : VseClause) :
    VerifyInternalProofStep tree c1 c2 c 2 = some false ∧
    VerifyInternalProofStep tree c1 c2 c 4 = some false := by
  constructor <;> simp [VerifyInternalProofStep, VerifyRule2, VerifyRule4]

/-- Claim C13 (rules 2 and 4 on their defining instances): the claim fails in the code. For
the well-formed keys `K1 = rsaKey "a" [1]`, `K2 = rsaKey "b" [2]`, `K3 = rsaKey "c" [3]`,
rule 2 rejects `K2 speaks-for K1`, `K3 speaks-for K2`, `K3 speaks-for K1`, and rule 4
rejects `K2 speaks-for K1`, `K1 is-trusted`, `K2 is-trusted`: the comments on `VerifyRule2`
and `VerifyRule4` state these two inferences, and the bodies only return false. -/
theorem VerifyInternalProofStep_rule2_rule4_reject_instances :
    WellFormedKey (rsaKey "a" [1]) = true ∧ WellFormedKey (rsaKey "b" [2]) = true ∧
    WellFormedKey (rsaKey "c" [3]) = true ∧
    VerifyInternalProofStep defaultTree
      (MakeSimpleVseClause (some (MakeKeyEntity (some (rsaKey "b" [2])))) (some "speaks-for")
        (some (MakeKeyEntity (some (rsaKey "a" [1])))))
      (MakeSimpleVseClause (some (MakeKeyEntity (some (rsaKey "c" [3])))) (some "speaks-for")
        (some (MakeKeyEntity (some (rsaKey "b" [2])))))
      (MakeSimpleVseClause (some (MakeKeyEntity (some (rsaKey "c" [3])))) (some "speaks-for")
        (some (MakeKeyEntity (some (rsaKey "a" [1]))))) 2 = some false ∧
    VerifyInternalProofStep defaultTree
      (MakeSimpleVseClause (some (MakeKeyEntity (some (rsaKey "b" [2])))) (some "speaks-for")
        (some (MakeKeyEntity (some (rsaKey "a" [1])))))
      (keyIs (rsaKey "a" [1]) "is-trusted") (keyIs (rsaKey "b" [2]) "is-trusted") 4
      = some false := by
  refine ⟨by decide, by decide, by decide, by decide, by decide⟩

/-! ## Evidence initialisation -/

/-- Claim C14. For every policy key, evidence list and initial proved list, the proved list
that `InitProvedStatements` leaves is the initial list, then the unary clause
`pk is-trusted` (key subject `pk`, verb `is-trusted`, no object, no nested clause), then
whatever the evidence items appended; on the empty evidence list it returns true and the
list is the initial one followed by that clause alone. -/
theorem InitProvedStatements_seeds_policy_clause (ext : Externals) (pk : KeyMessage)
    (evs : List Evidence) (ps : List VseClause) :
    (∃ more, (InitProvedStatements (sourceHandlers ext) pk evs ps).2 =
      ps ++ (VseClause.mk (some { EntityType := some "key", Key := some pk, Measurement := none })
        (some "is-trusted") none none :: more)) ∧
    InitProvedStatements (sourceHandlers ext) pk [] ps =
      (some true, ps ++ [VseClause.mk
        (some { EntityType := some "key", Key := some pk, Measurement := none })
        (some "is-trusted") none none]) := by
  constructor
  · exact InitProvedStatements_extends ext pk evs ps
  · rfl

/-- A loop of `InitProvedStatements` that returns false has met an item that returns false
after items that all went on; the list it leaves is the list those items built up, which
the failing item got and gave back unchanged. -/
theorem InitProvedStatementsLoop_false_split (ext : Externals) (evs : List Evidence) :
    ∀ (todo : List Evidence) (i : Nat) (seen : CertSeenList) (ps : List VseClause),
      (InitProvedStatementsLoop (sourceHandlers ext) evs todo i seen ps).1 = some false →
      ∃ (pre : List Evidence) (ev : Evidence) (post : List Evidence) (seen2 : CertSeenList)
        (L : List VseClause),
        todo = pre ++ ev :: post ∧
        afterItems (sourceHandlers ext) evs pre i seen ps = some (seen2, L) ∧
        InitProvedStatementsItem (sourceHandlers ext) evs (i + pre.length) ev seen2 L =
          .returnFalse L ∧
        (InitProvedStatementsLoop (sourceHandlers ext) evs todo i seen ps).2 = L := by
  intro todo
  induction todo with
  | nil => intro i seen ps h; simp [InitProvedStatementsLoop] at h
  | cons ev rest ih =>
    intro i seen ps h
    have hx := InitProvedStatementsItem_extends ext evs i ev seen ps
    cases hr : InitProvedStatementsItem (sourceHandlers ext) evs i ev seen ps with
    | panic => simp [InitProvedStatementsLoop, hr] at h
    | returnFalse ps2 =>
      rw [hr] at hx
      simp only [ItemResult.Extends] at hx
      subst hx
      refine ⟨[], ev, rest, seen, ps2, rfl, rfl, by simpa using hr, ?_⟩
      simp [InitProvedStatementsLoop, hr]
    | next seen2 ps2 =>
      rw [InitProvedStatementsLoop_next _ _ _ _ _ _ _ _ _ hr] at h
      obtain ⟨pre, ev2, post, seen3, L, h1, h2, h3, h4⟩ := ih (i + 1) seen2 ps2 h
      refine ⟨ev :: pre, ev2, post, seen3, L, by rw [h1]; rfl, ?_, ?_, ?_⟩
      · simp only [afterItems, hr]; exact h2
      · have : i + (ev :: pre).length = i + 1 + pre.length := by simp; omega
        rw [this]; exact h3
      · rw [InitProvedStatementsLoop_next _ _ _ _ _ _ _ _ _ hr]; exact h4

/-- Items that all go on only append: the list after the first `k` of them is an initial
part of the list after all of them. -/
theorem afterItems_take (ext : Externals) (evs : List Evidence) :
    ∀ (pre : List Evidence) (i : Nat) (seen seen2 : CertSeenList) (ps L : List VseClause),
      afterItems (sourceHandlers ext) evs pre i seen ps = some (seen2, L) →
      ∀ k : Nat, ∃ (seen1 : CertSeenList) (L1 more : List VseClause),
        afterItems (sourceHandlers ext) evs (pre.take k) i seen ps = some (seen1, L1) ∧
        L = L1 ++ more := by
  intro pre
  induction pre with
  | nil =>
    intro i seen seen2 ps L h k
    simp only [afterItems, Option.some.injEq, Prod.mk.injEq] at h
    exact ⟨seen, ps, [], by simp [afterItems], by simp [h.2]⟩
  | cons ev rest ih =>
    intro i seen seen2 ps L h k
    have hx := InitProvedStatementsItem_extends ext evs i ev seen ps
    cases hr : InitProvedStatementsItem (sourceHandlers ext) evs i ev seen ps with
    | panic => simp [afterItems, hr] at h
    | returnFalse ps2 => simp [afterItems, hr] at h
    | next s2 ps2 =>
      simp only [afterItems, hr] at h
      rw [hr] at hx
      simp only [ItemResult.Extends] at hx
      cases k with
      | zero =>
        obtain ⟨s1, L1, more, h1, h2⟩ := ih (i + 1) s2 seen2 ps2 L h 0
        simp only [List.take_zero, afterItems, Option.some.injEq, Prod.mk.injEq] at h1
        rcases hx with hx | ⟨c, hx⟩
        · exact ⟨seen, ps, more, by simp [afterItems], by rw [h2, ← h1.2, hx]⟩
        · exact ⟨seen, ps, c :: more, by simp [afterItems], by rw [h2, ← h1.2, hx]; simp⟩
      | succ k =>
        obtain ⟨s1, L1, more, h1, h2⟩ := ih (i + 1) s2 seen2 ps2 L h k
        exact ⟨s1, L1, more, by simp only [List.take_succ_cons, afterItems, hr]; exact h1, h2⟩

/-- Claim C15 (`InitProvedStatements`, failure is not atomic), amended: whenever
`InitProvedStatements` returns false, the evidence list splits into the items before the
failing one, the failing item and the rest; each item before the failing one went on to
the next; the failing item got the list these items built up from the given list
followed by `pk is-trusted`, and returned false with that list unchanged, which is the
list `InitProvedStatements` leaves. The list after any number of the earlier items is an
initial part of it, so nothing that was appended is removed, and it differs from the
given list. -/
theorem InitProvedStatements_false_keeps_appended (ext : Externals) (pk : KeyMessage)
    (evs : List Evidence) (ps : List VseClause)
    (hfalse : (InitProvedStatements (sourceHandlers ext) pk evs ps).1 = some false) :
    ∃ (pre : List Evidence) (ev : Evidence) (post : List Evidence) (seen : CertSeenList)
      (L : List VseClause),
      evs = pre ++ ev :: post ∧
      afterItems (sourceHandlers ext) evs pre 0 CertSeenList.init
        (ps ++ [keyIs pk "is-trusted"]) = some (seen, L) ∧
      InitProvedStatementsItem (sourceHandlers ext) evs pre.length ev seen L = .returnFalse L ∧
      (InitProvedStatements (sourceHandlers ext) pk evs ps).2 = L ∧
      (∀ k : Nat, ∃ (seen1 : CertSeenList) (L1 more : List VseClause),
        afterItems (sourceHandlers ext) evs (pre.take k) 0 CertSeenList.init
          (ps ++ [keyIs pk "is-trusted"]) = some (seen1, L1) ∧ L = L1 ++ more) ∧
      (∃ more, L = ps ++ (keyIs pk "is-trusted" :: more)) ∧ L ≠ ps := by
  have he : InitProvedStatements (sourceHandlers ext) pk evs ps =
      InitProvedStatementsLoop (sourceHandlers ext) evs evs 0 CertSeenList.init
        (ps ++ [keyIs pk "is-trusted"]) := rfl
  rw [he] at hfalse ⊢
  obtain ⟨pre, ev, post, seen, L, h1, h2, h3, h4⟩ :=
    InitProvedStatementsLoop_false_split ext evs evs 0 CertSeenList.init _ hfalse
  have h5 := afterItems_take ext evs pre 0 CertSeenList.init seen _ L h2
  obtain ⟨s0, L0, more, h6, h7⟩ := h5 0
  simp only [List.take_zero, afterItems, Option.some.injEq, Prod.mk.injEq] at h6
  have h8 : L = ps ++ (keyIs pk "is-trusted" :: more) := by
    rw [h7, ← h6.2]; simp
  refine ⟨pre, ev, post, seen, L, h1, h2, by simpa using h3, h4, h5, ⟨more, h8⟩, ?_⟩
  rw [h8]
  intro h
  have := congrArg List.length h
  simp at this

/-- Claim C15 fails as stated: in the example world, on the evidence list of a valid signed
claim followed by an item of unknown type, `InitProvedStatements` returns false and the
proved list, empty before, holds the clause `policy is-trusted` and the lifted claim. -/
theorem InitProvedStatements_false_not_atomic :
    InitProvedStatements (sourceHandlers exampleExternals) (rsaKey "policy" [3])
      [⟨some "signed-claim", some [2]⟩, ⟨some "no-such-type", none⟩] []
    = (some false, [keyIs (rsaKey "policy" [3]) "is-trusted",
        keySays (rsaKey "p" [3]) (keyIs (rsaKey "e" [5]) "is-trusted")]) := by
  rfl

/-- Witness of claim C15 (amended): in the example world, a valid signed claim followed by an
item of unknown type. -/
theorem InitProvedStatements_false_keeps_appended_witness :
    (InitProvedStatements (sourceHandlers exampleExternals) (rsaKey "policy" [3])
      [⟨some "signed-claim", some [2]⟩, ⟨some "no-such-type", none⟩] []).1 = some false ∧
    ∃ (pre : List Evidence) (ev : Evidence) (post : List Evidence) (seen : CertSeenList)
      (L : List VseClause),
      [(⟨some "signed-claim", some [2]⟩ : Evidence), ⟨some "no-such-type", none⟩] =
        pre ++ ev :: post ∧
      afterItems (sourceHandlers exampleExternals)
        [⟨some "signed-claim", some [2]⟩, ⟨some "no-such-type", none⟩] pre 0 CertSeenList.init
        ([] ++ [keyIs (rsaKey "policy" [3]) "is-trusted"]) = some (seen, L) ∧
      InitProvedStatementsItem (sourceHandlers exampleExternals)
        [⟨some "signed-claim", some [2]⟩, ⟨some "no-such-type", none⟩] pre.length ev seen L =
          .returnFalse L ∧
      (InitProvedStatements (sourceHandlers exampleExternals) (rsaKey "policy" [3])
        [⟨some "signed-claim", some [2]⟩, ⟨some "no-such-type", none⟩] []).2 = L ∧
      (∀ k : Nat, ∃ (seen1 : CertSeenList) (L1 more : List VseClause),
        afterItems (sourceHandlers exampleExternals)
          [⟨some "signed-claim", some [2]⟩, ⟨some "no-such-type", none⟩] (pre.take k) 0
          CertSeenList.init ([] ++ [keyIs (rsaKey "policy" [3]) "is-trusted"]) =
            some (seen1, L1) ∧ L = L1 ++ more) ∧
      (∃ more, L = [] ++ (keyIs (rsaKey "policy" [3]) "is-trusted" :: more)) ∧ L ≠ [] :=
  ⟨by decide,
    InitProvedStatements_false_keeps_appended exampleExternals (rsaKey "policy" [3])
      [⟨some "signed-claim", some [2]⟩, ⟨some "no-such-type", none⟩] [] (by decide)⟩

/-- Unverified signed items as the code has them. Item `i` of the evidence list is `ev`, reached with the
seen-keys table `seen` and the proved list `ps`. If `ev` is a `signed-claim` that decodes,
whose signing key carries its RSA part and whose signature does not verify, or a
`signed-vse-attestation-report` that decodes (report, report information and user data),
whose signing key carries its RSA part and whose signature does not verify or whose time
window excludes the clock, then the item appends nothing and the loop of
`InitProvedStatements` goes on with the next item; it does not return false for this item. -/
theorem InitProvedStatements_skips_unverified_item (ext : Externals) (evs : List Evidence)
    (i : Nat) (ev : Evidence) (todo : List Evidence) (seen : CertSeenList)
    (ps : List VseClause) (hev : evs[i]? = some ev) :
    (∀ (sc : SignedClaimMessage) (PK : RsaPublicKey),
      ev.GetEvidenceType = "signed-claim" →
      ext.UnmarshalSignedClaim ev.SerializedEvidence = some sc →
      GetRsaKeysFromInternal sc.SigningKey = some (true, PK) →
      RsaSha256Verify ext PK sc.SerializedClaimMessage sc.Signature = false →
      InitProvedStatementsLoop (sourceHandlers ext) evs (ev :: todo) i seen ps =
        InitProvedStatementsLoop (sourceHandlers ext) evs todo (i + 1) seen ps) ∧
    (∀ (sr : SignedReport) (info : VseAttestationReportInfo) (ud : AttestationUserData)
      (PK : RsaPublicKey),
      ev.GetEvidenceType = "signed-vse-attestation-report" →
      ext.UnmarshalSignedReport ev.SerializedEvidence = some sr →
      ext.UnmarshalReportInfo sr.Report = some info →
      ext.UnmarshalUserData info.UserData = some ud →
      GetRsaKeysFromInternal sr.SigningKey = some (true, PK) →
      (RsaSha256Verify ext PK sr.Report sr.Signature = false ∨
        CheckTimeRange ext info.NotBefore info.NotAfter = false) →
      InitProvedStatementsLoop (sourceHandlers ext) evs (ev :: todo) i seen ps =
        InitProvedStatementsLoop (sourceHandlers ext) evs todo (i + 1) seen ps) := by
  constructor
  · intro sc PK ht hsc hk hsig
    apply InitProvedStatementsLoop_next
    rw [InitProvedStatementsItem_signedClaim ext evs i ev seen ps ht]
    exact signedClaimItem_bad_signature ext evs i ev seen ps sc PK hev hsc hk hsig
  · intro sr info ud PK ht hsr hinfo hud hk hbad
    apply InitProvedStatementsLoop_next
    rw [InitProvedStatementsItem_signedReport ext evs i ev seen ps ht]
    exact signedReportItem_unverified ext evs i ev seen ps sr info ud PK hev hsr hinfo hud hk hbad

/-- Claim C16 (`InitProvedStatements`, evidence that fails verification): the claim fails in
the code. In the example world the only evidence item is a signed claim of the key
`rsaKey "p" [3]` with signature `[9]`, which does not verify under that key;
`InitProvedStatements` returns true, with only the clause `policy is-trusted` in the list.
The branch drops the item, while the branches for `oe-attestation-report`,
`sev-attestation` and `cert` return false when their verification fails. -/
theorem InitProvedStatements_true_despite_bad_signature :
    exampleExternals.UnmarshalSignedClaim (some [1]) =
      some (exampleSignedClaim (some (rsaKey "p" [3])) [9]) ∧
    GetRsaKeysFromInternal (some (rsaKey "p" [3])) = some (true, { N := 3, E := 65537 }) ∧
    RsaSha256Verify exampleExternals { N := 3, E := 65537 } (some [2]) (some [9]) = false ∧
    InitProvedStatements (sourceHandlers exampleExternals) (rsaKey "policy" [3])
      [⟨some "signed-claim", some [1]⟩] []
    = (some true, [keyIs (rsaKey "policy" [3]) "is-trusted"]) := by
  refine ⟨by decide, by decide, by decide, rfl⟩

/-- An instance of `InitProvedStatements_skips_unverified_item`: the signed claim with
signature `[9]` as item 0, followed by a signed claim with the valid signature `[1]`. -/
theorem InitProvedStatements_skips_unverified_item_witness :
    InitProvedStatementsLoop (sourceHandlers exampleExternals)
        [⟨some "signed-claim", some [1]⟩, ⟨some "signed-claim", some [2]⟩]
        [⟨some "signed-claim", some [1]⟩, ⟨some "signed-claim", some [2]⟩] 0
        CertSeenList.init [keyIs (rsaKey "policy" [3]) "is-trusted"] =
      InitProvedStatementsLoop (sourceHandlers exampleExternals)
        [⟨some "signed-claim", some [1]⟩, ⟨some "signed-claim", some [2]⟩]
        [⟨some "signed-claim", some [2]⟩] 1
        CertSeenList.init [keyIs (rsaKey "policy" [3]) "is-trusted"] :=
  (InitProvedStatements_skips_unverified_item exampleExternals
      [⟨some "signed-claim", some [1]⟩, ⟨some "signed-claim", some [2]⟩] 0
      ⟨some "signed-claim", some [1]⟩ [⟨some "signed-claim", some [2]⟩] CertSeenList.init
      [keyIs (rsaKey "policy" [3]) "is-trusted"] rfl).1
    (exampleSignedClaim (some (rsaKey "p" [3])) [9]) { N := 3, E := 65537 }
    (by decide) (by decide) (by decide) (by decide)

/-- Claim C17, evaluated where it fails. In the example world the evidence item decodes to
a signed claim without signing key. `VerifySignedAssertion` calls `VerifySignedClaim`, which
calls `GetRsaKeysFromInternal`, which reads `k.RsaKey.PublicModulus` on the nil key: the run
faults instead of dropping the item and going on. -/
theorem InitProvedStatements_faults_on_claim_without_key :
    exampleExternals.UnmarshalSignedClaim (some [3]) = some (exampleSignedClaim none [1]) ∧
    InitProvedStatements (sourceHandlers exampleExternals) (rsaKey "policy" [3])
      [⟨some "signed-claim", some [3]⟩] []
    = (none, [keyIs (rsaKey "policy" [3]) "is-trusted"]) := by
  refine ⟨by decide, rfl⟩

/-- Claim C18. Item `i` of the evidence list is `ev`, reached with the seen-keys table `seen`
and the proved list `ps`. `InitProvedStatements` returns false, with the proved list as the
item found it, when (a) `ev` is an `oe-attestation-report` that is first or whose predecessor
is not a `pem-cert-chain` item, (b) `ev` is a `sev-attestation` and the last proved clause has
no nested clause, or its nested clause has no subject or a subject that is not a key, (c) `ev`
is a `cert` that parses and whose issuer common name is neither recorded in the seen-keys table
(its used part, within the array) nor its own subject common name. In particular it returns
false when an `oe-attestation-report` or a `sev-attestation` is the first evidence item. -/
theorem InitProvedStatements_rejects_misordered (ext : Externals) (evs : List Evidence)
    (i : Nat) (ev : Evidence) (todo : List Evidence) (seen : CertSeenList)
    (ps : List VseClause) (hev : evs[i]? = some ev) :
    (ev.GetEvidenceType = "oe-attestation-report" →
      (i = 0 ∨ ∃ prev, evs[i - 1]? = some prev ∧ prev.GetEvidenceType ≠ "pem-cert-chain") →
      InitProvedStatementsLoop (sourceHandlers ext) evs (ev :: todo) i seen ps =
        (some false, ps)) ∧
    (ev.GetEvidenceType = "sev-attestation" →
      (ps.getLast? = none ∨ ∃ last, ps.getLast? = some last ∧
        (last.Clause = none ∨ ∃ inner, last.Clause = some inner ∧
          (inner.Subject = none ∨ GetEntityType inner.Subject ≠ "key"))) →
      InitProvedStatementsLoop (sourceHandlers ext) evs (ev :: todo) i seen ps =
        (some false, ps)) ∧
    (∀ cert : X509Certificate, ev.GetEvidenceType = "cert" →
      Asn1ToX509 ext ev.SerializedEvidence = some cert →
      0 ≤ seen.size → seen.size ≤ seen.maxSize - 1 → seen.maxSize ≤ seen.keysSeen.length →
      (∀ e ∈ seen.keysSeen.take seen.size.toNat, e.name ≠ cert.IssuerCommonName) →
      cert.SubjectCommonName ≠ cert.IssuerCommonName →
      InitProvedStatementsLoop (sourceHandlers ext) evs (ev :: todo) i seen ps =
        (some false, ps)) ∧
    (∀ (pk : KeyMessage) (first : Evidence) (rest : List Evidence) (ps0 : List VseClause),
      (first.GetEvidenceType = "oe-attestation-report" ∨
        first.GetEvidenceType = "sev-attestation") →
      InitProvedStatements (sourceHandlers ext) pk (first :: rest) ps0 =
        (some false, ps0 ++ [keyIs pk "is-trusted"])) := by
  refine ⟨fun ht hbad => ?_, fun ht hbad => ?_, fun cert ht hp h0 h1 h2 hn hs => ?_,
    fun pk first rest ps0 ht => ?_⟩
  · apply InitProvedStatementsLoop_returnFalse
    rw [InitProvedStatementsItem_oe ext evs i ev seen ps ht]
    exact oeAttestationReportItem_order ext evs i ev seen ps hev hbad
  · apply InitProvedStatementsLoop_returnFalse
    rw [InitProvedStatementsItem_sev ext evs i ev seen ps ht]
    exact sevAttestationItem_order ext evs i ev seen ps hev hbad
  · apply InitProvedStatementsLoop_returnFalse
    rw [InitProvedStatementsItem_cert ext evs i ev seen ps ht]
    exact certItem_unknown_issuer ext evs i ev seen ps cert hev hp h0 h1 h2 hn hs
  · simp only [InitProvedStatements, InitAxiom]
    apply InitProvedStatementsLoop_returnFalse
    rcases ht with ht | ht
    · rw [InitProvedStatementsItem_oe ext _ 0 first _ _ ht]
      exact oeAttestationReportItem_order ext _ 0 first _ _ (by simp) (Or.inl rfl)
    · rw [InitProvedStatementsItem_sev ext _ 0 first _ _ ht]
      apply sevAttestationItem_order ext _ 0 first _ _ (by simp)
      refine Or.inr ⟨keyIs pk "is-trusted", ?_, Or.inl rfl⟩
      simp [keyIs]

/-- Witness of claim C18: in the example world the certificate `exampleCertB`, whose issuer
`A` was not seen, as the only evidence item. -/
theorem InitProvedStatements_rejects_misordered_witness :
    Asn1ToX509 exampleExternals (some [2]) = some exampleCertB ∧
    exampleCertB.SubjectCommonName ≠ exampleCertB.IssuerCommonName ∧
    InitProvedStatementsLoop (sourceHandlers exampleExternals) [⟨some "cert", some [2]⟩]
      [⟨some "cert", some [2]⟩] 0 CertSeenList.init [keyIs (rsaKey "policy" [3]) "is-trusted"]
      = (some false, [keyIs (rsaKey "policy" [3]) "is-trusted"]) :=
  ⟨by decide, by decide,
    (InitProvedStatements_rejects_misordered exampleExternals [⟨some "cert", some [2]⟩] 0
      ⟨some "cert", some [2]⟩ [] CertSeenList.init [keyIs (rsaKey "policy" [3]) "is-trusted"]
      rfl).2.2.1 exampleCertB (by decide) (by decide) (by decide) (by decide) (by decide)
      (by decide) (by decide)⟩

/-- Claim C19, evaluated where it fails. In the example world chain verification accepts a
certificate only when it is itself in the pool of roots, so `exampleCertB`, which names `A`
as issuer, does not verify against the pool that holds `exampleCertA`. Still the clause
`K_A says (K_B is-trusted-for-attestation)` is emitted: the pool handed to `cert.Verify` is
built by `certPool.AddCert(cert)` from the candidate itself, and the issuer found in the
seen-keys table takes no part in the verification. -/
theorem InitProvedStatements_cert_verified_against_itself :
    exampleExternals.X509Verify exampleCertB [exampleCertA] = false ∧
    InitProvedStatements (sourceHandlers exampleExternals) (rsaKey "policy" [3])
      [⟨some "cert", some [1]⟩, ⟨some "cert", some [2]⟩] []
    = (some true,
       [keyIs (rsaKey "policy" [3]) "is-trusted",
        ConstructVseAttestationFromCert (GetSubjectKey exampleCertA) (GetSubjectKey exampleCertA),
        ConstructVseAttestationFromCert (GetSubjectKey exampleCertB)
          (GetSubjectKey exampleCertA)]) := by
  refine ⟨by decide, rfl⟩

/-- Claim C20, evaluated where it fails. Starting from the empty table with `maxSize` 30,
`AddKeySeen` returns true for 29 keys with pairwise distinct names, each of them found by
`FindKeySeen` under its name afterwards, and returns false for the 30th key, leaving the
table as it is: the guard is `(list.maxSize - 1) <= list.size`. -/
theorem AddKeySeen_thirtieth_key_refused :
    ∃ t, addNumberedKeys CertSeenList.init (List.range 29) = some t ∧ t.size = 29 ∧
      (∀ i ∈ List.range 29,
        FindKeySeen t (GetKeyName (some (numberedKey i))) = some (some (numberedKey i))) ∧
      AddKeySeen t (some (numberedKey 29)) = some (false, t) := by
  refine ⟨_, rfl, ?_, ?_, ?_⟩
  · decide
  · decide
  · decide

/-! ## Lemmas on key equality, public parts, the dominance tree and padding -/

/-- Go `bytes.Equal` does not depend on the order of its arguments. -/
theorem bytesEqual_comm (a b : Option Bytes) : bytesEqual a b = bytesEqual b a := by
  unfold bytesEqual
  exact BEq.comm

/-- Go `bytes.Equal` is transitive. -/
theorem bytesEqual_trans (a b c : Option Bytes) (h1 : bytesEqual a b = true)
    (h2 : bytesEqual b c = true) : bytesEqual a c = true := by
  unfold bytesEqual at *
  simp only [beq_iff_eq] at *
  rw [h1, h2]

/-- Go `SamePoint` does not depend on the order of its arguments. -/
theorem SamePoint_comm (p q : PointMessage) : SamePoint p q = SamePoint q p := by
  unfold SamePoint
  rw [bytesEqual_comm p.X q.X, bytesEqual_comm p.Y q.Y]
  cases p.X.isNone <;> cases p.Y.isNone <;> cases q.X.isNone <;> cases q.Y.isNone <;> rfl

/-- Go `SamePoint` is transitive. -/
theorem SamePoint_trans (p q r : PointMessage) (h1 : SamePoint p q = true)
    (h2 : SamePoint q r = true) : SamePoint p r = true := by
  unfold SamePoint at *
  split at h1
  · simp at h1
  · split at h2
    · simp at h2
    · rename_i g1 g2
      simp only [Bool.and_eq_true] at h1 h2
      simp only [Bool.or_eq_true, not_or, Bool.not_eq_true] at g1 g2
      have e1 := bytesEqual_trans _ _ _ h1.1 h2.1
      have e2 := bytesEqual_trans _ _ _ h1.2 h2.2
      simp [g1.1.1.1, g1.1.1.2, g2.1.2, g2.2, e1, e2]

/-- The value of `SameKey` on two keys that are there, through the comparisons of the RSA
parts and of the ECC parts. -/
theorem SameKey_some (a b : KeyMessage) :
    SameKey (some a) (some b) =
      if GetKeyType (some a) ≠ GetKeyType (some b) then some false
      else if isRsaKeyType (GetKeyType (some a)) then
        match a.RsaKey, b.RsaKey with
        | some r1, some r2 => some (sameRsaParameters r1 r2)
        | _, _ => none
      else if isEccKeyType (GetKeyType (some a)) then
        match a.EccKey, b.EccKey with
        | some e1, some e2 => some (sameEccParameters e1 e2)
        | _, _ => some false
      else some false := by
  unfold SameKey
  dsimp only
  split
  · rfl
  · split
    · cases a.RsaKey <;> cases b.RsaKey <;> rfl
    · split
      · cases a.EccKey with
        | none => cases b.EccKey <;> rfl
        | some e1 =>
          cases b.EccKey with
          | none => rfl
          | some e2 =>
            simp only [sameEccParameters]
            cases e1.BasePoint <;> cases e2.BasePoint <;> try rfl
            cases e1.PublicPoint <;> cases e2.PublicPoint <;> try rfl
            cases e1.CurveName <;> cases e2.CurveName <;> try rfl
            simp only []
            split <;> rfl
      · rfl

/-- The value of `SameKey` when the first key is nil: the getter yields the empty type. -/
theorem SameKey_none_left (k : Option KeyMessage) :
    SameKey none k = some false := by
  unfold SameKey
  by_cases h : GetKeyType none = GetKeyType k
  · rw [← h]; simp [GetKeyType, isRsaKeyType, isEccKeyType]
  · simp [h]

/-- The value of `SameKey` when the second key is nil. -/
theorem SameKey_none_right (k : Option KeyMessage) :
    SameKey k none = some false := by
  unfold SameKey
  by_cases h : GetKeyType k = GetKeyType none
  · rw [h]; simp [GetKeyType, isRsaKeyType, isEccKeyType]
  · simp [h]

/-- The comparison of RSA parts does not depend on the order. -/
theorem sameRsaParameters_comm (r1 r2 : RsaMessage) :
    sameRsaParameters r1 r2 = sameRsaParameters r2 r1 := by
  unfold sameRsaParameters
  rw [bytesEqual_comm r1.PublicModulus, bytesEqual_comm r1.PublicExponent]

/-- The comparison of RSA parts is transitive. -/
theorem sameRsaParameters_trans (r1 r2 r3 : RsaMessage) (h1 : sameRsaParameters r1 r2 = true)
    (h2 : sameRsaParameters r2 r3 = true) : sameRsaParameters r1 r3 = true := by
  unfold sameRsaParameters at *
  simp only [Bool.and_eq_true] at *
  exact ⟨bytesEqual_trans _ _ _ h1.1 h2.1, bytesEqual_trans _ _ _ h1.2 h2.2⟩

/-- The comparison of ECC parts does not depend on the order. -/
theorem sameEccParameters_comm (e1 e2 : EccMessage) :
    sameEccParameters e1 e2 = sameEccParameters e2 e1 := by
  unfold sameEccParameters
  cases e1.BasePoint <;> cases e2.BasePoint <;> try rfl
  cases e1.PublicPoint <;> cases e2.PublicPoint <;> try rfl
  cases e1.CurveName <;> cases e2.CurveName <;> try rfl
  rename_i b1 b2 p1 p2 n1 n2
  dsimp only
  rw [SamePoint_comm b1 b2, SamePoint_comm p1 p2]
  by_cases hn : n1 = n2
  · simp [hn]
  · have hn2 : ¬ n2 = n1 := fun h => hn h.symm
    simp [hn, hn2]

/-- What a true comparison of ECC parts says. -/
theorem sameEccParameters_true (e1 e2 : EccMessage) (h : sameEccParameters e1 e2 = true) :
    ∃ b1 b2 p1 p2 n, e1.BasePoint = some b1 ∧ e2.BasePoint = some b2 ∧
      e1.PublicPoint = some p1 ∧ e2.PublicPoint = some p2 ∧
      e1.CurveName = some n ∧ e2.CurveName = some n ∧
      SamePoint b1 b2 = true ∧ SamePoint p1 p2 = true := by
  unfold sameEccParameters at h
  cases hb1 : e1.BasePoint <;> cases hb2 : e2.BasePoint <;> simp only [hb1, hb2] at h <;>
    try (simp at h; done)
  cases hp1 : e1.PublicPoint <;> cases hp2 : e2.PublicPoint <;> simp only [hp1, hp2] at h <;>
    try (simp at h; done)
  cases hn1 : e1.CurveName <;> cases hn2 : e2.CurveName <;> simp only [hn1, hn2] at h <;>
    try (simp at h; done)
  rename_i b1 b2 p1 p2 n1 n2
  by_cases hn : n1 = n2
  · subst hn
    simp at h
    exact ⟨b1, b2, p1, p2, n1, rfl, rfl, rfl, rfl, rfl, rfl, h.1, h.2⟩
  · simp [hn] at h

/-- The comparison of ECC parts is transitive. -/
theorem sameEccParameters_trans (e1 e2 e3 : EccMessage) (h1 : sameEccParameters e1 e2 = true)
    (h2 : sameEccParameters e2 e3 = true) : sameEccParameters e1 e3 = true := by
  obtain ⟨b1, b2, p1, p2, n, hb1, hb2, hp1, hp2, hn1, hn2, hsb, hsp⟩ :=
    sameEccParameters_true e1 e2 h1
  obtain ⟨b2', b3, p2', p3, n', hb2', hb3, hp2', hp3, hn2', hn3, hsb', hsp'⟩ :=
    sameEccParameters_true e2 e3 h2
  rw [hb2] at hb2'; rw [hp2] at hp2'; rw [hn2] at hn2'
  cases hb2'; cases hp2'; cases hn2'
  unfold sameEccParameters
  simp only [hb1, hb3, hp1, hp3, hn1, hn3]
  simp [SamePoint_trans _ _ _ hsb hsb', SamePoint_trans _ _ _ hsp hsp']

/-- Go `SameKey` does not depend on the order of its arguments: the two calls return the
same value, or fault both. -/
theorem SameKey_comm (k1 k2 : Option KeyMessage) : SameKey k1 k2 = SameKey k2 k1 := by
  cases k1 with
  | none => rw [SameKey_none_left, SameKey_none_right]
  | some a =>
    cases k2 with
    | none => rw [SameKey_none_left, SameKey_none_right]
    | some b =>
      rw [SameKey_some, SameKey_some]
      by_cases ht : GetKeyType (some a) = GetKeyType (some b)
      · rw [← ht]
        simp only [ne_eq, not_true_eq_false, if_false]
        have hr : (match a.RsaKey, b.RsaKey with
            | some r1, some r2 => some (sameRsaParameters r1 r2)
            | _, _ => none) =
            (match b.RsaKey, a.RsaKey with
            | some r1, some r2 => some (sameRsaParameters r1 r2)
            | _, _ => none) := by
          cases a.RsaKey <;> cases b.RsaKey <;> simp [sameRsaParameters_comm]
        have he : (match a.EccKey, b.EccKey with
            | some e1, some e2 => some (sameEccParameters e1 e2)
            | _, _ => some false) =
            (match b.EccKey, a.EccKey with
            | some e1, some e2 => some (sameEccParameters e1 e2)
            | _, _ => some false) := by
          cases a.EccKey <;> cases b.EccKey <;> simp [sameEccParameters_comm]
        rw [hr, he]
      · have ht2 : ¬ GetKeyType (some b) = GetKeyType (some a) := fun h => ht h.symm
        simp [ht, ht2]

/-- Go `SameKey` is transitive: if it returns true on `k1`, `k2` and on `k2`, `k3`, it
returns true on `k1`, `k3`. -/
theorem SameKey_trans (k1 k2 k3 : Option KeyMessage) (h1 : SameKey k1 k2 = some true)
    (h2 : SameKey k2 k3 = some true) : SameKey k1 k3 = some true := by
  cases k1 with
  | none => simp [SameKey_none_left] at h1
  | some a =>
    cases k2 with
    | none => simp [SameKey_none_right] at h1
    | some b =>
      cases k3 with
      | none => simp [SameKey_none_right] at h2
      | some c =>
        rw [SameKey_some] at h1 h2 ⊢
        generalize GetKeyType (some a) = ta at h1 h2 ⊢
        generalize GetKeyType (some b) = tb at h1 h2 ⊢
        generalize GetKeyType (some c) = tc at h1 h2 ⊢
        by_cases t1 : ta = tb
        · subst t1
          by_cases t2 : ta = tc
          · subst t2
            simp only [ne_eq, not_true_eq_false, if_false] at h1 h2 ⊢
            by_cases hr : isRsaKeyType ta = true
            · rw [if_pos hr] at h1 h2 ⊢
              cases ha : a.RsaKey <;> cases hb : b.RsaKey <;> cases hc : c.RsaKey <;>
                simp only [ha, hb, hc] at h1 h2 ⊢
              all_goals try (simp at h1; done)
              all_goals try (simp at h2; done)
              simp only [Option.some.injEq] at h1 h2 ⊢
              exact sameRsaParameters_trans _ _ _ h1 h2
            · rw [if_neg hr] at h1 h2 ⊢
              by_cases he : isEccKeyType ta = true
              · rw [if_pos he] at h1 h2 ⊢
                cases ha : a.EccKey <;> cases hb : b.EccKey <;> cases hc : c.EccKey <;>
                  simp only [ha, hb, hc] at h1 h2 ⊢
                all_goals try (simp at h1; done)
                all_goals try (simp at h2; done)
                simp only [Option.some.injEq] at h1 h2 ⊢
                exact sameEccParameters_trans _ _ _ h1 h2
              · rw [if_neg he] at h1
                simp at h1
          · simp [t2] at h2
        · simp [t1] at h1

/-- Go `SameEntity` does not depend on the order of its arguments: the two calls return the
same value, or fault both. -/
theorem SameEntity_comm (e1 e2 : Option EntityMessage) : SameEntity e1 e2 = SameEntity e2 e1 := by
  unfold SameEntity
  by_cases ht : GetEntityType e1 = GetEntityType e2
  · rw [← ht]
    simp only [ne_eq, not_true_eq_false, if_false]
    rw [SameKey_comm (GetKey e1), SameMeasurement, SameMeasurement,
      bytesEqual_comm (GetMeasurement e1)]
  · have ht2 : ¬ GetEntityType e2 = GetEntityType e1 := fun h => ht h.symm
    simp [ht, ht2]

/-- Go `SameEntity` is transitive. -/
theorem SameEntity_trans (e1 e2 e3 : Option EntityMessage) (h1 : SameEntity e1 e2 = some true)
    (h2 : SameEntity e2 e3 = some true) : SameEntity e1 e3 = some true := by
  unfold SameEntity at h1 h2 ⊢
  generalize GetEntityType e1 = t1 at h1 h2 ⊢
  generalize GetEntityType e2 = t2 at h1 h2 ⊢
  generalize GetEntityType e3 = t3 at h1 h2 ⊢
  by_cases a1 : t1 = t2
  · subst a1
    by_cases a2 : t1 = t3
    · subst a2
      simp only [ne_eq, not_true_eq_false, if_false] at h1 h2 ⊢
      by_cases hm : t1 = "measurement"
      · rw [if_pos hm] at h1 h2 ⊢
        simp only [SameMeasurement, Option.some.injEq] at h1 h2 ⊢
        exact bytesEqual_trans _ _ _ h1 h2
      · rw [if_neg hm] at h1 h2 ⊢
        by_cases hk : t1 = "key"
        · rw [if_pos hk] at h1 h2 ⊢
          exact SameKey_trans _ _ _ h1 h2
        · rw [if_neg hk] at h1
          simp at h1
    · simp [a2] at h2
  · simp [a1] at h1

/-- When `SameVseClause` returns true, with `X` standing for the comparison of the nested
clauses: both subjects are there and equal as entities, the verbs agree, the objects
are both there and equal as entities or both absent, and `X` is true. -/
theorem SameVseClause_head_true (s1 : Option EntityMessage) (v1 : Option String)
    (o1 : Option EntityMessage) (s2 : Option EntityMessage) (v2 : Option String)
    (o2 : Option EntityMessage) (X : Option Bool) :
    (if s1.isNone || s2.isNone then some false
      else
        match SameEntity s1 s2 with
        | none => none
        | some false => some false
        | some true =>
          if v1.getD "" ≠ v2.getD "" then some false
          else if (o1.isNone && o2.isSome) || (o1.isSome && o2.isNone) then some false
          else
            match (if o1.isSome then SameEntity o1 o2 else some true) with
            | none => none
            | some false => some false
            | some true => X) = some true ↔
    (s1.isSome = true ∧ s2.isSome = true ∧ SameEntity s1 s2 = some true ∧
      v1.getD "" = v2.getD "" ∧ o1.isSome = o2.isSome ∧
      (o1.isSome = true → SameEntity o1 o2 = some true) ∧ X = some true) := by
  cases s1 with
  | none => simp
  | some a =>
    cases s2 with
    | none => simp
    | some b =>
      cases hse : SameEntity (some a) (some b) with
      | none => simp
      | some r =>
        cases r with
        | false => simp
        | true =>
          by_cases hv : v1.getD "" = v2.getD ""
          · cases o1 with
            | none =>
              cases o2 with
              | none => simp [hv]
              | some d => simp [hv]
            | some c =>
              cases o2 with
              | none => simp [hv]
              | some d =>
                cases hso : SameEntity (some c) (some d) with
                | none => simp [hv]
                | some r2 => cases r2 <;> simp [hv]
          · simp [hv]

/-- With comparisons `X` and `Y` of the nested clauses that agree, the body of
`SameVseClause` gives the same value in both orders. -/
theorem SameVseClause_head_comm (s1 : Option EntityMessage) (v1 : Option String)
    (o1 : Option EntityMessage) (s2 : Option EntityMessage) (v2 : Option String)
    (o2 : Option EntityMessage) (X Y : Option Bool) (hXY : X = Y) :
    (if s1.isNone || s2.isNone then some false
      else
        match SameEntity s1 s2 with
        | none => none
        | some false => some false
        | some true =>
          if v1.getD "" ≠ v2.getD "" then some false
          else if (o1.isNone && o2.isSome) || (o1.isSome && o2.isNone) then some false
          else
            match (if o1.isSome then SameEntity o1 o2 else some true) with
            | none => none
            | some false => some false
            | some true => X) =
    (if s2.isNone || s1.isNone then some false
      else
        match SameEntity s2 s1 with
        | none => none
        | some false => some false
        | some true =>
          if v2.getD "" ≠ v1.getD "" then some false
          else if (o2.isNone && o1.isSome) || (o2.isSome && o1.isNone) then some false
          else
            match (if o2.isSome then SameEntity o2 o1 else some true) with
            | none => none
            | some false => some false
            | some true => Y) := by
  subst hXY
  rw [SameEntity_comm s2 s1, SameEntity_comm o2 o1]
  cases s1 with
  | none => cases s2 <;> simp
  | some a =>
    cases s2 with
    | none => simp
    | some b =>
      cases hse : SameEntity (some a) (some b) with
      | none => simp
      | some r =>
        cases r with
        | false => simp
        | true =>
          by_cases hv : v1.getD "" = v2.getD ""
          · have hv2 : v2.getD "" = v1.getD "" := hv.symm
            cases o1 with
            | none => cases o2 <;> simp [hv]
            | some c => cases o2 <;> simp [hv]
          · have hv2 : ¬ v2.getD "" = v1.getD "" := fun h => hv h.symm
            simp [hv, hv2]

/-- Go `SameVseClause` does not depend on the order of its arguments: the two calls return
the same value, or fault both. -/
theorem SameVseClause_comm : (a b : VseClause) → SameVseClause a b = SameVseClause b a
  | .mk s1 v1 o1 none, .mk s2 v2 o2 cl2 => by
    rw [SameVseClause_eq, SameVseClause_eq]
    apply SameVseClause_head_comm
    cases cl2 <;> rfl
  | .mk s1 v1 o1 (some a), .mk s2 v2 o2 none => by
    rw [SameVseClause_eq, SameVseClause_eq]
    apply SameVseClause_head_comm
    rfl
  | .mk s1 v1 o1 (some a), .mk s2 v2 o2 (some b) => by
    rw [SameVseClause_eq, SameVseClause_eq]
    apply SameVseClause_head_comm
    exact SameVseClause_comm a b

/-- Go `SameVseClause` is transitive: if it returns true on `a`, `b` and on `b`, `c`, it
returns true on `a`, `c`. -/
theorem SameVseClause_trans : (a b c : VseClause) → SameVseClause a b = some true →
    SameVseClause b c = some true → SameVseClause a c = some true
  | .mk s1 v1 o1 cl1, .mk s2 v2 o2 cl2, .mk s3 v3 o3 cl3, h1, h2 => by
    rw [SameVseClause_eq] at h1 h2 ⊢
    obtain ⟨a1, a2, a3, a4, a5, a6, a7⟩ := (SameVseClause_head_true s1 v1 o1 s2 v2 o2 _).1 h1
    obtain ⟨b1, b2, b3, b4, b5, b6, b7⟩ := (SameVseClause_head_true s2 v2 o2 s3 v3 o3 _).1 h2
    refine (SameVseClause_head_true s1 v1 o1 s3 v3 o3 _).2 ⟨a1, b2, SameEntity_trans _ _ _ a3 b3, a4.trans b4, a5.trans b5,
      fun h => SameEntity_trans _ _ _ (a6 h) (b6 (a5 ▸ h)), ?_⟩
    match cl1, cl2, cl3, a7, b7 with
    | none, none, none, _, _ => rfl
    | some x, some y, some z, a7, b7 => exact SameVseClause_trans x y z a7 b7
    | none, some _, _, a7, _ => simp at a7
    | some _, none, _, a7, _ => simp at a7
    | none, none, some _, _, b7 => simp at b7
    | some _, some _, none, _, b7 => simp at b7

/-- A well-formed entity equals itself under `SameEntity`. -/
theorem SameEntity_self (e : EntityMessage) (h : WellFormedEntity e = true) :
    SameEntity (some e) (some e) = some true := by
  unfold WellFormedEntity at h
  unfold SameEntity
  by_cases hm : GetEntityType (some e) = "measurement"
  · simp [hm, SameMeasurement, bytesEqual_self]
  · by_cases hk : GetEntityType (some e) = "key"
    · simp only [hm, hk, if_false, if_true] at h
      cases hkey : e.Key with
      | none => simp [hkey] at h
      | some k =>
        simp only [hkey] at h
        simp [hk, GetKey, hkey, SameKey_self k h]
    · simp [hm, hk] at h

/-- A well-formed clause equals itself under `SameVseClause`, by recursion on the nested
clause. -/
theorem SameVseClause_self :
    (c : VseClause) → WellFormedClause c = true → SameVseClause c c = some true
  | .mk s v o none, h => by
    simp only [WellFormedClause, Bool.and_eq_true] at h
    obtain ⟨hs, ho⟩ := h
    cases s with
    | none => simp [WellFormedSubject] at hs
    | some e =>
      simp only [WellFormedSubject] at hs
      cases o with
      | none => simp [SameVseClause, SameEntity_self e hs]
      | some e2 =>
        simp only [WellFormedObject] at ho
        simp [SameVseClause, SameEntity_self e hs, SameEntity_self e2 ho]
  | .mk s v o (some c), h => by
    simp only [WellFormedClause, Bool.and_eq_true] at h
    obtain ⟨⟨hs, ho⟩, hc⟩ := h
    cases s with
    | none => simp [WellFormedSubject] at hs
    | some e =>
      simp only [WellFormedSubject] at hs
      cases o with
      | some e2 => simp at ho
      | none =>
        simp [SameVseClause, SameEntity_self e hs, SameVseClause_self c hc]

/-- The key type of the public part of a key. -/
theorem GetKeyType_publicPart (k : Option KeyMessage) :
    GetKeyType (k.map publicPartOfKey) = GetKeyType k := by
  cases k <;> rfl

/-- Go `SameKey` reads only the public parts of its arguments. -/
theorem SameKey_publicPart (k1 k2 : Option KeyMessage) :
    SameKey (k1.map publicPartOfKey) (k2.map publicPartOfKey) = SameKey k1 k2 := by
  cases k1 with
  | none => simp [SameKey_none_left]
  | some a =>
    cases k2 with
    | none => simp [SameKey_none_right]
    | some b =>
      simp only [Option.map_some']
      rw [SameKey_some, SameKey_some]
      have ta : GetKeyType (some (publicPartOfKey a)) = GetKeyType (some a) := rfl
      have tb : GetKeyType (some (publicPartOfKey b)) = GetKeyType (some b) := rfl
      rw [ta, tb]
      have hr : (match (publicPartOfKey a).RsaKey, (publicPartOfKey b).RsaKey with
          | some r1, some r2 => some (sameRsaParameters r1 r2)
          | _, _ => none) =
          (match a.RsaKey, b.RsaKey with
          | some r1, some r2 => some (sameRsaParameters r1 r2)
          | _, _ => none) := by
        simp only [publicPartOfKey]
        cases a.RsaKey <;> cases b.RsaKey <;> rfl
      have he : (match (publicPartOfKey a).EccKey, (publicPartOfKey b).EccKey with
          | some e1, some e2 => some (sameEccParameters e1 e2)
          | _, _ => some false) =
          (match a.EccKey, b.EccKey with
          | some e1, some e2 => some (sameEccParameters e1 e2)
          | _, _ => some false) := by
        simp only [publicPartOfKey]
        cases a.EccKey <;> cases b.EccKey <;> rfl
      rw [hr, he]

/-- The entity type of the public part of an entity. -/
theorem GetEntityType_publicPart (e : Option EntityMessage) :
    GetEntityType (e.map publicPartOfEntity) = GetEntityType e := by
  cases e <;> rfl

/-- The measurement of the public part of an entity. -/
theorem GetMeasurement_publicPart (e : Option EntityMessage) :
    GetMeasurement (e.map publicPartOfEntity) = GetMeasurement e := by
  cases e <;> rfl

/-- The key of the public part of an entity. -/
theorem GetKey_publicPart (e : Option EntityMessage) :
    GetKey (e.map publicPartOfEntity) = (GetKey e).map publicPartOfKey := by
  cases e <;> rfl

/-- Go `SameEntity` reads only the public parts of its arguments. -/
theorem SameEntity_publicPart (e1 e2 : Option EntityMessage) :
    SameEntity (e1.map publicPartOfEntity) (e2.map publicPartOfEntity) = SameEntity e1 e2 := by
  unfold SameEntity
  simp only [GetEntityType_publicPart, GetMeasurement_publicPart, GetKey_publicPart,
    SameKey_publicPart]

/-- The four fields of the public part of a clause. -/
theorem publicPartOfClause_eq (s : Option EntityMessage) (v : Option String)
    (o : Option EntityMessage) (cl : Option VseClause) :
    publicPartOfClause (.mk s v o cl) =
      .mk (s.map publicPartOfEntity) v (o.map publicPartOfEntity) (cl.map publicPartOfClause) := by
  cases cl <;> simp [publicPartOfClause]

/-- Go `SameVseClause` reads only the public parts of its arguments. -/
theorem SameVseClause_publicPart : (a b : VseClause) →
    SameVseClause (publicPartOfClause a) (publicPartOfClause b) = SameVseClause a b
  | .mk s1 v1 o1 cl1, .mk s2 v2 o2 cl2 => by
    rw [publicPartOfClause_eq, publicPartOfClause_eq, SameVseClause_eq, SameVseClause_eq]
    simp only [SameEntity_publicPart, Option.isNone_map', Option.isSome_map']
    match cl1, cl2 with
    | none, none => rfl
    | none, some _ => rfl
    | some _, none => rfl
    | some a, some b => simp only [Option.map_some', SameVseClause_publicPart a b]

/-- The subject of the public part of a clause. -/
theorem Subject_publicPart (c : VseClause) :
    (publicPartOfClause c).Subject = c.Subject.map publicPartOfEntity := by
  obtain ⟨s, v, o, cl⟩ := c
  rw [publicPartOfClause_eq]; rfl

/-- The object of the public part of a clause. -/
theorem Object_publicPart (c : VseClause) :
    (publicPartOfClause c).Object = c.Object.map publicPartOfEntity := by
  obtain ⟨s, v, o, cl⟩ := c
  rw [publicPartOfClause_eq]; rfl

/-- The verb of the public part of a clause. -/
theorem Verb_publicPart (c : VseClause) : (publicPartOfClause c).Verb = c.Verb := by
  obtain ⟨s, v, o, cl⟩ := c
  rw [publicPartOfClause_eq]; rfl

/-- The verb getter on the public part of a clause. -/
theorem GetVerb_publicPart (c : VseClause) : (publicPartOfClause c).GetVerb = c.GetVerb := by
  simp [VseClause.GetVerb, Verb_publicPart]

/-- The nested clause of the public part of a clause. -/
theorem Clause_publicPart (c : VseClause) :
    (publicPartOfClause c).Clause = c.Clause.map publicPartOfClause := by
  obtain ⟨s, v, o, cl⟩ := c
  rw [publicPartOfClause_eq]; rfl

/-- Rule 1 reads only the public parts of its clauses. -/
theorem VerifyRule1_publicPart (tree : PredicateDominance) (c1 c2 c : VseClause) :
    VerifyRule1 tree (publicPartOfClause c1) (publicPartOfClause c2) (publicPartOfClause c) =
      VerifyRule1 tree c1 c2 c := by
  unfold VerifyRule1
  simp only [Subject_publicPart, Object_publicPart, Verb_publicPart, GetVerb_publicPart,
    Clause_publicPart, Option.isNone_map', Option.isSome_map', GetEntityType_publicPart,
    SameEntity_publicPart]

/-- Rule 7 reads only the public parts of its clauses. -/
theorem VerifyRule7_publicPart (tree : PredicateDominance) (c1 c2 c : VseClause) :
    VerifyRule7 tree (publicPartOfClause c1) (publicPartOfClause c2) (publicPartOfClause c) =
      VerifyRule7 tree c1 c2 c := by
  unfold VerifyRule7
  simp only [Subject_publicPart, Object_publicPart, Verb_publicPart, GetVerb_publicPart,
    Clause_publicPart, Option.isNone_map', Option.isSome_map', GetEntityType_publicPart,
    SameEntity_publicPart]

/-- Rule 3 reads only the public parts of its clauses. -/
theorem VerifyRule3_publicPart (tree : PredicateDominance) (c1 c2 c : VseClause) :
    VerifyRule3 tree (publicPartOfClause c1) (publicPartOfClause c2) (publicPartOfClause c) =
      VerifyRule3 tree c1 c2 c := by
  unfold VerifyRule3
  simp only [Subject_publicPart, Object_publicPart, Verb_publicPart, GetVerb_publicPart,
    Clause_publicPart, Option.isNone_map', Option.isSome_map', GetEntityType_publicPart,
    SameEntity_publicPart]
  cases c2.Clause with
  | none => rfl
  | some c3 => simp only [Option.map_some', SameVseClause_publicPart]

/-- Rule 5 reads only the public parts of its clauses. -/
theorem VerifyRule5_publicPart (tree : PredicateDominance) (c1 c2 c : VseClause) :
    VerifyRule5 tree (publicPartOfClause c1) (publicPartOfClause c2) (publicPartOfClause c) =
      VerifyRule5 tree c1 c2 c := by
  unfold VerifyRule5
  simp only [Subject_publicPart, Object_publicPart, Verb_publicPart, GetVerb_publicPart,
    Clause_publicPart, Option.isNone_map', Option.isSome_map', GetEntityType_publicPart,
    SameEntity_publicPart]
  cases c2.Clause with
  | none => rfl
  | some c3 =>
    simp only [Option.map_some', SameVseClause_publicPart, Subject_publicPart,
      Object_publicPart, Verb_publicPart, GetVerb_publicPart, Clause_publicPart,
      Option.isNone_map', Option.isSome_map', GetEntityType_publicPart]

/-- Rule 6 reads only the public parts of its clauses. -/
theorem VerifyRule6_publicPart (tree : PredicateDominance) (c1 c2 c : VseClause) :
    VerifyRule6 tree (publicPartOfClause c1) (publicPartOfClause c2) (publicPartOfClause c) =
      VerifyRule6 tree c1 c2 c := by
  unfold VerifyRule6
  simp only [Subject_publicPart, Object_publicPart, Verb_publicPart, GetVerb_publicPart,
    Clause_publicPart, Option.isNone_map', Option.isSome_map', GetEntityType_publicPart,
    SameEntity_publicPart]
  cases c2.Clause with
  | none => rfl
  | some c3 =>
    simp only [Option.map_some', SameVseClause_publicPart, Subject_publicPart,
      Object_publicPart, Verb_publicPart, GetVerb_publicPart, Clause_publicPart,
      Option.isNone_map', Option.isSome_map', GetEntityType_publicPart]

/-- Induction along the way the loop of `FindNode` walks a sibling list: from a node to its
first child and to the sibling after the next one. -/
theorem PredicateDominance.skip_induction (P : PredicateDominance → Prop) (h0 : P .null)
    (h1 : ∀ p fc, P fc → P (.node p fc .null))
    (h2 : ∀ p fc q qfc nx2, P fc → P nx2 → P (.node p fc (.node q qfc nx2))) :
    ∀ n, P n := by
  have key : ∀ n, P n ∧ P n.nextOf := by
    intro n
    induction n with
    | null => exact ⟨h0, h0⟩
    | node p fc nx ihf ihn =>
      refine ⟨?_, ihn.1⟩
      cases nx with
      | null => exact h1 p fc ihf.1
      | node q qfc nx2 => exact h2 p fc q qfc nx2 ihf.1 ihn.2
  exact fun n => (key n).1

/-- When the search of `Insert` along a sibling list comes back with nil, so does the loop
of `FindNode`. -/
theorem FindNodeLoop_of_InsertLoop_nil (parent d : String) :
    ∀ n, InsertLoop n parent d = some none → FindNodeLoop n parent = some .null := by
  apply PredicateDominance.skip_induction
  · intro _; rfl
  · intro p fc ih h
    simp only [InsertLoop] at h
    by_cases hp : p = parent
    · simp [hp] at h
    · simp only [hp, if_false] at h
      cases hf : InsertLoop fc parent d with
      | none => simp [hf] at h
      | some r => cases r <;> simp [hf] at h
  · intro p fc q qfc nx2 ih1 ih2 h
    simp only [InsertLoop] at h
    by_cases hp : p = parent
    · simp [hp] at h
    · simp only [hp, if_false] at h
      cases hf : InsertLoop fc parent d with
      | none => simp [hf] at h
      | some r =>
        cases r with
        | some fc2 => simp [hf] at h
        | none =>
          simp only [hf] at h
          cases hn : InsertLoop nx2 parent d with
          | none => simp [hn] at h
          | some r2 =>
            cases r2 with
            | some nx3 => simp [hn] at h
            | none =>
              simp only [FindNodeLoop, hp, if_false, ih1 hf]
              exact ih2 hn

/-- When the search of `Insert` along a sibling list succeeds, the loop of `FindNode`
returns a node with predicate `parent`, and on the updated list it returns that node
with `d` added as its first child. -/
theorem FindNodeLoop_of_InsertLoop (parent d : String) :
    ∀ n r, InsertLoop n parent d = some (some r) →
      ∃ fc nx, FindNodeLoop n parent = some (.node parent fc nx) ∧
        FindNodeLoop r parent = some (.node parent (.node d .null fc) nx) := by
  apply PredicateDominance.skip_induction
  · intro r h; simp [InsertLoop] at h
  · intro p fc ih r h
    simp only [InsertLoop] at h
    by_cases hp : p = parent
    · simp only [hp, if_true, Option.some.injEq] at h
      subst h
      exact ⟨fc, .null, by simp [FindNodeLoop, hp], by simp [FindNodeLoop]⟩
    · simp only [hp, if_false] at h
      cases hf : InsertLoop fc parent d with
      | none => simp [hf] at h
      | some r1 =>
        cases r1 with
        | none => simp [hf] at h
        | some fc2 =>
          simp only [hf, Option.some.injEq] at h
          subst h
          obtain ⟨a, b, e1, e2⟩ := ih fc2 hf
          exact ⟨a, b, by simp [FindNodeLoop, hp, e1], by simp [FindNodeLoop, hp, e2]⟩
  · intro p fc q qfc nx2 ih1 ih2 r h
    simp only [InsertLoop] at h
    by_cases hp : p = parent
    · simp only [hp, if_true, Option.some.injEq] at h
      subst h
      exact ⟨fc, .node q qfc nx2, by simp [FindNodeLoop, hp], by simp [FindNodeLoop]⟩
    · simp only [hp, if_false] at h
      cases hf : InsertLoop fc parent d with
      | none => simp [hf] at h
      | some r1 =>
        cases r1 with
        | some fc2 =>
          simp only [hf, Option.some.injEq] at h
          subst h
          obtain ⟨a, b, e1, e2⟩ := ih1 fc2 hf
          exact ⟨a, b, by simp [FindNodeLoop, hp, e1], by simp [FindNodeLoop, hp, e2]⟩
        | none =>
          simp only [hf] at h
          cases hn : InsertLoop nx2 parent d with
          | none => simp [hn] at h
          | some r2 =>
            cases r2 with
            | none => simp [hn] at h
            | some nx3 =>
              simp only [hn, Option.some.injEq] at h
              subst h
              obtain ⟨a, b, e1, e2⟩ := ih2 nx3 hn
              have hnil := FindNodeLoop_of_InsertLoop_nil parent d fc hf
              exact ⟨a, b, by simp [FindNodeLoop, hp, hnil, e1],
                by simp [FindNodeLoop, hp, hnil, e2]⟩

/-- After a call of `Insert` that returns true, `FindNode` for `parent` returns, before the
call a node with predicate `parent`, and afterwards that node with `d` added as its first
child. -/
theorem FindNode_of_Insert (root t : PredicateDominance) (parent d : String)
    (h : Insert root parent d = some (true, t)) :
    ∃ fc nx, FindNode root parent = some (.node parent fc nx) ∧
      FindNode t parent = some (.node parent (.node d .null fc) nx) := by
  cases root with
  | null => simp [Insert] at h
  | node p fc nx =>
    simp only [Insert] at h
    by_cases hp : p = parent
    · simp only [hp, if_true, Option.some.injEq, Prod.mk.injEq, true_and] at h
      subst h
      exact ⟨fc, nx, by simp [FindNode, hp], by simp [FindNode]⟩
    · simp only [hp, if_false] at h
      cases hf : InsertLoop fc parent d with
      | none => simp [hf] at h
      | some r1 =>
        cases r1 with
        | none => simp [hf] at h
        | some fc2 =>
          simp only [hf, Option.some.injEq, Prod.mk.injEq, true_and] at h
          subst h
          obtain ⟨a, b, e1, e2⟩ := FindNodeLoop_of_InsertLoop parent d fc fc2 hf
          exact ⟨a, b, by simp [FindNode, hp, e1], by simp [FindNode, hp, e2]⟩

/-- The value of `Dominates` for different arguments once `FindNode` has found a node. -/
theorem Dominates_of_FindNode (root : PredicateDominance) (parent x p : String)
    (fc nx : PredicateDominance) (hne : parent ≠ x)
    (hf : FindNode root parent = some (.node p fc nx)) :
    Dominates root parent x = some (p == x || IsChildLoop fc x) := by
  unfold Dominates
  simp only [hne, if_false, hf, IsChild]
  cases (p == x || IsChildLoop fc x) <;> rfl

/-- A call of `Insert` that returns false leaves the tree as it was. -/
theorem Insert_false_unchanged (root t : PredicateDominance) (parent d : String)
    (h : Insert root parent d = some (false, t)) : t = root := by
  cases root with
  | null => simp [Insert] at h; exact h.symm
  | node p fc nx =>
    simp only [Insert] at h
    by_cases hp : p = parent
    · simp [hp] at h
    · simp only [hp, if_false] at h
      cases hf : InsertLoop fc parent d with
      | none => simp [hf] at h
      | some r1 =>
        cases r1 with
        | none => simp [hf] at h; exact h.symm
        | some fc2 => simp [hf] at h

/-- The loop of `IsChild` looks for the predicate in the whole sibling list and below. -/
theorem IsChildLoop_eq_occursIn (d : String) : ∀ n, IsChildLoop n d = occursIn n d := by
  intro n
  induction n with
  | null => rfl
  | node p fc nx ihf ihn => simp [IsChildLoop, occursIn, ihf, ihn]

/-- A node the loop of `FindNode` returns has the predicate looked for, and whatever lies
below that node lies below a node with that predicate in the list searched. -/
theorem FindNodeLoop_sound (parent d : String) :
    ∀ n p fc nx, FindNodeLoop n parent = some (.node p fc nx) →
      p = parent ∧ (IsChildLoop fc d = true → someNodeHasBelow n parent d = true) := by
  apply PredicateDominance.skip_induction
  · intro p fc nx h; simp [FindNodeLoop] at h
  · intro p0 fc0 ih p fc nx h
    simp only [FindNodeLoop] at h
    by_cases hp : p0 = parent
    · simp only [hp, if_true, Option.some.injEq, PredicateDominance.node.injEq] at h
      obtain ⟨a, b, c⟩ := h
      subst a; subst b
      refine ⟨rfl, fun hc => ?_⟩
      simp [someNodeHasBelow, hp, ← IsChildLoop_eq_occursIn, hc]
    · simp only [hp, if_false] at h
      cases hf : FindNodeLoop fc0 parent with
      | none => simp [hf] at h
      | some r =>
        cases r with
        | null => simp [hf] at h
        | node a b c =>
          simp only [hf, Option.some.injEq, PredicateDominance.node.injEq] at h
          obtain ⟨h1, h2, h3⟩ := h
          subst h1; subst h2; subst h3
          obtain ⟨e1, e2⟩ := ih _ _ _ hf
          refine ⟨e1, fun hc => ?_⟩
          simp [someNodeHasBelow, e2 hc]
  · intro p0 fc0 q qfc nx2 ih1 ih2 p fc nx h
    simp only [FindNodeLoop] at h
    by_cases hp : p0 = parent
    · simp only [hp, if_true, Option.some.injEq, PredicateDominance.node.injEq] at h
      obtain ⟨a, b, c⟩ := h
      subst a; subst b
      refine ⟨rfl, fun hc => ?_⟩
      simp [someNodeHasBelow, hp, ← IsChildLoop_eq_occursIn, hc]
    · simp only [hp, if_false] at h
      cases hf : FindNodeLoop fc0 parent with
      | none => simp [hf] at h
      | some r =>
        cases r with
        | null =>
          simp only [hf] at h
          obtain ⟨e1, e2⟩ := ih2 _ _ _ h
          refine ⟨e1, fun hc => ?_⟩
          simp [someNodeHasBelow, e2 hc]
        | node a b c =>
          simp only [hf, Option.some.injEq, PredicateDominance.node.injEq] at h
          obtain ⟨h1, h2, h3⟩ := h
          subst h1; subst h2; subst h3
          obtain ⟨e1, e2⟩ := ih1 _ _ _ hf
          refine ⟨e1, fun hc => ?_⟩
          simp [someNodeHasBelow, e2 hc]

/-- On every tree a true answer of `Dominates` is right: the arguments are equal, or some
node with predicate `parent` has a node with predicate `d` below it. -/
theorem Dominates_sound (root : PredicateDominance) (parent d : String)
    (h : Dominates root parent d = some true) :
    parent = d ∨ someNodeHasBelow root parent d = true := by
  by_cases hne : parent = d
  · exact Or.inl hne
  · right
    unfold Dominates at h
    simp only [hne, if_false] at h
    cases root with
    | null => simp [FindNode] at h
    | node p0 fc0 nx0 =>
      simp only [FindNode] at h
      by_cases hp : p0 = parent
      · simp only [hp, if_true, IsChild] at h
        have hd : (parent == d) = false := by simpa using hne
        rw [hd, Bool.false_or] at h
        cases hc : IsChildLoop fc0 d with
        | false => simp [hc] at h
        | true => simp [someNodeHasBelow, hp, ← IsChildLoop_eq_occursIn, hc]
      · simp only [hp, if_false] at h
        cases hf : FindNodeLoop fc0 parent with
        | none => simp [hf] at h
        | some r =>
          cases r with
          | null => simp [hf] at h
          | node a b c =>
            obtain ⟨e1, e2⟩ := FindNodeLoop_sound parent d _ _ _ _ hf
            subst e1
            simp only [hf, IsChild] at h
            have hd : (a == d) = false := by simpa using hne
            rw [hd, Bool.false_or] at h
            cases hc : IsChildLoop b d with
            | false => simp [hc] at h
            | true => simp [someNodeHasBelow, e2 hc]

/-- The copy loop of `Pad` never faults on a buffer that is long enough: started at index
`i` on a buffer that holds the first `i` input bytes followed by `r`, it leaves the input
followed by what remains of `r`. -/
theorem PadCopyLoop_eq (inp : Bytes) : ∀ (n i : Nat) (r : Bytes), i + n = inp.length →
    n ≤ r.length → PadCopyLoop inp n i (inp.take i ++ r) = some (inp ++ r.drop n)
  | 0, i, r, hi, _ => by
    have : inp.take i = inp := List.take_of_length_le (by omega)
    simp [PadCopyLoop, this]
  | n + 1, i, r, hi, hn => by
    have hlt : i < inp.length := by omega
    cases r with
    | nil => simp at hn
    | cons x r2 =>
      have hlen : (inp.take i).length = i := by simp; omega
      have hget : inp[i]? = some inp[i] := List.getElem?_eq_getElem hlt
      have hset : setByte (inp.take i ++ x :: r2) i inp[i] = some (inp.take (i + 1) ++ r2) := by
        unfold setByte
        have h1 : i < (inp.take i ++ x :: r2).length := by simp; omega
        rw [if_pos h1]
        congr 1
        have ht : inp.take (i + 1) = inp.take i ++ [inp[i]] := by
          rw [List.take_succ, hget]; rfl
        rw [List.set_append_right _ _ (by omega), hlen, Nat.sub_self, List.set_cons_zero, ht,
          List.append_assoc]
        rfl
      rw [PadCopyLoop, hget]
      simp only [hset]
      have := PadCopyLoop_eq inp n (i + 1) r2 (by omega) (by simpa using hn)
      rw [this]
      simp

/-- The zero loop of `Pad` leaves a buffer that ends in zeros as it is. -/
theorem PadZeroLoop_eq : ∀ (n i : Nat) (pre : Bytes), pre.length = i →
    PadZeroLoop n i (pre ++ List.replicate n 0) = some (pre ++ List.replicate n 0)
  | 0, _, _, _ => by simp [PadZeroLoop]
  | n + 1, i, pre, hi => by
    have hset : setByte (pre ++ List.replicate (n + 1) 0) i 0 =
        some ((pre ++ [0]) ++ List.replicate n 0) := by
      unfold setByte
      have h1 : i < (pre ++ List.replicate (n + 1) 0).length := by simp; omega
      rw [if_pos h1]
      congr 1
      rw [List.set_append_right _ _ (by omega)]
      simp [hi, List.replicate_succ]
    rw [PadZeroLoop]
    simp only [hset]
    have := PadZeroLoop_eq n (i + 1) (pre ++ [0]) (by simp [hi])
    rw [this]
    simp [List.replicate_succ]

/-- The length `Pad` computes for its output is above the input length. -/
theorem Pad_outLen_gt (inLen : Nat) :
    inLen < (if inLen % 16 ≠ 0 then ((inLen + 16 - 1) / 16) * 16 else inLen + 16) := by
  split
  · omega
  · omega

/-- Closed form of `Pad`: it never faults, and its output is the input, one byte `0x80`, and
zeros up to the computed length. -/
theorem Pad_eq (x : Bytes) :
    Pad (some x) = some (x ++ 0x80 :: List.replicate
      ((if x.length % 16 ≠ 0 then ((x.length + 16 - 1) / 16) * 16 else x.length + 16)
        - (x.length + 1)) 0) := by
  have hgt := Pad_outLen_gt x.length
  generalize hout : (if x.length % 16 ≠ 0 then ((x.length + 16 - 1) / 16) * 16
    else x.length + 16) = outLen at hgt
  unfold Pad
  simp only [Option.getD_some, hout]
  have h1 := PadCopyLoop_eq x x.length 0 (List.replicate outLen 0) (by simp) (by simp; omega)
  simp only [List.take_zero, List.nil_append] at h1
  rw [h1]
  have hdrop : List.drop x.length (List.replicate outLen 0) =
      0 :: List.replicate (outLen - (x.length + 1)) 0 := by
    rw [List.drop_replicate]
    have : outLen - x.length = (outLen - (x.length + 1)) + 1 := by omega
    rw [this, List.replicate_succ]
  have hset : setByte (x ++ List.drop x.length (List.replicate outLen 0)) x.length 0x80 =
      some ((x ++ [0x80]) ++ List.replicate (outLen - (x.length + 1)) 0) := by
    unfold setByte
    rw [hdrop]
    have hl : x.length < (x ++ 0 :: List.replicate (outLen - (x.length + 1)) 0).length := by
      simp
    rw [if_pos hl]
    congr 1
    rw [List.set_append_right _ _ (by omega)]
    simp
  simp only [hset]
  rw [PadZeroLoop_eq _ _ _ (by simp)]
  simp

/-- The loop of `Depad` on an input followed by `0x80` and zeros walks back over the zeros
and returns the input. -/
theorem DepadLoop_eq (x : Bytes) (m : Nat) : ∀ k, k ≤ m →
    DepadLoop (x ++ 0x80 :: List.replicate m 0) (x.length + 1 + k) = some x
  | 0, _ => by
    have h80 : (x ++ 0x80 :: List.replicate m 0).getD x.length 0 = 0x80 := by
      rw [List.getD_eq_getElem?_getD, List.getElem?_append_right (by omega)]
      simp
    rw [Nat.add_zero, DepadLoop, h80]
    simp
  | k + 1, hk => by
    have hz : (x ++ 0x80 :: List.replicate m 0).getD (x.length + 1 + k) 0 = 0 := by
      rw [List.getD_eq_getElem?_getD, List.getElem?_append_right (by omega)]
      have : x.length + 1 + k - x.length = k + 1 := by omega
      rw [this]
      simp
    have hstep : x.length + 1 + (k + 1) = (x.length + 1 + k) + 1 := by omega
    rw [hstep, DepadLoop, hz]
    simp only [show ¬ ((0 : Nat) = 0x80) by decide, if_false]
    exact DepadLoop_eq x m k (by omega)

/-- Without validity strings in a world where the empty string scans to zeros, and at a
clock reading with a positive year, `VerifySignedClaim` never returns true: the time
point parsed from the absent `not_after` lies before the clock reading. -/
theorem VerifySignedClaim_without_bounds (ext : Externals) (c : SignedClaimMessage)
    (k : Option KeyMessage) (cm : ClaimMessage)
    (hscan : ext.Sscanf "" = (0, 0, 0, 0, 0, .num 0))
    (hnow : 0 < (TimePointNow ext).GetYear)
    (hcm : ext.UnmarshalClaim c.SerializedClaimMessage = some cm)
    (hb : cm.NotBefore.getD "" = "") (ha : cm.NotAfter.getD "" = "") :
    VerifySignedClaim ext c k ≠ some true := by
  have hcmp : CompareTimePoints (StringToTimePoint ext "") (TimePointNow ext) < 0 := by
    have hy : (StringToTimePoint ext "").GetYear = 0 := by
      simp [StringToTimePoint, hscan, TimePoint.GetYear]
    unfold CompareTimePoints
    rw [hy]
    have h1 : ¬ (0 > (TimePointNow ext).GetYear) := by omega
    simp [h1, hnow]
  unfold VerifySignedClaim
  cases hk : GetRsaKeysFromInternal k with
  | none => simp
  | some r =>
    obtain ⟨b, PK⟩ := r
    cases b with
    | false => simp
    | true =>
      simp only [hcm, hb, ha]
      split
      · simp
      · simp [hcmp]

/-! ## Signed claims and the validity window -/

/-- Claim C21 (`VerifySignedClaim`, absent time bounds): the claim fails in the code. A
signed claim of format `vse-clause` without `not_before` and `not_after`, whose
signature verifies under the key, is rejected at the clock reading 2024-01-01: the time
points parsed from the empty strings are never nil, so the window is tested, and
the all-zero `not_after` lies before the clock reading. -/
theorem VerifySignedClaim_rejects_claim_without_bounds :
    exampleExternalsWithoutBounds.UnmarshalClaim (some [2]) =
      some { ClaimFormat := some "vse-clause", ClaimDescriptor := none, NotBefore := none,
             NotAfter := none, SerializedClaim := some [4] } ∧
    GetRsaKeysFromInternal (some (rsaKey "p" [3])) = some (true, { N := 3, E := 65537 }) ∧
    RsaSha256Verify exampleExternalsWithoutBounds { N := 3, E := 65537 } (some [2]) (some [1])
      = true ∧
    CompareTimePoints (StringToTimePoint exampleExternalsWithoutBounds "")
      (TimePointNow exampleExternalsWithoutBounds) = -1 ∧
    VerifySignedClaim exampleExternalsWithoutBounds
      (exampleSignedClaim (some (rsaKey "p" [3])) [1]) (some (rsaKey "p" [3])) = some false := by
  refine ⟨by decide, by decide, by decide, by decide, by decide⟩

/-- Claim C22 (`CheckTimeRange`, `VerifySignedClaim`, validity window): `CheckTimeRange`
returns true exactly when both strings are there, the time point parsed from
`not_before` is not after the clock reading and the one parsed from `not_after` is not
before it; and a true result of `VerifySignedClaim` entails the same two inequalities
for the validity strings of the decoded claim message. -/
theorem CheckTimeRange_VerifySignedClaim_window (ext : Externals) (nb na : Option String)
    (c : SignedClaimMessage) (k : Option KeyMessage) :
    (CheckTimeRange ext nb na = true ↔
      ∃ b a, nb = some b ∧ na = some a ∧
        CompareTimePoints (StringToTimePoint ext b) (TimePointNow ext) ≤ 0 ∧
        CompareTimePoints (StringToTimePoint ext a) (TimePointNow ext) ≥ 0) ∧
    (VerifySignedClaim ext c k = some true →
      ∃ cm, ext.UnmarshalClaim c.SerializedClaimMessage = some cm ∧
        CompareTimePoints (StringToTimePoint ext (cm.NotBefore.getD "")) (TimePointNow ext) ≤ 0 ∧
        CompareTimePoints (StringToTimePoint ext (cm.NotAfter.getD "")) (TimePointNow ext)
          ≥ 0) := by
  constructor
  · cases nb with
    | none => simp [CheckTimeRange]
    | some b =>
      cases na with
      | none => simp [CheckTimeRange]
      | some a => simp [CheckTimeRange]
  · intro h
    unfold VerifySignedClaim at h
    cases hk : GetRsaKeysFromInternal k with
    | none => simp [hk] at h
    | some r =>
      obtain ⟨b, PK⟩ := r
      cases b with
      | false => simp [hk] at h
      | true =>
        simp only [hk] at h
        cases hcm : ext.UnmarshalClaim c.SerializedClaimMessage with
        | none => simp [hcm] at h
        | some cm =>
          simp only [hcm] at h
          refine ⟨cm, rfl, ?_⟩
          split at h
          · simp at h
          · split at h
            · simp at h
            · rename_i hw
              simpa using hw

/-- Witness of claim C22: in the example world the claim with the valid signature is
accepted, and its validity strings scan to the clock reading. -/
theorem CheckTimeRange_VerifySignedClaim_window_witness :
    VerifySignedClaim exampleExternals (exampleSignedClaim (some (rsaKey "p" [3])) [1])
      (some (rsaKey "p" [3])) = some true ∧
    ∃ cm, exampleExternals.UnmarshalClaim
        (exampleSignedClaim (some (rsaKey "p" [3])) [1]).SerializedClaimMessage = some cm ∧
      CompareTimePoints (StringToTimePoint exampleExternals (cm.NotBefore.getD ""))
        (TimePointNow exampleExternals) ≤ 0 ∧
      CompareTimePoints (StringToTimePoint exampleExternals (cm.NotAfter.getD ""))
        (TimePointNow exampleExternals) ≥ 0 :=
  ⟨by decide,
   (CheckTimeRange_VerifySignedClaim_window exampleExternals none none
      (exampleSignedClaim (some (rsaKey "p" [3])) [1]) (some (rsaKey "p" [3]))).2 (by decide)⟩

/-! ## Equality of keys, entities and clauses -/

/-- Claim C23 (`SameVseClause`, reflexivity): a well-formed clause equals itself under
`SameVseClause`, where well-formed means that the subject is there, that object and
nested clause are not both there, that every entity is a measurement or a key entity with
a well-formed key, and that the nested clause is well-formed in the same sense. -/
theorem SameVseClause_refl_of_well_formed (c : VseClause) (h : WellFormedClause c = true) :
    SameVseClause c c = some true :=
  SameVseClause_self c h

/-- Witness of claim C23: the indirect clause `p says (e is-trusted)` over two RSA keys. -/
theorem SameVseClause_refl_of_well_formed_witness :
    WellFormedClause (keySays (rsaKey "p" [3]) (keyIs (rsaKey "e" [5]) "is-trusted")) = true ∧
    SameVseClause (keySays (rsaKey "p" [3]) (keyIs (rsaKey "e" [5]) "is-trusted"))
      (keySays (rsaKey "p" [3]) (keyIs (rsaKey "e" [5]) "is-trusted")) = some true :=
  ⟨by decide, SameVseClause_refl_of_well_formed _ (by decide)⟩

/-- Claim C24 (`SameVseClause`, `SameKey`, `SameEntity`, partial equivalence): each of the
three comparisons gives the same value in both orders (or faults in both), and when it
returns true on a first and a second argument and on the second and a third, it returns
true on the first and the third. -/
theorem SameVseClause_partial_equivalence :
    (∀ a b : VseClause, SameVseClause a b = SameVseClause b a) ∧
    (∀ a b c : VseClause, SameVseClause a b = some true → SameVseClause b c = some true →
      SameVseClause a c = some true) ∧
    (∀ k1 k2 : Option KeyMessage, SameKey k1 k2 = SameKey k2 k1) ∧
    (∀ k1 k2 k3 : Option KeyMessage, SameKey k1 k2 = some true → SameKey k2 k3 = some true →
      SameKey k1 k3 = some true) ∧
    (∀ e1 e2 : Option EntityMessage, SameEntity e1 e2 = SameEntity e2 e1) ∧
    (∀ e1 e2 e3 : Option EntityMessage, SameEntity e1 e2 = some true →
      SameEntity e2 e3 = some true → SameEntity e1 e3 = some true) :=
  ⟨SameVseClause_comm, SameVseClause_trans, SameKey_comm, SameKey_trans, SameEntity_comm,
    SameEntity_trans⟩

/-- Witness of claim C24: three clauses `k is-trusted` over keys with the same modulus and
the names `a`, `b`, `c`. -/
theorem SameVseClause_partial_equivalence_witness :
    SameVseClause (keyIs (rsaKey "a" [3]) "is-trusted") (keyIs (rsaKey "b" [3]) "is-trusted")
      = some true ∧
    SameVseClause (keyIs (rsaKey "b" [3]) "is-trusted") (keyIs (rsaKey "c" [3]) "is-trusted")
      = some true ∧
    SameVseClause (keyIs (rsaKey "a" [3]) "is-trusted") (keyIs (rsaKey "c" [3]) "is-trusted")
      = some true :=
  ⟨by decide, by decide,
   SameVseClause_partial_equivalence.2.1 (keyIs (rsaKey "a" [3]) "is-trusted")
     (keyIs (rsaKey "b" [3]) "is-trusted") (keyIs (rsaKey "c" [3]) "is-trusted")
     (by decide) (by decide)⟩

/-- Claim C25 (`SameKey`, key equality ignores names and private parts): replacing the
name, the format, the certificate, the validity strings, the RSA private exponent and the
ECC private multiplier of a key keeps its public part; and keys, entities and clauses
with the same public parts get the same value from `SameKey`, `SameEntity`,
`SameVseClause` and from each of the rules 1 to 7. -/
theorem SameKey_ignores_names_and_private_parts :
    (∀ (k : KeyMessage) (name format nb na : Option String) (cert pe pm : Option Bytes),
      publicPartOfKey { k with
        KeyName := name, KeyFormat := format, Certificate := cert, NotBefore := nb,
        NotAfter := na,
        RsaKey := k.RsaKey.map (fun r => { r with PrivateExponent := pe }),
        EccKey := k.EccKey.map (fun e => { e with PrivateMultiplier := pm }) } =
      publicPartOfKey k) ∧
    (∀ k1 k2 j1 j2 : KeyMessage, publicPartOfKey k1 = publicPartOfKey j1 →
      publicPartOfKey k2 = publicPartOfKey j2 →
      SameKey (some k1) (some k2) = SameKey (some j1) (some j2)) ∧
    (∀ e1 e2 f1 f2 : EntityMessage, publicPartOfEntity e1 = publicPartOfEntity f1 →
      publicPartOfEntity e2 = publicPartOfEntity f2 →
      SameEntity (some e1) (some e2) = SameEntity (some f1) (some f2)) ∧
    (∀ c1 c2 d1 d2 : VseClause, publicPartOfClause c1 = publicPartOfClause d1 →
      publicPartOfClause c2 = publicPartOfClause d2 →
      SameVseClause c1 c2 = SameVseClause d1 d2) ∧
    (∀ (tree : PredicateDominance) (c1 c2 c d1 d2 d : VseClause),
      publicPartOfClause c1 = publicPartOfClause d1 →
      publicPartOfClause c2 = publicPartOfClause d2 →
      publicPartOfClause c = publicPartOfClause d →
      VerifyRule1 tree c1 c2 c = VerifyRule1 tree d1 d2 d ∧
      VerifyRule2 tree c1 c2 c = VerifyRule2 tree d1 d2 d ∧
      VerifyRule3 tree c1 c2 c = VerifyRule3 tree d1 d2 d ∧
      VerifyRule4 tree c1 c2 c = VerifyRule4 tree d1 d2 d ∧
      VerifyRule5 tree c1 c2 c = VerifyRule5 tree d1 d2 d ∧
      VerifyRule6 tree c1 c2 c = VerifyRule6 tree d1 d2 d ∧
      VerifyRule7 tree c1 c2 c = VerifyRule7 tree d1 d2 d) := by
  refine ⟨?_, ?_, ?_, ?_, ?_⟩
  · intro k name format nb na cert pe pm
    simp only [publicPartOfKey, Option.map_map]
    rfl
  · intro k1 k2 j1 j2 h1 h2
    have a := SameKey_publicPart (some k1) (some k2)
    have b := SameKey_publicPart (some j1) (some j2)
    simp only [Option.map_some'] at a b
    rw [← a, ← b, h1, h2]
  · intro e1 e2 f1 f2 h1 h2
    have a := SameEntity_publicPart (some e1) (some e2)
    have b := SameEntity_publicPart (some f1) (some f2)
    simp only [Option.map_some'] at a b
    rw [← a, ← b, h1, h2]
  · intro c1 c2 d1 d2 h1 h2
    rw [← SameVseClause_publicPart c1 c2, ← SameVseClause_publicPart d1 d2, h1, h2]
  · intro tree c1 c2 c d1 d2 d h1 h2 h3
    refine ⟨?_, rfl, ?_, rfl, ?_, ?_, ?_⟩
    · rw [← VerifyRule1_publicPart tree c1 c2 c, ← VerifyRule1_publicPart tree d1 d2 d,
        h1, h2, h3]
    · rw [← VerifyRule3_publicPart tree c1 c2 c, ← VerifyRule3_publicPart tree d1 d2 d,
        h1, h2, h3]
    · rw [← VerifyRule5_publicPart tree c1 c2 c, ← VerifyRule5_publicPart tree d1 d2 d,
        h1, h2, h3]
    · rw [← VerifyRule6_publicPart tree c1 c2 c, ← VerifyRule6_publicPart tree d1 d2 d,
        h1, h2, h3]
    · rw [← VerifyRule7_publicPart tree c1 c2 c, ← VerifyRule7_publicPart tree d1 d2 d,
        h1, h2, h3]

/-- Witness of claim C25: the private key with modulus `[3]` under the names `a` and `b`
and with different private exponents, compared with a private key with modulus `[5]`. -/
theorem SameKey_ignores_names_and_private_parts_witness :
    publicPartOfKey (rsaPrivateKey "a" [3] [7]) = publicPartOfKey (rsaPrivateKey "b" [3] [9]) ∧
    SameKey (some (rsaPrivateKey "a" [3] [7])) (some (rsaPrivateKey "c" [5] [1])) =
      SameKey (some (rsaPrivateKey "b" [3] [9])) (some (rsaPrivateKey "c" [5] [1])) :=
  ⟨by decide,
   SameKey_ignores_names_and_private_parts.2.1 (rsaPrivateKey "a" [3] [7])
     (rsaPrivateKey "c" [5] [1]) (rsaPrivateKey "b" [3] [9]) (rsaPrivateKey "c" [5] [1])
     (by decide) rfl⟩

/-- Claim C26 (`InternalPublicFromPrivateKey`, `SameKey`), counterexample: for the
RSA-2048 private key with modulus `[3]` the public shadow exists, and `SameKey` of the
private key and its shadow is false. -/
theorem SameKey_private_and_public_shadow_false :
    InternalPublicFromPrivateKey (some (rsaPrivateKey "p" [3] [7])) =
      some (rsaKey "p" [3]) ∧
    SameKey (some (rsaPrivateKey "p" [3] [7]))
      (InternalPublicFromPrivateKey (some (rsaPrivateKey "p" [3] [7]))) = some false := by
  refine ⟨by decide, by decide⟩

/-- Claim C26 (`InternalPublicFromPrivateKey`, `SameKey`), amended: for every RSA private
key with its RSA part present the public shadow is a key of the corresponding public type
(`rsa-1024-public` for `rsa-1024-private`, and so on for 2048 and 4096), hence of another
type than the private key, with the name, format, certificate and validity strings of the
private key, the same modulus and public exponent and no private exponent; `SameKey` of
the private key and its shadow is false, because `SameKey` compares the key types first. -/
theorem InternalPublicFromPrivateKey_shadow (k : KeyMessage) (r : RsaMessage)
    (ht : GetKeyType (some k) = "rsa-1024-private" ∨ GetKeyType (some k) = "rsa-2048-private" ∨
      GetKeyType (some k) = "rsa-4096-private")
    (hr : k.RsaKey = some r) :
    ∃ p, InternalPublicFromPrivateKey (some k) = some p ∧
      (GetKeyType (some k) = "rsa-1024-private" → p.KeyType = some "rsa-1024-public") ∧
      (GetKeyType (some k) = "rsa-2048-private" → p.KeyType = some "rsa-2048-public") ∧
      (GetKeyType (some k) = "rsa-4096-private" → p.KeyType = some "rsa-4096-public") ∧
      p.RsaKey = some { PublicModulus := r.PublicModulus, PublicExponent := r.PublicExponent,
                        PrivateExponent := none } ∧
      p.EccKey = none ∧ p.KeyName = k.KeyName ∧ p.KeyFormat = k.KeyFormat ∧
      p.Certificate = k.Certificate ∧ p.NotBefore = k.NotBefore ∧ p.NotAfter = k.NotAfter ∧
      GetKeyType (some p) ≠ GetKeyType (some k) ∧
      SameKey (some k) (some p) = some false := by
  rcases ht with ht | ht | ht
  all_goals
    simp [InternalPublicFromPrivateKey, ht, hr, SameKey, GetKeyType]
    simp [GetKeyType] at ht
    simp [ht]

/-- Witness of claim C26 (amended) at the RSA-2048 private key with modulus `[3]`. -/
theorem InternalPublicFromPrivateKey_shadow_witness :
    ∃ p, InternalPublicFromPrivateKey (some (rsaPrivateKey "p" [3] [7])) = some p ∧
      (GetKeyType (some (rsaPrivateKey "p" [3] [7])) = "rsa-1024-private" →
        p.KeyType = some "rsa-1024-public") ∧
      (GetKeyType (some (rsaPrivateKey "p" [3] [7])) = "rsa-2048-private" →
        p.KeyType = some "rsa-2048-public") ∧
      (GetKeyType (some (rsaPrivateKey "p" [3] [7])) = "rsa-4096-private" →
        p.KeyType = some "rsa-4096-public") ∧
      p.RsaKey = some { PublicModulus := some [3], PublicExponent := some [1, 0, 1],
                        PrivateExponent := none } ∧
      p.EccKey = none ∧ p.KeyName = (rsaPrivateKey "p" [3] [7]).KeyName ∧
      p.KeyFormat = (rsaPrivateKey "p" [3] [7]).KeyFormat ∧
      p.Certificate = (rsaPrivateKey "p" [3] [7]).Certificate ∧
      p.NotBefore = (rsaPrivateKey "p" [3] [7]).NotBefore ∧
      p.NotAfter = (rsaPrivateKey "p" [3] [7]).NotAfter ∧
      GetKeyType (some p) ≠ GetKeyType (some (rsaPrivateKey "p" [3] [7])) ∧
      SameKey (some (rsaPrivateKey "p" [3] [7])) (some p) = some false :=
  InternalPublicFromPrivateKey_shadow (rsaPrivateKey "p" [3] [7])
    { PublicModulus := some [3], PublicExponent := some [1, 0, 1], PrivateExponent := some [7] }
    (Or.inr (Or.inl (by decide))) rfl

/-! ## Dominance tree: search, insertion, default tree -/

/-- Claim C27 (`Dominates`, `FindNode`): the claim fails in the code. After `InitDominance`
and three calls of `Insert` that return true, the node `is-trusted-for-attestation` has
the node `x` below it, and `Dominates` returns false for the pair, because the loop of
`FindNode` advances twice per round and passes over every second child; and after
the first of these calls alone `Dominates` faults on a predicate the walk does not
meet, because the second advance dereferences nil. -/
theorem Dominates_misses_node_below_skipped_child :
    InitDominance (.node "" .null .null) = some (true, defaultTree) ∧
    insertAll defaultTree [("is-trusted", "c"), ("is-trusted-for-attestation", "x"),
      ("is-trusted", "d")] = some skewedTree ∧
    someNodeHasBelow skewedTree "is-trusted-for-attestation" "x" = true ∧
    Dominates skewedTree "is-trusted-for-attestation" "x" = some false ∧
    insertAll defaultTree [("is-trusted", "c")] = some threeChildrenTree ∧
    Dominates threeChildrenTree "is-trusted-for-authentication" "x" = none := by
  refine ⟨by decide, by decide, by decide, by decide, by decide, by decide⟩

/-- Claim C28 (`InitDominance`, `Dominates`, the default tree): on a non-nil root
`InitDominance` returns true and leaves the tree `is-trusted` over
`is-trusted-for-authentication` and `is-trusted-for-attestation`; on that tree `Dominates`
always returns, and it returns true exactly for equal arguments and for `is-trusted`
over either leaf. -/
theorem InitDominance_default_tree_dominance (p : String) (fc nx : PredicateDominance)
    (a b : String) :
    InitDominance (.node p fc nx) = some (true, defaultTree) ∧
    Dominates defaultTree a b ≠ none ∧
    (Dominates defaultTree a b = some true ↔
      a = b ∨ (a = "is-trusted" ∧
        (b = "is-trusted-for-attestation" ∨ b = "is-trusted-for-authentication"))) := by
  refine ⟨by simp [InitDominance, Insert, defaultTree], ?_, ?_⟩
  · rw [Dominates_defaultTree]; simp
  · rw [Dominates_defaultTree]
    simp only [Option.some.injEq, Bool.or_eq_true, Bool.and_eq_true, beq_iff_eq]
    tauto

/-- Claim C29 (`Insert`, `Dominates`): after a call `Insert(root, parent, d)` that returns
true, `Dominates(root, parent, d)` is true and every pair with first argument `parent`
that `Dominates` accepted before is still accepted; a call that returns false leaves the
tree as it was. -/
theorem Insert_adds_dominated_child (root t : PredicateDominance) (parent d : String) :
    (Insert root parent d = some (true, t) →
      Dominates t parent d = some true ∧
      ∀ x, Dominates root parent x = some true → Dominates t parent x = some true) ∧
    (Insert root parent d = some (false, t) → t = root) := by
  refine ⟨fun h => ?_, Insert_false_unchanged root t parent d⟩
  obtain ⟨fc, nx, e1, e2⟩ := FindNode_of_Insert root t parent d h
  constructor
  · by_cases hne : parent = d
    · simp [Dominates, hne]
    · rw [Dominates_of_FindNode t parent d parent _ nx hne e2]
      simp [IsChildLoop]
  · intro x hx
    by_cases hne : parent = x
    · simp [Dominates, hne]
    · rw [Dominates_of_FindNode root parent x parent fc nx hne e1] at hx
      rw [Dominates_of_FindNode t parent x parent _ nx hne e2]
      simp only [Option.some.injEq, Bool.or_eq_true] at hx
      simp only [IsChildLoop, Option.some.injEq, Bool.or_eq_true]
      tauto

/-- Witness of claim C29: on the default tree `Insert` under `is-trusted-for-authentication`
returns true, and afterwards `is-trusted-for-authentication` dominates the new child. -/
theorem Insert_adds_dominated_child_witness :
    Insert defaultTree "is-trusted-for-authentication" "x" =
      some (true, .node "is-trusted"
        (.node "is-trusted-for-authentication" (.node "x" .null .null)
          (.node "is-trusted-for-attestation" .null .null)) .null) ∧
    Dominates (.node "is-trusted"
        (.node "is-trusted-for-authentication" (.node "x" .null .null)
          (.node "is-trusted-for-attestation" .null .null)) .null)
      "is-trusted-for-authentication" "x" = some true :=
  ⟨by decide,
   ((Insert_adds_dominated_child defaultTree _ "is-trusted-for-authentication" "x").1
      (by decide)).1⟩

/-! ## Padding round trip -/

/-- Claim C30 (`Pad`, `Depad`, round trip): for every byte string `x`, `Pad` returns
without a fault and `Depad` of what it returns is `x`; for the nil slice `Depad` of the
padding is the empty byte string. -/
theorem Depad_Pad_round_trip (x : Bytes) :
    (∃ y, Pad (some x) = some y ∧ Depad (some y) = some x) ∧
    (∃ y, Pad none = some y ∧ Depad (some y) = some []) := by
  have key : ∀ z : Bytes, ∃ y, Pad (some z) = some y ∧ Depad (some y) = some z := by
    intro z
    refine ⟨_, Pad_eq z, ?_⟩
    unfold Depad
    simp only [Option.getD_some]
    have hl : ∀ m, (z ++ 0x80 :: List.replicate m 0).length = z.length + 1 + m := by
      intro m; simp; omega
    rw [hl]
    exact DepadLoop_eq z _ _ (Nat.le_refl _)
  exact ⟨key x, key []⟩

/-! ## Lemmas on encryption, time points, calendar arithmetic and the axiom-only proof -/

/-- Writing a result of the length of the buffer replaces the buffer. -/
theorem writeBlocks_full (dst res : Bytes) (h : res.length = dst.length) :
    writeBlocks dst res = res := by
  unfold writeBlocks
  rw [← h, List.take_length, h, List.drop_length, List.append_nil]

/-- The length of what `Pad` returns is a multiple of 16 above the input length and at most
16 above it. -/
theorem Pad_length (x : Bytes) :
    ∃ m, Pad (some x) = some (x ++ 0x80 :: List.replicate m 0) ∧
      (x.length + 1 + m) % 16 = 0 ∧ m < 16 := by
  refine ⟨_, Pad_eq x, ?_, ?_⟩
  · split <;> omega
  · split <;> omega

/-- The loop of `Depad` on an input followed by `0x80` and zeros, however many. -/
theorem Depad_padded (x : Bytes) (m : Nat) :
    Depad (some (x ++ 0x80 :: List.replicate m 0)) = some x := by
  unfold Depad
  simp only [Option.getD_some]
  have hl : (x ++ 0x80 :: List.replicate m 0).length = x.length + 1 + m := by
    simp; omega
  rw [hl]
  exact DepadLoop_eq x m m (Nat.le_refl _)

/-- Closed form of `Encrypt` for a key of 32 bytes and an iv of 16 bytes, when the cipher
returns as many bytes as it gets: the iv followed by the ciphertext of the padded input. -/
theorem Encrypt_eq (ext : CipherExternals) (x key iv padded : Bytes)
    (hk : key.length = 32) (hiv : iv.length = 16)
    (hlen : ∀ k v p, (ext.CbcEncrypt k v p).length = p.length)
    (hp : Pad (some x) = some padded) :
    Encrypt ext (some x) (some key) (some iv) = some (some (iv ++ ext.CbcEncrypt key iv padded)) := by
  obtain ⟨m, hm, hmod, -⟩ := Pad_length x
  rw [hp] at hm
  have hpl : padded.length % 16 = 0 := by
    have := Option.some.inj hm
    rw [this]; simp; omega
  unfold Encrypt
  simp only [Option.getD_some, aesKeySizeOk, hk, hp, hiv, hpl]
  rw [writeBlocks_full _ _ (by simp [hlen])]
  have : iv.take 16 = iv := List.take_of_length_le (by omega)
  simp [this]

/-- Go `Decrypt` undoes `Encrypt`: on the iv followed by the ciphertext of the padded input,
for a cipher whose decryption inverts its encryption on whole blocks, it returns the
input. -/
theorem Decrypt_eq (ext : CipherExternals) (x key iv padded : Bytes)
    (hk : key.length = 32) (hiv : iv.length = 16)
    (hlen : ∀ k v p, (ext.CbcEncrypt k v p).length = p.length)
    (hinv : ∀ k v p, p.length % 16 = 0 → ext.CbcDecrypt k v (ext.CbcEncrypt k v p) = p)
    (hp : Pad (some x) = some padded) :
    Decrypt ext (some (iv ++ ext.CbcEncrypt key iv padded)) (some key) = some (some x) := by
  obtain ⟨m, hm, hmod, -⟩ := Pad_length x
  rw [hp] at hm
  have hpe : padded = x ++ 0x80 :: List.replicate m 0 := Option.some.inj hm
  have hpl : padded.length % 16 = 0 := by
    rw [hpe]; simp; omega
  have htake : (iv ++ ext.CbcEncrypt key iv padded).take 16 = iv := by
    rw [← hiv, List.take_left]
  have hdrop : (iv ++ ext.CbcEncrypt key iv padded).drop 16 = ext.CbcEncrypt key iv padded := by
    rw [← hiv, List.drop_left]
  unfold Decrypt
  simp only [Option.getD_some, aesKeySizeOk, hk, htake, hdrop, hlen, hpl]
  have h16 : ¬ (iv ++ ext.CbcEncrypt key iv padded).length < 16 := by simp [hiv]
  simp only [h16, hinv key iv padded hpl]
  have hw : writeBlocks (List.replicate (iv ++ ext.CbcEncrypt key iv padded).length 0) padded =
      x ++ 0x80 :: List.replicate (m + 16) 0 := by
    unfold writeBlocks
    have h1 : (List.replicate (iv ++ ext.CbcEncrypt key iv padded).length (0 : Nat)).length =
        16 + padded.length := by simp [hiv, hlen]
    rw [List.take_of_length_le (by omega), List.drop_replicate]
    simp only [List.length_append, hiv, hlen]
    rw [show 16 + padded.length - padded.length = 16 by omega, hpe]
    simp [List.replicate_add]
  rw [hw, Depad_padded]
  simp

/-- Closed form of `AuthenticatedEncrypt` for a key of 64 bytes and an iv of 16 bytes: the
iv, the ciphertext of the padded input under the first half of the key, and the mac under
the second half of the key of everything before it. -/
theorem AuthenticatedEncrypt_eq (ext : CipherExternals) (x key iv padded : Bytes)
    (hk : key.length = 64) (hiv : iv.length = 16)
    (hlen : ∀ k v p, (ext.CbcEncrypt k v p).length = p.length)
    (hp : Pad (some x) = some padded) :
    AuthenticatedEncrypt ext (some x) (some key) (some iv) =
      some (some ((iv ++ ext.CbcEncrypt (key.take 32) iv padded) ++
        ext.HmacSha256 (key.drop 32) (iv ++ ext.CbcEncrypt (key.take 32) iv padded))) := by
  unfold AuthenticatedEncrypt
  have h32 : ¬ key.length < 32 := by omega
  simp only [Option.getD_some, h32, if_false]
  rw [Encrypt_eq ext x (key.take 32) iv padded (by simp [hk]) hiv hlen hp]
  simp

/-- Go `AuthenticatedDecrypt` on a body followed by 32 bytes: nil unless the 32 bytes are
the mac of the body, and otherwise `Decrypt` of the body. -/
theorem AuthenticatedDecrypt_eq (ext : CipherExternals) (body mac key : Bytes)
    (hk : key.length = 64) (hm : mac.length = 32) :
    AuthenticatedDecrypt ext (some (body ++ mac)) (some key) =
      if mac = ext.HmacSha256 (key.drop 32) body then Decrypt ext (some body) (some (key.take 32))
      else some none := by
  unfold AuthenticatedDecrypt
  have h32 : ¬ key.length < 32 := by omega
  have hl : (body ++ mac).length - 32 = body.length := by simp [hm]
  have hl2 : ¬ (body ++ mac).length < 32 := by simp [hm]
  simp only [Option.getD_some, h32, hl2, if_false, hl, List.take_left, List.drop_left,
    bytesEqual]
  by_cases h : mac = ext.HmacSha256 (key.drop 32) body
  · simp [h]
  · simp [h]

/-- On an input of at least 32 bytes whose last 32 bytes are not the mac of the rest,
`AuthenticatedDecrypt` returns nil. -/
theorem AuthenticatedDecrypt_bad_mac (ext : CipherExternals) (inp key : Bytes)
    (hk : key.length = 64) (hl : 32 ≤ inp.length)
    (hne : inp.drop (inp.length - 32) ≠
      ext.HmacSha256 (key.drop 32) (inp.take (inp.length - 32))) :
    AuthenticatedDecrypt ext (some inp) (some key) = some none := by
  have h := AuthenticatedDecrypt_eq ext (inp.take (inp.length - 32)) (inp.drop (inp.length - 32))
    key hk (by simp; omega)
  rw [List.take_append_drop] at h
  rw [h, if_neg hne]

/-- On floats that are not NaN, `<` is the order of the ranks. -/
theorem Float64.lt_iff_rank (a b : Float64) (ha : a ≠ .nan) (hb : b ≠ .nan) :
    Float64.lt a b = true ↔ a.rank < b.rank := by
  cases a <;> cases b <;> simp_all [Float64.lt, Float64.rank]
  exact WithBot.coe_lt_coe.2 (WithTop.coe_lt_top _)

/-- Floats that are not NaN and have the same rank are equal. -/
theorem Float64.rank_injective (a b : Float64) (ha : a ≠ .nan) (hb : b ≠ .nan)
    (h : a.rank = b.rank) : a = b := by
  cases a <;> cases b <;> simp_all [Float64.rank]

/-- One field of the comparison, result 1: the field decides, or it ties and the rest of
the comparison gives 1. -/
theorem compare_level_pos (a b X : Int) :
    (if a > b then 1 else if a < b then -1 else X) = 1 ↔ (b < a ∨ (a = b ∧ X = 1)) := by
  split
  · simp_all
  · split
    · constructor
      · intro h; omega
      · intro h; omega
    · constructor
      · intro h; exact Or.inr ⟨by omega, h⟩
      · intro h; rcases h with h | ⟨_, h⟩
        · omega
        · exact h

/-- One field of the comparison, result -1. -/
theorem compare_level_neg (a b X : Int) :
    (if a > b then 1 else if a < b then -1 else X) = -1 ↔ (a < b ∨ (a = b ∧ X = -1)) := by
  split
  · constructor
    · intro h; omega
    · intro h; omega
  · split
    · simp_all
    · constructor
      · intro h; exact Or.inr ⟨by omega, h⟩
      · intro h; rcases h with h | ⟨_, h⟩
        · omega
        · exact h

/-- One field of the comparison: the result is 1, 0 or -1 when the rest is. -/
theorem compare_level_range (a b X : Int) (h : X = 1 ∨ X = 0 ∨ X = -1) :
    (if a > b then 1 else if a < b then -1 else X) = 1 ∨
    (if a > b then 1 else if a < b then -1 else X) = 0 ∨
    (if a > b then 1 else if a < b then -1 else X) = -1 := by
  split
  · simp
  · split
    · simp
    · exact h

/-- The value of `CompareTimePoints` is 1, 0 or -1. -/
theorem CompareTimePoints_range (t1 t2 : TimePoint) :
    CompareTimePoints t1 t2 = 1 ∨ CompareTimePoints t1 t2 = 0 ∨ CompareTimePoints t1 t2 = -1 := by
  unfold CompareTimePoints
  repeat' apply compare_level_range
  split
  · simp
  · split <;> simp

/-- Go `CompareTimePoints` returns 1 exactly when the second time point comes first in the
lexicographic order of the six fields. -/
theorem CompareTimePoints_eq_one (t1 t2 : TimePoint) (h1 : t1.GetSeconds ≠ .nan)
    (h2 : t2.GetSeconds ≠ .nan) :
    CompareTimePoints t1 t2 = 1 ↔ timeKey t2 < timeKey t1 := by
  unfold CompareTimePoints timeKey
  simp only [compare_level_pos, Prod.Lex.lt_iff, Float64.gt]
  have hs : (if Float64.lt t2.GetSeconds t1.GetSeconds = true then (1 : Int)
      else if Float64.lt t1.GetSeconds t2.GetSeconds = true then -1 else 0) = 1 ↔
      t2.GetSeconds.rank < t1.GetSeconds.rank := by
    rw [← Float64.lt_iff_rank _ _ h2 h1]
    split
    · simp_all
    · split <;> simp_all
  rw [hs]
  simp only [eq_comm]

/-- Go `CompareTimePoints` returns -1 exactly when the first time point comes first in the
lexicographic order of the six fields. -/
theorem CompareTimePoints_eq_neg_one (t1 t2 : TimePoint) (h1 : t1.GetSeconds ≠ .nan)
    (h2 : t2.GetSeconds ≠ .nan) :
    CompareTimePoints t1 t2 = -1 ↔ timeKey t1 < timeKey t2 := by
  unfold CompareTimePoints timeKey
  simp only [compare_level_neg, Prod.Lex.lt_iff, Float64.gt]
  have hs : (if Float64.lt t2.GetSeconds t1.GetSeconds = true then (1 : Int)
      else if Float64.lt t1.GetSeconds t2.GetSeconds = true then -1 else 0) = -1 ↔
      t1.GetSeconds.rank < t2.GetSeconds.rank := by
    rw [← Float64.lt_iff_rank _ _ h1 h2]
    have hasym : Float64.lt t2.GetSeconds t1.GetSeconds = true →
        Float64.lt t1.GetSeconds t2.GetSeconds = true → False := by
      intro a b
      rw [Float64.lt_iff_rank _ _ h2 h1] at a
      rw [Float64.lt_iff_rank _ _ h1 h2] at b
      exact lt_asymm a b
    split
    · rename_i a
      constructor
      · intro h; omega
      · intro h; exact absurd h (fun b => hasym a b)
    · split <;> simp_all
  rw [hs]

/-- Go `CompareTimePoints` returns 0 exactly when the two time points have the same place in
the lexicographic order of the six fields. -/
theorem CompareTimePoints_eq_zero (t1 t2 : TimePoint) (h1 : t1.GetSeconds ≠ .nan)
    (h2 : t2.GetSeconds ≠ .nan) :
    CompareTimePoints t1 t2 = 0 ↔ timeKey t1 = timeKey t2 := by
  have a := CompareTimePoints_eq_one t1 t2 h1 h2
  have b := CompareTimePoints_eq_neg_one t1 t2 h1 h2
  have r := CompareTimePoints_range t1 t2
  constructor
  · intro h
    rcases lt_trichotomy (timeKey t1) (timeKey t2) with c | c | c
    · have := b.2 c; omega
    · exact c
    · have := a.2 c; omega
  · intro h
    rcases r with r | r | r
    · have := a.1 r; rw [h] at this; exact absurd this (lt_irrefl _)
    · exact r
    · have := b.1 r; rw [h] at this; exact absurd this (lt_irrefl _)

/-- Time points have the same place in the lexicographic order exactly when the six fields
agree. -/
theorem timeKey_eq_iff (t1 t2 : TimePoint) (h1 : t1.GetSeconds ≠ .nan)
    (h2 : t2.GetSeconds ≠ .nan) :
    timeKey t1 = timeKey t2 ↔
      t1.GetYear = t2.GetYear ∧ t1.GetMonth = t2.GetMonth ∧ t1.GetDay = t2.GetDay ∧
      t1.GetHour = t2.GetHour ∧ t1.GetMinute = t2.GetMinute ∧
      t1.GetSeconds = t2.GetSeconds := by
  unfold timeKey
  constructor
  · intro h
    have e := toLex.injective h
    simp only [Prod.mk.injEq] at e
    obtain ⟨e1, e⟩ := e
    have e := toLex.injective e
    simp only [Prod.mk.injEq] at e
    obtain ⟨e2, e⟩ := e
    have e := toLex.injective e
    simp only [Prod.mk.injEq] at e
    obtain ⟨e3, e⟩ := e
    have e := toLex.injective e
    simp only [Prod.mk.injEq] at e
    obtain ⟨e4, e⟩ := e
    have e := toLex.injective e
    simp only [Prod.mk.injEq] at e
    obtain ⟨e5, e6⟩ := e
    exact ⟨e1, e2, e3, e4, e5, Float64.rank_injective _ _ h1 h2 e6⟩
  · rintro ⟨e1, e2, e3, e4, e5, e6⟩
    rw [e1, e2, e3, e4, e5, e6]

/-- The lexicographic order of the six fields, spelled out: the first field that differs
decides. -/
theorem timeKey_lt_iff (t1 t2 : TimePoint) (h1 : t1.GetSeconds ≠ .nan)
    (h2 : t2.GetSeconds ≠ .nan) :
    timeKey t2 < timeKey t1 ↔
      t2.GetYear < t1.GetYear ∨ (t2.GetYear = t1.GetYear ∧
      (t2.GetMonth < t1.GetMonth ∨ (t2.GetMonth = t1.GetMonth ∧
      (t2.GetDay < t1.GetDay ∨ (t2.GetDay = t1.GetDay ∧
      (t2.GetHour < t1.GetHour ∨ (t2.GetHour = t1.GetHour ∧
      (t2.GetMinute < t1.GetMinute ∨ (t2.GetMinute = t1.GetMinute ∧
      Float64.lt t2.GetSeconds t1.GetSeconds = true))))))))) := by
  unfold timeKey
  simp only [Prod.Lex.lt_iff, Float64.lt_iff_rank _ _ h2 h1]

/-- Rounding an integer gives the integer. -/
theorem roundHalfEven_intCast (z : Int) : roundHalfEven (z : ℚ) = z := by
  unfold roundHalfEven
  simp

/-- Rounding does not go below an integer at or below the argument. -/
theorem roundHalfEven_ge (x : ℚ) (n : Int) (h : (n : ℚ) ≤ x) : n ≤ roundHalfEven x := by
  have hf : n ≤ ⌊x⌋ := Int.le_floor.2 h
  unfold roundHalfEven
  split
  · exact hf
  · split
    · omega
    · split <;> omega

/-- Rounding stays below an integer that is more than a half above the argument. -/
theorem roundHalfEven_le (x : ℚ) (N : Int) (h : x < (N : ℚ) - 1 / 2) :
    roundHalfEven x ≤ N - 1 := by
  have hlt : ⌊x⌋ < N := by
    apply Int.floor_lt.2
    linarith
  unfold roundHalfEven
  split
  · omega
  · rename_i hfrac
    have h2 : ⌊x⌋ < N - 1 := by
      have : ((⌊x⌋ : Int) : ℚ) < ((N - 1 : Int) : ℚ) := by
        push_cast
        push_neg at hfrac
        linarith
      exact_mod_cast this
    split
    · omega
    · split <;> omega

/-- The spacing exponent at a positive number between two consecutive powers of two, above
the subnormal range. -/
theorem ulpExponent_eq (x : ℚ) (L : Int) (h1 : (2 : ℚ) ^ L ≤ x) (h2 : x < (2 : ℚ) ^ (L + 1))
    (hL : -1022 ≤ L) : ulpExponent x = L - 52 := by
  have hx : 0 < x := lt_of_lt_of_le (by positivity) h1
  have hlog : Int.log 2 x = L := by
    have a : L ≤ Int.log 2 x :=
      (Int.zpow_le_iff_le_log (by norm_num : 1 < 2) hx).1 (by exact_mod_cast h1)
    have b : Int.log 2 x < L + 1 :=
      (Int.lt_zpow_iff_log_lt (by norm_num : 1 < 2) hx).1 (by exact_mod_cast h2)
    omega
  unfold ulpExponent
  rw [abs_of_pos hx, hlog]
  omega

/-- A positive number lies between the power of two of its spacing exponent plus 52 and
the next one, when it is at least `2^(-1022)`. -/
theorem ulpExponent_bounds (x : ℚ) (hx : (2 : ℚ) ^ (-1022 : Int) ≤ x) :
    (2 : ℚ) ^ (ulpExponent x + 52) ≤ x ∧ x < (2 : ℚ) ^ (ulpExponent x + 53) := by
  have hpos : 0 < x := lt_of_lt_of_le (by positivity) hx
  have hL : -1022 ≤ Int.log 2 x :=
    (Int.zpow_le_iff_le_log (by norm_num : 1 < 2) hpos).1 (by exact_mod_cast hx)
  have a := Int.zpow_log_le_self (R := ℚ) (b := 2) (by norm_num) hpos
  have b := Int.lt_zpow_succ_log_self (R := ℚ) (b := 2) (by norm_num) x
  have he : ulpExponent x = Int.log 2 x - 52 := by
    unfold ulpExponent
    rw [abs_of_pos hpos]
    omega
  rw [he]
  constructor
  · have : Int.log 2 x - 52 + 52 = Int.log 2 x := by omega
    rw [this]; exact_mod_cast a
  · have : Int.log 2 x - 52 + 53 = Int.log 2 x + 1 := by omega
    rw [this]; exact_mod_cast b

/-- Rounding to `float64` of a positive number with a spacing exponent `-j`, between a
natural number `k` and more than half a spacing below `k + 1`: the result is a number
from `k` to below `k + 1`. -/
theorem Float64.ofRat_between (x : ℚ) (j k : Nat) (hx : 0 < x) (he : ulpExponent x = -(j : Int))
    (hk : (k : ℚ) ≤ x) (hroom : x + 1 / (2 * (2 : ℚ) ^ j) < (k : ℚ) + 1)
    (hsmall : k < 2 ^ 62) :
    ∃ r : ℚ, Float64.ofRat x = .num r ∧ (k : ℚ) ≤ r ∧ r < (k : ℚ) + 1 := by
  have hp : (0 : ℚ) < (2 : ℚ) ^ j := by positivity
  have hz : (2 : ℚ) ^ (-(j : Int)) = ((2 : ℚ) ^ j)⁻¹ := by
    rw [zpow_neg, zpow_natCast]
  have hy : x / (2 : ℚ) ^ (-(j : Int)) = x * (2 : ℚ) ^ j := by
    rw [hz, div_inv_eq_mul]
  have hlow : ((k * 2 ^ j : Nat) : Int) ≤ roundHalfEven (x * (2 : ℚ) ^ j) := by
    apply roundHalfEven_ge
    push_cast
    exact mul_le_mul_of_nonneg_right hk (le_of_lt hp)
  have hup : roundHalfEven (x * (2 : ℚ) ^ j) ≤ (((k + 1) * 2 ^ j : Nat) : Int) - 1 := by
    apply roundHalfEven_le
    push_cast
    have h1 : (x + 1 / (2 * (2 : ℚ) ^ j)) * (2 : ℚ) ^ j < ((k : ℚ) + 1) * (2 : ℚ) ^ j :=
      mul_lt_mul_of_pos_right hroom hp
    have h2 : (x + 1 / (2 * (2 : ℚ) ^ j)) * (2 : ℚ) ^ j = x * (2 : ℚ) ^ j + 1 / 2 := by
      field_simp
      ring
    rw [h2] at h1
    linarith
  have hr1 : (k : ℚ) ≤ (roundHalfEven (x * (2 : ℚ) ^ j) : ℚ) * ((2 : ℚ) ^ j)⁻¹ := by
    rw [le_mul_inv_iff₀ hp]
    have : (((k * 2 ^ j : Nat) : Int) : ℚ) ≤ (roundHalfEven (x * (2 : ℚ) ^ j) : ℚ) := by
      exact_mod_cast hlow
    push_cast at this
    exact this
  have hr2 : (roundHalfEven (x * (2 : ℚ) ^ j) : ℚ) * ((2 : ℚ) ^ j)⁻¹ < (k : ℚ) + 1 := by
    rw [mul_inv_lt_iff₀ hp]
    have : (roundHalfEven (x * (2 : ℚ) ^ j) : ℚ) ≤ (((((k + 1) * 2 ^ j : Nat) : Int) - 1 : Int) : ℚ) := by
      exact_mod_cast hup
    push_cast at this
    linarith
  have hbig : (k : ℚ) + 1 ≤ (2 : ℚ) ^ (1024 : Nat) := by
    have h0 : k + 1 ≤ 2 ^ 62 := by omega
    have h1 : (k : ℚ) + 1 ≤ (2 : ℚ) ^ (62 : Nat) := by exact_mod_cast h0
    have h2 : (2 : ℚ) ^ (62 : Nat) ≤ (2 : ℚ) ^ (1024 : Nat) :=
      pow_le_pow_right₀ (by norm_num) (by norm_num)
    exact le_trans h1 h2
  refine ⟨(roundHalfEven (x * (2 : ℚ) ^ j) : ℚ) * ((2 : ℚ) ^ j)⁻¹, ?_, hr1, hr2⟩
  unfold Float64.ofRat
  rw [he, hy, hz]
  have hk0 : (0 : ℚ) ≤ (k : ℚ) := Nat.cast_nonneg k
  generalize (2 : ℚ) ^ (1024 : Nat) = P at hbig ⊢
  rw [if_neg (ne_of_gt hx), if_neg (by linarith), if_neg (by linarith)]

/-- The spacing exponent of a positive number below `2^53` and not below `2^(-1022)` is
at most zero. -/
theorem ulpExponent_nonpos (x : ℚ) (hlo : (2 : ℚ) ^ (-1022 : Int) ≤ x)
    (hhi : x < (2 : ℚ) ^ (53 : Int)) : ∃ j : Nat, ulpExponent x = -(j : Int) := by
  obtain ⟨a, b⟩ := ulpExponent_bounds x hlo
  have h : (2 : ℚ) ^ (ulpExponent x + 52) < (2 : ℚ) ^ (53 : Int) := lt_of_le_of_lt a hhi
  have h2 := (zpow_lt_zpow_iff_right₀ (by norm_num : (1 : ℚ) < 2)).1 h
  exact ⟨(-ulpExponent x).toNat, by omega⟩

/-- A natural number below `2^53` is a `float64`: rounding leaves it as it is. -/
theorem Float64.ofRat_natCast (n : Nat) (hn : n < 2 ^ 53) :
    Float64.ofRat (n : ℚ) = .num (n : ℚ) := by
  rcases Nat.eq_zero_or_pos n with h0 | hpos
  · subst h0
    simp [Float64.ofRat]
  · have h1 : (1 : ℚ) ≤ (n : ℚ) := by exact_mod_cast hpos
    have hlo : (2 : ℚ) ^ (-1022 : Int) ≤ (n : ℚ) :=
      le_trans (zpow_le_one_of_nonpos₀ (by norm_num) (by norm_num)) h1
    have hhi : (n : ℚ) < (2 : ℚ) ^ (53 : Int) := by
      have h3 : (2 : ℚ) ^ (53 : Int) = (2 : ℚ) ^ (53 : Nat) := by norm_num
      rw [h3]
      exact_mod_cast hn
    obtain ⟨j, hj⟩ := ulpExponent_nonpos (n : ℚ) hlo hhi
    have hx : (0 : ℚ) < (n : ℚ) := by linarith
    have hp : (0 : ℚ) < (2 : ℚ) ^ j := by positivity
    have hz : (2 : ℚ) ^ (-(j : Int)) = ((2 : ℚ) ^ j)⁻¹ := by
      rw [zpow_neg, zpow_natCast]
    have hy : (n : ℚ) / (2 : ℚ) ^ (-(j : Int)) = (((n * 2 ^ j : Nat) : Int) : ℚ) := by
      rw [hz, div_inv_eq_mul]
      push_cast
      ring
    have hr : ((((n * 2 ^ j : Nat) : Int) : ℚ)) * ((2 : ℚ) ^ j)⁻¹ = (n : ℚ) := by
      push_cast
      field_simp
    have hbig : (n : ℚ) < (2 : ℚ) ^ (1024 : Nat) := by
      have h0 : n ≤ 2 ^ 62 := by omega
      have h1 : (n : ℚ) ≤ (2 : ℚ) ^ (62 : Nat) := by exact_mod_cast h0
      have h2 : (2 : ℚ) ^ (62 : Nat) < (2 : ℚ) ^ (1024 : Nat) :=
        pow_lt_pow_right₀ (by norm_num) (by norm_num)
      exact lt_of_le_of_lt h1 h2
    unfold Float64.ofRat
    rw [hj, hy, roundHalfEven_intCast, hz, hr]
    generalize (2 : ℚ) ^ (1024 : Nat) = P at hbig ⊢
    rw [if_neg (ne_of_gt hx), if_neg (by linarith), if_neg (by linarith)]

/-- The integer part of a number from a natural number `k` to below `k + 1` is `k`. -/
theorem truncRat_between (r : ℚ) (k : Nat) (h1 : (k : ℚ) ≤ r) (h2 : r < (k : ℚ) + 1) :
    truncRat r = k := by
  have h0 : (0 : ℚ) ≤ r := le_trans (Nat.cast_nonneg k) h1
  unfold truncRat
  rw [if_pos h0]
  exact Int.floor_eq_iff.2 ⟨by exact_mod_cast h1, by exact_mod_cast h2⟩

/-- Division of natural numbers in `float64` followed by the conversion to `int32` is the
integer quotient, for a dividend below `2^53`, a divisor from 1 to `2^31`, and a quotient
that fits `int32`. -/
theorem toInt32_div_natCast (impl : Float64 → Int) (a b : Nat) (ha : a < 2 ^ 53)
    (hb : 0 < b) (hb2 : b ≤ 2 ^ 31) (hq : a / b < 2 ^ 31) :
    toInt32 impl (Float64.div (.num (a : ℚ)) (.num (b : ℚ))) = ((a / b : Nat) : Int) := by
  have hbq : (0 : ℚ) < (b : ℚ) := by exact_mod_cast hb
  have hb0 : (b : ℚ) ≠ 0 := ne_of_gt hbq
  have hrange : ∀ r : ℚ, ((a / b : Nat) : ℚ) ≤ r → r < ((a / b : Nat) : ℚ) + 1 →
      toInt32 impl (.num r) = ((a / b : Nat) : Int) := by
    intro r h1 h2
    have ht := truncRat_between r (a / b) h1 h2
    unfold toInt32
    simp only [ht]
    rw [if_pos]
    constructor
    · have : (0 : Int) ≤ ((a / b : Nat) : Int) := Int.ofNat_nonneg _
      omega
    · exact_mod_cast hq
  unfold Float64.div
  simp only [hb0, if_false]
  rcases Nat.eq_zero_or_pos a with h0 | hpos
  · subst h0
    have : Float64.ofRat (((0 : Nat) : ℚ) / (b : ℚ)) = .num 0 := by simp [Float64.ofRat]
    rw [this]
    exact hrange 0 (by simp) (by simp)
  · have hx : (0 : ℚ) < (a : ℚ) / (b : ℚ) := div_pos (by exact_mod_cast hpos) hbq
    have hxb : (a : ℚ) / (b : ℚ) * (b : ℚ) = (a : ℚ) := div_mul_cancel₀ _ hb0
    have hlo : (2 : ℚ) ^ (-1022 : Int) ≤ (a : ℚ) / (b : ℚ) := by
      have h1 : (1 : ℚ) / (2 : ℚ) ^ (31 : Nat) ≤ (a : ℚ) / (b : ℚ) := by
        rw [div_le_div_iff₀ (by positivity) hbq]
        have : (b : ℚ) ≤ (2 : ℚ) ^ (31 : Nat) := by exact_mod_cast hb2
        have ha1 : (1 : ℚ) ≤ (a : ℚ) := by exact_mod_cast hpos
        nlinarith
      have h2 : (2 : ℚ) ^ (-1022 : Int) ≤ (1 : ℚ) / (2 : ℚ) ^ (31 : Nat) := by
        rw [one_div, ← zpow_natCast, ← zpow_neg]
        exact zpow_le_zpow_right₀ (by norm_num) (by norm_num)
      exact le_trans h2 h1
    have hhi : (a : ℚ) / (b : ℚ) < (2 : ℚ) ^ (53 : Int) := by
      have h1 : (a : ℚ) < (2 : ℚ) ^ (53 : Nat) := by exact_mod_cast ha
      have h2 : (a : ℚ) / (b : ℚ) ≤ (a : ℚ) := by
        rw [div_le_iff₀ hbq]
        have hb1 : (1 : ℚ) ≤ (b : ℚ) := by exact_mod_cast hb
        have ha0 : (0 : ℚ) ≤ (a : ℚ) := Nat.cast_nonneg a
        nlinarith
      have h3 : (2 : ℚ) ^ (53 : Int) = (2 : ℚ) ^ (53 : Nat) := by norm_num
      rw [h3]; linarith
    obtain ⟨j, hj⟩ := ulpExponent_nonpos _ hlo hhi
    obtain ⟨bl, bu⟩ := ulpExponent_bounds _ hlo
    have hk : ((a / b : Nat) : ℚ) ≤ (a : ℚ) / (b : ℚ) := by
      rw [le_div_iff₀ hbq]
      exact_mod_cast Nat.div_mul_le_self a b
    have hk1 : (a : ℚ) / (b : ℚ) + 1 / (b : ℚ) ≤ ((a / b : Nat) : ℚ) + 1 := by
      have hnat : a + 1 ≤ (a / b + 1) * b := by
        have := Nat.div_add_mod a b
        have hm := Nat.mod_lt a hb
        nlinarith
      have hq2 : ((a : ℚ) + 1) ≤ (((a / b : Nat) : ℚ) + 1) * (b : ℚ) := by exact_mod_cast hnat
      rw [← add_div, div_le_iff₀ hbq]
      exact hq2
    have hroom : (a : ℚ) / (b : ℚ) + 1 / (2 * (2 : ℚ) ^ j) < ((a / b : Nat) : ℚ) + 1 := by
      have hsmall : 1 / (2 * (2 : ℚ) ^ j) < 1 / (b : ℚ) := by
        rw [hj] at bl
        have hz : (2 : ℚ) ^ (-(j : Int) + 52) = (2 : ℚ) ^ (52 : Nat) / (2 : ℚ) ^ j := by
          rw [zpow_add₀ (by norm_num), zpow_neg, zpow_natCast]
          norm_num
          ring
        rw [hz] at bl
        have hp : (0 : ℚ) < (2 : ℚ) ^ j := by positivity
        rw [div_le_div_iff₀ hp hbq] at bl
        rw [div_lt_div_iff₀ (by positivity) hbq]
        have h1 : (a : ℚ) < (2 : ℚ) ^ (53 : Nat) := by exact_mod_cast ha
        have h52 : (2 : ℚ) ^ (53 : Nat) = 2 * (2 : ℚ) ^ (52 : Nat) := by norm_num
        have hpa : (a : ℚ) * (2 : ℚ) ^ j < 2 * (2 : ℚ) ^ (52 : Nat) * (2 : ℚ) ^ j := by
          rw [← h52]; exact mul_lt_mul_of_pos_right h1 hp
        have h52p : (0 : ℚ) < (2 : ℚ) ^ (52 : Nat) := by positivity
        nlinarith
      linarith
    obtain ⟨r, hr, r1, r2⟩ := Float64.ofRat_between _ j (a / b) hx hj hk hroom (by omega)
    rw [hr]
    exact hrange r r1 r2

/-- Go `float64` addition of natural numbers with a sum below `2^53` is exact. -/
theorem Float64.add_natCast (a b : Nat) (h : a + b < 2 ^ 53) :
    Float64.add (.num (a : ℚ)) (.num (b : ℚ)) = .num ((a + b : Nat) : ℚ) := by
  unfold Float64.add
  rw [← Float64.ofRat_natCast (a + b) h]
  push_cast
  rfl

/-- Go `float64` subtraction of natural numbers with a difference from 0 to below `2^53` is
exact. -/
theorem Float64.sub_natCast (a b : Nat) (hb : b ≤ a) (h : a - b < 2 ^ 53) :
    Float64.sub (.num (a : ℚ)) (.num (b : ℚ)) = .num ((a - b : Nat) : ℚ) := by
  unfold Float64.sub Float64.neg Float64.add
  rw [← Float64.ofRat_natCast (a - b) h]
  push_cast [hb]
  congr 1
  ring

/-- Go `float64` multiplication of natural numbers with a product below `2^53` is exact. -/
theorem Float64.mul_natCast (a b : Nat) (h : a * b < 2 ^ 53) :
    Float64.mul (.num (a : ℚ)) (.num (b : ℚ)) = .num ((a * b : Nat) : ℚ) := by
  unfold Float64.mul
  rw [← Float64.ofRat_natCast (a * b) h]
  push_cast
  rfl

/-- Go `float64(n)` of a natural number below `2^53` is exact. -/
theorem Float64.ofInt32_natCast (n : Nat) (h : n < 2 ^ 53) :
    Float64.ofInt32 ((n : Nat) : Int) = .num (n : ℚ) := by
  unfold Float64.ofInt32
  rw [← Float64.ofRat_natCast n h]
  push_cast
  rfl

/-- An `int32` computation whose exact result is in range gives that result. -/
theorem wrap32_eq (x : Int) (h1 : -2 ^ 31 ≤ x) (h2 : x < 2 ^ 31) : wrap32 x = x := by
  unfold wrap32
  omega

/-- The arithmetic of `TimePointPlus` before its loop, for whole seconds: with `S` the sum of
the seconds of `t` and `d` as the `float64` addition gives it, at most `2^53`, and a first
quotient that is the integer quotient, every later step is exact. The years, days, hours
and minutes taken out of `S` are its mixed-radix digits, the carries go from minutes to
hours to days, and the loop starts from the month of `t` and the day count
`nd + carry + day`. -/
theorem TimePointPlus_eq (impl : Float64 → Int) (fuel : Nat) (y mo dd hh mi : Int)
    (s D S : Nat)
    (hS : Float64.add (.num (s : ℚ)) (.num (D : ℚ)) = .num (S : ℚ)) (hS53 : S ≤ 2 ^ 53)
    (hq : toInt32 impl (Float64.div (.num (S : ℚ)) (.num 31536000)) =
      ((S / 31536000 : Nat) : Int))
    (hmi0 : 0 ≤ mi) (hmi : mi ≤ 59) (hh0 : 0 ≤ hh) (hh1 : hh ≤ 23) (hd0 : 1 ≤ dd)
    (hd1 : dd ≤ 31) (hy0 : -2 ^ 31 ≤ y) (hy1 : y + (S / 31536000 : Nat) < 2 ^ 31) :
    TimePointPlus impl fuel (timePointOf y mo dd hh mi (s : ℚ)) (.num (D : ℚ)) =
      match monthLoop fuel mo
        (((S % 31536000 / 86400 : Nat) : Int) +
          ((((S % 31536000 % 86400 / 3600 : Nat) : Int) +
            (((S % 31536000 % 86400 % 3600 / 60 : Nat) : Int) + mi) / 60 + hh) / 24 + dd)) with
      | none => none
      | some (m, day) =>
        some { Year := some (wrap32 (y + ((S / 31536000 : Nat) : Int) +
                 Int.tdiv (wrap32 (m - 1)) 12)),
               Month := some (wrap32 (m - wrap32 (Int.tdiv (wrap32 (m - 1)) 12 * 12))),
               Day := some day,
               Hour := some ((((S % 31536000 % 86400 / 3600 : Nat) : Int) +
                 (((S % 31536000 % 86400 % 3600 / 60 : Nat) : Int) + mi) / 60 + hh) % 24),
               Minute := some ((((S % 31536000 % 86400 % 3600 / 60 : Nat) : Int) + mi) % 60),
               Seconds := some (.num ((S % 31536000 % 86400 % 3600 % 60 : Nat) : ℚ)) } := by
  have c1 : Float64.num 31536000 = .num ((31536000 : Nat) : ℚ) := by norm_num
  have c2 : Float64.num 365 = .num ((365 : Nat) : ℚ) := by norm_num
  have c3 : Float64.num 86400 = .num ((86400 : Nat) : ℚ) := by norm_num
  have c4 : Float64.num 3600 = .num ((3600 : Nat) : ℚ) := by norm_num
  have c5 : Float64.num 60 = .num ((60 : Nat) : ℚ) := by norm_num
  -- years
  have e1 : Float64.ofInt32 ((S / 31536000 : Nat) : Int) = .num ((S / 31536000 : Nat) : ℚ) :=
    Float64.ofInt32_natCast _ (by omega)
  have e2 : Float64.mul (.num ((S / 31536000 : Nat) : ℚ)) (.num 365) =
      .num ((S / 31536000 * 365 : Nat) : ℚ) := by
    rw [c2]; exact Float64.mul_natCast _ _ (by omega)
  have e3 : Float64.mul (.num ((S / 31536000 * 365 : Nat) : ℚ)) (.num 86400) =
      .num ((S / 31536000 * 365 * 86400 : Nat) : ℚ) := by
    rw [c3]; exact Float64.mul_natCast _ _ (by omega)
  have e4 : Float64.sub (.num (S : ℚ)) (.num ((S / 31536000 * 365 * 86400 : Nat) : ℚ)) =
      .num ((S % 31536000 : Nat) : ℚ) := by
    rw [Float64.sub_natCast _ _ (by omega) (by omega)]
    congr 2
    omega
  -- days
  have e5 : toInt32 impl (Float64.div (.num ((S % 31536000 : Nat) : ℚ)) (.num 86400)) =
      ((S % 31536000 / 86400 : Nat) : Int) := by
    rw [c3]; exact toInt32_div_natCast impl _ _ (by omega) (by norm_num) (by norm_num) (by omega)
  have e6 : Float64.ofInt32 ((S % 31536000 / 86400 : Nat) : Int) =
      .num ((S % 31536000 / 86400 : Nat) : ℚ) :=
    Float64.ofInt32_natCast _ (by omega)
  have e7 : Float64.mul (.num ((S % 31536000 / 86400 : Nat) : ℚ)) (.num 86400) =
      .num ((S % 31536000 / 86400 * 86400 : Nat) : ℚ) := by
    rw [c3]; exact Float64.mul_natCast _ _ (by omega)
  have e8 : Float64.sub (.num ((S % 31536000 : Nat) : ℚ))
      (.num ((S % 31536000 / 86400 * 86400 : Nat) : ℚ)) =
      .num ((S % 31536000 % 86400 : Nat) : ℚ) := by
    have hsub : S % 31536000 - S % 31536000 / 86400 * 86400 = S % 31536000 % 86400 := by omega
    rw [Float64.sub_natCast _ _ (by omega) (by omega), hsub]
  -- hours
  have e9 : toInt32 impl (Float64.div (.num ((S % 31536000 % 86400 : Nat) : ℚ)) (.num 3600)) =
      ((S % 31536000 % 86400 / 3600 : Nat) : Int) := by
    rw [c4]; exact toInt32_div_natCast impl _ _ (by omega) (by norm_num) (by norm_num) (by omega)
  have e10 : wrap32 (((S % 31536000 % 86400 / 3600 : Nat) : Int) * 3600) =
      ((S % 31536000 % 86400 / 3600 * 3600 : Nat) : Int) := by
    rw [wrap32_eq _ (by omega) (by omega)]
    omega
  have e11 : Float64.ofInt32 ((S % 31536000 % 86400 / 3600 * 3600 : Nat) : Int) =
      .num ((S % 31536000 % 86400 / 3600 * 3600 : Nat) : ℚ) :=
    Float64.ofInt32_natCast _ (by omega)
  have e12 : Float64.sub (.num ((S % 31536000 % 86400 : Nat) : ℚ))
      (.num ((S % 31536000 % 86400 / 3600 * 3600 : Nat) : ℚ)) =
      .num ((S % 31536000 % 86400 % 3600 : Nat) : ℚ) := by
    have hsub : S % 31536000 % 86400 - S % 31536000 % 86400 / 3600 * 3600 = S % 31536000 % 86400 % 3600 := by omega
    rw [Float64.sub_natCast _ _ (by omega) (by omega), hsub]
  -- minutes
  have e13 : toInt32 impl
      (Float64.div (.num ((S % 31536000 % 86400 % 3600 : Nat) : ℚ)) (.num 60)) =
      ((S % 31536000 % 86400 % 3600 / 60 : Nat) : Int) := by
    rw [c5]; exact toInt32_div_natCast impl _ _ (by omega) (by norm_num) (by norm_num) (by omega)
  have e14 : wrap32 (((S % 31536000 % 86400 % 3600 / 60 : Nat) : Int) * 60) =
      ((S % 31536000 % 86400 % 3600 / 60 * 60 : Nat) : Int) := by
    rw [wrap32_eq _ (by omega) (by omega)]
    omega
  have e15 : Float64.ofInt32 ((S % 31536000 % 86400 % 3600 / 60 * 60 : Nat) : Int) =
      .num ((S % 31536000 % 86400 % 3600 / 60 * 60 : Nat) : ℚ) :=
    Float64.ofInt32_natCast _ (by omega)
  have e16 : Float64.sub (.num ((S % 31536000 % 86400 % 3600 : Nat) : ℚ))
      (.num ((S % 31536000 % 86400 % 3600 / 60 * 60 : Nat) : ℚ)) =
      .num ((S % 31536000 % 86400 % 3600 % 60 : Nat) : ℚ) := by
    have hsub : S % 31536000 % 86400 % 3600 - S % 31536000 % 86400 % 3600 / 60 * 60 = S % 31536000 % 86400 % 3600 % 60 := by omega
    rw [Float64.sub_natCast _ _ (by omega) (by omega), hsub]
  -- carries
  have e17 : wrap32 (((S % 31536000 % 86400 % 3600 / 60 : Nat) : Int) + mi) =
      ((S % 31536000 % 86400 % 3600 / 60 : Nat) : Int) + mi :=
    wrap32_eq _ (by omega) (by omega)
  have e18 : Int.tdiv (((S % 31536000 % 86400 % 3600 / 60 : Nat) : Int) + mi) 60 =
      (((S % 31536000 % 86400 % 3600 / 60 : Nat) : Int) + mi) / 60 :=
    Int.tdiv_eq_ediv (by omega) (by norm_num)
  have e19 : wrap32 ((((S % 31536000 % 86400 % 3600 / 60 : Nat) : Int) + mi) / 60 + hh) =
      (((S % 31536000 % 86400 % 3600 / 60 : Nat) : Int) + mi) / 60 + hh :=
    wrap32_eq _ (by omega) (by omega)
  have e20 : wrap32 (((S % 31536000 % 86400 / 3600 : Nat) : Int) +
      ((((S % 31536000 % 86400 % 3600 / 60 : Nat) : Int) + mi) / 60 + hh)) =
      ((S % 31536000 % 86400 / 3600 : Nat) : Int) +
        (((S % 31536000 % 86400 % 3600 / 60 : Nat) : Int) + mi) / 60 + hh := by
    rw [wrap32_eq _ (by omega) (by omega)]
    omega
  have e21 : Int.tdiv (((S % 31536000 % 86400 / 3600 : Nat) : Int) +
      (((S % 31536000 % 86400 % 3600 / 60 : Nat) : Int) + mi) / 60 + hh) 24 =
      (((S % 31536000 % 86400 / 3600 : Nat) : Int) +
        (((S % 31536000 % 86400 % 3600 / 60 : Nat) : Int) + mi) / 60 + hh) / 24 :=
    Int.tdiv_eq_ediv (by omega) (by norm_num)
  have e22 : wrap32 ((((S % 31536000 % 86400 / 3600 : Nat) : Int) +
      (((S % 31536000 % 86400 % 3600 / 60 : Nat) : Int) + mi) / 60 + hh) / 24 + dd) =
      (((S % 31536000 % 86400 / 3600 : Nat) : Int) +
        (((S % 31536000 % 86400 % 3600 / 60 : Nat) : Int) + mi) / 60 + hh) / 24 + dd :=
    wrap32_eq _ (by omega) (by omega)
  have e23 : wrap32 (((S % 31536000 / 86400 : Nat) : Int) +
      ((((S % 31536000 % 86400 / 3600 : Nat) : Int) +
        (((S % 31536000 % 86400 % 3600 / 60 : Nat) : Int) + mi) / 60 + hh) / 24 + dd)) =
      ((S % 31536000 / 86400 : Nat) : Int) +
      ((((S % 31536000 % 86400 / 3600 : Nat) : Int) +
        (((S % 31536000 % 86400 % 3600 / 60 : Nat) : Int) + mi) / 60 + hh) / 24 + dd) :=
    wrap32_eq _ (by omega) (by omega)
  have e24 : wrap32 ((((S % 31536000 % 86400 / 3600 : Nat) : Int) +
      (((S % 31536000 % 86400 % 3600 / 60 : Nat) : Int) + mi) / 60 + hh) -
      wrap32 (24 * ((((S % 31536000 % 86400 / 3600 : Nat) : Int) +
        (((S % 31536000 % 86400 % 3600 / 60 : Nat) : Int) + mi) / 60 + hh) / 24))) =
      (((S % 31536000 % 86400 / 3600 : Nat) : Int) +
        (((S % 31536000 % 86400 % 3600 / 60 : Nat) : Int) + mi) / 60 + hh) % 24 := by
    rw [wrap32_eq (24 * _) (by omega) (by omega), wrap32_eq _ (by omega) (by omega)]
    omega
  have e25 : wrap32 ((((S % 31536000 % 86400 % 3600 / 60 : Nat) : Int) + mi) -
      wrap32 (60 * ((((S % 31536000 % 86400 % 3600 / 60 : Nat) : Int) + mi) / 60))) =
      (((S % 31536000 % 86400 % 3600 / 60 : Nat) : Int) + mi) % 60 := by
    rw [wrap32_eq (60 * _) (by omega) (by omega), wrap32_eq _ (by omega) (by omega)]
    omega
  have e26 : wrap32 (y + ((S / 31536000 : Nat) : Int)) = y + ((S / 31536000 : Nat) : Int) :=
    wrap32_eq _ (by omega) (by omega)
  unfold TimePointPlus
  simp only [timePointOf, TimePoint.GetSeconds, TimePoint.GetYear, TimePoint.GetMonth,
    TimePoint.GetDay, TimePoint.GetHour, TimePoint.GetMinute, Option.getD_some]
  simp only [hS, hq, e1, e2, e3, e4, e5, e6, e7, e8, e9, e10, e11, e12, e13, e14, e15, e16,
    e17, e18, e19, e20, e21, e22, e23, e24, e25, e26]

/-- The residue of `mo - 1` modulo 12 is one of 0, ..., 11. -/
theorem month_residue (mo : Int) :
    (mo - 1) % 12 = 0 ∨ (mo - 1) % 12 = 1 ∨ (mo - 1) % 12 = 2 ∨ (mo - 1) % 12 = 3 ∨
    (mo - 1) % 12 = 4 ∨ (mo - 1) % 12 = 5 ∨ (mo - 1) % 12 = 6 ∨ (mo - 1) % 12 = 7 ∨
    (mo - 1) % 12 = 8 ∨ (mo - 1) % 12 = 9 ∨ (mo - 1) % 12 = 10 ∨ (mo - 1) % 12 = 11 := by
  omega

/-- A month has 28, 30 or 31 days. -/
theorem daysInMonth_range (mo : Int) : 28 ≤ daysInMonth mo ∧ daysInMonth mo ≤ 31 := by
  unfold daysInMonth
  split
  · omega
  · split <;> omega

/-- The days before the next month are the days before the month and the days in it. -/
theorem daysBeforeMonth_succ (mo : Int) :
    daysBeforeMonth (mo + 1) = daysBeforeMonth mo + daysInMonth mo := by
  have e : mo + 1 - 1 = mo := by omega
  unfold daysBeforeMonth daysInMonth
  rw [e]
  rcases month_residue mo with h | h | h | h | h | h | h | h | h | h | h | h
  all_goals
    have h2 : mo % 12 = ((mo - 1) % 12 + 1) % 12 := by omega
    rw [h] at h2
    norm_num at h2
    simp only [h, h2]
    norm_num
    omega

/-- One round of the loop of `TimePointPlus` for a month from 1 on and numbers far from the
ends of `int32`: it exits when the days fit the month, and otherwise goes to the next
month with the days of the month taken off. -/
theorem monthRound_eq (mo nd : Int) (h1 : 1 ≤ mo) (h2 : mo ≤ 2 ^ 30) (h3 : -2 ^ 30 ≤ nd)
    (h4 : nd ≤ 2 ^ 30) :
    monthRound mo nd =
      if nd ≤ daysInMonth mo then .exit nd else .next (mo + 1) (nd - daysInMonth mo) := by
  have w1 : wrap32 (mo - 1) = mo - 1 := wrap32_eq _ (by omega) (by omega)
  have t1 : Int.tmod (mo - 1) 12 = (mo - 1) % 12 := Int.tmod_eq_emod (by omega) (by norm_num)
  have w2 : wrap32 (1 + (mo - 1) % 12) = 1 + (mo - 1) % 12 := wrap32_eq _ (by omega) (by omega)
  have w3 : wrap32 (mo + 1) = mo + 1 := wrap32_eq _ (by omega) (by omega)
  have w4 : wrap32 (nd - 28) = nd - 28 := wrap32_eq _ (by omega) (by omega)
  have w5 : wrap32 (nd - 30) = nd - 30 := wrap32_eq _ (by omega) (by omega)
  have w6 : wrap32 (nd - 31) = nd - 31 := wrap32_eq _ (by omega) (by omega)
  unfold monthRound daysInMonth
  rw [w1, t1, w2, w3, w4, w5, w6]
  rcases month_residue mo with h | h | h | h | h | h | h | h | h | h | h | h
  all_goals
    rw [h]
    norm_num

/-- The loop of `TimePointPlus` from a month from 1 on and a day count from 1 on exits, given
one round of fuel for every 28 days: the month it exits at is not before the month it
starts from, the day fits the month, and days before the month plus day are the same at
the exit as at the start. -/
theorem monthLoop_exits : ∀ (fuel : Nat) (mo nd : Int), 1 ≤ mo → 1 ≤ nd → nd ≤ 28 * fuel →
    mo + nd ≤ 2 ^ 30 →
    ∃ m day, monthLoop fuel mo nd = some (m, day) ∧ mo ≤ m ∧ m + day ≤ mo + nd ∧ 1 ≤ day ∧
      day ≤ daysInMonth m ∧ daysBeforeMonth m + day = daysBeforeMonth mo + nd
  | 0, mo, nd, _, h2, h3, _ => by omega
  | fuel + 1, mo, nd, h1, h2, h3, h4 => by
    have hr := daysInMonth_range mo
    rw [monthLoop, monthRound_eq mo nd h1 (by omega) (by omega) (by omega)]
    by_cases hfit : nd ≤ daysInMonth mo
    · rw [if_pos hfit]
      exact ⟨mo, nd, rfl, le_refl _, le_refl _, h2, hfit, rfl⟩
    · rw [if_neg hfit]
      obtain ⟨m, day, e, a1, a2, a3, a4, a5⟩ :=
        monthLoop_exits fuel (mo + 1) (nd - daysInMonth mo) (by omega) (by omega)
          (by push_cast at h3; omega) (by omega)
      refine ⟨m, day, e, by omega, by omega, a3, a4, ?_⟩
      rw [a5, daysBeforeMonth_succ]
      omega

/-- The days before a month counted past 12 are whole years of 365 days and the days
before the month of the year. -/
theorem daysBeforeMonth_normalize (m : Int) :
    daysBeforeMonth (m - (m - 1) / 12 * 12) = daysBeforeMonth m - 365 * ((m - 1) / 12) ∧
    daysInMonth (m - (m - 1) / 12 * 12) = daysInMonth m ∧
    0 ≤ daysBeforeMonth (m - (m - 1) / 12 * 12) ∧
    daysBeforeMonth (m - (m - 1) / 12 * 12) ≤ 334 := by
  have e1 : (m - (m - 1) / 12 * 12 - 1) % 12 = (m - 1) % 12 := by omega
  have e2 : (m - (m - 1) / 12 * 12 - 1) / 12 = 0 := by omega
  unfold daysBeforeMonth daysInMonth
  rw [e1, e2]
  refine ⟨by omega, rfl, ?_, ?_⟩
  all_goals
    rcases month_residue m with h | h | h | h | h | h | h | h | h | h | h | h
    all_goals
      rw [h]
      norm_num

/-- The table of the months of the year: days before the month, and days in it. -/
theorem calendar_table (m : Int) (a1 : 1 ≤ m) (a2 : m ≤ 12) :
    (m = 1 ∧ daysBeforeMonth m = 0 ∧ daysInMonth m = 31) ∨
    (m = 2 ∧ daysBeforeMonth m = 31 ∧ daysInMonth m = 28) ∨
    (m = 3 ∧ daysBeforeMonth m = 59 ∧ daysInMonth m = 31) ∨
    (m = 4 ∧ daysBeforeMonth m = 90 ∧ daysInMonth m = 30) ∨
    (m = 5 ∧ daysBeforeMonth m = 120 ∧ daysInMonth m = 31) ∨
    (m = 6 ∧ daysBeforeMonth m = 151 ∧ daysInMonth m = 30) ∨
    (m = 7 ∧ daysBeforeMonth m = 181 ∧ daysInMonth m = 31) ∨
    (m = 8 ∧ daysBeforeMonth m = 212 ∧ daysInMonth m = 31) ∨
    (m = 9 ∧ daysBeforeMonth m = 243 ∧ daysInMonth m = 30) ∨
    (m = 10 ∧ daysBeforeMonth m = 273 ∧ daysInMonth m = 31) ∨
    (m = 11 ∧ daysBeforeMonth m = 304 ∧ daysInMonth m = 30) ∨
    (m = 12 ∧ daysBeforeMonth m = 334 ∧ daysInMonth m = 31) := by
  have hm : m = 1 ∨ m = 2 ∨ m = 3 ∨ m = 4 ∨ m = 5 ∨ m = 6 ∨ m = 7 ∨ m = 8 ∨ m = 9 ∨
      m = 10 ∨ m = 11 ∨ m = 12 := by omega
  rcases hm with h | h | h | h | h | h | h | h | h | h | h | h <;> subst h <;> decide

/-- The days before a month of the year and the day in it tell the month and the day. -/
theorem dayOfYear_injective (m1 d1 m2 d2 : Int) (a1 : 1 ≤ m1) (a2 : m1 ≤ 12) (b1 : 1 ≤ m2)
    (b2 : m2 ≤ 12) (c1 : 1 ≤ d1) (c2 : d1 ≤ daysInMonth m1) (e1 : 1 ≤ d2)
    (e2 : d2 ≤ daysInMonth m2) (h : daysBeforeMonth m1 + d1 = daysBeforeMonth m2 + d2) :
    m1 = m2 ∧ d1 = d2 := by
  have t1 := calendar_table m1 a1 a2
  have t2 := calendar_table m2 b1 b2
  generalize daysBeforeMonth m1 = x1 at *
  generalize daysBeforeMonth m2 = x2 at *
  generalize daysInMonth m1 = y1 at *
  generalize daysInMonth m2 = y2 at *
  omega

/-- The days before a month counted past 12 lie between the whole years and the whole years
plus 334. -/
theorem daysBeforeMonth_bounds (m : Int) :
    365 * ((m - 1) / 12) ≤ daysBeforeMonth m ∧
    daysBeforeMonth m ≤ 365 * ((m - 1) / 12) + 334 := by
  unfold daysBeforeMonth
  rcases month_residue m with h | h | h | h | h | h | h | h | h | h | h | h
  all_goals
    rw [h]
    norm_num

/-- Go `TimePointPlus` on a valid time point with whole seconds and a whole number `D` of
seconds, with the sum of seconds and `D` below `2^53` and the year far enough from the
end of `int32`, for every fuel from 15 on: the loop exits, the result is a valid time
point, and its position in the 365-day calendar is the position of `t` plus `D`. -/
theorem TimePointPlus_position (impl : Float64 → Int) (fuel : Nat) (y mo dd hh mi : Int)
    (s D : Nat) (hfuel : 15 ≤ fuel)
    (hmo0 : 1 ≤ mo) (hmo1 : mo ≤ 12) (hd0 : 1 ≤ dd) (hd1 : dd ≤ daysInMonth mo)
    (hh0 : 0 ≤ hh) (hh1 : hh ≤ 23) (hmi0 : 0 ≤ mi) (hmi1 : mi ≤ 59) (_hs : s ≤ 59)
    (hD : s + D < 2 ^ 53) (hy0 : -2 ^ 31 ≤ y)
    (hy1 : y + (((s + D) / 31536000 : Nat) : Int) + 1 < 2 ^ 31) :
    ∃ (y2 mo2 d2 h2 mi2 : Int) (s2 : Nat),
      TimePointPlus impl fuel (timePointOf y mo dd hh mi (s : ℚ)) (.num (D : ℚ)) =
        some (timePointOf y2 mo2 d2 h2 mi2 (s2 : ℚ)) ∧
      1 ≤ mo2 ∧ mo2 ≤ 12 ∧ 1 ≤ d2 ∧ d2 ≤ daysInMonth mo2 ∧ 0 ≤ h2 ∧ h2 ≤ 23 ∧
      0 ≤ mi2 ∧ mi2 ≤ 59 ∧ s2 ≤ 59 ∧
      calendarSeconds y2 mo2 d2 h2 mi2 s2 = calendarSeconds y mo dd hh mi s + D := by
  have hdim := daysInMonth_range mo
  have hS := Float64.add_natCast s D hD
  have c1 : Float64.num 31536000 = .num ((31536000 : Nat) : ℚ) := by norm_num
  have hq : toInt32 impl (Float64.div (.num ((s + D : Nat) : ℚ)) (.num 31536000)) =
      (((s + D) / 31536000 : Nat) : Int) := by
    rw [c1]
    exact toInt32_div_natCast impl _ _ hD (by norm_num) (by norm_num) (by omega)
  have heq := TimePointPlus_eq impl fuel y mo dd hh mi s D (s + D) hS (by omega) hq hmi0 hmi1 hh0
    hh1 hd0 (by omega) hy0 (by omega)
  generalize hS' : s + D = S at heq hy1 hD
  obtain ⟨m, day, hloop, m1, m2, m3, m4, m5⟩ := monthLoop_exits fuel mo
    (((S % 31536000 / 86400 : Nat) : Int) +
      ((((S % 31536000 % 86400 / 3600 : Nat) : Int) +
        (((S % 31536000 % 86400 % 3600 / 60 : Nat) : Int) + mi) / 60 + hh) / 24 + dd))
    hmo0 (by omega) (by omega) (by omega)
  rw [hloop] at heq
  have htab := calendar_table mo hmo0 hmo1
  obtain ⟨n1, n2, n3, n4⟩ := daysBeforeMonth_normalize m
  have hk : (m - 1) / 12 = 0 ∨ (m - 1) / 12 = 1 := by
    have hb := daysBeforeMonth_bounds m
    generalize daysBeforeMonth m = x2 at m5 hb
    generalize daysBeforeMonth mo = x at m5 htab
    generalize daysInMonth mo = z at hd1 htab hdim
    omega
  have w1 : wrap32 (m - 1) = m - 1 := wrap32_eq _ (by omega) (by omega)
  have t1 : Int.tdiv (m - 1) 12 = (m - 1) / 12 := Int.tdiv_eq_ediv (by omega) (by norm_num)
  have w2 : wrap32 ((m - 1) / 12 * 12) = (m - 1) / 12 * 12 := wrap32_eq _ (by omega) (by omega)
  have w3 : wrap32 (m - (m - 1) / 12 * 12) = m - (m - 1) / 12 * 12 :=
    wrap32_eq _ (by omega) (by omega)
  have w4 : wrap32 (y + ((S / 31536000 : Nat) : Int) + (m - 1) / 12) =
      y + ((S / 31536000 : Nat) : Int) + (m - 1) / 12 := wrap32_eq _ (by omega) (by omega)
  simp only [w1, t1, w2, w3, w4] at heq
  refine ⟨y + ((S / 31536000 : Nat) : Int) + (m - 1) / 12, m - (m - 1) / 12 * 12, day,
    (((S % 31536000 % 86400 / 3600 : Nat) : Int) +
      (((S % 31536000 % 86400 % 3600 / 60 : Nat) : Int) + mi) / 60 + hh) % 24,
    (((S % 31536000 % 86400 % 3600 / 60 : Nat) : Int) + mi) % 60,
    S % 31536000 % 86400 % 3600 % 60, ?_, by omega, by omega, m3, ?_, by omega, by omega,
    by omega, by omega, by omega, ?_⟩
  · rw [heq]; rfl
  · rw [n2]; exact m4
  · unfold calendarSeconds
    rw [n1]
    generalize daysBeforeMonth mo = x at m5 htab ⊢
    generalize daysBeforeMonth m = x2 at m5 n1 ⊢
    omega

/-- Valid time points with whole seconds at the same position of the 365-day calendar have
the same six fields. -/
theorem calendarSeconds_injective (y1 m1 d1 h1 mi1 s1 y2 m2 d2 h2 mi2 s2 : Int)
    (a1 : 1 ≤ m1) (a2 : m1 ≤ 12) (a3 : 1 ≤ d1) (a4 : d1 ≤ daysInMonth m1) (a5 : 0 ≤ h1)
    (a6 : h1 ≤ 23) (a7 : 0 ≤ mi1) (a8 : mi1 ≤ 59) (a9 : 0 ≤ s1) (a10 : s1 ≤ 59)
    (b1 : 1 ≤ m2) (b2 : m2 ≤ 12) (b3 : 1 ≤ d2) (b4 : d2 ≤ daysInMonth m2) (b5 : 0 ≤ h2)
    (b6 : h2 ≤ 23) (b7 : 0 ≤ mi2) (b8 : mi2 ≤ 59) (b9 : 0 ≤ s2) (b10 : s2 ≤ 59)
    (h : calendarSeconds y1 m1 d1 h1 mi1 s1 = calendarSeconds y2 m2 d2 h2 mi2 s2) :
    y1 = y2 ∧ m1 = m2 ∧ d1 = d2 ∧ h1 = h2 ∧ mi1 = mi2 ∧ s1 = s2 := by
  have t1 := calendar_table m1 a1 a2
  have t2 := calendar_table m2 b1 b2
  unfold calendarSeconds at h
  have key : y1 = y2 ∧ daysBeforeMonth m1 + d1 = daysBeforeMonth m2 + d2 ∧ h1 = h2 ∧
      mi1 = mi2 ∧ s1 = s2 := by
    generalize daysBeforeMonth m1 = x1 at *
    generalize daysBeforeMonth m2 = x2 at *
    generalize daysInMonth m1 = z1 at *
    generalize daysInMonth m2 = z2 at *
    have p1 : 0 ≤ x1 + (d1 - 1) ∧ x1 + (d1 - 1) ≤ 364 := by omega
    have p2 : 0 ≤ x2 + (d2 - 1) ∧ x2 + (d2 - 1) ≤ 364 := by omega
    clear t1 t2
    omega
  obtain ⟨k1, k2, k3, k4, k5⟩ := key
  obtain ⟨k6, k7⟩ := dayOfYear_injective m1 d1 m2 d2 a1 a2 b1 b2 a3 a4 b3 b4 k2
  exact ⟨k1, k6, k7, k3, k4, k5⟩

/-- Go `TimePointPlus` with `d` equal to 0 returns the time point, and with `d` equal to a
year of seconds the time point a year later, on valid time points with whole seconds. -/
theorem TimePointPlus_zero_and_year (impl : Float64 → Int) (fuel : Nat) (y mo dd hh mi : Int)
    (s : Nat) (hfuel : 15 ≤ fuel)
    (hmo0 : 1 ≤ mo) (hmo1 : mo ≤ 12) (hd0 : 1 ≤ dd) (hd1 : dd ≤ daysInMonth mo)
    (hh0 : 0 ≤ hh) (hh1 : hh ≤ 23) (hmi0 : 0 ≤ mi) (hmi1 : mi ≤ 59) (hs : s ≤ 59)
    (hy0 : -2 ^ 31 ≤ y) (hy1 : y + 2 < 2 ^ 31) :
    TimePointPlus impl fuel (timePointOf y mo dd hh mi (s : ℚ)) (.num 0) =
      some (timePointOf y mo dd hh mi (s : ℚ)) ∧
    TimePointPlus impl fuel (timePointOf y mo dd hh mi (s : ℚ)) (.num 31536000) =
      some (timePointOf (y + 1) mo dd hh mi (s : ℚ)) := by
  constructor
  · obtain ⟨y2, mo2, d2, h2, mi2, s2, e, v1, v2, v3, v4, v5, v6, v7, v8, v9, hpos⟩ :=
      TimePointPlus_position impl fuel y mo dd hh mi s 0 hfuel hmo0 hmo1 hd0 hd1 hh0 hh1 hmi0
        hmi1 hs (by omega) hy0 (by omega)
    have c0 : Float64.num 0 = .num ((0 : Nat) : ℚ) := by norm_num
    rw [c0, e]
    obtain ⟨k1, k2, k3, k4, k5, k6⟩ := calendarSeconds_injective y2 mo2 d2 h2 mi2 s2 y mo dd hh
      mi s v1 v2 v3 v4 v5 v6 v7 v8 (by omega) (by omega) hmo0 hmo1 hd0 hd1 hh0 hh1 hmi0 hmi1
      (by omega) (by omega) (by rw [hpos]; simp)
    have k7 : s2 = s := by exact_mod_cast k6
    rw [k1, k2, k3, k4, k5, k7]
  · obtain ⟨y2, mo2, d2, h2, mi2, s2, e, v1, v2, v3, v4, v5, v6, v7, v8, v9, hpos⟩ :=
      TimePointPlus_position impl fuel y mo dd hh mi s 31536000 hfuel hmo0 hmo1 hd0 hd1 hh0 hh1
        hmi0 hmi1 hs (by omega) hy0 (by omega)
    have c0 : Float64.num 31536000 = .num ((31536000 : Nat) : ℚ) := by norm_num
    rw [c0, e]
    obtain ⟨k1, k2, k3, k4, k5, k6⟩ := calendarSeconds_injective y2 mo2 d2 h2 mi2 s2 (y + 1) mo dd
      hh mi s v1 v2 v3 v4 v5 v6 v7 v8 (by omega) (by omega) hmo0 hmo1 hd0 hd1 hh0 hh1 hmi0 hmi1
      (by omega) (by omega) (by rw [hpos]; unfold calendarSeconds; push_cast; ring)
    have k7 : s2 = s := by exact_mod_cast k6
    rw [k1, k2, k3, k4, k5, k7]

/-- In `float64` the sum of 1 and `2^53` is `2^53`: the exact sum lies halfway between two
numbers of the format and goes to the even one. -/
theorem Float64.add_one_two_pow_53 :
    Float64.add (.num ((1 : Nat) : ℚ)) (.num ((2 ^ 53 : Nat) : ℚ)) = .num ((2 ^ 53 : Nat) : ℚ) := by
  have he : ulpExponent ((1 : ℚ) + 2 ^ 53) = 1 := by
    rw [ulpExponent_eq _ 53 (by norm_num) (by norm_num) (by norm_num)]
    norm_num
  have hfl : ⌊((1 : ℚ) + 2 ^ 53) / 2⌋ = 2 ^ 52 := by
    rw [Int.floor_eq_iff]
    constructor <;> norm_num
  have hr : roundHalfEven (((1 : ℚ) + 2 ^ 53) / 2) = 2 ^ 52 := by
    unfold roundHalfEven
    rw [hfl]
    norm_num
  have hx : ((1 : Nat) : ℚ) + ((2 ^ 53 : Nat) : ℚ) = (1 : ℚ) + 2 ^ 53 := by norm_num
  have hv : ((2 ^ 53 : Nat) : ℚ) = ((2 ^ 52 : Int) : ℚ) * 2 := by norm_num
  simp only [Float64.add]
  rw [hx, hv]
  unfold Float64.ofRat
  rw [he]
  simp only [zpow_one]
  rw [hr]
  have hbig : ((2 ^ 52 : Int) : ℚ) * 2 < (2 : ℚ) ^ (1024 : Nat) := by
    have h1 : ((2 ^ 52 : Int) : ℚ) * 2 = (2 : ℚ) ^ (53 : Nat) := by norm_num
    rw [h1]
    exact pow_lt_pow_right₀ (by norm_num) (by norm_num)
  have hpos : (0 : ℚ) < ((2 ^ 52 : Int) : ℚ) * 2 := by norm_num
  generalize (2 : ℚ) ^ (1024 : Nat) = P at hbig ⊢
  rw [if_neg (by norm_num), if_neg (by linarith), if_neg (by linarith)]

/-- In `float64` the quotient of `2^53` by 31536000, converted to `int32`, is 285616414. -/
theorem toInt32_two_pow_53_div_year (impl : Float64 → Int) :
    toInt32 impl (Float64.div (.num ((2 ^ 53 : Nat) : ℚ)) (.num 31536000)) =
      ((2 ^ 53 / 31536000 : Nat) : Int) := by
  have he : ulpExponent (((2 ^ 53 : Nat) : ℚ) / 31536000) = -((24 : Nat) : Int) := by
    rw [ulpExponent_eq _ 28 (by norm_num) (by norm_num) (by norm_num)]
    norm_num
  obtain ⟨r, hr, r1, r2⟩ := Float64.ofRat_between (((2 ^ 53 : Nat) : ℚ) / 31536000) 24 285616414
    (by norm_num) he (by norm_num) (by norm_num) (by norm_num)
  have ht := truncRat_between r 285616414 r1 r2
  simp only [Float64.div]
  rw [if_neg (by norm_num), hr]
  unfold toInt32
  simp only [ht]
  norm_num

/-- A clause that `SameVseClause` accepts against `K is-trusted` has a key subject, the verb
`is-trusted`, no object and no nested clause. -/
theorem SameVseClause_axiom_shape (s : VseClause) (K : KeyMessage)
    (h : SameVseClause s (keyIs K "is-trusted") = some true) :
    GetEntityType s.Subject = "key" ∧ s.GetVerb = "is-trusted" ∧ s.Object.isSome = false ∧
      s.Clause.isSome = false := by
  obtain ⟨h1, h2, h3, h4, h5, h6⟩ := SameVseClause_true_shape s _ h
  have ht := SameEntity_true_type _ _ h3
  refine ⟨?_, ?_, ?_, ?_⟩
  · rw [ht]; rfl
  · rw [h4]; rfl
  · rw [h5]; rfl
  · rw [h6]; rfl

/-- With both premises equal to `K is-trusted` no rule accepts: rules 1 and 7 want a
measurement as subject of the first premise, rules 3, 5 and 6 want a nested clause in the
second premise, and rules 2 and 4 accept nothing. -/
theorem VerifyInternalProofStep_axiom_only (s1 s2 c : VseClause) (K : KeyMessage) (rule : Int)
    (h1 : SameVseClause s1 (keyIs K "is-trusted") = some true)
    (h2 : SameVseClause s2 (keyIs K "is-trusted") = some true) :
    VerifyInternalProofStep defaultTree s1 s2 c rule = some false := by
  obtain ⟨a1, a2, a3, a4⟩ := SameVseClause_axiom_shape s1 K h1
  obtain ⟨b1, b2, b3, b4⟩ := SameVseClause_axiom_shape s2 K h2
  have hc2 : s2.Clause.isNone = true := by
    cases hcl : s2.Clause <;> simp_all
  have hd : Dominates defaultTree "is-trusted" s1.GetVerb = some true := by
    rw [a2, Dominates_defaultTree]; rfl
  unfold VerifyInternalProofStep
  split
  · unfold VerifyRule1
    simp [a1, a2]
  · split
    · rfl
    · split
      · unfold VerifyRule3
        simp [hc2]
      · split
        · rfl
        · split
          · unfold VerifyRule5
            simp only [hd, hc2, Bool.or_true, if_true]
            split
            · rfl
            · split <;> rfl
          · split
            · unfold VerifyRule6
              simp only [hd, hc2, Bool.or_true, if_true]
              split
              · rfl
              · split <;> rfl
            · split
              · unfold VerifyRule7
                simp [a1, a2]
              · rfl

/-- From the proved list `[K is-trusted]` the loop of `VerifyProof` never returns true and
leaves the list as it is, whatever the goal and the steps. -/
theorem VerifyProofLoop_axiom_only (K : KeyMessage) (goal : VseClause) :
    ∀ steps : List ProofStep,
      (VerifyProofLoop defaultTree goal steps [keyIs K "is-trusted"]).1 ≠ some true ∧
      (VerifyProofLoop defaultTree goal steps [keyIs K "is-trusted"]).2 =
        [keyIs K "is-trusted"] := by
  intro steps
  induction steps with
  | nil => simp [VerifyProofLoop]
  | cons st rest ih =>
    unfold VerifyProofLoop
    cases hs1 : st.S1 with
    | none => simp
    | some s1 =>
      cases hs2 : st.S2 with
      | none => simp
      | some s2 =>
        cases hc : st.Conclusion with
        | none => simp
        | some c =>
          simp only []
          cases hp1 : StatementAlreadyProved s1 [keyIs K "is-trusted"] with
          | none => simp
          | some r1 =>
            cases r1 with
            | false => simpa using ih
            | true =>
              cases hp2 : StatementAlreadyProved s2 [keyIs K "is-trusted"] with
              | none => simp
              | some r2 =>
                cases r2 with
                | false => simpa using ih
                | true =>
                  obtain ⟨q1, hq1, e1⟩ := StatementAlreadyProved_true _ _ hp1
                  obtain ⟨q2, hq2, e2⟩ := StatementAlreadyProved_true _ _ hp2
                  simp only [List.mem_singleton] at hq1 hq2
                  subst hq1; subst hq2
                  have hstep : VerifyExternalProofStep defaultTree st = some false := by
                    unfold VerifyExternalProofStep
                    rw [hs1, hs2, hc]
                    cases hr : st.RuleApplied with
                    | none => rfl
                    | some rule => exact VerifyInternalProofStep_axiom_only s1 s2 c K rule e1 e2
                  simp [hstep]

/-- At month 0 no case of the `switch` matches: a round of the loop changes nothing. -/
theorem monthRound_month_zero (nd : Int) : monthRound 0 nd = .next 0 nd := by
  have h : wrap32 (1 + Int.tmod (wrap32 (0 - 1)) 12) = 0 := by decide
  unfold monthRound
  rw [h]
  simp

/-- At month 0 the loop of `TimePointPlus` has not exited after any number of rounds. -/
theorem monthLoop_month_zero (nd : Int) : ∀ fuel, monthLoop fuel 0 nd = none := by
  intro fuel
  induction fuel with
  | zero => rfl
  | succ n ih => rw [monthLoop, monthRound_month_zero]; exact ih

/-- The blob `simultatedAttest` returns encodes a signed claim whose serialized claim
message is the encoding of a claim that holds `toSay`, and whose signature is the
signature of `toSay` itself, not of the serialized claim message. -/
theorem simultatedAttest_signs_toSay (ext : Externals) (enc : EnclaveExternals) (fuel : Nat)
    (st : EnclaveState) (eType : String) (toSay : Option Bytes) (blob : Bytes)
    (h : simultatedAttest ext enc fuel st eType toSay = some (some blob)) :
    ∃ (tf : TimePoint) (serCl : Bytes),
      TimePointPlus enc.ImplInt32 fuel (TimePointNow ext) (.num 31536000) = some tf ∧
      enc.MarshalClaim (MakeClaim toSay "vse-attestation" "attestation"
        (TimePointToString enc (TimePointNow ext)) (TimePointToString enc tf)) = some serCl ∧
      enc.MarshalSignedClaim
        { SerializedClaimMessage := some serCl, SigningKey := st.publicAttestKey,
          SigningAlgorithm := some "rsa-2048-sha256-pkcs-sign",
          Signature := RsaSha256Sign ext enc st.rsaPrivateAttestKey toSay } = some blob := by
  unfold simultatedAttest at h
  split at h
  · simp at h
  · split at h
    · simp at h
    · rename_i tf htf
      split at h
      · simp at h
      · rename_i serCl hser
        split at h
        · simp at h
        · rename_i b hb
          simp only [Option.some.injEq] at h
          subst h
          exact ⟨tf, serCl, htf, hser, hb⟩

/-- One year after the clock reading of `simulatedEnclaveWorld`. -/
theorem TimePointPlus_simulatedEnclaveWorld :
    TimePointPlus simulatedEnclaveLibrary.ImplInt32 15 (TimePointNow simulatedEnclaveWorld)
      (.num 31536000) = some (timePointOf 2025 1 1 0 0 0) := by
  have c1 : TimePointNow simulatedEnclaveWorld = timePointOf 2024 1 1 0 0 (((0 : Nat)) : ℚ) := by
    simp [TimePointNow, simulatedEnclaveWorld, exampleExternals, timePointOf]
  rw [c1, (TimePointPlus_zero_and_year _ 15 2024 1 1 0 0 0 (by decide) (by decide) (by decide)
    (by decide) (by decide) (by decide) (by decide) (by decide) (by decide) (by decide)
    (by decide) (by decide)).2]
  simp [timePointOf]

/-! ## Padding and authenticated encryption -/

/-- Claim C31 (`Pad`, padding format): `Pad` returns the input followed by the byte `0x80`
and by zero bytes only, and the length of what it returns is the least multiple of 16
above the length of the input. -/
theorem Pad_format (x : Bytes) :
    ∃ m, Pad (some x) = some (x ++ 0x80 :: List.replicate m 0) ∧
      (x ++ 0x80 :: List.replicate m 0).length % 16 = 0 ∧
      x.length < (x ++ 0x80 :: List.replicate m 0).length ∧
      ∀ n, n % 16 = 0 → x.length < n → (x ++ 0x80 :: List.replicate m 0).length ≤ n := by
  obtain ⟨m, hm, hmod, hlt⟩ := Pad_length x
  have hl : (x ++ 0x80 :: List.replicate m 0).length = x.length + 1 + m := by
    simp; omega
  refine ⟨m, hm, ?_, ?_, ?_⟩
  · rw [hl]; exact hmod
  · rw [hl]; omega
  · intro n hn hx
    rw [hl]; omega

/-- Witness of claim C31: the 16-byte input `0, ..., 15` is padded to 32 bytes, which is at
most 48. -/
theorem Pad_format_witness :
    ∃ m, Pad (some (List.range 16)) = some (List.range 16 ++ 0x80 :: List.replicate m 0) ∧
      (List.range 16 ++ 0x80 :: List.replicate m 0).length ≤ 48 := by
  obtain ⟨m, h1, _, _, h4⟩ := Pad_format (List.range 16)
  exact ⟨m, h1, h4 48 (by decide) (by decide)⟩

/-- Claim C32 (`AuthenticatedEncrypt`, `AuthenticatedDecrypt`, round trip): for a 64-byte
key and a 16-byte iv, with a cipher whose output has the length of its input and whose
decryption inverts its encryption on whole blocks, and a mac of 32 bytes,
`AuthenticatedEncrypt` returns the iv, then the ciphertext of `Pad(m)` under the first half
of the key, then the mac under the second half of the key of everything before it; and
`AuthenticatedDecrypt` of that blob under the same key returns `m`. -/
theorem AuthenticatedDecrypt_AuthenticatedEncrypt (ext : CipherExternals) (m key iv : Bytes)
    (hk : key.length = 64) (hiv : iv.length = 16)
    (hlen : ∀ k v p, (ext.CbcEncrypt k v p).length = p.length)
    (hinv : ∀ k v p, p.length % 16 = 0 → ext.CbcDecrypt k v (ext.CbcEncrypt k v p) = p)
    (hmac : ∀ k msg, (ext.HmacSha256 k msg).length = 32) :
    ∃ padded blob, Pad (some m) = some padded ∧
      AuthenticatedEncrypt ext (some m) (some key) (some iv) = some (some blob) ∧
      blob = (iv ++ ext.CbcEncrypt (key.take 32) iv padded) ++
        ext.HmacSha256 (key.drop 32) (iv ++ ext.CbcEncrypt (key.take 32) iv padded) ∧
      AuthenticatedDecrypt ext (some blob) (some key) = some (some m) := by
  obtain ⟨n, hp, -, -⟩ := Pad_length m
  refine ⟨_, _, hp, AuthenticatedEncrypt_eq ext m key iv _ hk hiv hlen hp, rfl, ?_⟩
  rw [AuthenticatedDecrypt_eq ext _ _ key hk (hmac _ _), if_pos rfl]
  exact Decrypt_eq ext m (key.take 32) iv _ (by simp [hk]) hiv hlen hinv hp

/-- Witness of claim C32: the message `1, 2, 3` under the key `0, ..., 63` and the iv
`17, ..., 32`, with the toy cipher. -/
theorem AuthenticatedDecrypt_AuthenticatedEncrypt_witness :
    ∃ padded blob, Pad (some [1, 2, 3]) = some padded ∧
      AuthenticatedEncrypt exampleCipher (some [1, 2, 3]) (some exampleSealingKey)
        (some exampleSealIv) = some (some blob) ∧
      blob = (exampleSealIv ++
          exampleCipher.CbcEncrypt (exampleSealingKey.take 32) exampleSealIv padded) ++
        exampleCipher.HmacSha256 (exampleSealingKey.drop 32)
          (exampleSealIv ++
            exampleCipher.CbcEncrypt (exampleSealingKey.take 32) exampleSealIv padded) ∧
      AuthenticatedDecrypt exampleCipher (some blob) (some exampleSealingKey)
        = some (some [1, 2, 3]) :=
  AuthenticatedDecrypt_AuthenticatedEncrypt exampleCipher [1, 2, 3] exampleSealingKey
    exampleSealIv (by decide) (by decide) (fun _ _ p => List.length_reverse p)
    (fun _ _ p _ => List.reverse_reverse p) (fun _ _ => List.length_replicate _ _)

/-- Claim C33 (`AuthenticatedDecrypt`, tampered mac): a blob that agrees with the output of
`AuthenticatedEncrypt` except in its last 32 bytes, and differs from it there, makes
`AuthenticatedDecrypt` return nil. -/
theorem AuthenticatedDecrypt_tampered_mac (ext : CipherExternals) (m key iv blob body mac : Bytes)
    (hk : key.length = 64) (hiv : iv.length = 16)
    (hlen : ∀ k v p, (ext.CbcEncrypt k v p).length = p.length)
    (hmac : ∀ k msg, (ext.HmacSha256 k msg).length = 32)
    (henc : AuthenticatedEncrypt ext (some m) (some key) (some iv) = some (some blob))
    (hbody : body = blob.take (blob.length - 32)) (hm : mac.length = 32)
    (hne : mac ≠ blob.drop (blob.length - 32)) :
    AuthenticatedDecrypt ext (some (body ++ mac)) (some key) = some none := by
  obtain ⟨n, hp, -, -⟩ := Pad_length m
  rw [AuthenticatedEncrypt_eq ext m key iv _ hk hiv hlen hp] at henc
  have hb := Option.some.inj (Option.some.inj henc)
  have hl : blob.length - 32 = (iv ++ ext.CbcEncrypt (key.take 32) iv
      (m ++ 0x80 :: List.replicate n 0)).length := by
    rw [← hb, List.length_append, hmac]; omega
  rw [hl, ← hb, List.take_left] at hbody
  rw [hl, ← hb, List.drop_left] at hne
  rw [AuthenticatedDecrypt_eq ext _ _ key hk hm, hbody, if_neg hne]

/-- Witness of claim C33: the blob for the message `1, 2, 3` with its mac replaced by 32
bytes `7`. -/
theorem AuthenticatedDecrypt_tampered_mac_witness :
    AuthenticatedEncrypt exampleCipher (some [1, 2, 3]) (some exampleSealingKey)
      (some exampleSealIv) = some (some exampleSealedBlob) ∧
    AuthenticatedDecrypt exampleCipher
      (some (exampleSealedBlob.take (exampleSealedBlob.length - 32) ++ List.replicate 32 7))
      (some exampleSealingKey) = some none :=
  ⟨by decide,
    AuthenticatedDecrypt_tampered_mac exampleCipher [1, 2, 3] exampleSealingKey exampleSealIv
      exampleSealedBlob _ (List.replicate 32 7) (by decide) (by decide)
      (fun _ _ p => List.length_reverse p) (fun _ _ => List.length_replicate _ _) (by decide)
      rfl (by decide) (by decide)⟩

/-! ## Comparison and addition of time points -/

/-- Claim C34 (`CompareTimePoints`, lexicographic comparison): for time points whose seconds
are not NaN the result is 1, 0 or -1; it is 1 exactly when the first field that differs,
in the order year, month, day, hour, minute, seconds, is greater in `t1`; it is 0 exactly
when the six fields agree; swapping the arguments negates it; and the order it induces is
transitive. -/
theorem CompareTimePoints_lexicographic (t1 t2 t3 : TimePoint) (h1 : t1.GetSeconds ≠ .nan)
    (h2 : t2.GetSeconds ≠ .nan) (h3 : t3.GetSeconds ≠ .nan) :
    (CompareTimePoints t1 t2 = 1 ∨ CompareTimePoints t1 t2 = 0 ∨ CompareTimePoints t1 t2 = -1) ∧
    (CompareTimePoints t1 t2 = 1 ↔
      t2.GetYear < t1.GetYear ∨ (t2.GetYear = t1.GetYear ∧
      (t2.GetMonth < t1.GetMonth ∨ (t2.GetMonth = t1.GetMonth ∧
      (t2.GetDay < t1.GetDay ∨ (t2.GetDay = t1.GetDay ∧
      (t2.GetHour < t1.GetHour ∨ (t2.GetHour = t1.GetHour ∧
      (t2.GetMinute < t1.GetMinute ∨ (t2.GetMinute = t1.GetMinute ∧
      Float64.lt t2.GetSeconds t1.GetSeconds = true)))))))))) ∧
    (CompareTimePoints t1 t2 = 0 ↔
      t1.GetYear = t2.GetYear ∧ t1.GetMonth = t2.GetMonth ∧ t1.GetDay = t2.GetDay ∧
      t1.GetHour = t2.GetHour ∧ t1.GetMinute = t2.GetMinute ∧
      t1.GetSeconds = t2.GetSeconds) ∧
    CompareTimePoints t1 t2 = -CompareTimePoints t2 t1 ∧
    (CompareTimePoints t1 t2 = 1 → CompareTimePoints t2 t3 = 1 →
      CompareTimePoints t1 t3 = 1) ∧
    (CompareTimePoints t1 t2 ≥ 0 → CompareTimePoints t2 t3 ≥ 0 →
      CompareTimePoints t1 t3 ≥ 0) := by
  have p12 := CompareTimePoints_eq_one t1 t2 h1 h2
  have n12 := CompareTimePoints_eq_neg_one t1 t2 h1 h2
  have p21 := CompareTimePoints_eq_one t2 t1 h2 h1
  have n21 := CompareTimePoints_eq_neg_one t2 t1 h2 h1
  have r12 := CompareTimePoints_range t1 t2
  have r21 := CompareTimePoints_range t2 t1
  have r23 := CompareTimePoints_range t2 t3
  have r13 := CompareTimePoints_range t1 t3
  refine ⟨r12, ?_, ?_, ?_, ?_, ?_⟩
  · rw [p12, timeKey_lt_iff t1 t2 h1 h2]
  · rw [CompareTimePoints_eq_zero t1 t2 h1 h2, timeKey_eq_iff t1 t2 h1 h2]
  · rcases lt_trichotomy (timeKey t1) (timeKey t2) with c | c | c
    · rw [n12.2 c, p21.2 c]
    · rw [(CompareTimePoints_eq_zero t1 t2 h1 h2).2 c,
        (CompareTimePoints_eq_zero t2 t1 h2 h1).2 c.symm]; rfl
    · rw [p12.2 c, n21.2 c]; rfl
  · intro a b
    rw [CompareTimePoints_eq_one _ _ h1 h2] at a
    rw [CompareTimePoints_eq_one _ _ h2 h3] at b
    rw [CompareTimePoints_eq_one _ _ h1 h3]
    exact lt_trans b a
  · intro a b
    have a2 : ¬ timeKey t1 < timeKey t2 := fun c => by
      have := n12.2 c; omega
    have b2 : ¬ timeKey t2 < timeKey t3 := fun c => by
      have := (CompareTimePoints_eq_neg_one t2 t3 h2 h3).2 c; omega
    have c2 : ¬ timeKey t1 < timeKey t3 := fun c =>
      a2 (lt_of_lt_of_le c (not_lt.1 b2))
    rcases r13 with r | r | r
    · omega
    · omega
    · exact absurd ((CompareTimePoints_eq_neg_one t1 t3 h1 h3).1 r) c2

/-- Witness of claim C34: 2024-01-02 is later than 2024-01-01, which is later than
2023-12-31 23:59:59.5. -/
theorem CompareTimePoints_lexicographic_witness :
    CompareTimePoints (timePointOf 2024 1 2 0 0 0) (timePointOf 2024 1 1 0 0 0) = 1 ∧
    CompareTimePoints (timePointOf 2024 1 1 0 0 0) (timePointOf 2023 12 31 23 59 (119 / 2)) = 1 ∧
    CompareTimePoints (timePointOf 2024 1 2 0 0 0) (timePointOf 2023 12 31 23 59 (119 / 2)) = 1 :=
  ⟨by decide, by decide,
    (CompareTimePoints_lexicographic (timePointOf 2024 1 2 0 0 0) (timePointOf 2024 1 1 0 0 0)
      (timePointOf 2023 12 31 23 59 (119 / 2)) (by decide) (by decide) (by decide)).2.2.2.2.1
      (by decide) (by decide)⟩

/-- Claim C35 (`TimePointPlus`, simplified-calendar addition), counterexample: for the
valid time point 2024-01-01 00:00:01 and `d` equal to `2^53` seconds no 32-bit field
overflows, and the result is one second short of the position of `t` plus `d`: the
`float64` sum of 1 and `2^53` is `2^53`. -/
theorem TimePointPlus_loses_a_second :
    TimePointPlus (fun _ => 0) 15 (timePointOf 2024 1 1 0 0 1) (.num (2 ^ 53)) =
      some (timePointOf 285618438 9 22 7 36 32) ∧
    calendarSeconds 285618438 9 22 7 36 32 = calendarSeconds 2024 1 1 0 0 1 + 2 ^ 53 - 1 := by
  constructor
  · have c1 : timePointOf 2024 1 1 0 0 1 = timePointOf 2024 1 1 0 0 (((1 : Nat)) : ℚ) := by
      norm_num
    have c2 : Float64.num (2 ^ 53) = .num ((2 ^ 53 : Nat) : ℚ) := by norm_num
    rw [c1, c2, TimePointPlus_eq (fun _ => 0) 15 2024 1 1 0 0 1 (2 ^ 53) (2 ^ 53)
      Float64.add_one_two_pow_53 (le_refl _) (toInt32_two_pow_53_div_year _) (by norm_num)
      (by norm_num) (by norm_num) (by norm_num) (by norm_num) (by norm_num) (by norm_num)
      (by norm_num)]
    decide
  · decide

/-- Claim C35 (`TimePointPlus`, simplified-calendar addition), amended: for a valid time
point with whole seconds and a whole number `D` of seconds such that seconds plus `D` stay
below `2^53` and the year stays two below the end of `int32`, with fuel from 15 on
`TimePointPlus` returns a valid time point whose position in the 365-day calendar is the
position of `t` plus `D`; with `d` equal to 0 it returns `t`, and with `d` equal to
`365 * 86400` it returns `t` a year later. -/
theorem TimePointPlus_adds_whole_seconds (impl : Float64 → Int) (fuel : Nat)
    (y mo dd hh mi : Int) (s D : Nat) (hfuel : 15 ≤ fuel)
    (hmo0 : 1 ≤ mo) (hmo1 : mo ≤ 12) (hd0 : 1 ≤ dd) (hd1 : dd ≤ daysInMonth mo)
    (hh0 : 0 ≤ hh) (hh1 : hh ≤ 23) (hmi0 : 0 ≤ mi) (hmi1 : mi ≤ 59) (hs : s ≤ 59)
    (hD : s + D < 2 ^ 53) (hy0 : -2 ^ 31 ≤ y)
    (hy1 : y + (((s + D) / 31536000 : Nat) : Int) + 2 < 2 ^ 31) :
    (∃ (y2 mo2 d2 h2 mi2 : Int) (s2 : Nat),
      TimePointPlus impl fuel (timePointOf y mo dd hh mi (s : ℚ)) (.num (D : ℚ)) =
        some (timePointOf y2 mo2 d2 h2 mi2 (s2 : ℚ)) ∧
      1 ≤ mo2 ∧ mo2 ≤ 12 ∧ 1 ≤ d2 ∧ d2 ≤ daysInMonth mo2 ∧ 0 ≤ h2 ∧ h2 ≤ 23 ∧
      0 ≤ mi2 ∧ mi2 ≤ 59 ∧ s2 ≤ 59 ∧
      calendarSeconds y2 mo2 d2 h2 mi2 s2 = calendarSeconds y mo dd hh mi s + D) ∧
    TimePointPlus impl fuel (timePointOf y mo dd hh mi (s : ℚ)) (.num 0) =
      some (timePointOf y mo dd hh mi (s : ℚ)) ∧
    TimePointPlus impl fuel (timePointOf y mo dd hh mi (s : ℚ)) (.num 31536000) =
      some (timePointOf (y + 1) mo dd hh mi (s : ℚ)) := by
  have hq : (0 : Int) ≤ (((s + D) / 31536000 : Nat) : Int) := Int.ofNat_nonneg _
  have h := TimePointPlus_zero_and_year impl fuel y mo dd hh mi s hfuel hmo0 hmo1 hd0 hd1 hh0
    hh1 hmi0 hmi1 hs hy0 (by omega)
  exact ⟨TimePointPlus_position impl fuel y mo dd hh mi s D hfuel hmo0 hmo1 hd0 hd1 hh0 hh1
    hmi0 hmi1 hs hD hy0 (by omega), h.1, h.2⟩

/-- Witness of claim C35 (amended): one second after 2024-12-31 23:59:59. -/
theorem TimePointPlus_adds_whole_seconds_witness :
    (∃ (y2 mo2 d2 h2 mi2 : Int) (s2 : Nat),
      TimePointPlus (fun _ => 0) 15 (timePointOf 2024 12 31 23 59 ((59 : Nat) : ℚ))
        (.num ((1 : Nat) : ℚ)) = some (timePointOf y2 mo2 d2 h2 mi2 (s2 : ℚ)) ∧
      1 ≤ mo2 ∧ mo2 ≤ 12 ∧ 1 ≤ d2 ∧ d2 ≤ daysInMonth mo2 ∧ 0 ≤ h2 ∧ h2 ≤ 23 ∧
      0 ≤ mi2 ∧ mi2 ≤ 59 ∧ s2 ≤ 59 ∧
      calendarSeconds y2 mo2 d2 h2 mi2 s2 =
        calendarSeconds 2024 12 31 23 59 ((59 : Nat) : Int) + ((1 : Nat) : Int)) ∧
    TimePointPlus (fun _ => 0) 15 (timePointOf 2024 12 31 23 59 ((59 : Nat) : ℚ)) (.num 0) =
      some (timePointOf 2024 12 31 23 59 ((59 : Nat) : ℚ)) ∧
    TimePointPlus (fun _ => 0) 15 (timePointOf 2024 12 31 23 59 ((59 : Nat) : ℚ))
      (.num 31536000) = some (timePointOf (2024 + 1) 12 31 23 59 ((59 : Nat) : ℚ)) :=
  TimePointPlus_adds_whole_seconds (fun _ => 0) 15 2024 12 31 23 59 59 1 (by decide)
    (by decide) (by decide) (by decide) (by decide) (by decide) (by decide) (by decide)
    (by decide) (by decide) (by decide) (by decide) (by decide)

/-! ## Faults: proof checker, tree lookup, decryption, month loop -/

/-- Claim C36 (`VerifyProof` from the policy axiom alone): the claim fails in the code.
From the proved list `[K is-trusted]`, `VerifyProof` never returns true and leaves the list
as it is, whatever the key, the goal and the steps; but it does not always return false:
for the well-formed RSA key `rsaKey "policy" [3]` and a step whose first premise carries a
key of an RSA type without RSA part, the scan of the proved list compares the two keys in
`SameKey`, which reads `k1.RsaKey.PublicModulus` on the nil `RsaKey`, and the run faults. -/
theorem VerifyProof_axiom_only_never_true_but_faults :
    (∀ (K : KeyMessage) (goal : VseClause) (steps : List ProofStep),
      (VerifyProof (some K) goal steps [keyIs K "is-trusted"]).1 ≠ some true ∧
      (VerifyProof (some K) goal steps [keyIs K "is-trusted"]).2 = [keyIs K "is-trusted"]) ∧
    WellFormedKey (rsaKey "policy" [3]) = true ∧
    VerifyProof (some (rsaKey "policy" [3])) (keyIs (rsaKey "policy" [3]) "is-trusted")
      [⟨some (keyIs rsaKeyWithoutMaterial "is-trusted"),
        some (keyIs (rsaKey "policy" [3]) "is-trusted"),
        some (keyIs (rsaKey "policy" [3]) "is-trusted"), some 1⟩]
      [keyIs (rsaKey "policy" [3]) "is-trusted"]
      = (none, [keyIs (rsaKey "policy" [3]) "is-trusted"]) := by
  refine ⟨?_, by decide, by rfl⟩
  intro K goal steps
  have h : VerifyProof (some K) goal steps [keyIs K "is-trusted"] =
      VerifyProofLoop defaultTree goal steps [keyIs K "is-trusted"] := rfl
  rw [h]
  exact VerifyProofLoop_axiom_only K goal steps

/-- Claim C37 (`FindNode` and its callers on trees with any number of children): the claim
fails in the code. After `InitDominance` and one call `Insert(root, "is-trusted", "c")`
that returns true the root has three children; looking for the second of them, the loop
of `FindNode` advances twice per round, passes over it, and after the third child reads
`n.Next` on nil. `FindNode`, `Insert`, `Dominates` and rules 5 and 6 fault on that tree. -/
theorem FindNode_faults_on_odd_number_of_children :
    InitDominance (.node "" .null .null) = some (true, defaultTree) ∧
    Insert defaultTree "is-trusted" "c" = some (true, threeChildrenTree) ∧
    FindNode threeChildrenTree "is-trusted-for-authentication" = none ∧
    Insert threeChildrenTree "is-trusted-for-authentication" "x" = none ∧
    Dominates threeChildrenTree "is-trusted-for-authentication" "c" = none ∧
    VerifyRule5 threeChildrenTree (keyIs (rsaKey "p" [3]) "is-trusted-for-authentication")
      (keySays (rsaKey "p" [3]) (keyIs (rsaKey "e" [5]) "x"))
      (keyIs (rsaKey "e" [5]) "x") = none ∧
    VerifyRule6 threeChildrenTree (keyIs (rsaKey "p" [3]) "is-trusted-for-authentication")
      (keySays (rsaKey "p" [3]) (keySpeaksFor (rsaKey "e" [5]) [7]))
      (keySpeaksFor (rsaKey "e" [5]) [7]) = none := by
  refine ⟨by decide, by decide, by decide, by decide, by decide, by decide, by decide⟩

/-- Claim C38 (`AuthenticatedDecrypt`, malformed input): the claim fails in the code. Under
the 64-byte key `0, ..., 63` the empty input makes `AuthenticatedDecrypt` fault, because
`n = len(in) - 32` is negative and `in[0:n]` is out of range; a 32-byte input that is the
mac of the empty string passes the mac test and makes `Decrypt` fault on `in[16:]`; and a
49-byte input whose last 32 bytes are the mac of the first 17 makes `CryptBlocks` fault on
a source of one byte. -/
theorem AuthenticatedDecrypt_faults_on_short_input :
    AuthenticatedDecrypt exampleCipher (some []) (some exampleSealingKey) = none ∧
    AuthenticatedDecrypt exampleCipher
      (some (exampleCipher.HmacSha256 (exampleSealingKey.drop 32) []))
      (some exampleSealingKey) = none ∧
    AuthenticatedDecrypt exampleCipher
      (some (List.replicate 17 1 ++
        exampleCipher.HmacSha256 (exampleSealingKey.drop 32) (List.replicate 17 1)))
      (some exampleSealingKey) = none := by
  refine ⟨by decide, by decide, by decide⟩

/-- Claim C39 (`TimePointPlus`, termination): the claim fails in the code. For a time point
with month 0, such as the all-zero point that `StringToTimePoint` returns for the empty
string, and every `d`, the loop of `TimePointPlus` has not exited after any number of
rounds: `1 + ((mo - 1) % 12)` is 0, no case of the `switch` matches, and the round leaves
month, days and flag as they were. -/
theorem TimePointPlus_never_exits_at_month_zero (ext : Externals) (impl : Float64 → Int)
    (fuel : Nat) (d : Float64) (y dd h mi : Int) (s : Float64) :
    TimePointPlus impl fuel
      { Year := some y, Month := some 0, Day := some dd, Hour := some h, Minute := some mi,
        Seconds := some s } d = none ∧
    (ext.Sscanf "" = (0, 0, 0, 0, 0, .num 0) →
      TimePointPlus impl fuel (StringToTimePoint ext "") d = none) := by
  constructor
  · unfold TimePointPlus
    simp only [TimePoint.GetMonth, Option.getD_some, monthLoop_month_zero]
  · intro hs
    unfold TimePointPlus
    simp only [TimePoint.GetMonth, StringToTimePoint, hs, Option.getD_some,
      monthLoop_month_zero]

/-- Witness of claim C39: in the world without validity strings the empty string scans to
zeros, and `TimePointPlus` of the time point parsed from it has not exited after a
thousand rounds. -/
theorem TimePointPlus_never_exits_at_month_zero_witness :
    exampleExternalsWithoutBounds.Sscanf "" = (0, 0, 0, 0, 0, .num 0) ∧
    TimePointPlus (fun _ => 0) 1000 (StringToTimePoint exampleExternalsWithoutBounds "")
      (.num 31536000) = none :=
  ⟨rfl, (TimePointPlus_never_exits_at_month_zero exampleExternalsWithoutBounds (fun _ => 0) 1000
    (.num 31536000) 0 0 0 0 (.num 0)).2 rfl⟩

/-! ## Simulated attestation -/

/-- Claim C40 (`simultatedAttest`, `VerifyAttestation`): the claim fails in the code. After
`InitSimulatedEnclave`, `Attest("simulated-enclave", toSay)` for `toSay` the bytes `[7, 7]`
returns a blob whose serialized claim message is `[1, 7, 7]` and whose signature is the
signature of `[7, 7]`, which is `toSay`, not the signature of `[1, 7, 7]`; the clock is
inside the validity window, and `VerifyAttestation` with the public attestation key
returns false, while the same signed claim with the signature of its serialized claim
message is accepted. -/
theorem VerifyAttestation_rejects_Attest_blob :
    InitSimulatedEnclave simulatedEnclaveLibrary initialEnclaveState =
      some (true, simulatedEnclaveState) ∧
    Attest simulatedEnclaveWorld simulatedEnclaveLibrary 15 simulatedEnclaveState
      "simulated-enclave" (some [7, 7]) = some (some [2, 3, 1, 7, 7, 161, 7, 7]) ∧
    simulatedEnclaveWorld.UnmarshalSignedClaim (some [2, 3, 1, 7, 7, 161, 7, 7]) =
      some { SerializedClaimMessage := some [1, 7, 7],
             SigningKey := some simulatedPublicAttestKey,
             SigningAlgorithm := some "rsa-2048-sha256-pkcs-sign",
             Signature := some [161, 7, 7] } ∧
    RsaSha256Sign simulatedEnclaveWorld simulatedEnclaveLibrary
      simulatedEnclaveState.rsaPrivateAttestKey (some [7, 7]) = some [161, 7, 7] ∧
    RsaSha256Sign simulatedEnclaveWorld simulatedEnclaveLibrary
      simulatedEnclaveState.rsaPrivateAttestKey (some [1, 7, 7]) = some [161, 1, 7, 7] ∧
    CheckTimeRange simulatedEnclaveWorld (some "2024:01:01T00:00:0Z")
      (some "2025:01:01T00:00:0Z") = true ∧
    VerifyAttestation simulatedEnclaveWorld "simulated-enclave"
      (some [2, 3, 1, 7, 7, 161, 7, 7]) simulatedEnclaveState.publicAttestKey = some false ∧
    VerifySignedClaim simulatedEnclaveWorld
      { SerializedClaimMessage := some [1, 7, 7],
        SigningKey := some simulatedPublicAttestKey,
        SigningAlgorithm := some "rsa-2048-sha256-pkcs-sign",
        Signature := some [161, 1, 7, 7] } simulatedEnclaveState.publicAttestKey = some true := by
  refine ⟨by decide, ?_, by decide, by decide, by decide, by decide, by decide, by decide⟩
  have hinit : simulatedEnclaveState.simulatedInitialized = true := rfl
  simp only [Attest, simultatedAttest, if_true, hinit, Bool.not_true, Bool.false_eq_true,
    if_false, TimePointPlus_simulatedEnclaveWorld]
  decide

end Certlib
